import Mathlib

/-!
# Nova 3D engine: fixed-point core, shallow embedding

Machine integers are modelled as `Int` (or `Nat` for `uint_32`) with explicit
wrap-around where the C++ arithmetic is done in a 32-bit type.  Code that can
throw (the overflow check of `FixedLargeMul`) or trap (an integer division by
zero) returns `Except NovaError _`.
-/

namespace Nova

/-! ## Machine integers -/

/-- Reduction of an integer into the `int_32` range (two's complement). -/
def wrap32 (x : Int) : Int := (x + 2147483648) % 4294967296 - 2147483648

/-- Reduction of an integer into the `uint_32` range. -/
def wrapU32 (x : Int) : Int := x % 4294967296

/-- The value is representable as `int_32`. -/
def InInt32 (x : Int) : Prop := -2147483648 ≤ x ∧ x ≤ 2147483647

instance (x : Int) : Decidable (InInt32 x) := by
  unfold InInt32; exact inferInstance

/-- Ways in which the fixed-point code can fail to return. -/
inductive NovaError where
  /-- `FixedLargeMul` threw its 64-bit intermediate. -/
  | overflow (value : Int)
  /-- An integer division had a zero divisor. -/
  | divideByZero
  /-- The loop budget of the model ran out (not a behaviour of the code). -/
  | loopBudget
  deriving DecidableEq, Repr

instance {ε α : Type} [DecidableEq ε] [DecidableEq α] : DecidableEq (Except ε α) :=
  fun a b =>
    match a, b with
    | .ok x, .ok y => if h : x = y then isTrue (by rw [h]) else isFalse (fun e => h (by cases e; rfl))
    | .error x, .error y =>
        if h : x = y then isTrue (by rw [h]) else isFalse (fun e => h (by cases e; rfl))
    | .ok _, .error _ => isFalse (fun e => by cases e)
    | .error _, .ok _ => isFalse (fun e => by cases e)

/-! ## FixedPoint.h -/

/-- Number of fractional bits used in all fixed point calculations. -/
def FixedPointPrec : Nat := 16

/-- Number one as fixed point. -/
def FixedPointOne : Int := 65536

/-- Largest `uint_32`. -/
def MaxUint32 : Int := 4294967295

/-! ## FixedOperations.h (Linux) -/

/-- `FixedLargeMul`: the operands are widened to `int_64`, multiplied (the
product of two `int_32` values always fits 64 bits), shifted right
arithmetically by `FixedPointPrec`, and the result is thrown when it does not
fit `int_32`. -/
def FixedLargeMul (multiplicand multiplier : Int) : Except NovaError Int :=
  let multiplicand_64 := (multiplicand * multiplier) >>> FixedPointPrec
  if multiplicand_64 > 2147483647 ∨ multiplicand_64 < -2147483648 then
    Except.error (NovaError.overflow multiplicand_64)
  else
    Except.ok multiplicand_64

/-- `FixedTripleMul`: three fixed multiplications added as `int_32`. -/
def FixedTripleMul (value1 value2 value3 value4 value5 value6 : Int) :
    Except NovaError Int := do
  let p1 ← FixedLargeMul value1 value2
  let p2 ← FixedLargeMul value3 value4
  let p3 ← FixedLargeMul value5 value6
  pure (wrap32 (wrap32 (p1 + p2) + p3))

/-- `FixedLargeDiv`: the dividend is widened and pre-shifted, divided with
C++ truncation, and narrowed back to `int_32`. -/
def FixedLargeDiv (dividend divisor : Int) : Except NovaError Int :=
  if divisor = 0 then Except.error NovaError.divideByZero
  else Except.ok (wrap32 (Int.tdiv (dividend * 65536) divisor))

/-! ## FixedOperations.cpp (Linux) -/

/-- One expansion of the macro `FASTSQRT_INNER(N)` on the registers
`(n, root)`; `guess` and both shifts are `uint_32` values. -/
def FASTSQRT_INNER (N : Nat) (s : Nat × Nat) : Nat × Nat :=
  let guess := (s.2 + (1 <<< N)) % 4294967296
  if s.1 ≥ (guess <<< N) % 4294967296 then
    (s.1 - (guess <<< N) % 4294967296, s.2 ||| ((2 <<< N) % 4294967296))
  else
    s

/-- `FastSqrt` (Linux): sixteen expansions of the macro, then `root >> 1`. -/
def FastSqrt (n : Nat) : Nat :=
  let s := (n % 4294967296, 0)
  let s := FASTSQRT_INNER 15 s
  let s := FASTSQRT_INNER 14 s
  let s := FASTSQRT_INNER 13 s
  let s := FASTSQRT_INNER 12 s
  let s := FASTSQRT_INNER 11 s
  let s := FASTSQRT_INNER 10 s
  let s := FASTSQRT_INNER 9 s
  let s := FASTSQRT_INNER 8 s
  let s := FASTSQRT_INNER 7 s
  let s := FASTSQRT_INNER 6 s
  let s := FASTSQRT_INNER 5 s
  let s := FASTSQRT_INNER 4 s
  let s := FASTSQRT_INNER 3 s
  let s := FASTSQRT_INNER 2 s
  let s := FASTSQRT_INNER 1 s
  let s := FASTSQRT_INNER 0 s
  s.2 >>> 1

/-- Loop invariant of `FastSqrt` before the expansion for bit `k - 1`:
`root = 2 * r`, `r` is a multiple of `2 ^ k`, the remainder register holds
`n0 - r * r`, and `n0 < (r + 2 ^ k) ^ 2`. -/
def SqrtInv (k n0 : Nat) (s : Nat × Nat) : Prop :=
  ∃ r, s.2 = 2 * r ∧ 2 ^ k ∣ r ∧ s.1 + r * r = n0 ∧
    n0 < (r + 2 ^ k) * (r + 2 ^ k) ∧ r + 2 ^ k ≤ 65536

/-! ## Display.h -/

/-- `ScreenVertex`: screen position plus the three words of the union, which
hold either `m_color` (red, green, blue) or `m_textureCoordinates`
(u, v, intensity). -/
structure ScreenVertex where
  m_x : Int
  m_y : Int
  m_z : Int
  /-- The union word `m_color.m_red` / `m_textureCoordinates.m_u`. -/
  m_redU : Int
  /-- The union word `m_color.m_green` / `m_textureCoordinates.m_v`. -/
  m_greenV : Int
  /-- The union word `m_color.m_blue` / `m_textureCoordinates.m_intensity`. -/
  m_blueIntensity : Int
  deriving DecidableEq, Repr, Inhabited

/-- `ScreenPolygon`; `m_texture` is the texture pointer (`none` for `NULL`). -/
structure ScreenPolygon where
  m_v1 : ScreenVertex
  m_v2 : ScreenVertex
  m_v3 : ScreenVertex
  m_zSortValue : Int
  m_texture : Option Nat
  m_polygonFlags : Nat
  deriving DecidableEq, Repr, Inhabited

/-! ## Shape.h -/

/-- The polygon flag `PolygonInfoVisible`. -/
def PolygonInfoVisible : Nat := 0x0020

/-! ## Camera.h / Camera.cpp -/

/-- The part of `Camera` that clipping, projection and sorting use.
`m_visibleFaceBuffer` holds the `m_numVisibleFaces` entries in use;
`m_centerX` and `m_centerY` are the fields of `m_canvas`. -/
structure Camera where
  m_perspectiveFactor : Int
  m_nearClippingDepth : Int
  m_centerX : Int
  m_centerY : Int
  m_visibleFaceBuffer : List ScreenPolygon
  deriving DecidableEq, Repr

/-- The counter `m_numVisibleFaces`. -/
def Camera.m_numVisibleFaces (cam : Camera) : Nat := cam.m_visibleFaceBuffer.length

/-- One entry of the clip buffers `x_buffer`, `y_buffer`, `z_buffer`,
`valueABuffer`, `valueBBuffer`, `valueCBuffer`; also one vertex of a polygon
with the values it carries. -/
structure ClipVertex where
  x : Int
  y : Int
  z : Int
  valueA : Int
  valueB : Int
  valueC : Int
  deriving DecidableEq, Repr, Inhabited

/-- `Camera::SelectZsortValue`: the largest of three z values. -/
def SelectZsortValue (z1 z2 z3 : Int) : Int :=
  if z1 > z2 then
    if z1 > z3 then z1 else z3
  else
    if z2 > z3 then z2 else z3

/-- The interpolation `FixedLargeMul( (v2 - v1), f ) + v1` of `NearClipEdge`,
in `int_32` arithmetic. -/
def clipInterpolate (v1 v2 f : Int) : Except NovaError Int := do
  let m ← FixedLargeMul (wrap32 (v2 - v1)) f
  pure (wrap32 (m + v1))

/-- The vertex `NearClipEdge` generates on the near plane from the clip
parameter `f`. -/
def clippedVertex (near : Int) (p1 p2 : ClipVertex) (f : Int) :
    Except NovaError ClipVertex := do
  let x ← clipInterpolate p1.x p2.x f
  let y ← clipInterpolate p1.y p2.y f
  let a ← clipInterpolate p1.valueA p2.valueA f
  let b ← clipInterpolate p1.valueB p2.valueB f
  let c ← clipInterpolate p1.valueC p2.valueC f
  pure { x := x, y := y, z := near, valueA := a, valueB := b, valueC := c }

/-- `Camera::NearClipEdge` for the edge `p1 -> p2`.  The buffers are the list
`buf`, whose length is `count`; entries are written at `count` and
`count + 1`, so they are appended. -/
def NearClipEdge (near : Int) (buf : List ClipVertex) (p1 p2 : ClipVertex) :
    Except NovaError (List ClipVertex) :=
  if p1.z < near then
    if p2.z < near then
      -- neither visible; add nothing
      pure buf
    else do
      -- 2 visible; add clipped and 2
      let f ← FixedLargeDiv (wrap32 (near - p1.z)) (wrap32 (p2.z - p1.z))
      let c ← clippedVertex near p1 p2 f
      pure (buf ++ [c, p2])
  else
    if p2.z < near then do
      -- 1 visible; add clipped
      let f ← FixedLargeDiv (wrap32 (p1.z - near)) (wrap32 (p1.z - p2.z))
      let c ← clippedVertex near p1 p2 f
      pure (buf ++ [c])
    else
      -- both visible; add 2
      pure (buf ++ [p2])

/-- The three `NearClipEdge` calls of `ProcessPolygonList`, in the order
`v1 -> v2`, `v2 -> v3`, `v3 -> v1`, starting from `count = 0`. -/
def clipTriangle (near : Int) (v1 v2 v3 : ClipVertex) :
    Except NovaError (List ClipVertex) := do
  let buf ← NearClipEdge near [] v1 v2
  let buf ← NearClipEdge near buf v2 v3
  NearClipEdge near buf v3 v1

/-- The projection of one vertex in `PerspectiveProject`:
`inv_z = (int_32)(MaxUint32 / (uint_32)z)`, then the two fixed multiplications,
the negation of y and the offset by the canvas centre. -/
def projectVertex (cam : Camera) (x y z : Int) : Except NovaError (Int × Int) :=
  if wrapU32 z = 0 then Except.error NovaError.divideByZero
  else do
    let inv_z := wrap32 (MaxUint32 / wrapU32 z)
    let px ← FixedLargeMul (wrap32 (x * cam.m_perspectiveFactor)) inv_z
    let py ← FixedLargeMul (wrap32 (y * cam.m_perspectiveFactor)) inv_z
    let proj_y := wrap32 (-py)
    let centerx := wrap32 (cam.m_centerX * 65536)
    let centery := wrap32 (cam.m_centerY * 65536)
    pure (wrap32 (px + centerx), wrap32 (proj_y + centery))

/-- The `ScreenVertex` that `ProcessPolygonList` stores for a buffer entry:
position from `PerspectiveProject`, z unchanged, and the three carried values
in the union words. -/
def screenVertex (cam : Camera) (p : ClipVertex) : Except NovaError ScreenVertex := do
  let xy ← projectVertex cam p.x p.y p.z
  pure { m_x := xy.1, m_y := xy.2, m_z := p.z,
         m_redU := p.valueA, m_greenV := p.valueB, m_blueIntensity := p.valueC }

/-- The face `ProcessPolygonList` writes into the next free buffer entry for
the buffer points `p1`, `p2`, `p3`: `m_zSortValue`, the positions from
`PerspectiveProject`, then flags, texture and the carried values. -/
def buildFace (cam : Camera) (polyFlags : Nat) (texture : Option Nat)
    (p1 p2 p3 : ClipVertex) : Except NovaError ScreenPolygon := do
  let zSort := SelectZsortValue p1.z p2.z p3.z
  let s1 ← screenVertex cam p1
  let s2 ← screenVertex cam p2
  let s3 ← screenVertex cam p3
  pure { m_v1 := s1, m_v2 := s2, m_v3 := s3, m_zSortValue := zSort,
         m_texture := texture, m_polygonFlags := polyFlags }

/-- One emitted face: the entry at index `m_numVisibleFaces` is written and
`PerspectiveProject` increments `m_numVisibleFaces`. -/
def emitFace (cam : Camera) (polyFlags : Nat) (texture : Option Nat)
    (p1 p2 p3 : ClipVertex) : Except NovaError Camera := do
  let face ← buildFace cam polyFlags texture p1 p2 p3
  pure { cam with m_visibleFaceBuffer := cam.m_visibleFaceBuffer ++ [face] }

/-- One polygon as the loop body of `ProcessPolygonList` holds it after the
colour or texture values were fetched: flags, texture and the three vertices
with their carried values. -/
structure PolygonInput where
  polyFlags : Nat
  texture : Option Nat
  v1 : ClipVertex
  v2 : ClipVertex
  v3 : ClipVertex
  deriving DecidableEq, Repr

/-- The clipping and projection part of the loop body of
`ProcessPolygonList` for one visible polygon. -/
def processVisiblePolygon (cam : Camera) (p : PolygonInput) : Except NovaError Camera :=
  if p.v1.z < cam.m_nearClippingDepth ∨ p.v2.z < cam.m_nearClippingDepth ∨
      p.v3.z < cam.m_nearClippingDepth then do
    -- clip the polygon against the near plane
    let buf ← clipTriangle cam.m_nearClippingDepth p.v1 p.v2 p.v3
    if buf.length ≥ 3 then do
      -- the first triangle is defined by points 0,1,2
      let cam1 ← emitFace cam p.polyFlags p.texture
        (buf.getD 0 default) (buf.getD 1 default) (buf.getD 2 default)
      if buf.length = 4 then
        -- the second is defined by points 0,2,3
        emitFace cam1 p.polyFlags p.texture
          (buf.getD 0 default) (buf.getD 2 default) (buf.getD 3 default)
      else
        pure cam1
    else
      pure cam
  else
    -- no near clipping needed
    emitFace cam p.polyFlags p.texture p.v1 p.v2 p.v3

/-- `Camera::ProcessPolygonList` over the polygons of a shape: a polygon
whose `PolygonInfoVisible` flag is clear is skipped, a visible one is clipped
and projected. -/
def ProcessPolygonList (cam : Camera) : List PolygonInput → Except NovaError Camera
  | [] => pure cam
  | p :: rest =>
    if p.polyFlags &&& PolygonInfoVisible = 0 then
      ProcessPolygonList cam rest
    else do
      let cam1 ← processVisiblePolygon cam p
      ProcessPolygonList cam1 rest

/-- Number of the three vertices that lie nearer than the near-clip depth. -/
def numBehind (near : Int) (v1 v2 v3 : ClipVertex) : Nat :=
  (if v1.z < near then 1 else 0) + (if v2.z < near then 1 else 0) +
    (if v3.z < near then 1 else 0)

/-- The depths of the two vertices and their difference, in either
direction, are representable as `int_32`. -/
def DepthsRepresentable (p q : ClipVertex) : Prop :=
  InInt32 p.z ∧ InInt32 q.z ∧ InInt32 (q.z - p.z) ∧ InInt32 (p.z - q.z)

instance (p q : ClipVertex) : Decidable (DepthsRepresentable p q) := by
  unfold DepthsRepresentable; exact inferInstance

/-- The computation does not trap on a division by zero, and a returned
value satisfies `P`. -/
def Safe {α : Type} (P : α → Prop) (r : Except NovaError α) : Prop :=
  r ≠ Except.error NovaError.divideByZero ∧ ∀ a, r = Except.ok a → P a

/-- The three vertices of a face lie at or beyond the depth `near`. -/
def FaceBeyond (near : Int) (f : ScreenPolygon) : Prop :=
  near ≤ f.m_v1.m_z ∧ near ≤ f.m_v2.m_z ∧ near ≤ f.m_v3.m_z

/-- A camera as `Camera::Camera` sets it up for a 320 x 200 canvas with the
default field of view: near-clip depth `RealToFixed( 1.0 )`. -/
def exampleCamera : Camera :=
  { m_perspectiveFactor := 160, m_nearClippingDepth := 65536,
    m_centerX := 160, m_centerY := 100, m_visibleFaceBuffer := [] }

/-- A visible, untextured triangle whose first vertex (z = 0) is behind the
near plane and whose other two vertices are at z = 2.0. -/
def exampleOneBehind : PolygonInput :=
  { polyFlags := PolygonInfoVisible, texture := none,
    v1 := { x := 0, y := 0, z := 0, valueA := 0, valueB := 0, valueC := 0 },
    v2 := { x := 65536, y := 0, z := 131072, valueA := 65536, valueB := 0, valueC := 0 },
    v3 := { x := 0, y := 65536, z := 131072, valueA := 0, valueB := 65536, valueC := 0 } }

/-- The camera `cam` is `cam0` after some faces were appended: the near-clip
depth is the same, and every appended face lies at or beyond it. -/
def AppendedBeyond (cam0 cam : Camera) : Prop :=
  cam.m_nearClippingDepth = cam0.m_nearClippingDepth ∧
    ∃ new, cam.m_visibleFaceBuffer = cam0.m_visibleFaceBuffer ++ new ∧
      ∀ f ∈ new, FaceBeyond cam0.m_nearClippingDepth f

/-! ## Camera.cpp: DepthSort

`m_visibleFaceList` is modelled as the list of the polygons its pointers refer
to.  Indices are `int_32` values between `-1` and the list length, far from
the ends of the `int_32` range, so index arithmetic is exact.  A read or swap
at an index outside the list makes the model return `none`, as does running
out of the loop budget `fuel`. -/

/-- The polygon `*(m_visibleFaceList + i)`, for an index inside the list. -/
def faceAt (list : List ScreenPolygon) (i : Int) : ScreenPolygon :=
  list.getD i.toNat default

/-- The read `(*(m_visibleFaceList + i))->m_zSortValue`. -/
def zSortAt (list : List ScreenPolygon) (i : Int) : Option Int :=
  if 0 ≤ i ∧ i < list.length then some (faceAt list i).m_zSortValue else none

/-- The swap of the list entries at `qleft` and `qright`. -/
def swapFaces (list : List ScreenPolygon) (qleft qright : Int) :
    Option (List ScreenPolygon) :=
  if 0 ≤ qleft ∧ qleft < list.length ∧ 0 ≤ qright ∧ qright < list.length then
    some ((list.set qright.toNat (faceAt list qleft)).set qleft.toNat (faceAt list qright))
  else none

/-- The first inner loop of `DepthSort`:
`while( list[qleft]->m_zSortValue > qpivot && qleft < right ) qleft++;`. -/
def scanLeft (list : List ScreenPolygon) (qpivot right : Int) : Nat → Int → Option Int
  | 0, _ => none
  | fuel + 1, qleft =>
    match zSortAt list qleft with
    | none => none
    | some z =>
      if z > qpivot ∧ qleft < right then scanLeft list qpivot right fuel (qleft + 1)
      else some qleft

/-- The second inner loop of `DepthSort`:
`while( qpivot > list[qright]->m_zSortValue && qright > left ) qright--;`. -/
def scanRight (list : List ScreenPolygon) (qpivot left : Int) : Nat → Int → Option Int
  | 0, _ => none
  | fuel + 1, qright =>
    match zSortAt list qright with
    | none => none
    | some z =>
      if qpivot > z ∧ qright > left then scanRight list qpivot left fuel (qright - 1)
      else some qright

/-- The `do { ... } while( qleft <= qright )` loop of `DepthSort`, from the
state `(list, qleft, qright)`; returns the state on exit. -/
def partitionLoop (qpivot left right : Int) (scanFuel : Nat) :
    Nat → List ScreenPolygon → Int → Int → Option (List ScreenPolygon × Int × Int)
  | 0, _, _, _ => none
  | fuel + 1, list, qleft, qright =>
    match scanLeft list qpivot right scanFuel qleft with
    | none => none
    | some ql =>
      match scanRight list qpivot left scanFuel qright with
      | none => none
      | some qr =>
        if ql ≤ qr then
          match swapFaces list ql qr with
          | none => none
          | some list' =>
            if ql + 1 ≤ qr - 1 then partitionLoop qpivot left right scanFuel fuel list' (ql + 1) (qr - 1)
            else some (list', ql + 1, qr - 1)
        else some (list, ql, qr)

/-- `Camera::DepthSort( left, right )` on the pointer list. -/
def DepthSort : Nat → List ScreenPolygon → Int → Int → Option (List ScreenPolygon)
  | 0, _, _, _ => none
  | fuel + 1, list, left, right =>
    match zSortAt list ((left + right) >>> (1 : Nat)) with
    | none => none
    | some qpivot =>
      match partitionLoop qpivot left right fuel fuel list left right with
      | none => none
      | some (list1, qleft, qright) =>
        -- recursively sort left side
        match (if left < qright then DepthSort fuel list1 left qright else some list1) with
        | none => none
        | some list2 =>
          -- recursively sort right side
          if qleft < right then DepthSort fuel list2 qleft right else some list2

/-- `list'` is `list` with the entries at indices `left .. right` permuted:
same length, a permutation as a whole, identical outside the range, and
every property shared by the entries of the range still holds of them. -/
def RangePerm (left right : Int) (list list' : List ScreenPolygon) : Prop :=
  list'.length = list.length ∧ list'.Perm list ∧
  (∀ k : Int, 0 ≤ k → (k < left ∨ right < k) → faceAt list' k = faceAt list k) ∧
  (∀ Q : ScreenPolygon → Prop, (∀ k, left ≤ k → k ≤ right → Q (faceAt list k)) →
    ∀ k, left ≤ k → k ≤ right → Q (faceAt list' k))

/-- A polygon with the given sort key. -/
def faceWithZ (z : Int) : ScreenPolygon := { (default : ScreenPolygon) with m_zSortValue := z }

/-- The sort key of the list entry at index `i`. -/
def keyAt (list : List ScreenPolygon) (i : Int) : Int := (faceAt list i).m_zSortValue

/-! ## VectorMath.h / VectorMath.cpp: Vector -/

/-- `Vector`: three fixed-point components. -/
structure Vector where
  m_x : Int
  m_y : Int
  m_z : Int
  deriving DecidableEq, Repr, Inhabited

/-- `Vector::Vector( v1, v2 )` and `Vector::SubstractAndSet`: the difference
`v1 - v2` in `int_32` arithmetic. -/
def Vector.SubstractAndSet (v1 v2 : Vector) : Vector :=
  { m_x := wrap32 (v1.m_x - v2.m_x), m_y := wrap32 (v1.m_y - v2.m_y),
    m_z := wrap32 (v1.m_z - v2.m_z) }

/-- `Vector::DotProductFixed`. -/
def Vector.DotProductFixed (v vector : Vector) : Except NovaError Int :=
  FixedTripleMul v.m_x vector.m_x v.m_y vector.m_y v.m_z vector.m_z

/-- `Vector::CrossProductAndSet( v1, v2 )`. -/
def Vector.CrossProductAndSet (v1 v2 : Vector) : Except NovaError Vector := do
  let a ← FixedLargeMul v1.m_y v2.m_z
  let b ← FixedLargeMul v1.m_z v2.m_y
  let i := wrap32 (a - b)
  let c ← FixedLargeMul v1.m_x v2.m_z
  let d ← FixedLargeMul v1.m_z v2.m_x
  let j := wrap32 (-(wrap32 (c - d)))
  let e ← FixedLargeMul v1.m_x v2.m_y
  let f ← FixedLargeMul v1.m_y v2.m_x
  let k := wrap32 (e - f)
  pure { m_x := i, m_y := j, m_z := k }

/-- The `while` loop of `Vector::CheckPrecision`: all components are halved
while one of them is at least `250 << FixedPointPrec`.  `fuel` bounds the
number of iterations of the model. -/
def Vector.CheckPrecision.loop : Nat → Vector → Except NovaError Vector
  | 0, _ => Except.error NovaError.loopBudget
  | fuel + 1, v =>
    if v.m_x ≥ 16384000 ∨ v.m_y ≥ 16384000 ∨ v.m_z ≥ 16384000 then
      Vector.CheckPrecision.loop fuel
        { m_x := v.m_x >>> (1 : Nat), m_y := v.m_y >>> (1 : Nat), m_z := v.m_z >>> (1 : Nat) }
    else
      pure v

/-- `Vector::CheckPrecision`: small vectors are scaled up by `<< 5`, large
ones are halved until no component is `250.0` or more.  An `int_32` needs at
most eight halvings, the budget is 32. -/
def Vector.CheckPrecision (v : Vector) : Except NovaError Vector :=
  if ((v.m_x < 300 ∧ v.m_x > -300) ∧ (v.m_y < 300 ∧ v.m_y > -300)) ∧
      (v.m_z < 300 ∧ v.m_z > -300) then
    pure { m_x := wrap32 (v.m_x * 32), m_y := wrap32 (v.m_y * 32), m_z := wrap32 (v.m_z * 32) }
  else
    Vector.CheckPrecision.loop 32 v

/-- `Vector::Normalize`: `len = FastSqrt( DotProductFixed( *this ) )` as
`uint_32`, `inv_len = ((FixedPointOne - 1) << 8) / len` (an unsigned division,
which traps when `len` is zero), then three fixed multiplications. -/
def Vector.Normalize (v : Vector) : Except NovaError Vector := do
  let v ← v.CheckPrecision
  let dot ← v.DotProductFixed v
  let len : Int := FastSqrt (wrapU32 dot).toNat
  if len = 0 then Except.error NovaError.divideByZero
  else do
    let inv_len := wrap32 (((FixedPointOne - 1) * 256) / len)
    let x ← FixedLargeMul v.m_x inv_len
    let y ← FixedLargeMul v.m_y inv_len
    let z ← FixedLargeMul v.m_z inv_len
    pure { m_x := x, m_y := y, m_z := z }

/-! ## VectorMath.h / VectorMath.cpp: Matrix -/

/-- `Matrix`: the array `m_data[4][4]`, indexed as in the source, and the
counter `m_multiplications` (the trigonometric table is left out). -/
structure Matrix where
  m_data : Fin 4 → Fin 4 → Int
  m_multiplications : Int

/-- `NormalizeFreq`: normalize a matrix every N multiplications. -/
def NormalizeFreq : Int := 10

/-- `Matrix::SetIdentity`. -/
def Matrix.SetIdentity : Matrix :=
  { m_data := fun j i => if i = j then FixedPointOne else 0, m_multiplications := 0 }

/-- `Matrix::CreateTranslation`. -/
def Matrix.CreateTranslation (translation : Vector) : Matrix :=
  { m_data := fun r c =>
      if c = 3 ∧ r = 0 then translation.m_x
      else if c = 3 ∧ r = 1 then translation.m_y
      else if c = 3 ∧ r = 2 then translation.m_z
      else Matrix.SetIdentity.m_data r c,
    m_multiplications := 0 }

/-- `Vector::TransformAndSet( matrix, vector )`. -/
def Vector.TransformAndSet (matrix : Matrix) (vector : Vector) : Except NovaError Vector := do
  let x ← FixedTripleMul (matrix.m_data 0 0) vector.m_x (matrix.m_data 0 1) vector.m_y
    (matrix.m_data 0 2) vector.m_z
  let y ← FixedTripleMul (matrix.m_data 1 0) vector.m_x (matrix.m_data 1 1) vector.m_y
    (matrix.m_data 1 2) vector.m_z
  let z ← FixedTripleMul (matrix.m_data 2 0) vector.m_x (matrix.m_data 2 1) vector.m_y
    (matrix.m_data 2 2) vector.m_z
  pure { m_x := wrap32 (x + matrix.m_data 0 3), m_y := wrap32 (y + matrix.m_data 1 3),
         m_z := wrap32 (z + matrix.m_data 2 3) }

/-- `Matrix::AsVectors`: the rows of the upper-left 3x3 block. -/
def Matrix.AsVectors (m : Matrix) : Vector × Vector × Vector :=
  (⟨m.m_data 0 0, m.m_data 0 1, m.m_data 0 2⟩, ⟨m.m_data 1 0, m.m_data 1 1, m.m_data 1 2⟩,
    ⟨m.m_data 2 0, m.m_data 2 1, m.m_data 2 2⟩)

/-- `Matrix::FromVectors`: sets the rows of the upper-left 3x3 block. -/
def Matrix.FromVectors (m : Matrix) (v1 v2 v3 : Vector) : Matrix :=
  { m with m_data := fun r c =>
      if r = 0 ∧ c = 0 then v1.m_x else if r = 0 ∧ c = 1 then v1.m_y
      else if r = 0 ∧ c = 2 then v1.m_z
      else if r = 1 ∧ c = 0 then v2.m_x else if r = 1 ∧ c = 1 then v2.m_y
      else if r = 1 ∧ c = 2 then v2.m_z
      else if r = 2 ∧ c = 0 then v3.m_x else if r = 2 ∧ c = 1 then v3.m_y
      else if r = 2 ∧ c = 2 then v3.m_z
      else m.m_data r c }

/-- `Matrix::Normalize`. -/
def Matrix.Normalize (m : Matrix) : Except NovaError Matrix := do
  let v := m.AsVectors
  let v1 ← v.1.Normalize
  let v2 ← v.2.1.Normalize
  let v3 ← v.2.2.Normalize
  pure { m.FromVectors v1 v2 v3 with m_multiplications := 0 }

/-- A `for` loop over the four indices `0 .. 3`. -/
def loop4 {σ : Type} (body : Fin 4 → σ → Except NovaError σ) (s : σ) : Except NovaError σ := do
  let s ← body 0 s
  let s ← body 1 s
  let s ← body 2 s
  body 3 s

/-- The assignment `res[j][i] = value`. -/
def setEntry (res : Fin 4 → Fin 4 → Int) (j i : Fin 4) (value : Int) : Fin 4 → Fin 4 → Int :=
  fun r c => if r = j ∧ c = i then value else res r c

/-- The right-hand side of the assignment to `res[j][i]` in `MultiplyAndSet`. -/
def multiplyEntry (m1 m2 : Matrix) (j i : Fin 4) : Except NovaError Int := do
  let a ← FixedLargeMul (m1.m_data 0 i) (m2.m_data j 0)
  let b ← FixedLargeMul (m1.m_data 1 i) (m2.m_data j 1)
  let c ← FixedLargeMul (m1.m_data 2 i) (m2.m_data j 2)
  let d ← FixedLargeMul (m1.m_data 3 i) (m2.m_data j 3)
  pure (wrap32 (wrap32 (wrap32 (a + b) + c) + d))

/-- The two nested loops of `MultiplyAndSet` that fill the temporary `res`
(every entry of which is assigned). -/
def multiplyData (m1 m2 : Matrix) : Except NovaError (Fin 4 → Fin 4 → Int) :=
  loop4 (fun i res =>
    loop4 (fun j res => do
      let value ← multiplyEntry m1 m2 j i
      pure (setEntry res j i value)) res) (fun _ _ => 0)

/-- `Matrix::MultiplyAndSet( m1, m2 )` on the matrix `this`.  `aliased` says
whether `&m1 == this` or `&m2 == this`. -/
def Matrix.MultiplyAndSet (this m1 m2 : Matrix) (aliased : Bool) : Except NovaError Matrix := do
  let res ← multiplyData m1 m2
  let count :=
    if aliased then wrap32 (this.m_multiplications + 1)
    else wrap32 ((if m1.m_multiplications > m2.m_multiplications then m1.m_multiplications
      else m2.m_multiplications) + 1)
  let result : Matrix := { m_data := res, m_multiplications := count }
  if count ≥ NormalizeFreq then result.Normalize else pure result

/-- `Matrix::InvertTransformation`.  The temporary `tmp` is not initialised
and `tmp[3][3]` is never assigned; `junk` is the value that entry happens to
hold. -/
def Matrix.InvertTransformation (junk : Int) (m : Matrix) : Matrix :=
  { m with m_data := fun i j =>
      if i.val < 3 ∧ j.val < 3 then m.m_data j i
      else if i.val < 3 then wrap32 (-(m.m_data i 3))
      else if j.val < 3 then m.m_data 3 j
      else junk }

/-! ## VectorMath.h / VectorMath.cpp: PlaneEquation -/

/-- `PlaneEquation`: the normal and the `D` component. -/
structure PlaneEquation where
  m_normal : Vector
  m_fixedD : Int
  deriving DecidableEq, Repr, Inhabited

/-- `PlaneEquation::Calculate( v1, v2, v3 )`. -/
def PlaneEquation.Calculate (v1 v2 v3 : Vector) : Except NovaError PlaneEquation := do
  let u ← (Vector.SubstractAndSet v3 v1).CheckPrecision
  let v ← (Vector.SubstractAndSet v2 v1).CheckPrecision
  let normal ← Vector.CrossProductAndSet v u
  let normal ← normal.Normalize
  let dot ← normal.DotProductFixed v1
  pure { m_normal := normal, m_fixedD := wrap32 (-dot) }

/-- `PlaneEquation::IsOutside( point )`. -/
def PlaneEquation.IsOutside (plane : PlaneEquation) (point : Vector) : Except NovaError Bool := do
  let dot ← plane.m_normal.DotProductFixed point
  let d := wrap32 (-dot)
  pure (decide (d < plane.m_fixedD))

/-! ## Shape.h / Shape.cpp -/

/-- The vertex flag `VertexInfoVisible`. -/
def VertexInfoVisible : Nat := 0x0020

/-- The arrays of `Shape` that plane equations and backface culling use.
`m_numPolygons` is the length of `m_polygonInfos`, `m_numCoordinates` the
length of `m_vertexInfos`. -/
structure Shape where
  m_coordinates : List Vector
  m_vertices : List Nat
  m_polygonInfos : List Nat
  m_vertexInfos : List Nat
  m_planeEquations : List PlaneEquation
  deriving DecidableEq, Repr

/-- The counter `m_numPolygons`. -/
def Shape.m_numPolygons (shape : Shape) : Nat := shape.m_polygonInfos.length

/-- `Shape::CalculatePlaneEquation( polygonIndex )`. -/
def Shape.CalculatePlaneEquation (shape : Shape) (polygonIndex : Nat) : Except NovaError Shape := do
  let v0 := shape.m_coordinates.getD (shape.m_vertices.getD (polygonIndex * 3) 0) default
  let v1 := shape.m_coordinates.getD (shape.m_vertices.getD (polygonIndex * 3 + 1) 0) default
  let v2 := shape.m_coordinates.getD (shape.m_vertices.getD (polygonIndex * 3 + 2) 0) default
  let plane ← PlaneEquation.Calculate v0 v1 v2
  pure { shape with m_planeEquations := shape.m_planeEquations.set polygonIndex plane }

/-- The statement `*(m_vertexInfos + index) |= VertexInfoVisible`. -/
def markVertexVisible (vertexInfos : List Nat) (index : Nat) : List Nat :=
  vertexInfos.set index (vertexInfos.getD index 0 ||| VertexInfoVisible)

/-- The loop of `Shape::BackfaceCull` from polygon `i` on, with `remaining`
polygons left. -/
def Shape.BackfaceCull.loop (shape : Shape) (cameraObjectSpacePosition : Vector) :
    Nat → Nat → List Nat → List Nat → Except NovaError (List Nat × List Nat)
  | 0, _, polygonInfos, vertexInfos => pure (polygonInfos, vertexInfos)
  | remaining + 1, i, polygonInfos, vertexInfos => do
    let outside ←
      (shape.m_planeEquations.getD i default).IsOutside cameraObjectSpacePosition
    if !outside then
      -- plane facing the camera position; mark it and its 3 vertices visible
      let polygonInfos := polygonInfos.set i (polygonInfos.getD i 0 ||| PolygonInfoVisible)
      let vertexInfos := markVertexVisible vertexInfos (shape.m_vertices.getD (3 * i) 0)
      let vertexInfos := markVertexVisible vertexInfos (shape.m_vertices.getD (3 * i + 1) 0)
      let vertexInfos := markVertexVisible vertexInfos (shape.m_vertices.getD (3 * i + 2) 0)
      Shape.BackfaceCull.loop shape cameraObjectSpacePosition remaining (i + 1)
        polygonInfos vertexInfos
    else
      -- plane facing away from camera position; mark it not visible
      let polygonInfos := polygonInfos.set i (polygonInfos.getD i 0 &&& 0xFFFFFFDF)
      Shape.BackfaceCull.loop shape cameraObjectSpacePosition remaining (i + 1)
        polygonInfos vertexInfos

/-- `Shape::BackfaceCull`: the vertex flags are cleared, then every polygon
is tested against the camera position. -/
def Shape.BackfaceCull (shape : Shape) (cameraObjectSpacePosition : Vector) :
    Except NovaError Shape := do
  let cleared := shape.m_vertexInfos.map (fun _ => 0)
  let r ← Shape.BackfaceCull.loop shape cameraObjectSpacePosition shape.m_numPolygons 0
    shape.m_polygonInfos cleared
  pure { shape with m_polygonInfos := r.1, m_vertexInfos := r.2 }

/-- The exact (unrounded) dot product of the raw components, a value with
32 fractional bits. -/
def Vector.dotExact (v w : Vector) : Int := v.m_x * w.m_x + v.m_y * w.m_y + v.m_z * w.m_z

/-- Exact signed position of a point relative to a plane, with 32 fractional
bits: `normal . point + D`.  It is positive on the side the normal points to,
zero on the plane and negative on the other side. -/
def PlaneEquation.side (plane : PlaneEquation) (point : Vector) : Int :=
  plane.m_normal.dotExact point + 65536 * plane.m_fixedD

/-- The three products of a dot product are small enough for the fixed
multiplications and their `int_32` sum not to overflow (each quotient is below
`2 ^ 29` in size). -/
def ProductsFit (v w : Vector) : Prop :=
  (-35184372088832 ≤ v.m_x * w.m_x ∧ v.m_x * w.m_x ≤ 35184372088832) ∧
  (-35184372088832 ≤ v.m_y * w.m_y ∧ v.m_y * w.m_y ≤ 35184372088832) ∧
  (-35184372088832 ≤ v.m_z * w.m_z ∧ v.m_z * w.m_z ≤ 35184372088832)

instance (v w : Vector) : Decidable (ProductsFit v w) := by
  unfold ProductsFit; exact inferInstance

/-- The polygon flags have `PolygonInfoVisible` set. -/
def IsVisible (polygonInfo : Nat) : Prop := polygonInfo &&& PolygonInfoVisible ≠ 0

instance (polygonInfo : Nat) : Decidable (IsVisible polygonInfo) := by
  unfold IsVisible; exact inferInstance

/-- A shape with the single triangle (0,0,0), (1,0,0), (0,1,0), before its
plane equation is calculated. -/
def exampleTriangleShape : Shape :=
  { m_coordinates := [⟨0, 0, 0⟩, ⟨65536, 0, 0⟩, ⟨0, 65536, 0⟩],
    m_vertices := [0, 1, 2], m_polygonInfos := [0], m_vertexInfos := [0, 0, 0],
    m_planeEquations := [default] }

/-- The plane `Calculate` returns for the example triangle: normal
(0, 0, 65535), `D = 0`. -/
def examplePlane : PlaneEquation := { m_normal := ⟨0, 0, 65535⟩, m_fixedD := 0 }

/-- A matrix from its four rows, for examples. -/
def Matrix.ofRows (rows : List (List Int)) (multiplications : Int) : Matrix :=
  { m_data := fun r c => (rows.getD r.val []).getD c.val 0, m_multiplications := multiplications }

/-- The entry `[r][c]` of the product `m1 * m2` as C10 states it: the sum
over `k` of `FixedLargeMul( m1[r][k], m2[k][c] )`, added as `int_32`. -/
def claimedProductEntry (m1 m2 : Matrix) (r c : Fin 4) : Except NovaError Int := do
  let a ← FixedLargeMul (m1.m_data r 0) (m2.m_data 0 c)
  let b ← FixedLargeMul (m1.m_data r 1) (m2.m_data 1 c)
  let c' ← FixedLargeMul (m1.m_data r 2) (m2.m_data 2 c)
  let d ← FixedLargeMul (m1.m_data r 3) (m2.m_data 3 c)
  pure (wrap32 (wrap32 (wrap32 (a + b) + c') + d))

/-- The rotation by 90 degrees about the z axis, without translation. -/
def exampleRotationZ : Matrix :=
  Matrix.ofRows [[0, -65536, 0, 0], [65536, 0, 0, 0], [0, 0, 65536, 0], [0, 0, 0, 65536]] 0

/-- The translation by (1, 0, 0). -/
def exampleTranslationX : Matrix := Matrix.CreateTranslation ⟨65536, 0, 0⟩

/-- The rigid transform with the rotation by 90 degrees about the z axis and
the translation (1, 0, 0). -/
def exampleRigid : Matrix :=
  Matrix.ofRows [[0, -65536, 0, 65536], [65536, 0, 0, 0], [0, 0, 65536, 0], [0, 0, 0, 65536]] 0

/-- The whole-number entries of a matrix given by rows. -/
def wholeEntries (rows : List (List Int)) : Fin 4 → Fin 4 → Int :=
  fun r c => (rows.getD r.val []).getD c.val 0

/-! ## Display.h / Display.cpp: pixel formats and colours -/

/-- `NovaPixelFormat`: pixel formats supported by Nova3D. -/
inductive NovaPixelFormat where
  | PixelFormatUndefined
  | PixelFormat444
  | PixelFormat555
  | PixelFormat565
  | PixelFormat666
  | PixelFormat888
  deriving DecidableEq, Repr, Inhabited

open NovaPixelFormat

/-- The bit pattern of an `int` read as `uint_32`. -/
def toU32 (x : Int) : Nat := (x % 4294967296).toNat

/-- `GetColorLimits`: the maximum component values of a pixel format, written
through the three references; an undefined format leaves them as they were. -/
def GetColorLimits (pixelFormat : NovaPixelFormat) (red green blue : Int) : Int × Int × Int :=
  match pixelFormat with
  | PixelFormat888 => (255, 255, 255)
  | PixelFormat444 => (15, 15, 15)
  | PixelFormat555 => (31, 31, 31)
  | PixelFormat565 => (31, 63, 31)
  | PixelFormat666 => (63, 63, 63)
  | PixelFormatUndefined => (red, green, blue)

/-- Macro `PIXEL_444(r,g,b)`. -/
def PIXEL_444 (r g b : Int) : Nat :=
  (((toU32 r &&& 0x0f) <<< 8) ||| ((toU32 g &&& 0x0f) <<< 4) ||| (toU32 b &&& 0x0f)) % 4294967296

/-- Macro `PIXEL_555(r,g,b)`. -/
def PIXEL_555 (r g b : Int) : Nat :=
  (((toU32 r &&& 0x1f) <<< 10) ||| ((toU32 g &&& 0x1f) <<< 5) ||| (toU32 b &&& 0x1f)) % 4294967296

/-- Macro `PIXEL_565(r,g,b)`. -/
def PIXEL_565 (r g b : Int) : Nat :=
  (((toU32 r &&& 0x1f) <<< 11) ||| ((toU32 g &&& 0x3f) <<< 5) ||| (toU32 b &&& 0x1f)) % 4294967296

/-- Macro `PIXEL_666(r,g,b)`. -/
def PIXEL_666 (r g b : Int) : Nat :=
  (((toU32 r &&& 0x3f) <<< 12) ||| ((toU32 g &&& 0x3f) <<< 6) ||| (toU32 b &&& 0x3f)) % 4294967296

/-- Macro `PIXEL_888(r,g,b)`. -/
def PIXEL_888 (r g b : Int) : Nat :=
  (((toU32 r &&& 0xff) <<< 16) ||| ((toU32 g &&& 0xff) <<< 8) ||| (toU32 b &&& 0xff)) % 4294967296

/-- `CreateColor`: packs the components into the pixel format; a bad pixel
format gives 0. -/
def CreateColor (pixelFormat : NovaPixelFormat) (red green blue : Int) : Nat :=
  match pixelFormat with
  | PixelFormat888 => PIXEL_888 red green blue
  | PixelFormat444 => PIXEL_444 red green blue
  | PixelFormat565 => PIXEL_565 red green blue
  | PixelFormat555 => PIXEL_555 red green blue
  | PixelFormat666 => PIXEL_666 red green blue
  | PixelFormatUndefined => 0

/-- The `uint_32` expression `(color << shift) & mask`, stored into an `int`. -/
def shiftMask (color shift mask : Nat) : Int :=
  (((color <<< shift) % 4294967296) &&& mask : Nat)

/-- `SplitColorIntoFixedPoint`: the three components of a packed colour,
each left-shifted by `FixedPointPrec`; a bad pixel format gives -1 thrice. -/
def SplitColorIntoFixedPoint (pixelFormat : NovaPixelFormat) (color : Nat) : Int × Int × Int :=
  match pixelFormat with
  | PixelFormat888 =>
      (((color &&& 0xff0000 : Nat) : Int),
       shiftMask color (FixedPointPrec - 8) 0xff0000,
       shiftMask color FixedPointPrec 0xff0000)
  | PixelFormat444 =>
      (shiftMask color (FixedPointPrec - 8) 0xf0000,
       shiftMask color (FixedPointPrec - 4) 0xf0000,
       shiftMask color FixedPointPrec 0xf0000)
  | PixelFormat565 =>
      (shiftMask color (FixedPointPrec - 11) 0x1f0000,
       shiftMask color (FixedPointPrec - 5) 0x3f0000,
       shiftMask color FixedPointPrec 0x1f0000)
  | PixelFormat555 =>
      (shiftMask color (FixedPointPrec - 10) 0x1f0000,
       shiftMask color (FixedPointPrec - 5) 0x1f0000,
       shiftMask color FixedPointPrec 0x1f0000)
  | PixelFormat666 =>
      (shiftMask color (FixedPointPrec - 12) 0x3f0000,
       shiftMask color (FixedPointPrec - 6) 0x3f0000,
       shiftMask color FixedPointPrec 0x3f0000)
  | PixelFormatUndefined => (-1, -1, -1)

/-- `SplitColor`: `SplitColorIntoFixedPoint` followed by an arithmetic right
shift of each component by `FixedPointPrec`. -/
def SplitColor (pixelFormat : NovaPixelFormat) (color : Nat) : Int × Int × Int :=
  let (red, green, blue) := SplitColorIntoFixedPoint pixelFormat color
  (red >>> FixedPointPrec, green >>> FixedPointPrec, blue >>> FixedPointPrec)

/-- `ConvertColor`: split in the source format, pack in the target format. -/
def ConvertColor (color : Nat) (fromFormat toFormat : NovaPixelFormat) : Nat :=
  let (red, green, blue) := SplitColor fromFormat color
  CreateColor toFormat red green blue

/-- `ScaleColor`: each component is multiplied by `scaler` with
`FixedLargeMul`, then compared with the limit `GetColorLimits` gives and
replaced by it when larger.  `redLimit`, `greenLimit`, `blueLimit` are the
values the three uninitialised locals hold before `GetColorLimits` runs. -/
def ScaleColor (pixelFormat : NovaPixelFormat) (red green blue scaler : Int)
    (redLimit greenLimit blueLimit : Int) : Except NovaError (Int × Int × Int) := do
  let red ← FixedLargeMul red scaler
  let green ← FixedLargeMul green scaler
  let blue ← FixedLargeMul blue scaler
  let (redLimit, greenLimit, blueLimit) := GetColorLimits pixelFormat redLimit greenLimit blueLimit
  let red := if red > redLimit then redLimit else red
  let green := if green > greenLimit then greenLimit else green
  let blue := if blue > blueLimit then blueLimit else blue
  pure (red, green, blue)

/-- Number of bits a packed colour of the format occupies. -/
def NovaPixelFormat.bitWidth : NovaPixelFormat → Nat
  | PixelFormatUndefined => 0
  | PixelFormat444 => 12
  | PixelFormat555 => 15
  | PixelFormat565 => 16
  | PixelFormat666 => 18
  | PixelFormat888 => 24

/-- The format is one of the five defined ones. -/
def NovaPixelFormat.Defined (f : NovaPixelFormat) : Prop := f ≠ PixelFormatUndefined

instance (f : NovaPixelFormat) : Decidable f.Defined := by
  unfold NovaPixelFormat.Defined; exact inferInstance

/-! ## NovaErrors.h -/

/-- Error code `NovaErrNone`. -/
def NovaErrNone : Int := 0

/-- Error code `NovaErrNotFound`. -/
def NovaErrNotFound : Int := -1

/-- Error code `NovaErrNoMemory`. -/
def NovaErrNoMemory : Int := -3

/-- Error code `NovaErrInvalidArgument`. -/
def NovaErrInvalidArgument : Int := -9

/-- Error code `NovaErrTextureTooLarge`. -/
def NovaErrTextureTooLarge : Int := -12

/-- Error code `NovaErrTextureDimensionInvalid`: the texture dimensions were
not powers of 2. -/
def NovaErrTextureDimensionInvalid : Int := -13

/-! ## Lights.h / Lights.cpp -/

/-- `PointLight`: the attenuation switch, the three attenuation coefficients
as fixed point values, and the light position. -/
structure PointLight where
  m_isAttenuated : Bool
  m_att0 : Int
  m_att1 : Int
  m_att2 : Int
  m_position : Vector

/-- `PointLight::PointLight()`. -/
def PointLight.new : PointLight :=
  { m_isAttenuated := true, m_att0 := 0, m_att1 := 0, m_att2 := FixedPointOne,
    m_position := ⟨0, 0, 0⟩ }

/-- `PointLight::SetAttenuated`. -/
def PointLight.SetAttenuated (light : PointLight) (attenuated : Bool) : PointLight :=
  { light with m_isAttenuated := attenuated }

/-- `PointLight::IsAttenuated`. -/
def PointLight.IsAttenuated (light : PointLight) : Bool := light.m_isAttenuated

/-- `PointLight::CalculateAttenuationFactor`: the body is `return 0`. -/
def PointLight.CalculateAttenuationFactor (_light : PointLight) (_distance : Int) : Int := 0

/-- `Vector::LengthFixed`: the dot product with itself read as `uint_32`, its
`FastSqrt` shifted left by half the precision. -/
def Vector.LengthFixed (v : Vector) : Except NovaError Int := do
  let dotp ← v.DotProductFixed v
  pure (wrap32 ((FastSqrt (wrapU32 dotp).toNat <<< (FixedPointPrec / 2)) % 4294967296 : Nat))

/-- The body of the vertex loop of `Shape::ApplyLighting` for one point light
and one vertex: `cached` is the entry of `m_distanceCache`, the result is the
intensity added to the vertex and the entry the cache holds afterwards. -/
def Shape.ApplyLighting.vertex (pointLight : PointLight) (lightObjectSpacePos : Vector)
    (vertex normal : Vector) (cached : Int) : Except NovaError (Int × Int) := do
  let toLight := Vector.SubstractAndSet lightObjectSpacePos vertex
  let distance ← if cached = 0 then toLight.LengthFixed else pure cached
  let dotProd ← toLight.DotProductFixed normal
  let divisor := distance >>> (FixedPointPrec / 2)
  if divisor = 0 then Except.error NovaError.divideByZero
  else
    let dotProd := wrap32 (wrap32 (Int.tdiv dotProd divisor) * 2 ^ (FixedPointPrec / 2))
    let tmpIntensity := if dotProd > 0 then dotProd else 0
    if pointLight.IsAttenuated then do
      let attenuation := pointLight.CalculateAttenuationFactor distance
      let tmpIntensity ← FixedLargeMul tmpIntensity attenuation
      pure (tmpIntensity, distance)
    else
      pure (tmpIntensity, distance)

/-- A point light with the coefficients `att0 = 1`, `att1 = att2 = 0`. -/
def exampleConstantLight (attenuated : Bool) : PointLight :=
  { m_isAttenuated := attenuated, m_att0 := FixedPointOne, m_att1 := 0, m_att2 := 0,
    m_position := ⟨0, 0, FixedPointOne⟩ }

/-! ## Texture.h / Texture.cpp -/

/-- `MaxTextureSidePower`. -/
def MaxTextureSidePower : Nat := 10

/-- `MaxTextureSide = 1 << MaxTextureSidePower`. -/
def MaxTextureSide : Int := 1 * 2 ^ MaxTextureSidePower

/-- `Texture::NumPaletteEntries`. -/
def NumPaletteEntries : Nat := 256

/-- `Texture`; the two arrays are `none` when the pointer is `NULL`. -/
structure Texture where
  m_width : Int
  m_height : Int
  m_shift : Nat
  m_umask : Nat
  m_vmask : Nat
  m_pixelFormat : NovaPixelFormat
  m_numPalettes : Int
  m_numPalettesShift : Nat
  m_palette : Option (List Nat)
  m_data : Option (List Nat)
  deriving DecidableEq, Repr

/-- `Texture::Texture()`. -/
def Texture.new : Texture :=
  { m_width := 0, m_height := 0, m_shift := 0, m_umask := 0, m_vmask := 0,
    m_pixelFormat := PixelFormatUndefined, m_numPalettes := 0, m_numPalettesShift := 0,
    m_palette := none, m_data := none }

/-- `Texture::GetWidth`. -/
def Texture.GetWidth (tex : Texture) : Int := tex.m_width

/-- `Texture::GetHeight`. -/
def Texture.GetHeight (tex : Texture) : Int := tex.m_height

/-- `Texture::GetShift`. -/
def Texture.GetShift (tex : Texture) : Nat := tex.m_shift

/-- `Texture::GetUMask`. -/
def Texture.GetUMask (tex : Texture) : Nat := tex.m_umask

/-- `Texture::GetVMask`. -/
def Texture.GetVMask (tex : Texture) : Nat := tex.m_vmask

/-- `Texture::GetNumPalettes`. -/
def Texture.GetNumPalettes (tex : Texture) : Int := tex.m_numPalettes

/-- `Texture::GetPixelFormat`. -/
def Texture.GetPixelFormat (tex : Texture) : NovaPixelFormat := tex.m_pixelFormat

/-- `Texture::GetPalette`. -/
def Texture.GetPalette (tex : Texture) : Option (List Nat) := tex.m_palette

/-- `Texture::GetData`. -/
def Texture.GetData (tex : Texture) : Option (List Nat) := tex.m_data

/-- The loops `for ( int i = 0; i < MaxTextureSidePower; i++ )` of
`Texture::Create`: the first `i` with `(1 << i) == side`, where the loop
breaks, or `none` when the loop runs to its end (`1 << i` is `2 ^ i`). -/
def findSidePower (side : Int) : Option Nat :=
  (List.range MaxTextureSidePower).find? (fun i => ((1 : Int) * 2 ^ i) == side)

/-- `Texture::Create`.  `paletteAlloc` and `dataAlloc` tell whether the two
calls of `malloc` succeed; the result is the returned code and the texture
as the call leaves it. -/
def Texture.Create (tex : Texture) (pixelFormat : NovaPixelFormat) (width height : Int)
    (palette data : List Nat) (paletteAlloc dataAlloc : Bool) : Int × Texture :=
  if width > MaxTextureSide ∨ height > MaxTextureSide then
    (NovaErrTextureTooLarge, tex)
  else
    let tex := { tex with m_umask := 0xffffffff, m_vmask := 0xffffffff }
    -- find out the u mask
    let tex :=
      match findSidePower width with
      | some i => { tex with m_umask := toU32 (width - 1), m_shift := i }
      | none => tex
    -- find out the v mask
    let tex :=
      match findSidePower height with
      | some _ => { tex with m_vmask := toU32 (height - 1) }
      | none => tex
    -- texture width must be a power of 2; check this
    if tex.m_umask = 0xffffffff then
      (NovaErrTextureDimensionInvalid, { tex with m_vmask := 0xffffffff })
    else if ¬ paletteAlloc then
      (NovaErrNoMemory, { tex with m_palette := none })
    else
      let tex := { tex with m_palette := some (palette.take NumPaletteEntries) }
      if ¬ dataAlloc then
        (NovaErrNoMemory, { tex with m_data := none })
      else
        let tex := { tex with m_data := some (data.take (width * height).toNat) }
        (NovaErrNone,
          { tex with m_numPalettes := 1, m_pixelFormat := pixelFormat, m_width := width,
                     m_height := height })

/-- `RealToFixed`: the real times `FixedPointFactor`, converted to `int_32`
by truncation.  The `real_64` argument is taken as the rational it denotes;
products that do not fit `int_32` are outside the model. -/
def RealToFixed (real : ℚ) : Int :=
  if 0 ≤ real * 65536 then ⌊real * 65536⌋ else ⌈real * 65536⌉

/-- The body of the inner loop of `Texture::CreateLinearPalettes`: one entry
of the old palette split, scaled by `factor` and packed again.  The pixel
format is a defined one there, so that `GetColorLimits` overwrites the three
limits `ScaleColor` starts with. -/
def scalePaletteEntry (pixelFormat : NovaPixelFormat) (oldColor : Nat) (factor : Int) :
    Except NovaError Nat := do
  let (red, green, blue) := SplitColorIntoFixedPoint pixelFormat oldColor
  let (red, green, blue) ← ScaleColor pixelFormat red green blue factor 0 0 0
  pure (CreateColor pixelFormat (red >>> FixedPointPrec) (green >>> FixedPointPrec)
    (blue >>> FixedPointPrec))

/-- The loop `for ( int i = 0; i < m_numPalettes; i++ )` of
`Texture::CreateLinearPalettes` with `count` iterations left: the colours it
writes through `newColor`, in order. -/
def linearPalettesLoop (pixelFormat : NovaPixelFormat) (m_palette : List Nat) (slope : Int) :
    Nat → Int → Except NovaError (List Nat)
  | 0, _ => pure []
  | count + 1, factor => do
    let row ← (List.range NumPaletteEntries).mapM
      (fun j => scalePaletteEntry pixelFormat (m_palette.getD j 0) factor)
    let rest ← linearPalettesLoop pixelFormat m_palette slope count (wrap32 (factor + slope))
    pure (row ++ rest)

/-- `Texture::CreateLinearPalettes`.  `block` is what `malloc` returns for
`NumPaletteEntries * numPalettes` colours: `none` for `NULL`, otherwise the
indeterminate content of the new block, of which the first
`NumPaletteEntries * numPalettes` entries are taken.  The colours the loop
writes replace the block from its start. -/
def Texture.CreateLinearPalettes (tex : Texture) (gain : ℚ) (block : Option (List Nat)) :
    Except NovaError (Int × Texture) :=
  let fixedGain := RealToFixed gain
  let numPalettesOf : Option (Nat × Nat) :=
    match tex.m_pixelFormat with
    | PixelFormat444 => some (4, 16)
    | PixelFormat555 => some (5, 32)
    | PixelFormat565 => some (6, 64)
    | PixelFormat666 => some (6, 64)
    | PixelFormat888 => some (8, 256)
    | PixelFormatUndefined => none
  match numPalettesOf with
  | none => pure (NovaErrNotFound, tex)
  | some (shift, numPalettes) =>
    let tex := { tex with m_numPalettesShift := shift }
    match block with
    | none => pure (NovaErrNoMemory, tex)
    | some newPalettes => do
      let slope := fixedGain >>> tex.m_numPalettesShift
      let written ← linearPalettesLoop tex.m_pixelFormat (tex.m_palette.getD []) slope
        tex.m_numPalettes.toNat 0
      let newPalettes := written ++ (newPalettes.take (NumPaletteEntries * numPalettes)).drop
        written.length
      pure (NovaErrNone, { tex with m_palette := some newPalettes })

/-- `Texture::ScaleIntensity`. -/
def Texture.ScaleIntensity (tex : Texture) (intensity : Int) : Int :=
  let maxIntensityFixed := wrap32 ((tex.m_numPalettes - 1) * 2 ^ FixedPointPrec)
  let intensity := wrap32 (intensity * 2 ^ tex.m_numPalettesShift)
  if intensity > maxIntensityFixed then maxIntensityFixed else intensity

/-- Number of illumination levels of a pixel format: the `numPalettes` that
`Texture::CreateLinearPalettes` allocates room for. -/
def NovaPixelFormat.levels : NovaPixelFormat → Int
  | PixelFormat444 => 16
  | PixelFormat555 => 32
  | PixelFormat565 => 64
  | PixelFormat666 => 64
  | PixelFormat888 => 256
  | PixelFormatUndefined => 0

/-- A 16 by 16 texture of format 444 as `Texture::Create` builds it from a
white palette and zero data. -/
def exampleTexture : Texture :=
  (Texture.new.Create PixelFormat444 16 16 (List.replicate 256 0xfff) (List.replicate 256 0)
    true true).2

/-! ## Renderer.h / Renderer.cpp: canvas, spans and the Gouraud rasteriser

A pixel store `*ptr++ = color` goes to the address
`m_bufferPtr + row * m_bytesPerScanline + 4 * column`; the model records it
as the triple of the scanline `row`, the pixel index `column` in that
scanline, and the colour. -/

/-- The fields of `RenderingCanvas` that the rasterisers compare with. -/
structure RenderingCanvas where
  m_top : Int
  m_bottom : Int
  m_left : Int
  m_right : Int
  m_pixelFormat : NovaPixelFormat
  deriving DecidableEq, Repr

/-- One store into the canvas buffer. -/
structure PixelWrite where
  row : Int
  column : Int
  color : Nat
  deriving DecidableEq, Repr

/-- What a rasteriser call did: the stores it made, in order, and the error
it was left with when it did not return normally.  The rasterisers give
`none` instead when the pass budget of their scan loop runs out, which is
not a behaviour of the code. -/
structure DrawResult where
  pixels : List PixelWrite
  failure : Option NovaError
  deriving DecidableEq, Repr

/-- `Renderer`: the canvas and the division lookup table.  The constructor
fills the entries 1 to 65535 with `(int_32)(MaxUint32 / i)` and never writes
entry 0, whose indeterminate value is the field `m_fixedDivLookup0`. -/
structure Renderer where
  m_canvas : RenderingCanvas
  m_fixedDivLookup0 : Int
  deriving DecidableEq, Repr

/-- `Renderer::DivLookup`: the table entry at `fixedDivider & 0xffff`. -/
def Renderer.DivLookup (r : Renderer) (fixedDivider : Int) : Int :=
  let index := toU32 fixedDivider &&& 0xffff
  if index = 0 then r.m_fixedDivLookup0 else wrap32 (MaxUint32 / index)

/-- `FloorFixed`. -/
def FloorFixed (fixed : Int) : Int := fixed >>> FixedPointPrec

/-- `CeilFixed`: `FloorFixed( fixed ) + 1`. -/
def CeilFixed (fixed : Int) : Int := wrap32 (FloorFixed fixed + 1)

/-- The expression `(int_32)(MaxUint32 / (uint_32)d)`, which traps when the
divisor is zero. -/
def inverseLength (d : Int) : Except NovaError Int :=
  if wrapU32 d = 0 then Except.error NovaError.divideByZero
  else Except.ok (wrap32 (MaxUint32 / wrapU32 d))

/-- `SelectVertexOrder`: the three vertices of the face in the order the
comparisons of their `m_y` choose. -/
def SelectVertexOrder (face : ScreenPolygon) : ScreenVertex × ScreenVertex × ScreenVertex :=
  let y1 := face.m_v1.m_y
  let y2 := face.m_v2.m_y
  let y3 := face.m_v3.m_y
  if y1 < y2 then
    if y1 < y3 then
      if y2 < y3 then (face.m_v1, face.m_v2, face.m_v3)
      else (face.m_v1, face.m_v3, face.m_v2)
    else (face.m_v3, face.m_v1, face.m_v2)
  else
    if y2 < y3 then
      if y1 < y3 then (face.m_v2, face.m_v1, face.m_v3)
      else (face.m_v2, face.m_v3, face.m_v1)
    else (face.m_v3, face.m_v2, face.m_v1)

/-- The pixel loop of `DrawGouraudSpan` with `len` iterations left: one store
per iteration at `column`, then the three colours advance by their slopes. -/
def gouraudPixels (pixelFormat : NovaPixelFormat) (row red_slope green_slope blue_slope : Int) :
    Nat → Int → Int → Int → Int → List PixelWrite
  | 0, _, _, _, _ => []
  | len + 1, column, red1, green1, blue1 =>
    { row := row, column := column,
      color := CreateColor pixelFormat (red1 >>> FixedPointPrec) (green1 >>> FixedPointPrec)
        (blue1 >>> FixedPointPrec) } ::
      gouraudPixels pixelFormat row red_slope green_slope blue_slope len (column + 1)
        (wrap32 (red1 + red_slope)) (wrap32 (green1 + green_slope)) (wrap32 (blue1 + blue_slope))

/-- `Renderer::DrawGouraudSpan` from the check for a 0-length span on, that
is once the endpoints are ordered. -/
def Renderer.DrawGouraudSpan.ordered (r : Renderer)
    (x1 x2 red1 green1 blue1 red2 green2 blue2 : Int) (row : Int) :
    Except NovaError (List PixelWrite) :=
  -- check for 0-length span
  if wrap32 (x2 - x1) < FixedPointOne then pure []
  else
    let left := CeilFixed x1
    let right := CeilFixed x2
    -- check whether the span is completely outside the view port (canvas)
    if left > r.m_canvas.m_right ∨ right < r.m_canvas.m_left then pure []
    else if wrap32 (x2 - x1) < FixedPointOne then pure []
    else do
      let inv_len ← inverseLength (wrap32 (x2 - x1))
      let red_slope ← FixedLargeMul (wrap32 (red2 - red1)) inv_len
      let green_slope ← FixedLargeMul (wrap32 (green2 - green1)) inv_len
      let blue_slope ← FixedLargeMul (wrap32 (blue2 - blue1)) inv_len
      -- clip to the rendering canvas'es left edge
      let clip := decide (left < r.m_canvas.m_left)
      let steps := wrap32 (r.m_canvas.m_left - left)
      let red1 := if clip then wrap32 (red1 + wrap32 (red_slope * steps)) else red1
      let green1 := if clip then wrap32 (green1 + wrap32 (green_slope * steps)) else green1
      let blue1 := if clip then wrap32 (blue1 + wrap32 (blue_slope * steps)) else blue1
      let left := if clip then r.m_canvas.m_left else left
      -- clip to the rendering canvas'es right edge
      let right := if right ≥ r.m_canvas.m_right then wrap32 (r.m_canvas.m_right - 1) else right
      let len := wrap32 (right - left)
      pure (gouraudPixels r.m_canvas.m_pixelFormat row red_slope green_slope blue_slope
        len.toNat left red1 green1 blue1)

/-- `Renderer::DrawGouraudSpan` on the scanline `row` (the scanline `basePtr`
points to): the stores it makes.  When `x1 > x2` the endpoints and their
colours are swapped first. -/
def Renderer.DrawGouraudSpan (r : Renderer) (x1 x2 red1 green1 blue1 red2 green2 blue2 : Int)
    (row : Int) : Except NovaError (List PixelWrite) :=
  if x1 > x2 then
    Renderer.DrawGouraudSpan.ordered r x2 x1 red2 green2 blue2 red1 green1 blue1 row
  else
    Renderer.DrawGouraudSpan.ordered r x1 x2 red1 green1 blue1 red2 green2 blue2 row

/-- The locals of `DrawTriangle` that the scan loop carries. -/
structure GouraudEdges where
  x1 : Int
  x1_slope : Int
  x2 : Int
  x2_slope : Int
  red1 : Int
  red1_slope : Int
  red2 : Int
  red2_slope : Int
  green1 : Int
  green1_slope : Int
  green2 : Int
  green2_slope : Int
  blue1 : Int
  blue1_slope : Int
  blue2 : Int
  blue2_slope : Int
  deriving DecidableEq, Repr

/-- The assignments of `DrawTriangle` that start the short edge `from - to`:
`x1`, the three colours and their slopes. -/
def GouraudEdges.startEdge (s : GouraudEdges) (v w : ScreenVertex) :
    Except NovaError GouraudEdges := do
  let inv_len ← inverseLength (wrap32 (w.m_y - v.m_y))
  let x1 := v.m_x
  let x1_slope ← FixedLargeMul (wrap32 (w.m_x - x1)) inv_len
  let red1 := v.m_redU
  let red1_slope ← FixedLargeMul (wrap32 (w.m_redU - red1)) inv_len
  let green1 := v.m_greenV
  let green1_slope ← FixedLargeMul (wrap32 (w.m_greenV - green1)) inv_len
  let blue1 := v.m_blueIntensity
  let blue1_slope ← FixedLargeMul (wrap32 (w.m_blueIntensity - blue1)) inv_len
  pure { s with x1 := x1, x1_slope := x1_slope, red1 := red1, red1_slope := red1_slope,
                green1 := green1, green1_slope := green1_slope, blue1 := blue1,
                blue1_slope := blue1_slope }

/-- The increments at the end of one pass of the scan loop of `DrawTriangle`. -/
def GouraudEdges.advance (s : GouraudEdges) : GouraudEdges :=
  { s with x1 := wrap32 (s.x1 + s.x1_slope), x2 := wrap32 (s.x2 + s.x2_slope),
           red1 := wrap32 (s.red1 + s.red1_slope), green1 := wrap32 (s.green1 + s.green1_slope),
           blue1 := wrap32 (s.blue1 + s.blue1_slope), red2 := wrap32 (s.red2 + s.red2_slope),
           green2 := wrap32 (s.green2 + s.green2_slope),
           blue2 := wrap32 (s.blue2 + s.blue2_slope) }

/-- The triangle edge scan loop of `DrawTriangle`, `while ( cur_y <= lowest_y )`.
The first argument bounds the number of passes; the result is `none` when
it was too small. -/
def Renderer.DrawTriangle.loop (r : Renderer) (vertex2 vertex3 : ScreenVertex)
    (y2 y3 topmost_y lowest_y : Int) : Nat → Int → GouraudEdges → Option DrawResult
  | 0, cur_y, _ =>
    if cur_y ≤ lowest_y then none else some ⟨[], none⟩
  | fuel + 1, cur_y, s =>
    if cur_y ≤ lowest_y then
      -- the triangle has flat bottom
      if cur_y = y2 ∧ y3 = y2 then some ⟨[], none⟩
      else
        -- need to recalculate slope1 for v2-v3
        match (if cur_y = y2 then s.startEdge vertex2 vertex3 else pure s) with
        | Except.error e => some ⟨[], some e⟩
        | Except.ok s =>
          match (if cur_y ≥ topmost_y then
              r.DrawGouraudSpan s.x1 s.x2 s.red1 s.green1 s.blue1 s.red2 s.green2 s.blue2 cur_y
            else pure []) with
          | Except.error e => some ⟨[], some e⟩
          | Except.ok span =>
            match Renderer.DrawTriangle.loop r vertex2 vertex3 y2 y3 topmost_y lowest_y
              fuel (wrap32 (cur_y + 1)) s.advance with
            | none => none
            | some rest => some ⟨span ++ rest.pixels, rest.failure⟩
    else some ⟨[], none⟩

/-- The set-up of `DrawTriangle` after the height check: the long edge
`v1 - v3` and, when it has any height, the edge `v1 - v2`. -/
def Renderer.DrawTriangle.setup (vertex1 vertex2 vertex3 : ScreenVertex) (y1 y2 : Int) :
    Except NovaError GouraudEdges := do
  -- calculate slope2 for v1-v3 (constant for whole scan)
  let inv_len ← inverseLength (wrap32 (vertex3.m_y - vertex1.m_y))
  let x2 := vertex1.m_x
  let x2_slope ← FixedLargeMul (wrap32 (vertex3.m_x - x2)) inv_len
  let red2 := vertex1.m_redU
  let red2_slope ← FixedLargeMul (wrap32 (vertex3.m_redU - red2)) inv_len
  let green2 := vertex1.m_greenV
  let green2_slope ← FixedLargeMul (wrap32 (vertex3.m_greenV - green2)) inv_len
  let blue2 := vertex1.m_blueIntensity
  let blue2_slope ← FixedLargeMul (wrap32 (vertex3.m_blueIntensity - blue2)) inv_len
  let s : GouraudEdges :=
    { x1 := 0, x1_slope := 0, x2 := x2, x2_slope := x2_slope, red1 := 0, red1_slope := 0,
      red2 := red2, red2_slope := red2_slope, green1 := 0, green1_slope := 0, green2 := green2,
      green2_slope := green2_slope, blue1 := 0, blue1_slope := 0, blue2 := blue2,
      blue2_slope := blue2_slope }
  -- if the edge v1-v2 has any height, calculate slope1 for it
  if y1 < y2 then s.startEdge vertex1 vertex2 else pure s

/-- `Renderer::DrawTriangle`. -/
def Renderer.DrawTriangle (r : Renderer) (face : ScreenPolygon) : Option DrawResult :=
  let (vertex1, vertex2, vertex3) := SelectVertexOrder face
  let y1 := CeilFixed vertex1.m_y
  let y2 := CeilFixed vertex2.m_y
  let y3 := CeilFixed vertex3.m_y
  -- check for 0-height triangle
  if wrap32 (vertex3.m_y - vertex1.m_y) < FixedPointOne then some ⟨[], none⟩
  else
    let topmost_y := r.m_canvas.m_top
    let lowest_y := wrap32 (min y3 r.m_canvas.m_bottom - 1)
    match Renderer.DrawTriangle.setup vertex1 vertex2 vertex3 y1 y2 with
    | Except.error e => some ⟨[], some e⟩
    | Except.ok s =>
      Renderer.DrawTriangle.loop r vertex2 vertex3 y2 y3 topmost_y lowest_y
        (lowest_y + 1 - y1).toNat y1 s

/-! ## Renderer.cpp / RenderingUtils.cpp: the textured rasteriser -/

/-- The four gradients `CalculatePolygonGradients` stores through its
reference parameters.  It computes them in `real_64` arithmetic, which is not
modelled: the rasterisers take the stored values as given. -/
structure PolygonGradients where
  dudx : Int
  dvdx : Int
  dzdx : Int
  didx : Int
  deriving DecidableEq, Repr

/-- `IsLongOnLeft`: the returned flag with `longInvLen`, `longX` and
`longDxdy` as it stores them. -/
def IsLongOnLeft (vertex1 vertex2 vertex3 : ScreenVertex) :
    Except NovaError (Bool × Int × Int × Int) := do
  let longInvLen ← inverseLength (wrap32 (vertex3.m_y - vertex1.m_y))
  let longX := vertex1.m_x
  let longDxdy ← FixedLargeMul (wrap32 (vertex3.m_x - longX)) longInvLen
  -- find out which side of the long edge (v1-v3) v2 resides on
  let p ← FixedLargeMul (wrap32 (vertex2.m_y - vertex1.m_y)) longDxdy
  let middleX := wrap32 (longX + p)
  pure (decide (middleX < vertex2.m_x), longInvLen, longX, longDxdy)

/-- The texel read `tex_data[(real_u & u_mask) + ((real_v & v_mask) << texshift)]`;
a read outside the array is given the value 0. -/
def Texture.texel (texture : Texture) (real_u real_v : Int) : Nat :=
  let index := ((toU32 real_u &&& texture.GetUMask) +
    ((toU32 real_v &&& texture.GetVMask) <<< texture.GetShift) % 4294967296) % 4294967296
  (texture.GetData.getD []).getD index 0

/-- The pixel loop of `DrawTexturedSpan`, `while( len > 0 )`, with `len`
iterations left. -/
def Renderer.texturedPixels (r : Renderer) (texture : Texture) (row dudx dvdx dzdx : Int) :
    Nat → Int → Int → Int → Int → List PixelWrite
  | 0, _, _, _, _ => []
  | len + 1, column, leftU, leftV, leftZ =>
    let real_z := r.DivLookup leftZ
    let real_u := wrap32 ((leftU * real_z) >>> (32 : Nat))
    let real_v := wrap32 ((leftV * real_z) >>> (32 : Nat))
    let value := texture.texel real_u real_v
    let color := (texture.GetPalette.getD []).getD value 0
    { row := row, column := column, color := color } ::
      Renderer.texturedPixels r texture row dudx dvdx dzdx len (column + 1)
        (wrap32 (leftU + dudx)) (wrap32 (leftV + dvdx)) (wrap32 (leftZ + dzdx))

/-- The end of `DrawTexturedSpan`, from the clip to the right side of the
canvas on: `len` and `left` are the span length and start after the clip to
the left side. -/
def Renderer.DrawTexturedSpan.draw (r : Renderer) (texture : Texture)
    (row dudx dvdx dzdx right leftU leftV leftZ len left : Int) : List PixelWrite :=
  -- clip to the right side of the rendering canvas
  let len := if right ≥ r.m_canvas.m_right then wrap32 (r.m_canvas.m_right - left) else len
  -- check whether still something left to draw
  if len ≤ 0 then []
  else r.texturedPixels texture row dudx dvdx dzdx len.toNat left leftU leftV leftZ

/-- `Renderer::DrawTexturedSpan` on the scanline `row` (the scanline
`scanlinePtr` points to): the stores it makes. -/
def Renderer.DrawTexturedSpan (r : Renderer) (leftX rightX leftU leftV leftZ dudx dvdx dzdx : Int)
    (row : Int) (texture : Texture) : Except NovaError (List PixelWrite) := do
  -- ceil() span endpoint Xs to integers
  let left := CeilFixed leftX
  let right := CeilFixed rightX
  -- apply subtexel accuracy
  let prestep := wrap32 (wrap32 (left * 65536) - leftX)
  let leftU := wrap32 (leftU + (← FixedLargeMul prestep dudx))
  let leftV := wrap32 (leftV + (← FixedLargeMul prestep dvdx))
  let leftZ := wrap32 (leftZ + (← FixedLargeMul prestep dzdx))
  -- check whether the span is completely outside the view port (canvas)
  if left > r.m_canvas.m_right ∨ right < r.m_canvas.m_left then pure []
  else
    -- calculate span length
    let len := wrap32 (wrap32 (right - left) + 1)
    -- clip to the left side of the rendering canvas
    if left < r.m_canvas.m_left then do
      let diff := wrap32 (wrap32 (r.m_canvas.m_left * 65536) - leftX)
      let leftU := wrap32 (leftU + (← FixedLargeMul diff dudx))
      let leftV := wrap32 (leftV + (← FixedLargeMul diff dvdx))
      let leftZ := wrap32 (leftZ + (← FixedLargeMul diff dzdx))
      pure (Renderer.DrawTexturedSpan.draw r texture row dudx dvdx dzdx right leftU leftV leftZ
        (wrap32 (len - wrap32 (r.m_canvas.m_left - left))) r.m_canvas.m_left)
    else
      pure (Renderer.DrawTexturedSpan.draw r texture row dudx dvdx dzdx right leftU leftV leftZ
        len left)

/-- The locals of `DrawTexturedTriangle` that the scan loop carries. -/
structure TexturedEdges where
  left_x : Int
  left_u : Int
  left_v : Int
  left_z : Int
  left_dxdy : Int
  left_dudy : Int
  left_dvdy : Int
  left_dzdy : Int
  right_x : Int
  right_dxdy : Int
  deriving DecidableEq, Repr

/-- The expression `((to.m_x - from.m_x) / len) << 8` of the right edge. -/
def rightSlope (v w : ScreenVertex) (len : Int) : Int :=
  wrap32 (Int.tdiv (wrap32 (w.m_x - v.m_x)) len * 256)

/-- The part of `DrawTexturedTriangle` between `IsLongOnLeft` and the scan
loop: the edge values for the top half, with subpixel accuracy applied. -/
def Renderer.DrawTexturedTriangle.setup (vertex1 vertex2 vertex3 : ScreenVertex) (y1 y2 : Int)
    (long_on_left : Bool) (long_inv_len long_x long_dxdy : Int) :
    Except NovaError TexturedEdges := do
  -- the interpolated values start from v1 (unless len(v2-v1)=0)
  let s : TexturedEdges :=
    { left_x := long_x, left_u := vertex1.m_redU, left_v := vertex1.m_greenV,
      left_z := vertex1.m_z, left_dxdy := 0, left_dudy := 0, left_dvdy := 0, left_dzdy := 0,
      right_x := 0, right_dxdy := 0 }
  let s : TexturedEdges ←
    if long_on_left then do
      let left_dudy ← FixedLargeMul (wrap32 (vertex3.m_redU - s.left_u)) long_inv_len
      let left_dvdy ← FixedLargeMul (wrap32 (vertex3.m_greenV - s.left_v)) long_inv_len
      let left_dzdy ← FixedLargeMul (wrap32 (vertex3.m_z - s.left_z)) long_inv_len
      let s := { s with left_dxdy := long_dxdy, left_dudy := left_dudy, left_dvdy := left_dvdy,
                        left_dzdy := left_dzdy }
      -- calculate 'right' values for v1-v2
      let len := wrap32 (vertex2.m_y - vertex1.m_y) >>> (8 : Nat)
      if y2 > y1 ∧ len > 0 then
        pure { s with right_x := vertex1.m_x, right_dxdy := rightSlope vertex1 vertex2 len }
      else pure s
    else do
      -- long edge is on right
      let s := { s with right_x := long_x, right_dxdy := long_dxdy }
      if y2 > y1 then do
        -- calculate 'left' values for v1-v2
        let inv_len ← inverseLength (wrap32 (vertex2.m_y - vertex1.m_y))
        let left_dxdy ← FixedLargeMul (wrap32 (vertex2.m_x - s.left_x)) inv_len
        let left_dudy ← FixedLargeMul (wrap32 (vertex2.m_redU - s.left_u)) inv_len
        let left_dvdy ← FixedLargeMul (wrap32 (vertex2.m_greenV - s.left_v)) inv_len
        let left_dzdy ← FixedLargeMul (wrap32 (vertex2.m_z - s.left_z)) inv_len
        pure { s with left_dxdy := left_dxdy, left_dudy := left_dudy, left_dvdy := left_dvdy,
                      left_dzdy := left_dzdy }
      else pure s
  -- apply subpixel accuracy
  let prestep := wrap32 (wrap32 (y1 * 65536) - vertex1.m_y)
  let left_x := wrap32 (s.left_x + (← FixedLargeMul prestep s.left_dxdy))
  let left_u := wrap32 (s.left_u + (← FixedLargeMul prestep s.left_dudy))
  let left_v := wrap32 (s.left_v + (← FixedLargeMul prestep s.left_dvdy))
  let left_z := wrap32 (s.left_z + (← FixedLargeMul prestep s.left_dzdy))
  let right_x := wrap32 (s.right_x + (← FixedLargeMul prestep s.right_dxdy))
  pure { s with left_x := left_x, left_u := left_u, left_v := left_v, left_z := left_z,
                right_x := right_x }

/-- The branch `if( cur_y == y2 )` of the scan loop of `DrawTexturedTriangle`
once the triangle is known to have a bottom half: the edge values for
`v2 - v3`, or `none` where the code returns because there is no right
side. -/
def Renderer.DrawTexturedTriangle.atMiddle (long_on_left : Bool) (vertex2 vertex3 : ScreenVertex)
    (y2 : Int) (s : TexturedEdges) : Except NovaError (Option TexturedEdges) := do
  let prestep := wrap32 (wrap32 (y2 * 65536) - vertex2.m_y)
  if long_on_left then
    -- update right side stuff for v2-v3
    let len := wrap32 (vertex3.m_y - vertex2.m_y) >>> (8 : Nat)
    if len ≤ 0 then pure none
    else do
      let right_dxdy := rightSlope vertex2 vertex3 len
      -- apply subpixel accuracy
      let right_x := wrap32 (vertex2.m_x + (← FixedLargeMul prestep right_dxdy))
      pure (some { s with right_x := right_x, right_dxdy := right_dxdy })
  else do
    -- update left side stuff for v2-v3
    let inv_len ← inverseLength (wrap32 (vertex3.m_y - vertex2.m_y))
    let left_x := vertex2.m_x
    let left_u := vertex2.m_redU
    let left_v := vertex2.m_greenV
    let left_z := vertex2.m_z
    let left_dxdy ← FixedLargeMul (wrap32 (vertex3.m_x - left_x)) inv_len
    let left_dudy ← FixedLargeMul (wrap32 (vertex3.m_redU - left_u)) inv_len
    let left_dvdy ← FixedLargeMul (wrap32 (vertex3.m_greenV - left_v)) inv_len
    let left_dzdy ← FixedLargeMul (wrap32 (vertex3.m_z - left_z)) inv_len
    -- apply subpixel accuracy
    let left_x := wrap32 (left_x + (← FixedLargeMul prestep left_dxdy))
    let left_u := wrap32 (left_u + (← FixedLargeMul prestep left_dudy))
    let left_v := wrap32 (left_v + (← FixedLargeMul prestep left_dvdy))
    let left_z := wrap32 (left_z + (← FixedLargeMul prestep left_dzdy))
    pure (some { s with left_x := left_x, left_u := left_u, left_v := left_v, left_z := left_z,
                        left_dxdy := left_dxdy, left_dudy := left_dudy,
                        left_dvdy := left_dvdy, left_dzdy := left_dzdy })

/-- The increments at the end of one pass of the scan loop of
`DrawTexturedTriangle`. -/
def TexturedEdges.advance (s : TexturedEdges) : TexturedEdges :=
  { s with left_x := wrap32 (s.left_x + s.left_dxdy), left_u := wrap32 (s.left_u + s.left_dudy),
           left_v := wrap32 (s.left_v + s.left_dvdy), left_z := wrap32 (s.left_z + s.left_dzdy),
           right_x := wrap32 (s.right_x + s.right_dxdy) }

/-- The triangle edge scan loop of `DrawTexturedTriangle`.  The first
argument bounds the number of passes; the result is `none` when it was too
small. -/
def Renderer.DrawTexturedTriangle.loop (r : Renderer) (texture : Texture)
    (gradients : PolygonGradients) (long_on_left : Bool) (vertex2 vertex3 : ScreenVertex)
    (y2 y3 lowest_y : Int) : Nat → Int → TexturedEdges → Option DrawResult
  | 0, cur_y, _ =>
    if cur_y ≤ lowest_y then none else some ⟨[], none⟩
  | fuel + 1, cur_y, s =>
    if cur_y ≤ lowest_y then
      -- the triangle has flat bottom
      if cur_y = y2 ∧ y3 = y2 then some ⟨[], none⟩
      else
        match (if cur_y = y2 then
            Renderer.DrawTexturedTriangle.atMiddle long_on_left vertex2 vertex3 y2 s
          else pure (some s)) with
        | Except.error e => some ⟨[], some e⟩
        | Except.ok none => some ⟨[], none⟩
        | Except.ok (some s) =>
          match (if cur_y ≥ r.m_canvas.m_top then
              r.DrawTexturedSpan s.left_x s.right_x s.left_u s.left_v s.left_z gradients.dudx
                gradients.dvdx gradients.dzdx cur_y texture
            else pure []) with
          | Except.error e => some ⟨[], some e⟩
          | Except.ok span =>
            match Renderer.DrawTexturedTriangle.loop r texture gradients long_on_left
              vertex2 vertex3 y2 y3 lowest_y fuel (wrap32 (cur_y + 1)) s.advance with
            | none => none
            | some rest => some ⟨span ++ rest.pixels, rest.failure⟩
    else some ⟨[], none⟩

/-- `Renderer::DrawTexturedTriangle`; `texture` is the texture
`face->m_texture` points to and `gradients` what
`CalculatePolygonGradients` stored for the three sorted vertices. -/
def Renderer.DrawTexturedTriangle (r : Renderer) (face : ScreenPolygon) (texture : Texture)
    (gradients : PolygonGradients) : Option DrawResult :=
  let (vertex1, vertex2, vertex3) := SelectVertexOrder face
  let y1 := CeilFixed vertex1.m_y
  let y2 := CeilFixed vertex2.m_y
  let y3 := CeilFixed vertex3.m_y
  match IsLongOnLeft vertex1 vertex2 vertex3 with
  | Except.error e => some ⟨[], some e⟩
  | Except.ok (long_on_left, long_inv_len, long_x, long_dxdy) =>
    match Renderer.DrawTexturedTriangle.setup vertex1 vertex2 vertex3 y1 y2 long_on_left
        long_inv_len long_x long_dxdy with
    | Except.error e => some ⟨[], some e⟩
    | Except.ok s =>
      let lowest_y := wrap32 (min y3 r.m_canvas.m_bottom - 1)
      Renderer.DrawTexturedTriangle.loop r texture gradients long_on_left vertex2 vertex3 y2 y3
        lowest_y (lowest_y + 1 - y1).toNat y1 s

/-! ## Renderer.cpp: the lighted textured rasteriser -/

/-- The pixel loop of `DrawLightedTexturedSpan` with `len` iterations left.
The palette is `tex_palettes + (intensityLeft >> FixedPointPrec) *
NumPaletteEntries`; a read outside the array is given the value 0. -/
def Renderer.lightedPixels (r : Renderer) (texture : Texture) (row dudx dvdx dzdx didx : Int) :
    Nat → Int → Int → Int → Int → Int → List PixelWrite
  | 0, _, _, _, _, _ => []
  | len + 1, column, leftU, leftV, leftZ, intensityLeft =>
    let real_z := r.DivLookup leftZ
    let real_u := wrap32 ((leftU * real_z) >>> (32 : Nat))
    let real_v := wrap32 ((leftV * real_z) >>> (32 : Nat))
    let value := texture.texel real_u real_v
    let index : Int := (intensityLeft >>> FixedPointPrec) * NumPaletteEntries + value
    let color := if index < 0 then 0 else (texture.GetPalette.getD []).getD index.toNat 0
    { row := row, column := column, color := color } ::
      Renderer.lightedPixels r texture row dudx dvdx dzdx didx len (column + 1)
        (wrap32 (leftU + dudx)) (wrap32 (leftV + dvdx)) (wrap32 (leftZ + dzdx))
        (wrap32 (intensityLeft + didx))

/-- The end of `DrawLightedTexturedSpan`, from the clip to the right side of
the canvas on: `len` and `left` are the span length and start after the clip
to the left side. -/
def Renderer.DrawLightedTexturedSpan.draw (r : Renderer) (texture : Texture)
    (row dudx dvdx dzdx didx right leftU leftV leftZ intensityLeft len left : Int) :
    List PixelWrite :=
  -- clip to the right side of the rendering canvas
  let len := if right ≥ r.m_canvas.m_right then wrap32 (r.m_canvas.m_right - left) else len
  -- check whether still something left to draw
  if len ≤ 0 then []
  else r.lightedPixels texture row dudx dvdx dzdx didx len.toNat left leftU leftV leftZ
    intensityLeft

/-- `Renderer::DrawLightedTexturedSpan` on the scanline `row`: the stores it
makes. -/
def Renderer.DrawLightedTexturedSpan (r : Renderer)
    (leftX rightX leftU leftV leftZ intensityLeft dudx dvdx dzdx didx : Int)
    (row : Int) (texture : Texture) : Except NovaError (List PixelWrite) := do
  -- ceil() span endpoint Xs to integers
  let left := CeilFixed leftX
  let right := CeilFixed rightX
  -- apply subtexel accuracy
  let prestep := wrap32 (wrap32 (left * 65536) - leftX)
  let leftU := wrap32 (leftU + (← FixedLargeMul prestep dudx))
  let leftV := wrap32 (leftV + (← FixedLargeMul prestep dvdx))
  let leftZ := wrap32 (leftZ + (← FixedLargeMul prestep dzdx))
  -- check whether the span is completely outside the view port (canvas)
  if left > r.m_canvas.m_right ∨ right < r.m_canvas.m_left then pure []
  else
    -- calculate span length
    let len := wrap32 (wrap32 (right - left) + 1)
    -- clip to the left side of the rendering canvas
    if left < r.m_canvas.m_left then do
      let diff := wrap32 (wrap32 (r.m_canvas.m_left * 65536) - leftX)
      let leftU := wrap32 (leftU + (← FixedLargeMul diff dudx))
      let leftV := wrap32 (leftV + (← FixedLargeMul diff dvdx))
      let leftZ := wrap32 (leftZ + (← FixedLargeMul diff dzdx))
      let intensityLeft := wrap32 (intensityLeft + (← FixedLargeMul diff didx))
      pure (Renderer.DrawLightedTexturedSpan.draw r texture row dudx dvdx dzdx didx right leftU
        leftV leftZ intensityLeft (wrap32 (len - wrap32 (r.m_canvas.m_left - left)))
        r.m_canvas.m_left)
    else
      pure (Renderer.DrawLightedTexturedSpan.draw r texture row dudx dvdx dzdx didx right leftU
        leftV leftZ intensityLeft len left)

/-- The locals of `DrawLightedTexturedTriangle` that the scan loop carries. -/
structure LightedEdges where
  left_x : Int
  left_u : Int
  left_v : Int
  left_z : Int
  left_intensity : Int
  left_dxdy : Int
  left_dudy : Int
  left_dvdy : Int
  left_dzdy : Int
  left_didy : Int
  right_x : Int
  right_dxdy : Int
  deriving DecidableEq, Repr

/-- The part of `DrawLightedTexturedTriangle` between `IsLongOnLeft` and the
scan loop.  The seven locals `left_dxdy`, `left_dudy`, `left_dvdy`,
`left_dzdy`, `left_didy`, `right_x`, `right_dxdy` are declared without an
initial value: `uninit` holds what they contain before their first
assignment. -/
def Renderer.DrawLightedTexturedTriangle.setup (vertex1 vertex2 vertex3 : ScreenVertex)
    (y1 y2 : Int) (long_on_left : Bool) (long_inv_len long_x long_dxdy : Int)
    (uninit : LightedEdges) : Except NovaError LightedEdges := do
  -- the interpolated values start from v1 (unless len(v2-v1)=0)
  let s : LightedEdges :=
    { uninit with left_x := long_x, left_u := vertex1.m_redU, left_v := vertex1.m_greenV,
                  left_z := vertex1.m_z, left_intensity := vertex1.m_blueIntensity }
  let s : LightedEdges ←
    if long_on_left then do
      let left_dudy ← FixedLargeMul (wrap32 (vertex3.m_redU - s.left_u)) long_inv_len
      let left_dvdy ← FixedLargeMul (wrap32 (vertex3.m_greenV - s.left_v)) long_inv_len
      let left_dzdy ← FixedLargeMul (wrap32 (vertex3.m_z - s.left_z)) long_inv_len
      let left_didy ←
        FixedLargeMul (wrap32 (vertex3.m_blueIntensity - s.left_intensity)) long_inv_len
      let s := { s with left_dxdy := long_dxdy, left_dudy := left_dudy, left_dvdy := left_dvdy,
                        left_dzdy := left_dzdy, left_didy := left_didy }
      -- calculate 'right' values for v1-v2
      let len := wrap32 (vertex2.m_y - vertex1.m_y) >>> (8 : Nat)
      if y2 > y1 ∧ len > 0 then
        pure { s with right_x := vertex1.m_x, right_dxdy := rightSlope vertex1 vertex2 len }
      else pure s
    else do
      -- long edge is on right
      let s := { s with right_x := long_x, right_dxdy := long_dxdy }
      if y2 > y1 then do
        -- calculate 'left' values for v1-v2
        let inv_len ← inverseLength (wrap32 (vertex2.m_y - vertex1.m_y))
        let left_dxdy ← FixedLargeMul (wrap32 (vertex2.m_x - s.left_x)) inv_len
        let left_dudy ← FixedLargeMul (wrap32 (vertex2.m_redU - s.left_u)) inv_len
        let left_dvdy ← FixedLargeMul (wrap32 (vertex2.m_greenV - s.left_v)) inv_len
        let left_dzdy ← FixedLargeMul (wrap32 (vertex2.m_z - s.left_z)) inv_len
        let left_didy ←
          FixedLargeMul (wrap32 (vertex2.m_blueIntensity - s.left_intensity)) inv_len
        pure { s with left_dxdy := left_dxdy, left_dudy := left_dudy, left_dvdy := left_dvdy,
                      left_dzdy := left_dzdy, left_didy := left_didy }
      else pure s
  -- apply subpixel accuracy
  let prestep := wrap32 (wrap32 (y1 * 65536) - vertex1.m_y)
  let left_x := wrap32 (s.left_x + (← FixedLargeMul prestep s.left_dxdy))
  let left_u := wrap32 (s.left_u + (← FixedLargeMul prestep s.left_dudy))
  let left_v := wrap32 (s.left_v + (← FixedLargeMul prestep s.left_dvdy))
  let left_z := wrap32 (s.left_z + (← FixedLargeMul prestep s.left_dzdy))
  let left_intensity := wrap32 (s.left_intensity + (← FixedLargeMul prestep s.left_didy))
  let right_x := wrap32 (s.right_x + (← FixedLargeMul prestep s.right_dxdy))
  pure { s with left_x := left_x, left_u := left_u, left_v := left_v, left_z := left_z,
                left_intensity := left_intensity, right_x := right_x }

/-- The branch `if( cur_y == y2 )` of the scan loop of
`DrawLightedTexturedTriangle` once the triangle is known to have a bottom
half; `none` where the code returns because there is no right side. -/
def Renderer.DrawLightedTexturedTriangle.atMiddle (long_on_left : Bool)
    (vertex2 vertex3 : ScreenVertex) (y2 : Int) (s : LightedEdges) :
    Except NovaError (Option LightedEdges) := do
  let prestep := wrap32 (wrap32 (y2 * 65536) - vertex2.m_y)
  if long_on_left then
    -- update right side stuff for v2-v3
    let len := wrap32 (vertex3.m_y - vertex2.m_y) >>> (8 : Nat)
    if len ≤ 0 then pure none
    else do
      let right_dxdy := rightSlope vertex2 vertex3 len
      -- apply subpixel accuracy
      let right_x := wrap32 (vertex2.m_x + (← FixedLargeMul prestep right_dxdy))
      pure (some { s with right_x := right_x, right_dxdy := right_dxdy })
  else do
    -- update left side stuff for v2-v3
    let inv_len ← inverseLength (wrap32 (vertex3.m_y - vertex2.m_y))
    let left_x := vertex2.m_x
    let left_u := vertex2.m_redU
    let left_v := vertex2.m_greenV
    let left_z := vertex2.m_z
    let left_intensity := vertex2.m_blueIntensity
    let left_dxdy ← FixedLargeMul (wrap32 (vertex3.m_x - left_x)) inv_len
    let left_dudy ← FixedLargeMul (wrap32 (vertex3.m_redU - left_u)) inv_len
    let left_dvdy ← FixedLargeMul (wrap32 (vertex3.m_greenV - left_v)) inv_len
    let left_dzdy ← FixedLargeMul (wrap32 (vertex3.m_z - left_z)) inv_len
    let left_didy ← FixedLargeMul (wrap32 (vertex3.m_blueIntensity - left_intensity)) inv_len
    -- apply subpixel accuracy
    let left_x := wrap32 (left_x + (← FixedLargeMul prestep left_dxdy))
    let left_u := wrap32 (left_u + (← FixedLargeMul prestep left_dudy))
    let left_v := wrap32 (left_v + (← FixedLargeMul prestep left_dvdy))
    let left_z := wrap32 (left_z + (← FixedLargeMul prestep left_dzdy))
    let left_intensity := wrap32 (left_intensity + (← FixedLargeMul prestep left_didy))
    pure (some { s with left_x := left_x, left_u := left_u, left_v := left_v, left_z := left_z,
                        left_intensity := left_intensity, left_dxdy := left_dxdy,
                        left_dudy := left_dudy, left_dvdy := left_dvdy, left_dzdy := left_dzdy,
                        left_didy := left_didy })

/-- The increments at the end of one pass of the scan loop of
`DrawLightedTexturedTriangle`. -/
def LightedEdges.advance (s : LightedEdges) : LightedEdges :=
  { s with left_x := wrap32 (s.left_x + s.left_dxdy), left_u := wrap32 (s.left_u + s.left_dudy),
           left_v := wrap32 (s.left_v + s.left_dvdy), left_z := wrap32 (s.left_z + s.left_dzdy),
           left_intensity := wrap32 (s.left_intensity + s.left_didy),
           right_x := wrap32 (s.right_x + s.right_dxdy) }

/-- The triangle edge scan loop of `DrawLightedTexturedTriangle`.  The first
argument bounds the number of passes; the result is `none` when it was too
small. -/
def Renderer.DrawLightedTexturedTriangle.loop (r : Renderer) (texture : Texture)
    (gradients : PolygonGradients) (long_on_left : Bool) (vertex2 vertex3 : ScreenVertex)
    (y2 y3 lowest_y : Int) : Nat → Int → LightedEdges → Option DrawResult
  | 0, cur_y, _ =>
    if cur_y ≤ lowest_y then none else some ⟨[], none⟩
  | fuel + 1, cur_y, s =>
    if cur_y ≤ lowest_y then
      -- the triangle has flat bottom
      if cur_y = y2 ∧ y3 = y2 then some ⟨[], none⟩
      else
        match (if cur_y = y2 then
            Renderer.DrawLightedTexturedTriangle.atMiddle long_on_left vertex2 vertex3 y2 s
          else pure (some s)) with
        | Except.error e => some ⟨[], some e⟩
        | Except.ok none => some ⟨[], none⟩
        | Except.ok (some s) =>
          match (if cur_y ≥ r.m_canvas.m_top then
              r.DrawLightedTexturedSpan s.left_x s.right_x s.left_u s.left_v s.left_z
                s.left_intensity gradients.dudx gradients.dvdx gradients.dzdx gradients.didx
                cur_y texture
            else pure []) with
          | Except.error e => some ⟨[], some e⟩
          | Except.ok span =>
            match Renderer.DrawLightedTexturedTriangle.loop r texture gradients
              long_on_left vertex2 vertex3 y2 y3 lowest_y fuel (wrap32 (cur_y + 1)) s.advance with
            | none => none
            | some rest => some ⟨span ++ rest.pixels, rest.failure⟩
    else some ⟨[], none⟩

/-- `Renderer::DrawLightedTexturedTriangle`; `texture` is the texture
`face->m_texture` points to, `gradients` what `CalculatePolygonGradients`
stored for the three sorted vertices, and `uninit` the content of the locals
declared without an initial value. -/
def Renderer.DrawLightedTexturedTriangle (r : Renderer) (face : ScreenPolygon)
    (texture : Texture) (gradients : PolygonGradients) (uninit : LightedEdges) : Option DrawResult :=
  let (vertex1, vertex2, vertex3) := SelectVertexOrder face
  let y1 := CeilFixed vertex1.m_y
  let y2 := CeilFixed vertex2.m_y
  let y3 := CeilFixed vertex3.m_y
  match IsLongOnLeft vertex1 vertex2 vertex3 with
  | Except.error e => some ⟨[], some e⟩
  | Except.ok (long_on_left, long_inv_len, long_x, long_dxdy) =>
    match Renderer.DrawLightedTexturedTriangle.setup vertex1 vertex2 vertex3 y1 y2 long_on_left
        long_inv_len long_x long_dxdy uninit with
    | Except.error e => some ⟨[], some e⟩
    | Except.ok s =>
      let lowest_y := wrap32 (min y3 r.m_canvas.m_bottom - 1)
      Renderer.DrawLightedTexturedTriangle.loop r texture gradients long_on_left vertex2 vertex3
        y2 y3 lowest_y (lowest_y + 1 - y1).toNat y1 s

/-- Typing of a screen vertex: the six words are `int_32` values. -/
def ScreenVertex.InRange (v : ScreenVertex) : Prop :=
  InInt32 v.m_x ∧ InInt32 v.m_y ∧ InInt32 v.m_z ∧ InInt32 v.m_redU ∧ InInt32 v.m_greenV ∧
    InInt32 v.m_blueIntensity

instance (v : ScreenVertex) : Decidable v.InRange := by
  unfold ScreenVertex.InRange; exact inferInstance

/-- Typing of a screen polygon: its three vertices hold `int_32` values. -/
def ScreenPolygon.InRange (face : ScreenPolygon) : Prop :=
  face.m_v1.InRange ∧ face.m_v2.InRange ∧ face.m_v3.InRange

instance (face : ScreenPolygon) : Decidable face.InRange := by
  unfold ScreenPolygon.InRange; exact inferInstance

/-- Typing of a canvas: the four bounds are `int_32` values, and
`m_bottom - 1`, which every rasteriser computes, is one as well. -/
def RenderingCanvas.InRange (c : RenderingCanvas) : Prop :=
  InInt32 c.m_top ∧ InInt32 c.m_left ∧ InInt32 c.m_right ∧ InInt32 c.m_bottom ∧
    InInt32 (c.m_bottom - 1)

instance (c : RenderingCanvas) : Decidable c.InRange := by
  unfold RenderingCanvas.InRange; exact inferInstance

/-- The store lies inside the canvas. -/
def PixelWrite.Inside (p : PixelWrite) (c : RenderingCanvas) : Prop :=
  c.m_top ≤ p.row ∧ p.row < c.m_bottom ∧ c.m_left ≤ p.column ∧ p.column < c.m_right

instance (p : PixelWrite) (c : RenderingCanvas) : Decidable (p.Inside c) := by
  unfold PixelWrite.Inside; exact inferInstance

/-- Screen height of a face: the largest minus the smallest vertex Y. -/
def ScreenPolygon.height (face : ScreenPolygon) : Int :=
  max face.m_v1.m_y (max face.m_v2.m_y face.m_v3.m_y) -
    min face.m_v1.m_y (min face.m_v2.m_y face.m_v3.m_y)

/-- An 8 by 8 canvas of format 888 with the lookup entry 0 set to 0. -/
def exampleRenderer : Renderer :=
  { m_canvas := { m_top := 0, m_bottom := 8, m_left := 0, m_right := 8,
                  m_pixelFormat := PixelFormat888 },
    m_fixedDivLookup0 := 0 }

/-- A screen vertex at whole pixel coordinates with the three union words
given in whole units. -/
def exampleScreenVertex (x y a b c : Int) : ScreenVertex :=
  { m_x := x * 65536, m_y := y * 65536, m_z := 65536, m_redU := a * 65536,
    m_greenV := b * 65536, m_blueIntensity := c * 65536 }

/-- A red triangle that sticks out of the example canvas on three sides. -/
def exampleRedFace : ScreenPolygon :=
  { m_v1 := exampleScreenVertex (-3) (-2) 255 0 0, m_v2 := exampleScreenVertex 12 2 255 0 0,
    m_v3 := exampleScreenVertex 3 12 255 0 0, m_zSortValue := 0, m_texture := none,
    m_polygonFlags := 0 }

/-- A textured triangle whose three vertices have the same Y. -/
def exampleFlatFace : ScreenPolygon :=
  { m_v1 := exampleScreenVertex 1 3 0 0 0, m_v2 := exampleScreenVertex 6 3 15 0 0,
    m_v3 := exampleScreenVertex 3 3 0 15 0, m_zSortValue := 0, m_texture := some 0,
    m_polygonFlags := 0 }

/-- A textured triangle of height 0.65: its vertex Ys are 3.5, 3.61 and
4.15. -/
def exampleThinFace : ScreenPolygon :=
  { m_v1 := ⟨65536, 3 * 65536 + 32768, 65536, 0, 0, 0⟩,
    m_v2 := ⟨6 * 65536, 3 * 65536 + 40000, 65536, 0, 0, 0⟩,
    m_v3 := ⟨3 * 65536, 4 * 65536 + 10000, 65536, 0, 0, 0⟩,
    m_zSortValue := 0, m_texture := some 0, m_polygonFlags := 0 }

/-- All locals without an initial value hold 0. -/
def exampleUninit : LightedEdges :=
  { left_x := 0, left_u := 0, left_v := 0, left_z := 0, left_intensity := 0, left_dxdy := 0,
    left_dudy := 0, left_dvdy := 0, left_dzdy := 0, left_didy := 0, right_x := 0,
    right_dxdy := 0 }

/-- The store is on a scanline between `top` and `low` and in a column of
the canvas. -/
def PixelWrite.Within (p : PixelWrite) (c : RenderingCanvas) (top low : Int) : Prop :=
  top ≤ p.row ∧ p.row ≤ low ∧ c.m_left ≤ p.column ∧ p.column < c.m_right

/-- The vertex carries the colour `(red, green, blue)`. -/
def ScreenVertex.HasColor (v : ScreenVertex) (red green blue : Int) : Prop :=
  v.m_redU = red ∧ v.m_greenV = green ∧ v.m_blueIntensity = blue

instance (v : ScreenVertex) (red green blue : Int) : Decidable (v.HasColor red green blue) := by
  unfold ScreenVertex.HasColor; exact inferInstance

/-- The long edge `v1 - v3` of `DrawTriangle` holds the colour
`(red, green, blue)` with zero slopes. -/
def GouraudEdges.LongUniform (s : GouraudEdges) (red green blue : Int) : Prop :=
  (s.red2 = red ∧ s.red2_slope = 0) ∧ (s.green2 = green ∧ s.green2_slope = 0) ∧
    (s.blue2 = blue ∧ s.blue2_slope = 0)

/-- The short edge of `DrawTriangle` holds the colour `(red, green, blue)`
with zero slopes. -/
def GouraudEdges.ShortUniform (s : GouraudEdges) (red green blue : Int) : Prop :=
  (s.red1 = red ∧ s.red1_slope = 0) ∧ (s.green1 = green ∧ s.green1_slope = 0) ∧
    (s.blue1 = blue ∧ s.blue1_slope = 0)

/-! ## NovaErrors.h: the remaining codes -/

/-- Error code `NovaErrOutOfBounds`. -/
def NovaErrOutOfBounds : Int := -2

/-- Error code `NovaErrOverflow`. -/
def NovaErrOverflow : Int := -4

/-- Error code `NovaErrUnderrun`. -/
def NovaErrUnderrun : Int := -5

/-- Error code `NovaErrAlreadySet`. -/
def NovaErrAlreadySet : Int := -6

/-- Error code `NovaErrNotSet`. -/
def NovaErrNotSet : Int := -7

/-- Error code `NovaErrLiveSceneGraph`. -/
def NovaErrLiveSceneGraph : Int := -8

/-- Error code `NovaErrNotInitialized`. -/
def NovaErrNotInitialized : Int := -10

/-- Error code `NovaErrAlreadyInitialized`. -/
def NovaErrAlreadyInitialized : Int := -11

/-- Error code `NovaErrInvalidPixelFormat`. -/
def NovaErrInvalidPixelFormat : Int := -13

/-- Error code `NovaErrNoVertexNormals`. -/
def NovaErrNoVertexNormals : Int := -14

/-- The sixteen codes `NovaErrors.h` declares, in the order of the file. -/
def novaErrorCodes : List Int :=
  [NovaErrNone, NovaErrNotFound, NovaErrOutOfBounds, NovaErrNoMemory, NovaErrOverflow,
   NovaErrUnderrun, NovaErrAlreadySet, NovaErrNotSet, NovaErrLiveSceneGraph,
   NovaErrInvalidArgument, NovaErrNotInitialized, NovaErrAlreadyInitialized,
   NovaErrTextureTooLarge, NovaErrInvalidPixelFormat, NovaErrNoVertexNormals,
   NovaErrTextureDimensionInvalid]

/-- `Shape::SetTexture( polygonIndex, texture )`: the returned code.
`m_numPolygons` and `m_pixelFormat` are the fields of the shape,
`allocateTextureList` is the code `AllocateTextureList` returns when
`m_textures` is `NULL` (`none` when the list exists already). -/
def Shape.SetTexture (m_numPolygons : Int) (m_pixelFormat : NovaPixelFormat)
    (allocateTextureList : Option Int) (polygonIndex : Int) (texture : Texture) : Int :=
  if polygonIndex < 0 ∨ polygonIndex ≥ m_numPolygons then
    NovaErrOutOfBounds
  else if texture.GetPixelFormat ≠ m_pixelFormat then
    -- texture's pixel format must match the shape's
    NovaErrInvalidPixelFormat
  else
    match allocateTextureList with
    | some ret => if ret ≠ NovaErrNone then ret else NovaErrNone
    | none => NovaErrNone

/-! ## NovaTypes.h: `real_64` in comparisons -/

/-- A `real_64` value as a comparison sees it: a finite value (the rational
it denotes), an infinity or a NaN. -/
inductive Real64 where
  | finite (value : ℚ)
  | posInf
  | negInf
  | nan
  deriving DecidableEq, Repr

/-- The comparison `a < b` of two `real_64` values; it is false when either
operand is a NaN. -/
def Real64.lt : Real64 → Real64 → Bool
  | Real64.finite a, Real64.finite b => decide (a < b)
  | Real64.finite _, Real64.posInf => true
  | Real64.negInf, Real64.finite _ => true
  | Real64.negInf, Real64.posInf => true
  | _, _ => false

/-! ## Camera.cpp: field of view and the visible face buffer -/

/-- `Camera::RenderingCanvasUpdated`.  The `real_64` computation
`(int_32)(view_width_div2 / tangent)` is not modelled: its value for the
stored field of view and the canvas is the parameter `factor`.  It is
assigned to `m_perspectiveFactor` before the test; the Boolean is false when
the function throws "Illegal perspective factor".  The frustum is not part of
the model. -/
def Camera.RenderingCanvasUpdated (cam : Camera) (factor : Int) : Bool × Camera :=
  let cam := { cam with m_perspectiveFactor := factor }
  (decide (cam.m_perspectiveFactor > 0), cam)

/-- `Camera::SetFov( fov )` on a camera whose stored field of view is
`m_fov`: the returned code (`none` when `RenderingCanvasUpdated` throws), the
stored field of view and the camera as the call leaves them. -/
def Camera.SetFov (cam : Camera) (m_fov fov : Real64) (factor : Int) :
    Option Int × Real64 × Camera :=
  if fov.lt (Real64.finite 1) || (Real64.finite 179).lt fov then
    (some NovaErrOutOfBounds, m_fov, cam)
  else
    let m_fov := fov
    -- recalculate things
    let updated := cam.RenderingCanvasUpdated factor
    if updated.1 then (some NovaErrNone, m_fov, updated.2) else (none, m_fov, updated.2)

/-- The fields `CheckVisibleFaceBuffer` works on: `m_maxVisibleFaces` and the
two allocations, each given by the number of entries it was allocated for
(`none` for `NULL`). -/
structure FaceBuffers where
  m_maxVisibleFaces : Int
  m_visibleFaceBuffer : Option Int
  m_visibleFaceList : Option Int
  deriving DecidableEq, Repr

/-- The fields as `Camera::Camera` initialises them. -/
def FaceBuffers.new : FaceBuffers :=
  { m_maxVisibleFaces := 0, m_visibleFaceBuffer := none, m_visibleFaceList := none }

/-- `Camera::CheckVisibleFaceBuffer( numPolygons )`: the returned code and
the fields afterwards.  `bufferAlloc` and `listAlloc` tell whether the two
calls of `malloc` succeed. -/
def Camera.CheckVisibleFaceBuffer (s : FaceBuffers) (numPolygons : Int)
    (bufferAlloc listAlloc : Bool) : Int × FaceBuffers :=
  -- maximum number of visible polygons is two times the amount of
  -- polygons in the whole scene due to the clipping.
  let maxVisiblePolygons := wrap32 (numPolygons * 2)
  if s.m_maxVisibleFaces ≠ maxVisiblePolygons then
    -- delete current allocations, save new max amount of screen polygons
    let s : FaceBuffers :=
      { m_maxVisibleFaces := maxVisiblePolygons, m_visibleFaceBuffer := none,
        m_visibleFaceList := none }
    -- reallocate
    if ¬ bufferAlloc then
      (NovaErrNoMemory, s)
    else
      let s := { s with m_visibleFaceBuffer := some s.m_maxVisibleFaces }
      if ¬ listAlloc then
        (NovaErrNoMemory, { s with m_visibleFaceBuffer := none })
      else
        (NovaErrNone, { s with m_visibleFaceList := some s.m_maxVisibleFaces })
  else
    (NovaErrNone, s)

/-- The loop of `Camera::SetShapeNodeList` that adds up `GetNumPolygons()`
over the shapes of the list; a shape is given by its polygons. -/
def Camera.SetShapeNodeList.total : List (List PolygonInput) → Int → Int
  | [], totalPolygons => totalPolygons
  | shape :: rest, totalPolygons =>
    Camera.SetShapeNodeList.total rest (wrap32 (totalPolygons + shape.length))

/-- `Camera::SetShapeNodeList`: the total number of polygons is passed to
`CheckVisibleFaceBuffer`, whose return code is dropped. -/
def Camera.SetShapeNodeList (s : FaceBuffers) (shapeNodeList : List (List PolygonInput))
    (bufferAlloc listAlloc : Bool) : FaceBuffers :=
  (Camera.CheckVisibleFaceBuffer s (Camera.SetShapeNodeList.total shapeNodeList 0)
    bufferAlloc listAlloc).2

/-- The loop `process each shape node` of `Camera::Render`: each shape of the
list goes through `ProcessPolygonList`, given by the polygons that function
reads once `ProcessShapeNode` has culled, lit and transformed the shape. -/
def Camera.Render.shapes (cam : Camera) : List (List PolygonInput) → Except NovaError Camera
  | [] => pure cam
  | shape :: rest => do
    let cam1 ← ProcessPolygonList cam shape
    Camera.Render.shapes cam1 rest

/-- The first part of `Camera::Render`: `m_numVisibleFaces` is reset to 0,
then every shape node is processed. -/
def Camera.Render.faces (cam : Camera) (shapeNodeList : List (List PolygonInput)) :
    Except NovaError Camera :=
  Camera.Render.shapes { cam with m_visibleFaceBuffer := [] } shapeNodeList

/-- An allocated visible face buffer has `m_maxVisibleFaces` entries. -/
def FaceBuffers.Consistent (s : FaceBuffers) : Prop :=
  ∀ entries, s.m_visibleFaceBuffer = some entries → entries = s.m_maxVisibleFaces

/-- Three polygons: one entirely in front of the near plane, one with one
vertex behind it, one flagged not visible. -/
def exampleFrameShape : List PolygonInput :=
  [{ exampleOneBehind with
       v1 := { x := 0, y := 0, z := 131072, valueA := 0, valueB := 0, valueC := 0 } },
   exampleOneBehind,
   { exampleOneBehind with polyFlags := 0 }]

/-! ## Shape.cpp: bounding sphere -/

/-- The counter `m_numCoordinates`. -/
def Shape.m_numCoordinates (shape : Shape) : Nat := shape.m_vertexInfos.length

/-- The loop of `Shape::CalculateBoundingSphereRadius` with `remaining`
passes left: `v` is the pointer the loop reads through, which no pass
advances; `MAX( a, b )` is `(a) > (b) ? (a) : (b)`. -/
def Shape.CalculateBoundingSphereRadius.loop (v : Vector) : Nat → Int → Except NovaError Int
  | 0, maxlen => pure maxlen
  | remaining + 1, maxlen => do
    let len ← v.LengthFixed
    Shape.CalculateBoundingSphereRadius.loop v remaining (if maxlen > len then maxlen else len)

/-- `Shape::CalculateBoundingSphereRadius`: the value it stores in
`m_boundingSphereRadius`, which `GetBoundingSphereRadius` returns.  `v` is
set to `m_coordinates`, the first coordinate. -/
def Shape.CalculateBoundingSphereRadius (shape : Shape) : Except NovaError Int :=
  Shape.CalculateBoundingSphereRadius.loop (shape.m_coordinates.getD 0 default)
    shape.m_numCoordinates 0

/-! ## Shape.cpp: vertex flags after culling -/

/-- The vertex flags have `VertexInfoVisible` set. -/
def IsVertexVisible (vertexInfo : Nat) : Prop := vertexInfo &&& VertexInfoVisible ≠ 0

instance (vertexInfo : Nat) : Decidable (IsVertexVisible vertexInfo) := by
  unfold IsVertexVisible; exact inferInstance

/-- The coordinate with index `c` is one of the three vertices of polygon
`k`, which are the entries `3 * k`, `3 * k + 1` and `3 * k + 2` of
`m_vertices`. -/
def Shape.IsVertexOf (shape : Shape) (c k : Nat) : Prop :=
  shape.m_vertices.getD (3 * k) 0 = c ∨ shape.m_vertices.getD (3 * k + 1) 0 = c ∨
    shape.m_vertices.getD (3 * k + 2) 0 = c

instance (shape : Shape) (c k : Nat) : Decidable (shape.IsVertexOf c k) := by
  unfold Shape.IsVertexOf; exact inferInstance

/-- Two triangles over four coordinates, with vertex flags left set by an
earlier call: the first polygon has the plane of the example triangle, the
second the opposite one. -/
def exampleTwoTriangles : Shape :=
  { m_coordinates := [⟨0, 0, 0⟩, ⟨65536, 0, 0⟩, ⟨0, 65536, 0⟩, ⟨0, 0, 65536⟩],
    m_vertices := [0, 1, 2, 1, 2, 3], m_polygonInfos := [0, 32],
    m_vertexInfos := [32, 32, 32, 32],
    m_planeEquations := [examplePlane, { m_normal := ⟨0, 0, -65535⟩, m_fixedD := 0 }] }

/-! ## Shape.cpp: lighting -/

/-- `AmbientLight`: the ambient light intensity as fixed point. -/
structure AmbientLight where
  m_intensity : Int
  deriving DecidableEq, Repr

/-- `AmbientLight::IntensityFixed`. -/
def AmbientLight.IntensityFixed (light : AmbientLight) : Int := light.m_intensity

/-- The light of a light node with its `GetType()`: `TypeAmbient` or
`TypePoint`. -/
inductive Light where
  | TypeAmbient (light : AmbientLight)
  | TypePoint (light : PointLight)

/-- The loop `for ( int k = 0; k < 3; k++ )` of `Shape::ApplyLighting` for
polygon `j` and one point light, from vertex `k` on with `remaining` passes
left.  The pointers `vertexIndex`, `normalIndex` and `intensity` stand at
entry `3 * j + k` of their arrays; `m_vertexNormals` and
`m_vertexNormalIndices` are the two normal arrays of the shape.  The store
into `m_distanceCache` writes the distance the pass used, which is the entry
itself when that was not 0. -/
def Shape.ApplyLighting.vertices (shape : Shape) (m_vertexNormals : List Vector)
    (m_vertexNormalIndices : List Nat) (pointLight : PointLight) (j : Nat) :
    Nat → Nat → List Int → List Int → Except NovaError (List Int × List Int)
  | 0, _, m_distanceCache, intensities => pure (m_distanceCache, intensities)
  | remaining + 1, k, m_distanceCache, intensities => do
    -- get current vertex coordinate
    let vertIndex := shape.m_vertices.getD (3 * j + k) 0
    let vertex := shape.m_coordinates.getD vertIndex default
    -- get normal for this vertex
    let normal := m_vertexNormals.getD (m_vertexNormalIndices.getD (3 * j + k) 0) default
    let r ← Shape.ApplyLighting.vertex pointLight pointLight.m_position vertex normal
      (m_distanceCache.getD vertIndex 0)
    let m_distanceCache := m_distanceCache.set vertIndex r.2
    -- add this light's effect on the total intensity for this vertex
    let intensities :=
      intensities.set (3 * j + k) (wrap32 (intensities.getD (3 * j + k) 0 + r.1))
    Shape.ApplyLighting.vertices shape m_vertexNormals m_vertexNormalIndices pointLight j
      remaining (k + 1) m_distanceCache intensities

/-- The test `((info & PolygonInfoVisible) == 0) ||
(planeEquation->IsOutside( lightObjectSpacePos ))` of `Shape::ApplyLighting`
for polygon `j`; `IsOutside` is called only when the flag is set. -/
def Shape.ApplyLighting.skip (shape : Shape) (lightObjectSpacePos : Vector) (j : Nat) :
    Except NovaError Bool :=
  let info := shape.m_polygonInfos.getD j 0
  if info &&& PolygonInfoVisible = 0 then pure true
  else (shape.m_planeEquations.getD j default).IsOutside lightObjectSpacePos

/-- The loop `process each polygon in the shape` of `Shape::ApplyLighting`
for one point light, from polygon `j` on with `remaining` polygons left. -/
def Shape.ApplyLighting.polygons (shape : Shape) (m_vertexNormals : List Vector)
    (m_vertexNormalIndices : List Nat) (pointLight : PointLight) :
    Nat → Nat → List Int → List Int → Except NovaError (List Int × List Int)
  | 0, _, m_distanceCache, intensities => pure (m_distanceCache, intensities)
  | remaining + 1, j, m_distanceCache, intensities => do
    -- the polygon must be facing the camera and light source to receive lighting
    let skip ← Shape.ApplyLighting.skip shape pointLight.m_position j
    if skip then
      -- polygon is not visible for the current camera and/or light; skip its lighting
      Shape.ApplyLighting.polygons shape m_vertexNormals m_vertexNormalIndices pointLight
        remaining (j + 1) m_distanceCache intensities
    else do
      -- process each vertex in polygon
      let r ← Shape.ApplyLighting.vertices shape m_vertexNormals m_vertexNormalIndices
        pointLight j 3 0 m_distanceCache intensities
      Shape.ApplyLighting.polygons shape m_vertexNormals m_vertexNormalIndices pointLight
        remaining (j + 1) r.1 r.2

/-- The loop `process each point light` of `Shape::ApplyLighting`.  An entry
of the list is `none` when `lightNodeList.Get` does not return `NovaErrNone`;
such an entry and a light that is not a point light are passed over.  For a
point light `m_distanceCache` is cleared over `m_numCoordinates` entries. -/
def Shape.ApplyLighting.lights (shape : Shape) (m_vertexNormals : List Vector)
    (m_vertexNormalIndices : List Nat) : List (Option Light) → List Int →
    Except NovaError (List Int)
  | [], intensities => pure intensities
  | none :: rest, intensities =>
    Shape.ApplyLighting.lights shape m_vertexNormals m_vertexNormalIndices rest intensities
  | some (Light.TypeAmbient _) :: rest, intensities =>
    Shape.ApplyLighting.lights shape m_vertexNormals m_vertexNormalIndices rest intensities
  | some (Light.TypePoint pointLight) :: rest, intensities => do
    -- let's initialize the distance cache entries to 0.
    let m_distanceCache := List.replicate shape.m_numCoordinates (0 : Int)
    let r ← Shape.ApplyLighting.polygons shape m_vertexNormals m_vertexNormalIndices
      pointLight shape.m_numPolygons 0 m_distanceCache intensities
    Shape.ApplyLighting.lights shape m_vertexNormals m_vertexNormalIndices rest r.2

/-- `Shape::ApplyLighting`: the array `m_lightingIntensities` after the
call.  Each of its `3 * m_numPolygons` entries is initialised to the ambient
intensity, then every point light of the list is processed. -/
def Shape.ApplyLighting (shape : Shape) (m_vertexNormals : List Vector)
    (m_vertexNormalIndices : List Nat) (ambientLight : AmbientLight)
    (lightNodeList : List (Option Light)) : Except NovaError (List Int) :=
  -- get ambient light intensity for the scene
  let ambientIntensity := ambientLight.IntensityFixed
  -- initialize each vertex's lighting intensity to the ambient intensity
  let numIntensities := 3 * shape.m_numPolygons
  let intensities := List.replicate numIntensities ambientIntensity
  Shape.ApplyLighting.lights shape m_vertexNormals m_vertexNormalIndices lightNodeList
    intensities

/-- The point lights among the entries of a light node list that
`ApplyLighting` processes, in order. -/
def pointLights : List (Option Light) → List PointLight
  | [] => []
  | some (Light.TypePoint pointLight) :: rest => pointLight :: pointLights rest
  | _ :: rest => pointLights rest

/-- The intensity one point light adds to the slot `i` of
`m_lightingIntensities`, which belongs to polygon `i / 3`: 0 when the polygon
is skipped, and otherwise the intensity the vertex pass computes from the
vertex and normal of the slot with the distance taken from `LengthFixed`. -/
def Shape.lightContribution (shape : Shape) (m_vertexNormals : List Vector)
    (m_vertexNormalIndices : List Nat) (pointLight : PointLight) (i : Nat) :
    Except NovaError Int := do
  let skip ← Shape.ApplyLighting.skip shape pointLight.m_position (i / 3)
  if skip then pure 0
  else do
    let r ← Shape.ApplyLighting.vertex pointLight pointLight.m_position
      (shape.m_coordinates.getD (shape.m_vertices.getD i 0) default)
      (m_vertexNormals.getD (m_vertexNormalIndices.getD i 0) default) 0
    pure r.1

/-- Every entry of the distance cache is 0 or the `LengthFixed` of the vector
from the coordinate of that index to the light position. -/
def CacheValid (lightObjectSpacePos : Vector) (m_coordinates : List Vector)
    (m_distanceCache : List Int) : Prop :=
  ∀ idx, m_distanceCache.getD idx 0 = 0 ∨
    (Vector.SubstractAndSet lightObjectSpacePos (m_coordinates.getD idx default)).LengthFixed =
      Except.ok (m_distanceCache.getD idx 0)

/-- The vertex pass of the version of `ApplyLighting` that C30 compares
with: no cache entry is read, `LengthFixed` is called on (light position -
vertex); the rest is the vertex pass of `Shape::ApplyLighting`. -/
def Shape.ApplyLightingWithoutCache.vertex (pointLight : PointLight)
    (lightObjectSpacePos : Vector) (vertex normal : Vector) : Except NovaError Int := do
  let toLight := Vector.SubstractAndSet lightObjectSpacePos vertex
  let distance ← toLight.LengthFixed
  let dotProd ← toLight.DotProductFixed normal
  let divisor := distance >>> (FixedPointPrec / 2)
  if divisor = 0 then Except.error NovaError.divideByZero
  else
    let dotProd := wrap32 (wrap32 (Int.tdiv dotProd divisor) * 2 ^ (FixedPointPrec / 2))
    let tmpIntensity := if dotProd > 0 then dotProd else 0
    if pointLight.IsAttenuated then do
      let attenuation := pointLight.CalculateAttenuationFactor distance
      FixedLargeMul tmpIntensity attenuation
    else
      pure tmpIntensity

/-- The vertex loop of the version without the cache. -/
def Shape.ApplyLightingWithoutCache.vertices (shape : Shape) (m_vertexNormals : List Vector)
    (m_vertexNormalIndices : List Nat) (pointLight : PointLight) (j : Nat) :
    Nat → Nat → List Int → Except NovaError (List Int)
  | 0, _, intensities => pure intensities
  | remaining + 1, k, intensities => do
    let vertIndex := shape.m_vertices.getD (3 * j + k) 0
    let vertex := shape.m_coordinates.getD vertIndex default
    let normal := m_vertexNormals.getD (m_vertexNormalIndices.getD (3 * j + k) 0) default
    let tmpIntensity ← Shape.ApplyLightingWithoutCache.vertex pointLight pointLight.m_position
      vertex normal
    let intensities :=
      intensities.set (3 * j + k) (wrap32 (intensities.getD (3 * j + k) 0 + tmpIntensity))
    Shape.ApplyLightingWithoutCache.vertices shape m_vertexNormals m_vertexNormalIndices
      pointLight j remaining (k + 1) intensities

/-- The polygon loop of the version without the cache. -/
def Shape.ApplyLightingWithoutCache.polygons (shape : Shape) (m_vertexNormals : List Vector)
    (m_vertexNormalIndices : List Nat) (pointLight : PointLight) :
    Nat → Nat → List Int → Except NovaError (List Int)
  | 0, _, intensities => pure intensities
  | remaining + 1, j, intensities => do
    let skip ← Shape.ApplyLighting.skip shape pointLight.m_position j
    if skip then
      Shape.ApplyLightingWithoutCache.polygons shape m_vertexNormals m_vertexNormalIndices
        pointLight remaining (j + 1) intensities
    else do
      let intensities ← Shape.ApplyLightingWithoutCache.vertices shape m_vertexNormals
        m_vertexNormalIndices pointLight j 3 0 intensities
      Shape.ApplyLightingWithoutCache.polygons shape m_vertexNormals m_vertexNormalIndices
        pointLight remaining (j + 1) intensities

/-- The light loop of the version without the cache. -/
def Shape.ApplyLightingWithoutCache.lights (shape : Shape) (m_vertexNormals : List Vector)
    (m_vertexNormalIndices : List Nat) : List (Option Light) → List Int →
    Except NovaError (List Int)
  | [], intensities => pure intensities
  | none :: rest, intensities =>
    Shape.ApplyLightingWithoutCache.lights shape m_vertexNormals m_vertexNormalIndices rest
      intensities
  | some (Light.TypeAmbient _) :: rest, intensities =>
    Shape.ApplyLightingWithoutCache.lights shape m_vertexNormals m_vertexNormalIndices rest
      intensities
  | some (Light.TypePoint pointLight) :: rest, intensities => do
    let intensities ← Shape.ApplyLightingWithoutCache.polygons shape m_vertexNormals
      m_vertexNormalIndices pointLight shape.m_numPolygons 0 intensities
    Shape.ApplyLightingWithoutCache.lights shape m_vertexNormals m_vertexNormalIndices rest
      intensities

/-- The version of `ApplyLighting` that C30 describes: the same loops
without `m_distanceCache`, calling `LengthFixed` on (light position - vertex)
for every vertex of every lit polygon. -/
def Shape.ApplyLightingWithoutCache (shape : Shape) (m_vertexNormals : List Vector)
    (m_vertexNormalIndices : List Nat) (ambientLight : AmbientLight)
    (lightNodeList : List (Option Light)) : Except NovaError (List Int) :=
  Shape.ApplyLightingWithoutCache.lights shape m_vertexNormals m_vertexNormalIndices
    lightNodeList (List.replicate (3 * shape.m_numPolygons) ambientLight.IntensityFixed)

/-- The example triangle with its polygon flagged visible and the plane
whose negative-normal side holds the point (0, 0, 1). -/
def exampleLitShape : Shape :=
  { exampleTriangleShape with
    m_polygonInfos := [PolygonInfoVisible],
    m_planeEquations := [{ m_normal := ⟨0, 0, -65535⟩, m_fixedD := 0 }] }

/-- Two triangles over the same three coordinates, both flagged visible and
both facing the point (0, 0, 1), so that each coordinate is met twice in one
pass over the polygons. -/
def exampleSharedShape : Shape :=
  { exampleTriangleShape with
    m_vertices := [0, 1, 2, 2, 1, 0],
    m_polygonInfos := [PolygonInfoVisible, PolygonInfoVisible],
    m_planeEquations := [{ m_normal := ⟨0, 0, -65535⟩, m_fixedD := 0 },
                         { m_normal := ⟨0, 0, -65535⟩, m_fixedD := 0 }] }

/-! ## Near clipping, matrices and vectors: auxiliary notions -/

/-- The value `x` lies between `a` and `b`, inclusive, whichever of the two
is the larger. -/
def Between (a b x : Int) : Prop := (a ≤ x ∧ x ≤ b) ∨ (b ≤ x ∧ x ≤ a)

instance (a b x : Int) : Decidable (Between a b x) := by
  unfold Between; exact inferInstance

/-- The five values of the two endpoints that `NearClipEdge` interpolates,
and their differences, are representable as `int_32`. -/
def ValuesRepresentable (p q : ClipVertex) : Prop :=
  (InInt32 p.x ∧ InInt32 q.x ∧ InInt32 (q.x - p.x)) ∧
  (InInt32 p.y ∧ InInt32 q.y ∧ InInt32 (q.y - p.y)) ∧
  (InInt32 p.valueA ∧ InInt32 q.valueA ∧ InInt32 (q.valueA - p.valueA)) ∧
  (InInt32 p.valueB ∧ InInt32 q.valueB ∧ InInt32 (q.valueB - p.valueB)) ∧
  (InInt32 p.valueC ∧ InInt32 q.valueC ∧ InInt32 (q.valueC - p.valueC))

instance (p q : ClipVertex) : Decidable (ValuesRepresentable p q) := by
  unfold ValuesRepresentable; exact inferInstance

/-- The counter of a matrix is in `0 .. 9`, below `NormalizeFreq`. -/
def Matrix.CounterInRange (m : Matrix) : Prop :=
  0 ≤ m.m_multiplications ∧ m.m_multiplications ≤ 9

instance (m : Matrix) : Decidable m.CounterInRange := by
  unfold Matrix.CounterInRange; exact inferInstance

/-- The identity matrix with the counter 9, as nine multiplications leave
it. -/
def exampleNineTimes : Matrix := { Matrix.SetIdentity with m_multiplications := 9 }

/-! ## RenderingUtils.cpp: CalculateInverses -/

/-- `CalculateInverses`: `m_z` becomes `(int_32)(MaxUint32 / (uint_32)m_z)`
(an unsigned division, which traps on zero), then `m_u` and `m_v` are
multiplied by it. -/
def CalculateInverses (vertex : ScreenVertex) : Except NovaError ScreenVertex :=
  if wrapU32 vertex.m_z = 0 then Except.error NovaError.divideByZero
  else do
    let m_z := wrap32 (MaxUint32 / wrapU32 vertex.m_z)
    let m_u ← FixedLargeMul vertex.m_redU m_z
    let m_v ← FixedLargeMul vertex.m_greenV m_z
    pure { vertex with m_z := m_z, m_redU := m_u, m_greenV := m_v }

/-- The expressions `real_u` and `real_v` of the pixel loops of the textured
spans: `(int_32)( ((int_64)leftU * real_z) >> 32 )` with
`real_z = DivLookup( leftZ )`. -/
def Renderer.realCoordinate (r : Renderer) (leftU leftZ : Int) : Int :=
  wrap32 ((leftU * r.DivLookup leftZ) >>> (32 : Nat))

/-- A vertex with the texel coordinates `(U, V)` as fixed point and the depth
`z`. -/
def texelVertex (U V z : Int) : ScreenVertex :=
  { m_x := 0, m_y := 0, m_z := z, m_redU := U * 65536, m_greenV := V * 65536,
    m_blueIntensity := 0 }

/-! ## Camera.cpp: DepthSort with checked indices

The same loops as `DepthSort`, with every read and every swap of a list entry
checked against an index range `lo .. hi`: an access outside the range makes
the model return `none`. -/

/-- The read `(*(m_visibleFaceList + i))->m_zSortValue`, allowed only for
`lo <= i <= hi`. -/
def zSortAtWithin (lo hi : Int) (list : List ScreenPolygon) (i : Int) : Option Int :=
  if lo ≤ i ∧ i ≤ hi then zSortAt list i else none

/-- The swap of the list entries at `qleft` and `qright`, allowed only when
both indices are in `lo .. hi`. -/
def swapFacesWithin (lo hi : Int) (list : List ScreenPolygon) (qleft qright : Int) :
    Option (List ScreenPolygon) :=
  if lo ≤ qleft ∧ qleft ≤ hi ∧ lo ≤ qright ∧ qright ≤ hi then swapFaces list qleft qright
  else none

/-- The first inner loop of `DepthSort` with checked reads. -/
def scanLeftWithin (lo hi : Int) (list : List ScreenPolygon) (qpivot right : Int) :
    Nat → Int → Option Int
  | 0, _ => none
  | fuel + 1, qleft =>
    match zSortAtWithin lo hi list qleft with
    | none => none
    | some z =>
      if z > qpivot ∧ qleft < right then
        scanLeftWithin lo hi list qpivot right fuel (qleft + 1)
      else some qleft

/-- The second inner loop of `DepthSort` with checked reads. -/
def scanRightWithin (lo hi : Int) (list : List ScreenPolygon) (qpivot left : Int) :
    Nat → Int → Option Int
  | 0, _ => none
  | fuel + 1, qright =>
    match zSortAtWithin lo hi list qright with
    | none => none
    | some z =>
      if qpivot > z ∧ qright > left then
        scanRightWithin lo hi list qpivot left fuel (qright - 1)
      else some qright

/-- The `do { ... } while( qleft <= qright )` loop of `DepthSort` with
checked reads and swaps. -/
def partitionLoopWithin (lo hi qpivot left right : Int) (scanFuel : Nat) :
    Nat → List ScreenPolygon → Int → Int → Option (List ScreenPolygon × Int × Int)
  | 0, _, _, _ => none
  | fuel + 1, list, qleft, qright =>
    match scanLeftWithin lo hi list qpivot right scanFuel qleft with
    | none => none
    | some ql =>
      match scanRightWithin lo hi list qpivot left scanFuel qright with
      | none => none
      | some qr =>
        if ql ≤ qr then
          match swapFacesWithin lo hi list ql qr with
          | none => none
          | some list' =>
            if ql + 1 ≤ qr - 1 then
              partitionLoopWithin lo hi qpivot left right scanFuel fuel list' (ql + 1) (qr - 1)
            else some (list', ql + 1, qr - 1)
        else some (list, ql, qr)

/-- `Camera::DepthSort( left, right )` with every read and swap, those of
the recursive calls included, checked against the range `lo .. hi`. -/
def DepthSortWithin (lo hi : Int) : Nat → List ScreenPolygon → Int → Int →
    Option (List ScreenPolygon)
  | 0, _, _, _ => none
  | fuel + 1, list, left, right =>
    match zSortAtWithin lo hi list ((left + right) >>> (1 : Nat)) with
    | none => none
    | some qpivot =>
      match partitionLoopWithin lo hi qpivot left right fuel fuel list left right with
      | none => none
      | some (list1, qleft, qright) =>
        -- recursively sort left side
        match (if left < qright then DepthSortWithin lo hi fuel list1 left qright
          else some list1) with
        | none => none
        | some list2 =>
          -- recursively sort right side
          if qleft < right then DepthSortWithin lo hi fuel list2 qleft right else some list2

/-! ## Renderer.cpp: the values a textured span starts with -/

/-- The values with which a textured span enters its pixel loop: the column
`left` of the first pixel, the number `len` of pixels, and the `leftU`,
`leftV`, `leftZ` and `intensityLeft` used for the first pixel. -/
structure SpanStart where
  left : Int
  len : Int
  leftU : Int
  leftV : Int
  leftZ : Int
  intensityLeft : Int
  deriving DecidableEq, Repr

/-- The end of the span functions, from the clip to the right side of the
canvas to the test in front of the pixel loop: `none` when nothing is left
to draw. -/
def Renderer.spanStart (r : Renderer) (right leftU leftV leftZ intensityLeft len left : Int) :
    Option SpanStart :=
  -- clip to the right side of the rendering canvas
  let len := if right ≥ r.m_canvas.m_right then wrap32 (r.m_canvas.m_right - left) else len
  -- check whether still something left to draw
  if len ≤ 0 then none
  else some { left := left, len := len, leftU := leftU, leftV := leftV, leftZ := leftZ,
              intensityLeft := intensityLeft }

/-- `Renderer::DrawTexturedSpan` up to its pixel loop: the values the loop
starts with, `none` when the function returns without drawing.  The field
`intensityLeft` is not used by this function and is 0. -/
def Renderer.DrawTexturedSpan.start (r : Renderer)
    (leftX rightX leftU leftV leftZ dudx dvdx dzdx : Int) :
    Except NovaError (Option SpanStart) := do
  -- ceil() span endpoint Xs to integers
  let left := CeilFixed leftX
  let right := CeilFixed rightX
  -- apply subtexel accuracy
  let prestep := wrap32 (wrap32 (left * 65536) - leftX)
  let leftU := wrap32 (leftU + (← FixedLargeMul prestep dudx))
  let leftV := wrap32 (leftV + (← FixedLargeMul prestep dvdx))
  let leftZ := wrap32 (leftZ + (← FixedLargeMul prestep dzdx))
  -- check whether the span is completely outside the view port (canvas)
  if left > r.m_canvas.m_right ∨ right < r.m_canvas.m_left then pure none
  else
    -- calculate span length
    let len := wrap32 (wrap32 (right - left) + 1)
    -- clip to the left side of the rendering canvas
    if left < r.m_canvas.m_left then do
      let diff := wrap32 (wrap32 (r.m_canvas.m_left * 65536) - leftX)
      let leftU := wrap32 (leftU + (← FixedLargeMul diff dudx))
      let leftV := wrap32 (leftV + (← FixedLargeMul diff dvdx))
      let leftZ := wrap32 (leftZ + (← FixedLargeMul diff dzdx))
      pure (r.spanStart right leftU leftV leftZ 0
        (wrap32 (len - wrap32 (r.m_canvas.m_left - left))) r.m_canvas.m_left)
    else
      pure (r.spanStart right leftU leftV leftZ 0 len left)

/-- `Renderer::DrawLightedTexturedSpan` up to its pixel loop: the values the
loop starts with, `none` when the function returns without drawing. -/
def Renderer.DrawLightedTexturedSpan.start (r : Renderer)
    (leftX rightX leftU leftV leftZ intensityLeft dudx dvdx dzdx didx : Int) :
    Except NovaError (Option SpanStart) := do
  -- ceil() span endpoint Xs to integers
  let left := CeilFixed leftX
  let right := CeilFixed rightX
  -- apply subtexel accuracy
  let prestep := wrap32 (wrap32 (left * 65536) - leftX)
  let leftU := wrap32 (leftU + (← FixedLargeMul prestep dudx))
  let leftV := wrap32 (leftV + (← FixedLargeMul prestep dvdx))
  let leftZ := wrap32 (leftZ + (← FixedLargeMul prestep dzdx))
  -- check whether the span is completely outside the view port (canvas)
  if left > r.m_canvas.m_right ∨ right < r.m_canvas.m_left then pure none
  else
    -- calculate span length
    let len := wrap32 (wrap32 (right - left) + 1)
    -- clip to the left side of the rendering canvas
    if left < r.m_canvas.m_left then do
      let diff := wrap32 (wrap32 (r.m_canvas.m_left * 65536) - leftX)
      let leftU := wrap32 (leftU + (← FixedLargeMul diff dudx))
      let leftV := wrap32 (leftV + (← FixedLargeMul diff dvdx))
      let leftZ := wrap32 (leftZ + (← FixedLargeMul diff dzdx))
      let intensityLeft := wrap32 (intensityLeft + (← FixedLargeMul diff didx))
      pure (r.spanStart right leftU leftV leftZ intensityLeft
        (wrap32 (len - wrap32 (r.m_canvas.m_left - left))) r.m_canvas.m_left)
    else
      pure (r.spanStart right leftU leftV leftZ intensityLeft len left)

/-- The pixels a textured span draws from the values it starts with. -/
def Renderer.texturedPixelsFrom (r : Renderer) (texture : Texture) (row dudx dvdx dzdx : Int) :
    Option SpanStart → List PixelWrite
  | none => []
  | some s => r.texturedPixels texture row dudx dvdx dzdx s.len.toNat s.left s.leftU s.leftV
      s.leftZ

/-- The pixels a lighted textured span draws from the values it starts
with. -/
def Renderer.lightedPixelsFrom (r : Renderer) (texture : Texture)
    (row dudx dvdx dzdx didx : Int) : Option SpanStart → List PixelWrite
  | none => []
  | some s => r.lightedPixels texture row dudx dvdx dzdx didx s.len.toNat s.left s.leftU
      s.leftV s.leftZ s.intensityLeft

/-! ## VectorMath.cpp: the normal of a plane before it is normalised -/

/-- The first three statements of `PlaneEquation::Calculate`: the cross
product of the two edge vectors, each after `CheckPrecision`, which
`Calculate` then hands to `Normalize`. -/
def PlaneEquation.Calculate.cross (v1 v2 v3 : Vector) : Except NovaError Vector := do
  let u ← (Vector.SubstractAndSet v3 v1).CheckPrecision
  let v ← (Vector.SubstractAndSet v2 v1).CheckPrecision
  Vector.CrossProductAndSet v u

/-- The squared length that `DotProductFixed( v, v )` computes, as the exact
sum of the three products `FixedLargeMul` returns (no 32-bit wrap). -/
def Vector.squaredLength (v : Vector) : Int :=
  v.m_x * v.m_x / 65536 + v.m_y * v.m_y / 65536 + v.m_z * v.m_z / 65536

/-! ## Camera.cpp: the array reads of `ProcessPolygonList` -/

/-- The polygon flag `PolygonInfoEnvMapped`. -/
def PolygonInfoEnvMapped : Nat := 0x0010

/-- What decides the reads of `ProcessPolygonList` in a `Shape`: the polygon
flags, the texture list (`none` when `m_textures` is `NULL`; an entry is a
texture handle or `NULL`) and the texture coordinates (`none` when
`m_textureCoordinates` is `NULL`). -/
structure PolygonArrays where
  m_polygonInfos : List Nat
  m_textures : Option (List (Option Nat))
  m_textureCoordinates : Option (List Int)
  deriving DecidableEq, Repr

/-- The pointers `polyInfo`, `v`, `texCoord`, `color`, `lightIntensity` and
`tex` of `ProcessPolygonList`, each as the offset (in elements) from the
start of its array. -/
structure PolygonPointers where
  polyInfo : Nat
  v : Nat
  texCoord : Nat
  color : Nat
  lightIntensity : Nat
  tex : Nat
  deriving DecidableEq, Repr

/-- The reads of one visible polygon: its flags, the offset `*tex++` read
(`none` when `tex` is `NULL`) and the texture found there, the offset of the
first of the three `*v++` and of the three `*lightIntensity++`, the offset of
the first of the six `*texCoord++` (`none` when they are not read) and of the
first of the three `*color++` (`none` when they are not read). -/
structure PolygonFetch where
  polyFlags : Nat
  tex : Option Nat
  texture : Option Nat
  v : Nat
  lightIntensity : Nat
  texCoord : Option Nat
  color : Option Nat
  deriving DecidableEq, Repr

/-- The pointer walk of the loop of `ProcessPolygonList` from polygon `i` on,
for `n` more polygons: the result lists, for every visible polygon, its index
and what is read for it.  A `NULL` array has base address 0, so `texCoord` is
`NULL` exactly when `m_textureCoordinates` is absent and the offset is 0. -/
def Camera.ProcessPolygonList.fetch (shape : PolygonArrays) :
    Nat → Nat → PolygonPointers → List (Nat × PolygonFetch)
  | 0, _, _ => []
  | n + 1, i, p =>
    -- get flags for this polygon
    let polyFlags := shape.m_polygonInfos.getD p.polyInfo 0
    let p := { p with polyInfo := p.polyInfo + 1 }
    if polyFlags &&& PolygonInfoVisible = 0 then
      -- polygon not visible; skip it entirely
      Camera.ProcessPolygonList.fetch shape n (i + 1)
        { p with v := p.v + 3, texCoord := p.texCoord + 6, color := p.color + 3,
                 lightIntensity := p.lightIntensity + 3 }
    else
      -- get texture for this polygon
      let tex : Option Nat := if shape.m_textures.isSome then some p.tex else none
      let texture : Option Nat :=
        match shape.m_textures with
        | some textures => textures.getD p.tex none
        | none => none
      let p := if shape.m_textures.isSome then { p with tex := p.tex + 1 } else p
      -- get coordinates for this polygon
      let v := p.v
      let p := { p with v := p.v + 3 }
      -- get lighting intensities for vertices of this polygon
      let lightIntensity := p.lightIntensity
      let p := { p with lightIntensity := p.lightIntensity + 3 }
      if texture.isSome then
        if polyFlags &&& PolygonInfoEnvMapped ≠ 0 then
          -- skip the normal texture coordinates for this polygon
          let p := if shape.m_textureCoordinates.isSome ∨ p.texCoord ≠ 0 then
            { p with texCoord := p.texCoord + 6 } else p
          (i, { polyFlags := polyFlags, tex := tex, texture := texture, v := v,
                lightIntensity := lightIntensity, texCoord := none, color := none }) ::
            Camera.ProcessPolygonList.fetch shape n (i + 1) p
        else
          -- using a standard texture
          (i, { polyFlags := polyFlags, tex := tex, texture := texture, v := v,
                lightIntensity := lightIntensity, texCoord := some p.texCoord,
                color := none }) ::
            Camera.ProcessPolygonList.fetch shape n (i + 1)
              { p with texCoord := p.texCoord + 6 }
      else
        -- vertex colored polygon
        (i, { polyFlags := polyFlags, tex := tex, texture := texture, v := v,
              lightIntensity := lightIntensity, texCoord := none, color := some p.color }) ::
          Camera.ProcessPolygonList.fetch shape n (i + 1) { p with color := p.color + 3 }

/-- All reads of `ProcessPolygonList( shape )`: the loop over `numPolygons`
polygons with every pointer at the start of its array. -/
def Camera.ProcessPolygonList.fetches (shape : PolygonArrays) : List (Nat × PolygonFetch) :=
  Camera.ProcessPolygonList.fetch shape shape.m_polygonInfos.length 0
    { polyInfo := 0, v := 0, texCoord := 0, color := 0, lightIntensity := 0, tex := 0 }

/-! # Properties -/

/-! ## Basic facts -/

theorem shiftRight16 (m : Int) : m >>> FixedPointPrec = m / 65536 := by
  rw [show FixedPointPrec = 16 from rfl, Int.shiftRight_eq_div_pow]; norm_num

theorem FixedLargeMul_ok {a b : Int}
    (h : -2147483648 ≤ a * b / 65536 ∧ a * b / 65536 ≤ 2147483647) :
    FixedLargeMul a b = Except.ok (a * b / 65536) := by
  unfold FixedLargeMul
  simp only [shiftRight16]
  rw [if_neg]
  omega

theorem FixedLargeMul_error {a b : Int}
    (h : a * b / 65536 < -2147483648 ∨ 2147483647 < a * b / 65536) :
    FixedLargeMul a b = Except.error (NovaError.overflow (a * b / 65536)) := by
  unfold FixedLargeMul
  simp only [shiftRight16]
  rw [if_pos]
  omega

theorem wrap32_of_inInt32 {x : Int} (h : InInt32 x) : wrap32 x = x := by
  unfold InInt32 at h
  unfold wrap32
  omega

theorem wrap32_inInt32 (x : Int) : InInt32 (wrap32 x) := by
  unfold InInt32 wrap32
  omega

/-! ## C1 -/

/-- C1: for all signed 32-bit `a` and `b`, the product `a * b` fits the 64-bit
intermediate, `FixedLargeMul a b` signals overflow exactly when
`⌊a * b / 2 ^ 16⌋` (the floor of the rational quotient) lies outside the
signed 32-bit range, and otherwise it returns exactly that floor. -/
theorem C1_FixedLargeMul_floor (a b : Int) (ha : InInt32 a) (hb : InInt32 b) :
    (-9223372036854775808 ≤ a * b ∧ a * b ≤ 9223372036854775807) ∧
    ((∃ e, FixedLargeMul a b = Except.error e) ↔
        ¬ InInt32 ⌊((a * b : Int) : ℚ) / (2 : ℚ) ^ 16⌋) ∧
    (InInt32 ⌊((a * b : Int) : ℚ) / (2 : ℚ) ^ 16⌋ →
        FixedLargeMul a b = Except.ok ⌊((a * b : Int) : ℚ) / (2 : ℚ) ^ 16⌋) := by
  refine ⟨?_, ?_⟩
  · unfold InInt32 at ha hb
    constructor <;> nlinarith
  have hfl : ⌊((a * b : Int) : ℚ) / (2 : ℚ) ^ 16⌋ = a * b / 65536 := by
    have := Rat.floor_intCast_div_natCast (a * b) 65536
    norm_num at this ⊢
    exact this
  rw [hfl]
  by_cases h : InInt32 (a * b / 65536)
  · have hok := FixedLargeMul_ok (a := a) (b := b) h
    refine ⟨⟨?_, fun hn => absurd h hn⟩, fun _ => hok⟩
    rintro ⟨e, he⟩
    rw [hok] at he
    cases he
  · have herr : FixedLargeMul a b = Except.error (NovaError.overflow (a * b / 65536)) := by
      apply FixedLargeMul_error
      unfold InInt32 at h
      omega
    exact ⟨⟨fun _ => h, fun _ => ⟨_, herr⟩⟩, fun hin => absurd hin h⟩

/-- Witness for C1 at `a = 1.5`, `b = -2.25` in Q16.16. -/
theorem C1_FixedLargeMul_floor_witness :
    (-9223372036854775808 ≤ (98304 : Int) * (-147456) ∧
      (98304 : Int) * (-147456) ≤ 9223372036854775807) ∧
    ((∃ e, FixedLargeMul 98304 (-147456) = Except.error e) ↔
        ¬ InInt32 ⌊((98304 * (-147456) : Int) : ℚ) / (2 : ℚ) ^ 16⌋) ∧
    (InInt32 ⌊((98304 * (-147456) : Int) : ℚ) / (2 : ℚ) ^ 16⌋ →
        FixedLargeMul 98304 (-147456) =
          Except.ok ⌊((98304 * (-147456) : Int) : ℚ) / (2 : ℚ) ^ 16⌋) :=
  C1_FixedLargeMul_floor 98304 (-147456) (by decide) (by decide)

/-! ## C2 -/

example : FastSqrt 65536 = 256 := by decide
example : FastSqrt 4294967295 = 65535 := by decide
example : FastSqrt 99 = 9 := by decide

theorem SqrtInv_step (N n0 : Nat) (s : Nat × Nat) (h : SqrtInv (N + 1) n0 s) :
    SqrtInv N n0 (FASTSQRT_INNER N s) := by
  obtain ⟨r, hroot, ⟨a, ha⟩, hrem, hub, hle⟩ := h
  obtain ⟨n, root⟩ := s
  simp only at hroot hrem
  have hp : 0 < 2 ^ N := Nat.pow_pos (by norm_num)
  have hp2 : 2 ^ (N + 1) = 2 * 2 ^ N := by rw [pow_succ]; ring
  have hor : root ||| (2 * 2 ^ N) = root + 2 * 2 ^ N := by
    have hlt : 2 * 2 ^ N < 2 ^ (N + 2) := by rw [pow_succ, pow_succ]; omega
    have := Nat.mul_add_lt_is_or hlt a
    have hr4 : root = 2 ^ (N + 2) * a := by rw [hroot, ha, pow_succ, pow_succ]; ring
    rw [hr4]; exact this.symm
  unfold FASTSQRT_INNER SqrtInv
  simp only [Nat.shiftLeft_eq, one_mul]
  rw [hp2] at ha hub hle
  generalize 2 ^ N = p at hp ha hub hle hor ⊢
  subst hroot
  have hg : (2 * r + p) % 4294967296 = 2 * r + p := Nat.mod_eq_of_lt (by omega)
  have hsq : (2 * r + p) * p < 4294967296 := by nlinarith
  have hg2 : ((2 * r + p) * p) % 4294967296 = (2 * r + p) * p := Nat.mod_eq_of_lt hsq
  have h2p : (2 * p) % 4294967296 = 2 * p := Nat.mod_eq_of_lt (by omega)
  rw [hg, hg2, h2p, hor]
  split
  · rename_i hge
    refine ⟨r + p, by ring, ?_, ?_, ?_, by omega⟩
    · rw [ha]; exact ⟨2 * a + 1, by ring⟩
    · have : (2 * r + p) * p ≤ n := hge
      zify [this] at hrem ⊢
      linarith
    · have : r + p + p = r + 2 * p := by ring
      rw [this]; exact hub
  · rename_i hlt
    refine ⟨r, rfl, ?_, hrem, ?_, by omega⟩
    · rw [ha]; exact ⟨2 * a, by ring⟩
    · have : n < (2 * r + p) * p := Nat.lt_of_not_ge hlt
      nlinarith

/-- C2: for every unsigned 32-bit `n`, `FastSqrt n` is the integer square
root of `n`: its square is at most `n` and the square of its successor exceeds
`n`, in unbounded naturals. -/
theorem C2_FastSqrt_isqrt (n : Nat) (hn : n < 4294967296) :
    FastSqrt n * FastSqrt n ≤ n ∧ n < (FastSqrt n + 1) * (FastSqrt n + 1) := by
  have h16 : SqrtInv 16 n (n % 4294967296, 0) := by
    refine ⟨0, rfl, by simp, ?_, ?_, by norm_num⟩
    · simp [Nat.mod_eq_of_lt hn]
    · norm_num; omega
  have h0 := SqrtInv_step 0 n _ (SqrtInv_step 1 n _ (SqrtInv_step 2 n _ (SqrtInv_step 3 n _
    (SqrtInv_step 4 n _ (SqrtInv_step 5 n _ (SqrtInv_step 6 n _ (SqrtInv_step 7 n _
    (SqrtInv_step 8 n _ (SqrtInv_step 9 n _ (SqrtInv_step 10 n _ (SqrtInv_step 11 n _
    (SqrtInv_step 12 n _ (SqrtInv_step 13 n _ (SqrtInv_step 14 n _
    (SqrtInv_step 15 n _ h16)))))))))))))))
  obtain ⟨r, hroot, -, hrem, hub, -⟩ := h0
  have hres : FastSqrt n = r := by
    unfold FastSqrt
    simp only
    rw [hroot, Nat.shiftRight_eq_div_pow]
    omega
  rw [hres]
  constructor
  · omega
  · simpa using hub

/-- Witness for C2 at the largest `uint_32`. -/
theorem C2_FastSqrt_isqrt_witness :
    FastSqrt 4294967295 * FastSqrt 4294967295 ≤ 4294967295 ∧
      4294967295 < (FastSqrt 4294967295 + 1) * (FastSqrt 4294967295 + 1) :=
  C2_FastSqrt_isqrt 4294967295 (by decide)

/-! ## Near clipping: helper lemmas -/

theorem ok_bind {ε α β : Type} (a : α) (f : α → Except ε β) :
    (Except.ok a >>= f) = f a := rfl

theorem error_bind {ε α β : Type} (e : ε) (f : α → Except ε β) :
    ((Except.error e : Except ε α) >>= f) = Except.error e := rfl

theorem pure_eq_ok {ε α : Type} (a : α) : (pure a : Except ε α) = Except.ok a := rfl

theorem bind_eq_ok {ε α β : Type} {x : Except ε α} {f : α → Except ε β} {b : β}
    (h : (x >>= f) = Except.ok b) : ∃ a, x = Except.ok a ∧ f a = Except.ok b := by
  cases x with
  | error e => cases h
  | ok a => exact ⟨a, rfl, h⟩

/-- A fixed multiplication by a factor in `[0, 1]` never overflows. -/
theorem FixedLargeMul_unit {w f : Int} (hw : InInt32 w) (h0 : 0 ≤ f) (h1 : f ≤ 65536) :
    FixedLargeMul w f = Except.ok (w * f / 65536) := by
  apply FixedLargeMul_ok
  unfold InInt32 at hw
  have hlo : -2147483648 * 65536 ≤ w * f := by nlinarith
  have hhi : w * f ≤ 2147483647 * 65536 := by nlinarith
  generalize w * f = t at hlo hhi
  omega

theorem clipInterpolate_ok (v1 v2 : Int) {f : Int} (h0 : 0 ≤ f) (h1 : f ≤ 65536) :
    clipInterpolate v1 v2 f =
      Except.ok (wrap32 (wrap32 (v2 - v1) * f / 65536 + v1)) := by
  unfold clipInterpolate
  rw [FixedLargeMul_unit (wrap32_inInt32 _) h0 h1]
  rfl

theorem clippedVertex_ok (near : Int) (p1 p2 : ClipVertex) {f : Int}
    (h0 : 0 ≤ f) (h1 : f ≤ 65536) :
    ∃ c, clippedVertex near p1 p2 f = Except.ok c ∧ c.z = near := by
  unfold clippedVertex
  simp only [clipInterpolate_ok _ _ h0 h1, ok_bind, pure_eq_ok]
  exact ⟨_, rfl, rfl⟩

/-- The clip parameter of a crossing edge whose depth difference is
representable lies in `[0, FixedPointOne]`. -/
theorem clipParameter_ok {a d : Int} (ha : 0 ≤ a) (had : a ≤ d) (hd0 : 0 < d)
    (hd : d ≤ 2147483647) :
    ∃ f, FixedLargeDiv (wrap32 a) (wrap32 d) = Except.ok f ∧ 0 ≤ f ∧ f ≤ 65536 := by
  have hwa : wrap32 a = a := wrap32_of_inInt32 ⟨by omega, by omega⟩
  have hwd : wrap32 d = d := wrap32_of_inInt32 ⟨by omega, by omega⟩
  rw [hwa, hwd]
  unfold FixedLargeDiv
  rw [if_neg (by omega)]
  have hq : Int.tdiv (a * 65536) d = a * 65536 / d :=
    Int.tdiv_eq_ediv (by omega) (by omega)
  have hq0 : 0 ≤ a * 65536 / d := Int.ediv_nonneg (by omega) (by omega)
  have hq1 : a * 65536 / d ≤ 65536 := by
    have : a * 65536 / d ≤ d * 65536 / d := Int.ediv_le_ediv hd0 (by nlinarith)
    rwa [Int.mul_ediv_cancel_left _ (by omega : d ≠ 0)] at this
  refine ⟨_, rfl, ?_, ?_⟩
  · rw [hq, wrap32_of_inInt32 ⟨by omega, by omega⟩]; exact hq0
  · rw [hq, wrap32_of_inInt32 ⟨by omega, by omega⟩]; exact hq1

/-- `NearClipEdge` on an edge entering the visible side: the clipped vertex
and the second endpoint are appended. -/
theorem NearClipEdge_enter (near : Int) (buf : List ClipVertex) (p1 p2 : ClipVertex)
    (h1 : p1.z < near) (h2 : near ≤ p2.z) (hd : p2.z - p1.z ≤ 2147483647) :
    ∃ c, NearClipEdge near buf p1 p2 = Except.ok (buf ++ [c, p2]) ∧ c.z = near := by
  unfold NearClipEdge
  rw [if_pos h1, if_neg (by omega)]
  obtain ⟨f, hf, hf0, hf1⟩ :=
    clipParameter_ok (a := near - p1.z) (d := p2.z - p1.z) (by omega) (by omega) (by omega) hd
  obtain ⟨c, hc, hcz⟩ := clippedVertex_ok near p1 p2 hf0 hf1
  exact ⟨c, by rw [hf, ok_bind, hc, ok_bind]; rfl, hcz⟩

/-- `NearClipEdge` on an edge leaving the visible side: only the clipped
vertex is appended. -/
theorem NearClipEdge_leave (near : Int) (buf : List ClipVertex) (p1 p2 : ClipVertex)
    (h1 : near ≤ p1.z) (h2 : p2.z < near) (hd : p1.z - p2.z ≤ 2147483647) :
    ∃ c, NearClipEdge near buf p1 p2 = Except.ok (buf ++ [c]) ∧ c.z = near := by
  unfold NearClipEdge
  rw [if_neg (by omega), if_pos h2]
  obtain ⟨f, hf, hf0, hf1⟩ :=
    clipParameter_ok (a := p1.z - near) (d := p1.z - p2.z) (by omega) (by omega) (by omega) hd
  obtain ⟨c, hc, hcz⟩ := clippedVertex_ok near p1 p2 hf0 hf1
  exact ⟨c, by rw [hf, ok_bind, hc, ok_bind]; rfl, hcz⟩

theorem NearClipEdge_hidden (near : Int) (buf : List ClipVertex) (p1 p2 : ClipVertex)
    (h1 : p1.z < near) (h2 : p2.z < near) :
    NearClipEdge near buf p1 p2 = Except.ok buf := by
  unfold NearClipEdge
  rw [if_pos h1, if_pos h2]; rfl

theorem NearClipEdge_visible (near : Int) (buf : List ClipVertex) (p1 p2 : ClipVertex)
    (h1 : near ≤ p1.z) (h2 : near ≤ p2.z) :
    NearClipEdge near buf p1 p2 = Except.ok (buf ++ [p2]) := by
  unfold NearClipEdge
  rw [if_neg (by omega), if_neg (by omega)]; rfl

theorem projectVertex_ok (cam : Camera) (x y : Int) {z : Int}
    (hz0 : 65536 ≤ z) (hz1 : z ≤ 2147483647) :
    ∃ xy, projectVertex cam x y z = Except.ok xy := by
  unfold projectVertex
  have hzu : wrapU32 z = z := by unfold wrapU32; omega
  rw [hzu, if_neg (by omega)]
  have hq0 : 0 ≤ MaxUint32 / z := Int.ediv_nonneg (by decide) (by omega)
  have hq1 : MaxUint32 / z ≤ 65536 := by
    have : MaxUint32 / z < 65537 :=
      Int.ediv_lt_of_lt_mul (by omega) (by unfold MaxUint32; omega)
    omega
  have hw : wrap32 (MaxUint32 / z) = MaxUint32 / z :=
    wrap32_of_inInt32 ⟨by omega, by omega⟩
  simp only [hw, FixedLargeMul_unit (wrap32_inInt32 _) hq0 hq1, ok_bind, pure_eq_ok]
  exact ⟨_, rfl⟩

theorem screenVertex_ok (cam : Camera) (p : ClipVertex)
    (hz0 : 65536 ≤ p.z) (hz1 : p.z ≤ 2147483647) :
    ∃ s, screenVertex cam p = Except.ok s ∧ s.m_z = p.z ∧ s.m_redU = p.valueA ∧
      s.m_greenV = p.valueB ∧ s.m_blueIntensity = p.valueC := by
  obtain ⟨xy, hxy⟩ := projectVertex_ok cam p.x p.y hz0 hz1
  unfold screenVertex
  rw [hxy, ok_bind, pure_eq_ok]
  exact ⟨_, rfl, rfl, rfl, rfl, rfl⟩

theorem buildFace_ok (cam : Camera) (polyFlags : Nat) (texture : Option Nat)
    (p1 p2 p3 : ClipVertex)
    (h1 : 65536 ≤ p1.z ∧ p1.z ≤ 2147483647) (h2 : 65536 ≤ p2.z ∧ p2.z ≤ 2147483647)
    (h3 : 65536 ≤ p3.z ∧ p3.z ≤ 2147483647) :
    ∃ f, buildFace cam polyFlags texture p1 p2 p3 = Except.ok f ∧
      f.m_v1.m_z = p1.z ∧ f.m_v2.m_z = p2.z ∧ f.m_v3.m_z = p3.z := by
  obtain ⟨s1, hs1, hz1, -⟩ := screenVertex_ok cam p1 h1.1 h1.2
  obtain ⟨s2, hs2, hz2, -⟩ := screenVertex_ok cam p2 h2.1 h2.2
  obtain ⟨s3, hs3, hz3, -⟩ := screenVertex_ok cam p3 h3.1 h3.2
  unfold buildFace
  simp only [hs1, hs2, hs3, ok_bind, pure_eq_ok]
  exact ⟨_, rfl, hz1, hz2, hz3⟩

/-- Vertex count after the three edge clips, by the number of vertices
behind the near plane. -/
theorem clipTriangle_ok (near : Int) (v1 v2 v3 : ClipVertex) (hn : InInt32 near)
    (h12 : DepthsRepresentable v1 v2) (h23 : DepthsRepresentable v2 v3)
    (h31 : DepthsRepresentable v3 v1) :
    ∃ buf, clipTriangle near v1 v2 v3 = Except.ok buf ∧
      (∀ c ∈ buf, near ≤ c.z ∧ c.z ≤ 2147483647) ∧
      (numBehind near v1 v2 v3 = 0 → buf = [v2, v3, v1]) ∧
      (numBehind near v1 v2 v3 = 1 → buf.length = 4) ∧
      (numBehind near v1 v2 v3 = 2 → buf.length = 3) ∧
      (numBehind near v1 v2 v3 = 3 → buf.length = 0) := by
  unfold DepthsRepresentable InInt32 at h12 h23 h31
  unfold InInt32 at hn
  unfold clipTriangle numBehind
  by_cases b1 : v1.z < near <;> by_cases b2 : v2.z < near <;> by_cases b3 : v3.z < near
  · rw [NearClipEdge_hidden _ _ _ _ b1 b2, ok_bind, NearClipEdge_hidden _ _ _ _ b2 b3, ok_bind,
      NearClipEdge_hidden _ _ _ _ b3 b1]
    exact ⟨_, rfl, by simp, by simp [b1, b2, b3]⟩
  · obtain ⟨c, hc, hcz⟩ := NearClipEdge_enter near [] v2 v3 b2 (by omega) (by omega)
    obtain ⟨c', hc', hcz'⟩ := NearClipEdge_leave near ([] ++ [c, v3]) v3 v1 (by omega) b1 (by omega)
    rw [NearClipEdge_hidden _ _ _ _ b1 b2, ok_bind, hc, ok_bind, hc']
    refine ⟨_, rfl, ?_, by simp [b1, b2, b3]⟩
    intro x hx
    simp only [List.nil_append, List.cons_append, List.mem_cons, List.mem_singleton,
      List.not_mem_nil, or_false] at hx
    rcases hx with rfl | rfl | rfl <;> omega
  · obtain ⟨c, hc, hcz⟩ := NearClipEdge_enter near [] v1 v2 b1 (by omega) (by omega)
    obtain ⟨c', hc', hcz'⟩ := NearClipEdge_leave near ([] ++ [c, v2]) v2 v3 (by omega) b3 (by omega)
    rw [hc, ok_bind, hc', ok_bind, NearClipEdge_hidden _ _ _ _ b3 b1]
    refine ⟨_, rfl, ?_, by simp [b1, b2, b3]⟩
    intro x hx
    simp only [List.nil_append, List.cons_append, List.mem_cons, List.mem_singleton,
      List.not_mem_nil, or_false] at hx
    rcases hx with rfl | rfl | rfl <;> omega
  · obtain ⟨c, hc, hcz⟩ := NearClipEdge_enter near [] v1 v2 b1 (by omega) (by omega)
    obtain ⟨c', hc', hcz'⟩ :=
      NearClipEdge_leave near (([] ++ [c, v2]) ++ [v3]) v3 v1 (by omega) b1 (by omega)
    rw [hc, ok_bind, NearClipEdge_visible _ _ _ _ (by omega) (by omega), ok_bind, hc']
    refine ⟨_, rfl, ?_, by simp [b1, b2, b3]⟩
    intro x hx
    simp only [List.nil_append, List.cons_append, List.mem_cons, List.mem_singleton,
      List.not_mem_nil, or_false] at hx
    rcases hx with rfl | rfl | rfl | rfl <;> omega
  · obtain ⟨c, hc, hcz⟩ := NearClipEdge_leave near [] v1 v2 (by omega) b2 (by omega)
    obtain ⟨c', hc', hcz'⟩ := NearClipEdge_enter near ([] ++ [c]) v3 v1 b3 (by omega) (by omega)
    rw [hc, ok_bind, NearClipEdge_hidden _ _ _ _ b2 b3, ok_bind, hc']
    refine ⟨_, rfl, ?_, by simp [b1, b2, b3]⟩
    intro x hx
    simp only [List.nil_append, List.cons_append, List.mem_cons, List.mem_singleton,
      List.not_mem_nil, or_false] at hx
    rcases hx with rfl | rfl | rfl <;> omega
  · obtain ⟨c, hc, hcz⟩ := NearClipEdge_leave near [] v1 v2 (by omega) b2 (by omega)
    obtain ⟨c', hc', hcz'⟩ := NearClipEdge_enter near ([] ++ [c]) v2 v3 b2 (by omega) (by omega)
    rw [hc, ok_bind, hc', ok_bind, NearClipEdge_visible _ _ _ _ (by omega) (by omega)]
    refine ⟨_, rfl, ?_, by simp [b1, b2, b3]⟩
    intro x hx
    simp only [List.nil_append, List.cons_append, List.mem_cons, List.mem_singleton,
      List.not_mem_nil, or_false] at hx
    rcases hx with rfl | rfl | rfl | rfl <;> omega
  · obtain ⟨c, hc, hcz⟩ := NearClipEdge_leave near ([] ++ [v2]) v2 v3 (by omega) b3 (by omega)
    obtain ⟨c', hc', hcz'⟩ :=
      NearClipEdge_enter near (([] ++ [v2]) ++ [c]) v3 v1 b3 (by omega) (by omega)
    rw [NearClipEdge_visible _ _ _ _ (by omega) (by omega), ok_bind, hc, ok_bind, hc']
    refine ⟨_, rfl, ?_, by simp [b1, b2, b3]⟩
    intro x hx
    simp only [List.nil_append, List.cons_append, List.mem_cons, List.mem_singleton,
      List.not_mem_nil, or_false] at hx
    rcases hx with rfl | rfl | rfl | rfl <;> omega
  · rw [NearClipEdge_visible _ _ _ _ (by omega) (by omega), ok_bind,
      NearClipEdge_visible _ _ _ _ (by omega) (by omega), ok_bind,
      NearClipEdge_visible _ _ _ _ (by omega) (by omega)]
    refine ⟨_, rfl, ?_, by simp [b1, b2, b3]⟩
    intro x hx
    simp only [List.nil_append, List.cons_append, List.mem_cons, List.mem_singleton,
      List.not_mem_nil, or_false] at hx
    rcases hx with rfl | rfl | rfl <;> omega

theorem numBehind_pos_iff (near : Int) (v1 v2 v3 : ClipVertex) :
    0 < numBehind near v1 v2 v3 ↔ (v1.z < near ∨ v2.z < near ∨ v3.z < near) := by
  unfold numBehind
  by_cases b1 : v1.z < near <;> by_cases b2 : v2.z < near <;> by_cases b3 : v3.z < near <;>
    simp [b1, b2, b3]

theorem numBehind_le (near : Int) (v1 v2 v3 : ClipVertex) : numBehind near v1 v2 v3 ≤ 3 := by
  unfold numBehind
  split <;> split <;> split <;> omega

theorem getD_mem_of_lt {buf : List ClipVertex} {i : Nat} (h : i < buf.length) :
    buf.getD i default ∈ buf := by
  rw [List.getD_eq_getElem _ _ h]
  exact List.getElem_mem h

/-- What the loop body of `ProcessPolygonList` appends for a polygon that
needs near clipping, by the number of vertices behind the near plane. -/
theorem processVisiblePolygon_clipped (cam : Camera) (p : PolygonInput)
    (hone : FixedPointOne ≤ cam.m_nearClippingDepth) (hn : InInt32 cam.m_nearClippingDepth)
    (h12 : DepthsRepresentable p.v1 p.v2) (h23 : DepthsRepresentable p.v2 p.v3)
    (h31 : DepthsRepresentable p.v3 p.v1)
    (hclip : 0 < numBehind cam.m_nearClippingDepth p.v1 p.v2 p.v3) :
    ∃ buf, clipTriangle cam.m_nearClippingDepth p.v1 p.v2 p.v3 = Except.ok buf ∧
      (numBehind cam.m_nearClippingDepth p.v1 p.v2 p.v3 = 3 →
        buf.length = 0 ∧ processVisiblePolygon cam p = Except.ok cam) ∧
      (numBehind cam.m_nearClippingDepth p.v1 p.v2 p.v3 = 2 →
        buf.length = 3 ∧
        ∃ f, buildFace cam p.polyFlags p.texture
              (buf.getD 0 default) (buf.getD 1 default) (buf.getD 2 default) = Except.ok f ∧
          processVisiblePolygon cam p =
            Except.ok { cam with m_visibleFaceBuffer := cam.m_visibleFaceBuffer ++ [f] }) ∧
      (numBehind cam.m_nearClippingDepth p.v1 p.v2 p.v3 = 1 →
        buf.length = 4 ∧
        ∃ f1 f2,
          buildFace cam p.polyFlags p.texture
              (buf.getD 0 default) (buf.getD 1 default) (buf.getD 2 default) = Except.ok f1 ∧
          buildFace cam p.polyFlags p.texture
              (buf.getD 0 default) (buf.getD 2 default) (buf.getD 3 default) = Except.ok f2 ∧
          processVisiblePolygon cam p =
            Except.ok { cam with m_visibleFaceBuffer := cam.m_visibleFaceBuffer ++ [f1, f2] }) := by
  obtain ⟨buf, hbuf, hall, -, hc1, hc2, hc3⟩ :=
    clipTriangle_ok cam.m_nearClippingDepth p.v1 p.v2 p.v3 hn h12 h23 h31
  have hdisj := (numBehind_pos_iff _ _ _ _).1 hclip
  have hgood : ∀ i, i < buf.length →
      65536 ≤ (buf.getD i default).z ∧ (buf.getD i default).z ≤ 2147483647 := by
    intro i hi
    have := hall _ (getD_mem_of_lt hi)
    unfold FixedPointOne at hone
    omega
  refine ⟨buf, hbuf, ?_, ?_, ?_⟩
  · intro h3
    have hl := hc3 h3
    refine ⟨hl, ?_⟩
    unfold processVisiblePolygon
    rw [if_pos hdisj, hbuf, ok_bind, if_neg (by omega)]
    rfl
  · intro h2
    have hl := hc2 h2
    obtain ⟨f, hf, -⟩ := buildFace_ok cam p.polyFlags p.texture _ _ _
      (hgood 0 (by omega)) (hgood 1 (by omega)) (hgood 2 (by omega))
    refine ⟨hl, f, hf, ?_⟩
    unfold processVisiblePolygon emitFace
    rw [if_pos hdisj, hbuf, ok_bind, if_pos (by omega), hf, ok_bind, pure_eq_ok, ok_bind,
      if_neg (by omega)]
    rfl
  · intro h1
    have hl := hc1 h1
    obtain ⟨f1, hf1, -⟩ := buildFace_ok cam p.polyFlags p.texture _ _ _
      (hgood 0 (by omega)) (hgood 1 (by omega)) (hgood 2 (by omega))
    obtain ⟨f2, hf2, -⟩ := buildFace_ok cam p.polyFlags p.texture _ _ _
      (hgood 0 (by omega)) (hgood 2 (by omega)) (hgood 3 (by omega))
    refine ⟨hl, f1, f2, hf1, hf2, ?_⟩
    have hf2' : buildFace { cam with m_visibleFaceBuffer := cam.m_visibleFaceBuffer ++ [f1] }
        p.polyFlags p.texture (buf.getD 0 default) (buf.getD 2 default) (buf.getD 3 default) =
        Except.ok f2 := hf2
    unfold processVisiblePolygon emitFace
    rw [if_pos hdisj, hbuf, ok_bind, if_pos (by omega), hf1, ok_bind, pure_eq_ok, ok_bind,
      if_pos hl, hf2', ok_bind, pure_eq_ok]
    simp

theorem ProcessPolygonList_single (cam : Camera) (p : PolygonInput)
    (hvis : p.polyFlags &&& PolygonInfoVisible ≠ 0) :
    ProcessPolygonList cam [p] = processVisiblePolygon cam p := by
  unfold ProcessPolygonList
  rw [if_neg hvis]
  cases h : processVisiblePolygon cam p with
  | error e => rfl
  | ok c => rw [ok_bind]; rfl

/-- Whenever `NearClipEdge` returns, the number of vertices it has added is
fixed by the sides of the two end points. -/
theorem NearClipEdge_length {near : Int} {buf buf' : List ClipVertex} {p1 p2 : ClipVertex}
    (h : NearClipEdge near buf p1 p2 = Except.ok buf') :
    buf'.length = buf.length +
      (if p1.z < near then (if p2.z < near then 0 else 2) else 1) := by
  unfold NearClipEdge at h
  by_cases b1 : p1.z < near <;> by_cases b2 : p2.z < near
  · rw [if_pos b1, if_pos b2] at h
    cases h
    simp [b1, b2]
  · rw [if_pos b1, if_neg b2] at h
    obtain ⟨f, -, h⟩ := bind_eq_ok h
    obtain ⟨c, -, h⟩ := bind_eq_ok h
    cases h
    simp [b1, b2]
  · rw [if_neg b1, if_pos b2] at h
    obtain ⟨f, -, h⟩ := bind_eq_ok h
    obtain ⟨c, -, h⟩ := bind_eq_ok h
    cases h
    simp [b1, b2]
  · rw [if_neg b1, if_neg b2] at h
    cases h
    simp [b1, b2]

/-- Whenever the three edge clips return, the buffer holds 3, 4, 3 or 0
vertices for 0, 1, 2 or 3 vertices behind the near plane. -/
theorem clipTriangle_length {near : Int} {v1 v2 v3 : ClipVertex} {buf : List ClipVertex}
    (h : clipTriangle near v1 v2 v3 = Except.ok buf) :
    (numBehind near v1 v2 v3 = 0 → buf.length = 3) ∧
    (numBehind near v1 v2 v3 = 1 → buf.length = 4) ∧
    (numBehind near v1 v2 v3 = 2 → buf.length = 3) ∧
    (numBehind near v1 v2 v3 = 3 → buf.length = 0) := by
  unfold clipTriangle at h
  obtain ⟨b1, h1, h⟩ := bind_eq_ok h
  obtain ⟨b2, h2, h3⟩ := bind_eq_ok h
  have l1 := NearClipEdge_length h1
  have l2 := NearClipEdge_length h2
  have l3 := NearClipEdge_length h3
  rw [l3, l2, l1]
  unfold numBehind
  by_cases c1 : v1.z < near <;> by_cases c2 : v2.z < near <;> by_cases c3 : v3.z < near <;>
    simp [c1, c2, c3]

/-! ## C3 -/

/-- C3: take a visible triangle with at least one vertex nearer than the
near-clip depth.  Whenever the three clips `v1 -> v2`, `v2 -> v3`, `v3 -> v1`
with `NearClipEdge` return, the buffer holds exactly 0 vertices when all
three vertices are behind, exactly 3 when exactly two are, and exactly 4 when
exactly one is (never 1, 2 or more than 4).  They do return when the depths
and their differences are representable as `int_32`; with the near-clip depth
at least `FixedPointOne`, as the camera sets it, `ProcessPolygonList` then
appends no face, the face of buffer points 0,1,2, or the two faces of buffer
points 0,1,2 and 0,2,3 respectively. -/
theorem C3_nearClip_vertex_counts (cam : Camera) (p : PolygonInput)
    (hvis : p.polyFlags &&& PolygonInfoVisible ≠ 0)
    (hclip : 0 < numBehind cam.m_nearClippingDepth p.v1 p.v2 p.v3) :
    (∀ buf, clipTriangle cam.m_nearClippingDepth p.v1 p.v2 p.v3 = Except.ok buf →
      (buf.length = 0 ∨ buf.length = 3 ∨ buf.length = 4) ∧
      (numBehind cam.m_nearClippingDepth p.v1 p.v2 p.v3 = 3 → buf.length = 0) ∧
      (numBehind cam.m_nearClippingDepth p.v1 p.v2 p.v3 = 2 → buf.length = 3) ∧
      (numBehind cam.m_nearClippingDepth p.v1 p.v2 p.v3 = 1 → buf.length = 4)) ∧
    (FixedPointOne ≤ cam.m_nearClippingDepth → InInt32 cam.m_nearClippingDepth →
      DepthsRepresentable p.v1 p.v2 → DepthsRepresentable p.v2 p.v3 →
      DepthsRepresentable p.v3 p.v1 →
      ∃ buf, clipTriangle cam.m_nearClippingDepth p.v1 p.v2 p.v3 = Except.ok buf ∧
        (numBehind cam.m_nearClippingDepth p.v1 p.v2 p.v3 = 3 →
          ProcessPolygonList cam [p] = Except.ok cam) ∧
        (numBehind cam.m_nearClippingDepth p.v1 p.v2 p.v3 = 2 →
          ∃ f, buildFace cam p.polyFlags p.texture
                (buf.getD 0 default) (buf.getD 1 default) (buf.getD 2 default) = Except.ok f ∧
            ProcessPolygonList cam [p] =
              Except.ok { cam with m_visibleFaceBuffer := cam.m_visibleFaceBuffer ++ [f] }) ∧
        (numBehind cam.m_nearClippingDepth p.v1 p.v2 p.v3 = 1 →
          ∃ f1 f2,
            buildFace cam p.polyFlags p.texture
                (buf.getD 0 default) (buf.getD 1 default) (buf.getD 2 default) = Except.ok f1 ∧
            buildFace cam p.polyFlags p.texture
                (buf.getD 0 default) (buf.getD 2 default) (buf.getD 3 default) = Except.ok f2 ∧
            ProcessPolygonList cam [p] =
              Except.ok { cam with
                m_visibleFaceBuffer := cam.m_visibleFaceBuffer ++ [f1, f2] })) := by
  constructor
  · intro buf hbuf
    obtain ⟨-, h1, h2, h3⟩ := clipTriangle_length hbuf
    refine ⟨?_, h3, h2, h1⟩
    have hle := numBehind_le cam.m_nearClippingDepth p.v1 p.v2 p.v3
    have hcases : numBehind cam.m_nearClippingDepth p.v1 p.v2 p.v3 = 1 ∨
        numBehind cam.m_nearClippingDepth p.v1 p.v2 p.v3 = 2 ∨
        numBehind cam.m_nearClippingDepth p.v1 p.v2 p.v3 = 3 := by omega
    rcases hcases with h | h | h
    · exact Or.inr (Or.inr (h1 h))
    · exact Or.inr (Or.inl (h2 h))
    · exact Or.inl (h3 h)
  · intro hone hn h12 h23 h31
    obtain ⟨buf, hbuf, h3, h2, h1⟩ :=
      processVisiblePolygon_clipped cam p hone hn h12 h23 h31 hclip
    rw [ProcessPolygonList_single cam p hvis]
    exact ⟨buf, hbuf, fun h => (h3 h).2, fun h => (h2 h).2, fun h => (h1 h).2⟩

/-- Witness for C3: the example triangle with one vertex behind; the clips
return four vertices and two faces are appended. -/
theorem C3_nearClip_vertex_counts_witness :
    (∀ buf, clipTriangle exampleCamera.m_nearClippingDepth exampleOneBehind.v1
        exampleOneBehind.v2 exampleOneBehind.v3 = Except.ok buf → buf.length = 4) ∧
    ∃ buf, clipTriangle exampleCamera.m_nearClippingDepth exampleOneBehind.v1
        exampleOneBehind.v2 exampleOneBehind.v3 = Except.ok buf ∧
      ∃ f1 f2,
        buildFace exampleCamera exampleOneBehind.polyFlags exampleOneBehind.texture
            (buf.getD 0 default) (buf.getD 1 default) (buf.getD 2 default) = Except.ok f1 ∧
        buildFace exampleCamera exampleOneBehind.polyFlags exampleOneBehind.texture
            (buf.getD 0 default) (buf.getD 2 default) (buf.getD 3 default) = Except.ok f2 ∧
        ProcessPolygonList exampleCamera [exampleOneBehind] =
          Except.ok { exampleCamera with
            m_visibleFaceBuffer := exampleCamera.m_visibleFaceBuffer ++ [f1, f2] } := by
  have h := C3_nearClip_vertex_counts exampleCamera exampleOneBehind (by decide) (by decide)
  refine ⟨fun buf hbuf => (h.1 buf hbuf).2.2.2 (by decide), ?_⟩
  obtain ⟨buf, hbuf, -, -, h1⟩ := h.2 (by decide) (by decide) (by decide) (by decide)
    (by decide)
  exact ⟨buf, hbuf, h1 (by decide)⟩

/-! ## C4 -/

/-- C4 fails on the example triangle with exactly one vertex behind the near
plane: `ProcessPolygonList` returns with two faces appended, not one. -/
theorem C4_counterexample :
    numBehind exampleCamera.m_nearClippingDepth exampleOneBehind.v1 exampleOneBehind.v2
        exampleOneBehind.v3 = 1 ∧
    ¬ (∃ cam', ProcessPolygonList exampleCamera [exampleOneBehind] = Except.ok cam' ∧
        cam'.m_numVisibleFaces = exampleCamera.m_numVisibleFaces + 1) ∧
    (∃ cam', ProcessPolygonList exampleCamera [exampleOneBehind] = Except.ok cam' ∧
        cam'.m_numVisibleFaces = exampleCamera.m_numVisibleFaces + 2) := by
  have h : ∃ cam', ProcessPolygonList exampleCamera [exampleOneBehind] = Except.ok cam' ∧
      cam'.m_numVisibleFaces = 2 := by
    have key : (match ProcessPolygonList exampleCamera [exampleOneBehind] with
        | Except.ok c => decide (c.m_numVisibleFaces = 2)
        | Except.error _ => false) = true := by decide
    cases hr : ProcessPolygonList exampleCamera [exampleOneBehind] with
    | error e => rw [hr] at key; exact absurd key (by simp)
    | ok c =>
      rw [hr] at key
      exact ⟨c, rfl, by simpa using key⟩
  obtain ⟨c, hc, hc2⟩ := h
  refine ⟨by decide, ?_, c, hc, by rw [hc2]; rfl⟩
  rintro ⟨c', hc', hn⟩
  rw [hc] at hc'
  cases hc'
  rw [hc2] at hn
  exact absurd hn (by decide)

/-- C4 (amended): a visible triangle with exactly one vertex behind the near
plane (depths and their differences representable as `int_32`, near-clip
depth at least `FixedPointOne`) makes `ProcessPolygonList` append exactly two
faces. -/
theorem C4_one_behind_two_faces (cam : Camera) (p : PolygonInput)
    (hone : FixedPointOne ≤ cam.m_nearClippingDepth) (hn : InInt32 cam.m_nearClippingDepth)
    (h12 : DepthsRepresentable p.v1 p.v2) (h23 : DepthsRepresentable p.v2 p.v3)
    (h31 : DepthsRepresentable p.v3 p.v1)
    (hvis : p.polyFlags &&& PolygonInfoVisible ≠ 0)
    (hbehind : numBehind cam.m_nearClippingDepth p.v1 p.v2 p.v3 = 1) :
    ∃ cam', ProcessPolygonList cam [p] = Except.ok cam' ∧
      cam'.m_numVisibleFaces = cam.m_numVisibleFaces + 2 := by
  obtain ⟨buf, -, -, -, h1⟩ :=
    processVisiblePolygon_clipped cam p hone hn h12 h23 h31 (by omega)
  obtain ⟨-, f1, f2, -, -, hp⟩ := h1 hbehind
  rw [ProcessPolygonList_single cam p hvis, hp]
  exact ⟨_, rfl, by simp [Camera.m_numVisibleFaces]⟩

/-- Witness for the amended C4: the example triangle. -/
theorem C4_one_behind_two_faces_witness :
    ∃ cam', ProcessPolygonList exampleCamera [exampleOneBehind] = Except.ok cam' ∧
      cam'.m_numVisibleFaces = exampleCamera.m_numVisibleFaces + 2 :=
  C4_one_behind_two_faces exampleCamera exampleOneBehind (by decide) (by decide)
    (by decide) (by decide) (by decide) (by decide) (by decide)

/-! ## C5 -/

theorem Safe_ok {α : Type} {P : α → Prop} {a : α} (h : P a) :
    Safe P (Except.ok a : Except NovaError α) :=
  ⟨fun e => Except.noConfusion e, fun b hb => by cases hb; exact h⟩

theorem Safe_bind {α β : Type} {P : α → Prop} {Q : β → Prop} {x : Except NovaError α}
    {f : α → Except NovaError β} (hx : Safe P x) (hf : ∀ a, P a → Safe Q (f a)) :
    Safe Q (x >>= f) := by
  cases x with
  | error e =>
    refine ⟨?_, fun b hb => by cases hb⟩
    rw [error_bind]
    intro h
    cases h
    exact hx.1 rfl
  | ok a =>
    rw [ok_bind]
    exact hf a (hx.2 a rfl)

theorem Safe_mono {α : Type} {P Q : α → Prop} {x : Except NovaError α} (hx : Safe P x)
    (h : ∀ a, P a → Q a) : Safe Q x :=
  ⟨hx.1, fun a ha => h a (hx.2 a ha)⟩

theorem FixedLargeMul_safe (a b : Int) : Safe (fun _ => True) (FixedLargeMul a b) := by
  unfold FixedLargeMul
  simp only
  split
  · exact ⟨fun e => NovaError.noConfusion (Except.error.inj e), fun _ _ => trivial⟩
  · exact Safe_ok trivial

theorem clipInterpolate_safe (v1 v2 f : Int) : Safe (fun _ => True) (clipInterpolate v1 v2 f) := by
  unfold clipInterpolate
  exact Safe_bind (FixedLargeMul_safe _ _) (fun _ _ => Safe_ok trivial)

theorem clippedVertex_safe (near : Int) (p1 p2 : ClipVertex) (f : Int) :
    Safe (fun c => c.z = near) (clippedVertex near p1 p2 f) := by
  unfold clippedVertex
  refine Safe_bind (clipInterpolate_safe _ _ _) (fun _ _ => ?_)
  refine Safe_bind (clipInterpolate_safe _ _ _) (fun _ _ => ?_)
  refine Safe_bind (clipInterpolate_safe _ _ _) (fun _ _ => ?_)
  refine Safe_bind (clipInterpolate_safe _ _ _) (fun _ _ => ?_)
  refine Safe_bind (clipInterpolate_safe _ _ _) (fun _ _ => ?_)
  exact Safe_ok rfl

theorem getD_append_length (buf : List ClipVertex) (c d : ClipVertex)
    (rest : List ClipVertex) : (buf ++ c :: rest).getD buf.length d = c := by
  induction buf with
  | nil => rfl
  | cons b bs ih => simpa using ih

theorem FixedLargeDiv_safe {a d : Int} (hd : d ≠ 0) : Safe (fun _ => True) (FixedLargeDiv a d) := by
  unfold FixedLargeDiv
  rw [if_neg hd]
  exact Safe_ok trivial

theorem wrap32_sub_ne_zero {a b : Int} (ha : InInt32 a) (hb : InInt32 b) (h : a < b) :
    wrap32 (b - a) ≠ 0 := by
  unfold InInt32 at ha hb
  unfold wrap32
  omega

/-- `NearClipEdge` never divides by zero, and what it returns is the old
buffer followed by vertices at or beyond the near plane, the first of which
lies exactly on it when the edge crosses the plane. -/
theorem NearClipEdge_safe (near : Int) (buf : List ClipVertex) (p1 p2 : ClipVertex)
    (h1 : InInt32 p1.z) (h2 : InInt32 p2.z) :
    Safe (fun buf' => ∃ new, buf' = buf ++ new ∧ (∀ c ∈ new, c.z = near ∨ (c = p2 ∧ near ≤ c.z)) ∧
        ((p1.z < near ↔ ¬ p2.z < near) → (buf'.getD buf.length default).z = near))
      (NearClipEdge near buf p1 p2) := by
  unfold NearClipEdge
  by_cases b1 : p1.z < near <;> by_cases b2 : p2.z < near
  · rw [if_pos b1, if_pos b2]
    exact Safe_ok ⟨[], by simp, by simp, fun h => absurd b2 (h.1 b1)⟩
  · rw [if_pos b1, if_neg b2]
    refine Safe_bind (FixedLargeDiv_safe (wrap32_sub_ne_zero h1 h2 (by omega))) (fun f _ => ?_)
    refine Safe_bind (clippedVertex_safe near p1 p2 f) (fun c hc => ?_)
    refine Safe_ok ⟨[c, p2], rfl, ?_, fun _ => ?_⟩
    · intro x hx
      simp only [List.mem_cons, List.mem_singleton, List.not_mem_nil, or_false] at hx
      rcases hx with rfl | rfl
      · exact Or.inl hc
      · exact Or.inr ⟨rfl, by omega⟩
    · rw [getD_append_length]; exact hc
  · rw [if_neg b1, if_pos b2]
    refine Safe_bind (FixedLargeDiv_safe (wrap32_sub_ne_zero h2 h1 (by omega))) (fun f _ => ?_)
    refine Safe_bind (clippedVertex_safe near p1 p2 f) (fun c hc => ?_)
    refine Safe_ok ⟨[c], rfl, ?_, fun _ => ?_⟩
    · intro x hx
      simp only [List.mem_singleton] at hx
      subst hx
      exact Or.inl hc
    · rw [getD_append_length]; exact hc
  · rw [if_neg b1, if_neg b2]
    refine Safe_ok ⟨[p2], rfl, ?_, fun h => ?_⟩
    · intro x hx
      simp only [List.mem_singleton] at hx
      subst hx
      exact Or.inr ⟨rfl, by omega⟩
    · exact absurd (h.2 b2) b1

theorem clipTriangle_safe (near : Int) (v1 v2 v3 : ClipVertex) (hn : InInt32 near)
    (h1 : InInt32 v1.z) (h2 : InInt32 v2.z) (h3 : InInt32 v3.z) :
    Safe (fun buf => ∀ c ∈ buf, near ≤ c.z ∧ c.z ≤ 2147483647)
      (clipTriangle near v1 v2 v3) := by
  have key : ∀ (p q : ClipVertex) (new : List ClipVertex), InInt32 q.z →
      (∀ c ∈ new, c.z = near ∨ (c = q ∧ near ≤ c.z)) →
      ∀ c ∈ new, near ≤ c.z ∧ c.z ≤ 2147483647 := by
    intro p q new hq hnew c hc
    unfold InInt32 at hq hn
    rcases hnew c hc with h | ⟨rfl, h⟩
    · omega
    · omega
  unfold clipTriangle
  refine Safe_bind (NearClipEdge_safe near [] v1 v2 h1 h2) (fun b1 hb1 => ?_)
  obtain ⟨n1, e1, hn1, -⟩ := hb1
  refine Safe_bind (NearClipEdge_safe near _ v2 v3 h2 h3) (fun b2 hb2 => ?_)
  obtain ⟨n2, e2, hn2, -⟩ := hb2
  refine Safe_mono (NearClipEdge_safe near _ v3 v1 h3 h1) (fun b3 hb3 => ?_)
  obtain ⟨n3, e3, hn3, -⟩ := hb3
  intro c hc
  rw [e3, e2, e1] at hc
  simp only [List.nil_append, List.mem_append] at hc
  rcases hc with (hc | hc) | hc
  · exact key v1 v2 n1 h2 hn1 c hc
  · exact key v2 v3 n2 h3 hn2 c hc
  · exact key v3 v1 n3 h1 hn3 c hc

theorem projectVertex_safe (cam : Camera) (x y : Int) {z : Int} (hz0 : 0 < z)
    (hz1 : z ≤ 2147483647) : Safe (fun _ => True) (projectVertex cam x y z) := by
  unfold projectVertex
  have hzu : wrapU32 z = z := by unfold wrapU32; omega
  rw [hzu, if_neg (by omega)]
  refine Safe_bind (FixedLargeMul_safe _ _) (fun _ _ => ?_)
  refine Safe_bind (FixedLargeMul_safe _ _) (fun _ _ => ?_)
  exact Safe_ok trivial

theorem screenVertex_safe (cam : Camera) (p : ClipVertex) (hz0 : 0 < p.z)
    (hz1 : p.z ≤ 2147483647) : Safe (fun s => s.m_z = p.z) (screenVertex cam p) := by
  unfold screenVertex
  exact Safe_bind (projectVertex_safe cam p.x p.y hz0 hz1) (fun _ _ => Safe_ok rfl)

theorem buildFace_safe (cam : Camera) (polyFlags : Nat) (texture : Option Nat)
    (near : Int) (hnear : 0 < near) (p1 p2 p3 : ClipVertex)
    (h1 : near ≤ p1.z ∧ p1.z ≤ 2147483647) (h2 : near ≤ p2.z ∧ p2.z ≤ 2147483647)
    (h3 : near ≤ p3.z ∧ p3.z ≤ 2147483647) :
    Safe (FaceBeyond near) (buildFace cam polyFlags texture p1 p2 p3) := by
  unfold buildFace
  refine Safe_bind (screenVertex_safe cam p1 (by omega) h1.2) (fun s1 hs1 => ?_)
  refine Safe_bind (screenVertex_safe cam p2 (by omega) h2.2) (fun s2 hs2 => ?_)
  refine Safe_bind (screenVertex_safe cam p3 (by omega) h3.2) (fun s3 hs3 => ?_)
  refine Safe_ok ?_
  unfold FaceBeyond
  simp only [hs1, hs2, hs3]
  omega

theorem emitFace_safe (cam0 cam : Camera) (polyFlags : Nat) (texture : Option Nat)
    (hnear : 0 < cam0.m_nearClippingDepth) (p1 p2 p3 : ClipVertex)
    (h1 : cam0.m_nearClippingDepth ≤ p1.z ∧ p1.z ≤ 2147483647)
    (h2 : cam0.m_nearClippingDepth ≤ p2.z ∧ p2.z ≤ 2147483647)
    (h3 : cam0.m_nearClippingDepth ≤ p3.z ∧ p3.z ≤ 2147483647)
    (hcam : AppendedBeyond cam0 cam) :
    Safe (AppendedBeyond cam0) (emitFace cam polyFlags texture p1 p2 p3) := by
  unfold emitFace
  refine Safe_bind (buildFace_safe cam polyFlags texture _ hnear p1 p2 p3 h1 h2 h3)
    (fun f hf => ?_)
  obtain ⟨hc, new, hnew, hall⟩ := hcam
  refine Safe_ok ⟨hc, new ++ [f], ?_, ?_⟩
  · simp only [hnew, List.append_assoc]
  · intro g hg
    simp only [List.mem_append, List.mem_singleton] at hg
    rcases hg with hg | rfl
    · exact hall g hg
    · exact hf

theorem processVisiblePolygon_safe (cam0 cam : Camera) (p : PolygonInput)
    (hnear : 0 < cam0.m_nearClippingDepth) (hn : InInt32 cam0.m_nearClippingDepth)
    (h1 : InInt32 p.v1.z) (h2 : InInt32 p.v2.z) (h3 : InInt32 p.v3.z)
    (hcam : AppendedBeyond cam0 cam) :
    Safe (AppendedBeyond cam0) (processVisiblePolygon cam p) := by
  have hnc : cam.m_nearClippingDepth = cam0.m_nearClippingDepth := hcam.1
  unfold processVisiblePolygon
  rw [hnc]
  split
  · refine Safe_bind (clipTriangle_safe _ p.v1 p.v2 p.v3 hn h1 h2 h3) (fun buf hbuf => ?_)
    split
    · rename_i hlen
      refine Safe_bind (emitFace_safe cam0 cam _ _ hnear _ _ _
        (hbuf _ (getD_mem_of_lt (by omega))) (hbuf _ (getD_mem_of_lt (by omega)))
        (hbuf _ (getD_mem_of_lt (by omega))) hcam) (fun cam1 hcam1 => ?_)
      split
      · rename_i hlen4
        exact emitFace_safe cam0 cam1 _ _ hnear _ _ _
          (hbuf _ (getD_mem_of_lt (by omega))) (hbuf _ (getD_mem_of_lt (by omega)))
          (hbuf _ (getD_mem_of_lt (by omega))) hcam1
      · exact Safe_ok hcam1
    · exact Safe_ok hcam
  · rename_i hno
    unfold InInt32 at h1 h2 h3
    exact emitFace_safe cam0 cam _ _ hnear _ _ _ (by omega) (by omega) (by omega) hcam

theorem ProcessPolygonList_safe (cam0 : Camera) (polys : List PolygonInput)
    (hnear : 0 < cam0.m_nearClippingDepth) (hn : InInt32 cam0.m_nearClippingDepth)
    (hz : ∀ p ∈ polys, InInt32 p.v1.z ∧ InInt32 p.v2.z ∧ InInt32 p.v3.z) :
    ∀ cam, AppendedBeyond cam0 cam → Safe (AppendedBeyond cam0) (ProcessPolygonList cam polys) := by
  induction polys with
  | nil =>
    intro cam hcam
    unfold ProcessPolygonList
    exact Safe_ok hcam
  | cons p rest ih =>
    intro cam hcam
    have hp := hz p (List.mem_cons_self _ _)
    have hrest : ∀ q ∈ rest, InInt32 q.v1.z ∧ InInt32 q.v2.z ∧ InInt32 q.v3.z :=
      fun q hq => hz q (List.mem_cons_of_mem _ hq)
    unfold ProcessPolygonList
    split
    · exact ih hrest cam hcam
    · exact Safe_bind (processVisiblePolygon_safe cam0 cam p hnear hn hp.1 hp.2.1 hp.2.2 hcam)
        (fun cam1 hcam1 => ih hrest cam1 hcam1)

/-- C5: with a positive near-clip depth (depths representable as `int_32`),
`ProcessPolygonList` never divides by zero, neither in the reciprocal
`MaxUint32 / z` of `PerspectiveProject` nor in the clip parameter; every face
it appends has all three vertices at `z >=` the near-clip depth; and the
vertex `NearClipEdge` generates for an edge crossing the near plane has `z`
exactly equal to the near-clip depth. -/
theorem C5_emitted_depths_beyond_near (cam : Camera) (polys : List PolygonInput)
    (hnear : 0 < cam.m_nearClippingDepth) (hn : InInt32 cam.m_nearClippingDepth)
    (hz : ∀ p ∈ polys, InInt32 p.v1.z ∧ InInt32 p.v2.z ∧ InInt32 p.v3.z) :
    ProcessPolygonList cam polys ≠ Except.error NovaError.divideByZero ∧
    (∀ cam', ProcessPolygonList cam polys = Except.ok cam' →
      ∃ new, cam'.m_visibleFaceBuffer = cam.m_visibleFaceBuffer ++ new ∧
        ∀ f ∈ new, cam.m_nearClippingDepth ≤ f.m_v1.m_z ∧
          cam.m_nearClippingDepth ≤ f.m_v2.m_z ∧ cam.m_nearClippingDepth ≤ f.m_v3.m_z) ∧
    (∀ (p1 p2 : ClipVertex) (buf buf' : List ClipVertex),
      InInt32 p1.z → InInt32 p2.z →
      (p1.z < cam.m_nearClippingDepth ↔ ¬ p2.z < cam.m_nearClippingDepth) →
      NearClipEdge cam.m_nearClippingDepth buf p1 p2 = Except.ok buf' →
      (buf'.getD buf.length default).z = cam.m_nearClippingDepth) := by
  have hs := ProcessPolygonList_safe cam polys hnear hn hz cam ⟨rfl, [], by simp, by simp⟩
  refine ⟨hs.1, ?_, ?_⟩
  · intro cam' hcam'
    obtain ⟨-, new, hnew, hall⟩ := hs.2 cam' hcam'
    exact ⟨new, hnew, fun f hf => hall f hf⟩
  · intro p1 p2 buf buf' h1 h2 hcross hres
    obtain ⟨new, -, -, hz⟩ := (NearClipEdge_safe cam.m_nearClippingDepth buf p1 p2 h1 h2).2 buf' hres
    exact hz hcross

/-- Witness for C5: the example camera and triangle. -/
theorem C5_emitted_depths_beyond_near_witness :
    ProcessPolygonList exampleCamera [exampleOneBehind] ≠
      Except.error NovaError.divideByZero ∧
    (∀ cam', ProcessPolygonList exampleCamera [exampleOneBehind] = Except.ok cam' →
      ∃ new, cam'.m_visibleFaceBuffer = exampleCamera.m_visibleFaceBuffer ++ new ∧
        ∀ f ∈ new, exampleCamera.m_nearClippingDepth ≤ f.m_v1.m_z ∧
          exampleCamera.m_nearClippingDepth ≤ f.m_v2.m_z ∧
          exampleCamera.m_nearClippingDepth ≤ f.m_v3.m_z) ∧
    (∀ (p1 p2 : ClipVertex) (buf buf' : List ClipVertex),
      InInt32 p1.z → InInt32 p2.z →
      (p1.z < exampleCamera.m_nearClippingDepth ↔ ¬ p2.z < exampleCamera.m_nearClippingDepth) →
      NearClipEdge exampleCamera.m_nearClippingDepth buf p1 p2 = Except.ok buf' →
      (buf'.getD buf.length default).z = exampleCamera.m_nearClippingDepth) :=
  C5_emitted_depths_beyond_near exampleCamera [exampleOneBehind] (by decide) (by decide)
    (by decide)

/-! ## DepthSort: list lemmas -/

theorem getD_cons_set_perm (d x : ScreenPolygon) :
    ∀ (xs : List ScreenPolygon) (j : Nat), j < xs.length →
      (xs.getD j d :: xs.set j x).Perm (x :: xs) := by
  intro xs
  induction xs with
  | nil => intro j hj; simp at hj
  | cons y ys ih =>
    intro j hj
    cases j with
    | zero => simpa using List.Perm.swap x y ys
    | succ j' =>
      have hj' : j' < ys.length := by simpa using hj
      have h1 : ((y :: ys).getD (j' + 1) d :: (y :: ys).set (j' + 1) x) =
          (ys.getD j' d :: y :: ys.set j' x) := by simp
      rw [h1]
      exact ((List.Perm.swap y (ys.getD j' d) (ys.set j' x)).trans
        ((ih j' hj').cons y)).trans (List.Perm.swap x y ys)

theorem set_set_getD_perm (d : ScreenPolygon) :
    ∀ (l : List ScreenPolygon) (i j : Nat), i < l.length → j < l.length →
      ((l.set j (l.getD i d)).set i (l.getD j d)).Perm l := by
  intro l
  induction l with
  | nil => intro i j hi; simp at hi
  | cons x xs ih =>
    intro i j hi hj
    cases i with
    | zero =>
      cases j with
      | zero => simp
      | succ j' =>
        have hj' : j' < xs.length := by simpa using hj
        simpa using getD_cons_set_perm d x xs j' hj'
    | succ i' =>
      have hi' : i' < xs.length := by simpa using hi
      cases j with
      | zero => simpa using getD_cons_set_perm d x xs i' hi'
      | succ j' =>
        have hj' : j' < xs.length := by simpa using hj
        simpa using ih i' j' hi' hj'

theorem getD_set_set (d a b : ScreenPolygon) (l : List ScreenPolygon) (i j k : Nat)
    (hi : i < l.length) (hj : j < l.length) :
    ((l.set j a).set i b).getD k d =
      if k = i then b else if k = j then a else l.getD k d := by
  simp only [List.getD_eq_getElem?_getD, List.getElem?_set, List.length_set]
  by_cases hki : k = i
  · subst hki; simp [hi]
  · by_cases hkj : k = j
    · subst hkj
      simp [hj, hki, Ne.symm hki]
    · simp [hki, hkj, Ne.symm hki, Ne.symm hkj]

theorem swapFaces_some (list : List ScreenPolygon) (i j : Int) (hi0 : 0 ≤ i)
    (hi : i < list.length) (hj0 : 0 ≤ j) (hj : j < list.length) :
    ∃ list', swapFaces list i j = some list' ∧ list'.length = list.length ∧
      list'.Perm list ∧
      faceAt list' i = faceAt list j ∧ faceAt list' j = faceAt list i ∧
      ∀ k : Int, 0 ≤ k → k ≠ i → k ≠ j → faceAt list' k = faceAt list k := by
  have hin : i.toNat < list.length := by omega
  have hjn : j.toNat < list.length := by omega
  unfold swapFaces
  rw [if_pos ⟨hi0, hi, hj0, hj⟩]
  refine ⟨_, rfl, by simp, ?_, ?_, ?_, ?_⟩
  · exact set_set_getD_perm default list i.toNat j.toNat hin hjn
  · unfold faceAt
    rw [getD_set_set _ _ _ _ _ _ _ hin hjn, if_pos rfl]
  · unfold faceAt
    rw [getD_set_set _ _ _ _ _ _ _ hin hjn]
    by_cases h : j.toNat = i.toNat
    · rw [if_pos h, h]
    · rw [if_neg h, if_pos rfl]
  · intro k hk0 hki hkj
    unfold faceAt
    rw [getD_set_set _ _ _ _ _ _ _ hin hjn, if_neg (by omega), if_neg (by omega)]

theorem zSortAt_some {list : List ScreenPolygon} {i : Int} (h0 : 0 ≤ i)
    (h1 : i < list.length) : zSortAt list i = some (faceAt list i).m_zSortValue := by
  unfold zSortAt
  rw [if_pos ⟨h0, h1⟩]

/-! ## DepthSort: range permutations -/

theorem RangePerm.refl (left right : Int) (list : List ScreenPolygon) :
    RangePerm left right list list :=
  ⟨rfl, List.Perm.refl _, fun _ _ _ => rfl, fun _ h => h⟩

theorem RangePerm.trans {left right : Int} {l1 l2 l3 : List ScreenPolygon}
    (h12 : RangePerm left right l1 l2) (h23 : RangePerm left right l2 l3) :
    RangePerm left right l1 l3 :=
  ⟨h23.1.trans h12.1, h23.2.1.trans h12.2.1,
    fun k hk0 hk => (h23.2.2.1 k hk0 hk).trans (h12.2.2.1 k hk0 hk),
    fun Q hQ => h23.2.2.2 Q (h12.2.2.2 Q hQ)⟩

theorem RangePerm.widen {left right left' right' : Int} {l1 l2 : List ScreenPolygon}
    (h : RangePerm left right l1 l2) (hl0 : 0 ≤ left') (hl : left' ≤ left)
    (hr : right ≤ right') : RangePerm left' right' l1 l2 := by
  refine ⟨h.1, h.2.1, fun k hk0 hk => h.2.2.1 k hk0 (by omega), fun Q hQ k hk1 hk2 => ?_⟩
  by_cases hin : left ≤ k ∧ k ≤ right
  · exact h.2.2.2 Q (fun m hm1 hm2 => hQ m (by omega) (by omega)) k hin.1 hin.2
  · rw [h.2.2.1 k (by omega) (by omega)]
    exact hQ k hk1 hk2

theorem RangePerm.of_swap {left right : Int} {list list' : List ScreenPolygon} {i j : Int}
    (hl0 : 0 ≤ left) (hi : left ≤ i ∧ i ≤ right) (hj : left ≤ j ∧ j ≤ right)
    (hlen : list'.length = list.length) (hperm : list'.Perm list)
    (hij : faceAt list' i = faceAt list j) (hji : faceAt list' j = faceAt list i)
    (hk : ∀ k : Int, 0 ≤ k → k ≠ i → k ≠ j → faceAt list' k = faceAt list k) :
    RangePerm left right list list' := by
  refine ⟨hlen, hperm, fun k hk0 hko => hk k hk0 (by omega) (by omega), fun Q hQ k hk1 hk2 => ?_⟩
  by_cases hki : k = i
  · rw [hki, hij]; exact hQ j hj.1 hj.2
  · by_cases hkj : k = j
    · rw [hkj, hji]; exact hQ i hi.1 hi.2
    · rw [hk k (by omega) hki hkj]; exact hQ k hk1 hk2

/-! ## DepthSort: the loops -/

theorem zSortAt_key {list : List ScreenPolygon} {i : Int} (h0 : 0 ≤ i)
    (h1 : i < list.length) : zSortAt list i = some (keyAt list i) :=
  zSortAt_some h0 h1

/-- The first scan stops at or before any entry whose key does not exceed
the pivot, on an entry whose key does not exceed the pivot, having passed
only keys greater than the pivot. -/
theorem scanLeft_spec (list : List ScreenPolygon) (p right k : Int)
    (hkr : k ≤ right) (hrn : right < list.length) (hk : keyAt list k ≤ p) :
    ∀ (fuel : Nat) (qleft : Int), 0 ≤ qleft → qleft ≤ k → (fuel : Int) ≥ k - qleft + 1 →
      ∃ ql, scanLeft list p right fuel qleft = some ql ∧ qleft ≤ ql ∧ ql ≤ k ∧
        keyAt list ql ≤ p ∧ ∀ m, qleft ≤ m → m < ql → keyAt list m > p := by
  intro fuel
  induction fuel with
  | zero => intro qleft _ h2 h3; omega
  | succ f ih =>
    intro qleft h0 h2 h3
    unfold scanLeft
    rw [zSortAt_key h0 (by omega)]
    by_cases hc : keyAt list qleft > p ∧ qleft < right
    · simp only [if_pos hc]
      have hne : qleft ≠ k := by
        rintro rfl
        omega
      obtain ⟨ql, hql, h4, h5, h6, h7⟩ := ih (qleft + 1) (by omega) (by omega) (by omega)
      refine ⟨ql, hql, by omega, h5, h6, fun m hm1 hm2 => ?_⟩
      by_cases hmq : m = qleft
      · rw [hmq]; exact hc.1
      · exact h7 m (by omega) hm2
    · simp only [if_neg hc]
      refine ⟨qleft, rfl, le_refl _, h2, ?_, fun m hm1 hm2 => by omega⟩
      by_cases hq : qleft < right
      · have : ¬ keyAt list qleft > p := fun h => hc ⟨h, hq⟩
        omega
      · have : qleft = k := by omega
        rw [this]; exact hk

/-- The second scan, symmetric to the first. -/
theorem scanRight_spec (list : List ScreenPolygon) (p left k : Int)
    (hl0 : 0 ≤ left) (hlk : left ≤ k) (hk : keyAt list k ≥ p) :
    ∀ (fuel : Nat) (qright : Int), qright < list.length → k ≤ qright →
      (fuel : Int) ≥ qright - k + 1 →
      ∃ qr, scanRight list p left fuel qright = some qr ∧ qr ≤ qright ∧ k ≤ qr ∧
        keyAt list qr ≥ p ∧ ∀ m, qr < m → m ≤ qright → keyAt list m < p := by
  intro fuel
  induction fuel with
  | zero => intro qright _ h2 h3; omega
  | succ f ih =>
    intro qright h0 h2 h3
    unfold scanRight
    rw [zSortAt_key (by omega) h0]
    by_cases hc : p > keyAt list qright ∧ qright > left
    · simp only [if_pos hc]
      have hne : qright ≠ k := by
        rintro rfl
        omega
      obtain ⟨qr, hqr, h4, h5, h6, h7⟩ := ih (qright - 1) (by omega) (by omega) (by omega)
      refine ⟨qr, hqr, by omega, h5, h6, fun m hm1 hm2 => ?_⟩
      by_cases hmq : m = qright
      · rw [hmq]; exact hc.1
      · exact h7 m hm1 (by omega)
    · simp only [if_neg hc]
      refine ⟨qright, rfl, le_refl _, h2, ?_, fun m hm1 hm2 => by omega⟩
      by_cases hq : qright > left
      · have : ¬ p > keyAt list qright := fun h => hc ⟨h, hq⟩
        omega
      · have : qright = k := by omega
        rw [this]; exact hk

/-- The partition loop: it returns with the pointers crossed, both strictly
inside the range they started from, keys at least the pivot left of `qleft`
and keys at most the pivot right of `qright`. -/
theorem partitionLoop_spec (p left right : Int) (sf n : Nat) (hl0 : 0 ≤ left)
    (hrn : right < n) (hsf : (sf : Int) ≥ right - left + 1) :
    ∀ (fuel : Nat) (l : List ScreenPolygon) (i j : Int), l.length = n →
      left ≤ i → i ≤ j → j ≤ right →
      (∀ k, left ≤ k → k < i → keyAt l k ≥ p) →
      (∀ k, j < k → k ≤ right → keyAt l k ≤ p) →
      (∃ k1 k2, i ≤ k1 ∧ k1 ≤ right ∧ keyAt l k1 ≤ p ∧ left ≤ k2 ∧ k2 ≤ j ∧ keyAt l k2 ≥ p ∧
        ((left < i ∧ j < right) ∨ k1 ≤ k2)) →
      (fuel : Int) ≥ j - i + 1 →
      ∃ l' i' j', partitionLoop p left right sf fuel l i j = some (l', i', j') ∧
        RangePerm left right l l' ∧ j' < i' ∧ left < i' ∧ j' < right ∧ i' ≤ right + 1 ∧
        left - 1 ≤ j' ∧
        (∀ k, left ≤ k → k < i' → keyAt l' k ≥ p) ∧
        (∀ k, j' < k → k ≤ right → keyAt l' k ≤ p) := by
  intro fuel
  induction fuel with
  | zero => intro l i j _ _ h3 _ _ _ _ hf; omega
  | succ f ih =>
    intro l i j hlen hli hij hjr hA hB hS hf
    obtain ⟨k1, k2, hk1a, hk1b, hk1c, hk2a, hk2b, hk2c, hD⟩ := hS
    obtain ⟨ql, hql, hq1, hq2, hq3, hq4⟩ :=
      scanLeft_spec l p right k1 hk1b (by omega) hk1c sf i (by omega) hk1a (by omega)
    obtain ⟨qr, hqr, hr1, hr2, hr3, hr4⟩ :=
      scanRight_spec l p left k2 hl0 hk2a hk2c sf j (by omega) hk2b (by omega)
    have hA' : ∀ k, left ≤ k → k < ql → keyAt l k ≥ p := by
      intro k hk1 hk2
      by_cases h : k < i
      · exact hA k hk1 h
      · have := hq4 k (by omega) hk2
        omega
    have hB' : ∀ k, qr < k → k ≤ right → keyAt l k ≤ p := by
      intro k hk1 hk2
      by_cases h : j < k
      · exact hB k h hk2
      · have := hr4 k hk1 (by omega)
        omega
    unfold partitionLoop
    simp only [hql, hqr]
    by_cases hc : ql ≤ qr
    · simp only [if_pos hc]
      obtain ⟨l', hsw, hlen', hperm, hs1, hs2, hs3⟩ :=
        swapFaces_some l ql qr (by omega) (by omega) (by omega) (by omega)
      have hRP : RangePerm left right l l' :=
        RangePerm.of_swap hl0 ⟨by omega, by omega⟩ ⟨by omega, by omega⟩ hlen' hperm hs1 hs2 hs3
      have hkey1 : keyAt l' ql = keyAt l qr := by unfold keyAt; rw [hs1]
      have hkey2 : keyAt l' qr = keyAt l ql := by unfold keyAt; rw [hs2]
      have hkey3 : ∀ k : Int, 0 ≤ k → k ≠ ql → k ≠ qr → keyAt l' k = keyAt l k := by
        intro k h0 h1 h2
        unfold keyAt
        rw [hs3 k h0 h1 h2]
      have hA'' : ∀ k, left ≤ k → k < ql + 1 → keyAt l' k ≥ p := by
        intro k hk1 hk2
        by_cases h : k = ql
        · rw [h, hkey1]; exact hr3
        · rw [hkey3 k (by omega) h (by omega)]
          exact hA' k hk1 (by omega)
      have hB'' : ∀ k, qr - 1 < k → k ≤ right → keyAt l' k ≤ p := by
        intro k hk1 hk2
        by_cases h : k = qr
        · rw [h, hkey2]; exact hq3
        · rw [hkey3 k (by omega) (by omega) h]
          exact hB' k (by omega) hk2
      simp only [hsw]
      by_cases hc2 : ql + 1 ≤ qr - 1
      · simp only [if_pos hc2]
        obtain ⟨l'', i', j', hres, hRP2, h1, h2, h3, h4, h5, h6, h7⟩ :=
          ih l' (ql + 1) (qr - 1) (by omega) (by omega) hc2 (by omega) hA'' hB''
            ⟨qr, ql, by omega, by omega, by rw [hkey2]; exact hq3, by omega, by omega,
              by rw [hkey1]; exact hr3, Or.inl ⟨by omega, by omega⟩⟩ (by omega)
        exact ⟨l'', i', j', hres, hRP.trans hRP2, h1, h2, h3, h4, h5, h6, h7⟩
      · simp only [if_neg hc2]
        exact ⟨l', ql + 1, qr - 1, rfl, hRP, by omega, by omega, by omega, by omega, by omega,
          hA'', hB''⟩
    · simp only [if_neg hc]
      refine ⟨l, ql, qr, rfl, RangePerm.refl _ _ _, by omega, ?_, ?_, by omega, by omega,
        hA', hB'⟩
      · rcases hD with hD | hD <;> omega
      · rcases hD with hD | hD <;> omega

theorem shiftRight_one (x : Int) : x >>> (1 : Nat) = x / 2 := by
  rw [Int.shiftRight_eq_div_pow]; norm_num

/-- `DepthSort` returns, permutes the range `left .. right` and leaves its
keys in non-increasing order. -/
theorem DepthSort_spec :
    ∀ (fuel : Nat) (l : List ScreenPolygon) (left right : Int), 0 ≤ left → left ≤ right →
      right < l.length → (fuel : Int) ≥ right - left + 2 →
      ∃ l', DepthSort fuel l left right = some l' ∧ RangePerm left right l l' ∧
        ∀ a b, left ≤ a → a ≤ b → b ≤ right → keyAt l' a ≥ keyAt l' b := by
  intro fuel
  induction fuel with
  | zero => intro l left right _ _ _ hf; omega
  | succ f ih =>
    intro l left right hl0 hlr hrn hf
    have hmid : (left + right) >>> (1 : Nat) = (left + right) / 2 := shiftRight_one _
    have hm1 : left ≤ (left + right) / 2 := by omega
    have hm2 : (left + right) / 2 ≤ right := by omega
    unfold DepthSort
    rw [hmid, zSortAt_key (by omega) (by omega)]
    simp only
    obtain ⟨l1, i', j', hpart, hRP1, hji, hli, hjr, hir, hlj, hA, hB⟩ :=
      partitionLoop_spec (keyAt l ((left + right) / 2)) left right f l.length hl0 hrn (by omega)
        f l left right rfl (le_refl _) hlr (le_refl _) (fun k h1 h2 => by omega)
        (fun k h1 h2 => by omega)
        ⟨(left + right) / 2, (left + right) / 2, hm1, hm2, le_refl _, hm1, hm2, le_refl _,
          Or.inr (le_refl _)⟩ (by omega)
    rw [hpart]
    simp only
    generalize keyAt l ((left + right) / 2) = p at hA hB
    have hlen1 : l1.length = l.length := hRP1.1
    -- the left recursion
    have hL : ∃ l2, (if left < j' then DepthSort f l1 left j' else some l1) = some l2 ∧
        RangePerm left j' l1 l2 ∧
        ∀ a b, left ≤ a → a ≤ b → b ≤ j' → keyAt l2 a ≥ keyAt l2 b := by
      by_cases hc : left < j'
      · rw [if_pos hc]
        exact ih l1 left j' hl0 (by omega) (by omega) (by omega)
      · rw [if_neg hc]
        refine ⟨l1, rfl, RangePerm.refl _ _ _, fun a b h1 h2 h3 => ?_⟩
        have : a = b := by omega
        rw [this]
    obtain ⟨l2, hl2, hRP2, hS2⟩ := hL
    rw [hl2]
    simp only
    have hlen2 : l2.length = l.length := hRP2.1.trans hlen1
    have hR : ∃ l3, (if i' < right then DepthSort f l2 i' right else some l2) = some l3 ∧
        RangePerm i' right l2 l3 ∧
        ∀ a b, i' ≤ a → a ≤ b → b ≤ right → keyAt l3 a ≥ keyAt l3 b := by
      by_cases hc : i' < right
      · rw [if_pos hc]
        exact ih l2 i' right (by omega) (by omega) (by omega) (by omega)
      · rw [if_neg hc]
        refine ⟨l2, rfl, RangePerm.refl _ _ _, fun a b h1 h2 h3 => ?_⟩
        have : a = b := by omega
        rw [this]
    obtain ⟨l3, hl3, hRP3, hS3⟩ := hR
    refine ⟨l3, hl3, ?_, ?_⟩
    · exact (hRP1.trans (hRP2.widen hl0 (le_refl _) (by omega))).trans
        (hRP3.widen hl0 (by omega) (le_refl _))
    · -- keys of the three regions in the final list
      have key2_out : ∀ k : Int, 0 ≤ k → (k < left ∨ j' < k) → keyAt l2 k = keyAt l1 k := by
        intro k h0 h1
        unfold keyAt
        rw [hRP2.2.2.1 k h0 h1]
      have key3_out : ∀ k : Int, 0 ≤ k → (k < i' ∨ right < k) → keyAt l3 k = keyAt l2 k := by
        intro k h0 h1
        unfold keyAt
        rw [hRP3.2.2.1 k h0 h1]
      have hA2 : ∀ k, left ≤ k → k ≤ j' → keyAt l2 k ≥ p :=
        hRP2.2.2.2 (fun x => x.m_zSortValue ≥ p) (fun k h1 h2 => hA k h1 (by omega))
      have hB2 : ∀ k, j' < k → k ≤ right → keyAt l2 k ≤ p := by
        intro k h1 h2
        rw [key2_out k (by omega) (Or.inr h1)]
        exact hB k h1 h2
      have hA2' : ∀ k, left ≤ k → k < i' → keyAt l2 k ≥ p := by
        intro k h1 h2
        by_cases h : k ≤ j'
        · exact hA2 k h1 h
        · rw [key2_out k (by omega) (Or.inr (by omega))]
          exact hA k h1 h2
      have hB3 : ∀ k, i' ≤ k → k ≤ right → keyAt l3 k ≤ p :=
        hRP3.2.2.2 (fun x => x.m_zSortValue ≤ p) (fun k h1 h2 => hB2 k (by omega) h2)
      have hA3 : ∀ k, left ≤ k → k < i' → keyAt l3 k ≥ p := by
        intro k h1 h2
        rw [key3_out k (by omega) (Or.inl h2)]
        exact hA2' k h1 h2
      have hB3' : ∀ k, j' < k → k ≤ right → keyAt l3 k ≤ p := by
        intro k h1 h2
        by_cases h : i' ≤ k
        · exact hB3 k h h2
        · rw [key3_out k (by omega) (Or.inl (by omega))]
          exact hB2 k h1 h2
      intro a b ha hab hb
      by_cases h1 : b ≤ j'
      · rw [key3_out a (by omega) (Or.inl (by omega)), key3_out b (by omega) (Or.inl (by omega))]
        exact hS2 a b ha hab h1
      · by_cases h2 : i' ≤ a
        · exact hS3 a b h2 hab hb
        · by_cases h3 : a = b
          · rw [h3]
          · have hap := hA3 a ha (by omega)
            have hbp := hB3' b (by omega) hb
            by_cases h4 : j' < b
            · omega
            · omega

/-! ## C6 -/

example : (DepthSort 9 ([3, 1, 4, 1, 5, 9, 2, 6].map faceWithZ) 0 7).map
    (fun l => l.map (fun f => f.m_zSortValue)) = some [9, 6, 5, 4, 3, 2, 1, 1] := by decide

/-- C6: for every list of `n >= 1` visible polygons, `DepthSort( 0, n - 1 )`
returns (any loop budget of at least `n + 1` is enough), the resulting pointer
list is a permutation of the original one, and its z-sort keys are
non-increasing: the key at `i` is at least the key at `i + 1` for every
adjacent pair, and more generally for every pair in list order. -/
theorem C6_DepthSort_sorted_perm (list : List ScreenPolygon) (fuel : Nat)
    (hn : 1 ≤ list.length) (hfuel : list.length + 1 ≤ fuel) :
    ∃ list', DepthSort fuel list 0 ((list.length : Int) - 1) = some list' ∧
      list'.Perm list ∧
      (∀ i : Nat, i + 1 < list'.length →
        (list'.getD i default).m_zSortValue ≥ (list'.getD (i + 1) default).m_zSortValue) ∧
      List.Pairwise (fun a b => a.m_zSortValue ≥ b.m_zSortValue) list' := by
  obtain ⟨l', hres, hRP, hS⟩ :=
    DepthSort_spec fuel list 0 ((list.length : Int) - 1) (le_refl _) (by omega) (by omega)
      (by omega)
  have hlen : l'.length = list.length := hRP.1
  have hkey : ∀ i : Nat, keyAt l' (i : Int) = (l'.getD i default).m_zSortValue := by
    intro i
    unfold keyAt faceAt
    rw [Int.toNat_ofNat]
  refine ⟨l', hres, hRP.2.1, ?_, ?_⟩
  · intro i hi
    have := hS (i : Int) ((i + 1 : Nat) : Int) (by omega) (by omega) (by omega)
    rw [hkey, hkey] at this
    exact this
  · rw [List.pairwise_iff_getElem]
    intro i j hi hj hij
    have := hS (i : Int) (j : Int) (by omega) (by omega) (by omega)
    rw [hkey, hkey, List.getD_eq_getElem _ _ hi, List.getD_eq_getElem _ _ hj] at this
    exact this

/-- Witness for C6: eight polygons with keys 3, 1, 4, 1, 5, 9, 2, 6. -/
theorem C6_DepthSort_sorted_perm_witness :
    ∃ list', DepthSort 9 ([3, 1, 4, 1, 5, 9, 2, 6].map faceWithZ) 0
        (((([3, 1, 4, 1, 5, 9, 2, 6] : List Int).map faceWithZ).length : Int) - 1) = some list' ∧
      list'.Perm ([3, 1, 4, 1, 5, 9, 2, 6].map faceWithZ) ∧
      (∀ i : Nat, i + 1 < list'.length →
        (list'.getD i default).m_zSortValue ≥ (list'.getD (i + 1) default).m_zSortValue) ∧
      List.Pairwise (fun a b => a.m_zSortValue ≥ b.m_zSortValue) list' :=
  C6_DepthSort_sorted_perm ([3, 1, 4, 1, 5, 9, 2, 6].map faceWithZ) 9 (by decide) (by decide)

/-! ## Plane sidedness and backface culling -/

/-- The fixed-point dot product when the products fit: the sum of the three
floors, with no wrap-around. -/
theorem DotProductFixed_ok (v w : Vector) (h : ProductsFit v w) :
    v.DotProductFixed w = Except.ok
      (v.m_x * w.m_x / 65536 + v.m_y * w.m_y / 65536 + v.m_z * w.m_z / 65536) := by
  obtain ⟨hx, hy, hz⟩ := h
  unfold Vector.DotProductFixed FixedTripleMul
  generalize hX : v.m_x * w.m_x = X at hx
  generalize hY : v.m_y * w.m_y = Y at hy
  generalize hZ : v.m_z * w.m_z = Z at hz
  rw [FixedLargeMul_ok (a := v.m_x) (b := w.m_x) (by rw [hX]; omega),
    FixedLargeMul_ok (a := v.m_y) (b := w.m_y) (by rw [hY]; omega),
    FixedLargeMul_ok (a := v.m_z) (b := w.m_z) (by rw [hZ]; omega)]
  simp only [ok_bind, pure_eq_ok, hX, hY, hZ]
  rw [wrap32_of_inInt32 (x := X / 65536 + Y / 65536) ⟨by omega, by omega⟩,
    wrap32_of_inInt32 ⟨by omega, by omega⟩]

/-- `IsOutside` is the sign test `normal . point + D > 0`, up to the rounding
of the three fixed multiplications. -/
theorem IsOutside_side (plane : PlaneEquation) (point : Vector)
    (h : ProductsFit plane.m_normal point) :
    (3 * 65536 ≤ plane.side point → plane.IsOutside point = Except.ok true) ∧
    (plane.side point ≤ 0 → plane.IsOutside point = Except.ok false) := by
  have hdot := DotProductFixed_ok plane.m_normal point h
  obtain ⟨hx, hy, hz⟩ := h
  unfold PlaneEquation.side Vector.dotExact
  unfold PlaneEquation.IsOutside
  rw [hdot, ok_bind, pure_eq_ok]
  generalize plane.m_normal.m_x * point.m_x = X at hx
  generalize plane.m_normal.m_y * point.m_y = Y at hy
  generalize plane.m_normal.m_z * point.m_z = Z at hz
  rw [wrap32_of_inInt32 (x := -(X / 65536 + Y / 65536 + Z / 65536)) ⟨by omega, by omega⟩]
  constructor
  · intro hs
    have : -(X / 65536 + Y / 65536 + Z / 65536) < plane.m_fixedD := by omega
    rw [decide_eq_true this]
  · intro hs
    have : ¬ -(X / 65536 + Y / 65536 + Z / 65536) < plane.m_fixedD := by omega
    rw [decide_eq_false this]

theorem Calculate_fixedD {v1 v2 v3 : Vector} {plane : PlaneEquation}
    (h : PlaneEquation.Calculate v1 v2 v3 = Except.ok plane) :
    ∃ dot, plane.m_normal.DotProductFixed v1 = Except.ok dot ∧
      plane.m_fixedD = wrap32 (-dot) := by
  unfold PlaneEquation.Calculate at h
  obtain ⟨u, -, h⟩ := bind_eq_ok h
  obtain ⟨v, -, h⟩ := bind_eq_ok h
  obtain ⟨n0, -, h⟩ := bind_eq_ok h
  obtain ⟨n, -, h⟩ := bind_eq_ok h
  obtain ⟨dot, hdot, h⟩ := bind_eq_ok h
  cases h
  exact ⟨dot, hdot, rfl⟩

/-! ## C8 -/

example : PlaneEquation.Calculate ⟨0, 0, 0⟩ ⟨65536, 0, 0⟩ ⟨0, 65536, 0⟩ =
    Except.ok examplePlane := by decide

/-- C8 fails on the plane of the triangle (0,0,0), (1,0,0), (0,1,0), whose
normal `Calculate` makes (0, 0, 65535) with `D = 0`: the point (0,0,1),
displaced along the positive normal, is reported outside, and the point
(0,0,-1), displaced along the negative normal, is reported not outside. -/
theorem C8_counterexample :
    PlaneEquation.Calculate ⟨0, 0, 0⟩ ⟨65536, 0, 0⟩ ⟨0, 65536, 0⟩ = Except.ok examplePlane ∧
    0 < examplePlane.side ⟨0, 0, 65536⟩ ∧
    examplePlane.IsOutside ⟨0, 0, 65536⟩ = Except.ok true ∧
    examplePlane.side ⟨0, 0, -65536⟩ < 0 ∧
    examplePlane.IsOutside ⟨0, 0, -65536⟩ = Except.ok false := by
  decide

/-- C8 (amended): for a plane built by `Calculate` from three points, `D` is
minus the fixed-point dot product of the normal with the first point, and for
every point whose products with the normal fit, `IsOutside` is true when the
point lies on the positive-normal side by at least three units of the last
place (the rounding of the three fixed multiplications), and false when it
lies on the plane or on the negative-normal side. -/
theorem C8_IsOutside_positive_side (v1 v2 v3 : Vector) (plane : PlaneEquation)
    (point : Vector) (hplane : PlaneEquation.Calculate v1 v2 v3 = Except.ok plane)
    (hfit : ProductsFit plane.m_normal point) :
    (∃ dot, plane.m_normal.DotProductFixed v1 = Except.ok dot ∧
      plane.m_fixedD = wrap32 (-dot)) ∧
    (3 * 65536 ≤ plane.side point → plane.IsOutside point = Except.ok true) ∧
    (plane.side point ≤ 0 → plane.IsOutside point = Except.ok false) :=
  ⟨Calculate_fixedD hplane, IsOutside_side plane point hfit⟩

/-- Witness for the amended C8: the example plane and the point (0,0,1). -/
theorem C8_IsOutside_positive_side_witness :
    (∃ dot, examplePlane.m_normal.DotProductFixed ⟨0, 0, 0⟩ = Except.ok dot ∧
      examplePlane.m_fixedD = wrap32 (-dot)) ∧
    (3 * 65536 ≤ examplePlane.side ⟨0, 0, 65536⟩ →
      examplePlane.IsOutside ⟨0, 0, 65536⟩ = Except.ok true) ∧
    (examplePlane.side ⟨0, 0, 65536⟩ ≤ 0 →
      examplePlane.IsOutside ⟨0, 0, 65536⟩ = Except.ok false) :=
  C8_IsOutside_positive_side ⟨0, 0, 0⟩ ⟨65536, 0, 0⟩ ⟨0, 65536, 0⟩ examplePlane ⟨0, 0, 65536⟩
    (by decide) (by decide)

/-! ## C7 -/

theorem isVisible_or (x : Nat) : IsVisible (x ||| PolygonInfoVisible) := by
  unfold IsVisible PolygonInfoVisible
  intro h
  have h2 := congrArg (fun n => Nat.testBit n 5) h
  have h32 : Nat.testBit 32 5 = true := by decide
  simp [Nat.testBit_and, Nat.testBit_or, h32] at h2

theorem not_isVisible_and (x : Nat) : ¬ IsVisible (x &&& 0xFFFFFFDF) := by
  unfold IsVisible PolygonInfoVisible
  intro h
  apply h
  rw [Nat.and_assoc]
  have : (0xFFFFFFDF : Nat) &&& 0x0020 = 0 := by decide
  rw [this]
  simp

theorem getD_set_eq_nat (l : List Nat) (i : Nat) (a d : Nat) (h : i < l.length) :
    (l.set i a).getD i d = a := by
  simp [List.getD_eq_getElem?_getD, List.getElem?_set, h]

theorem getD_set_ne_nat (l : List Nat) (i k : Nat) (a d : Nat) (h : k ≠ i) :
    (l.set i a).getD k d = l.getD k d := by
  simp [List.getD_eq_getElem?_getD, List.getElem?_set, Ne.symm h]

/-- The culling loop from polygon `i` on: it returns, keeps the flags of
the polygons before `i`, and flags each later polygon by the side of its plane
the camera is on. -/
theorem BackfaceCull_loop_spec (shape : Shape) (cam : Vector) (n : Nat)
    (hfit : ∀ i, i < n → ProductsFit (shape.m_planeEquations.getD i default).m_normal cam) :
    ∀ (remaining i : Nat) (pis vis : List Nat), i + remaining = n → pis.length = n →
      ∃ pis' vis', Shape.BackfaceCull.loop shape cam remaining i pis vis =
          Except.ok (pis', vis') ∧ pis'.length = n ∧
        (∀ k, k < i → pis'.getD k 0 = pis.getD k 0) ∧
        (∀ k, i ≤ k → k < n →
          ((shape.m_planeEquations.getD k default).side cam ≤ 0 →
            IsVisible (pis'.getD k 0)) ∧
          (3 * 65536 ≤ (shape.m_planeEquations.getD k default).side cam →
            ¬ IsVisible (pis'.getD k 0))) := by
  intro remaining
  induction remaining with
  | zero =>
    intro i pis vis hi hlen
    exact ⟨pis, vis, rfl, hlen, fun _ _ => rfl, fun k h1 h2 => by omega⟩
  | succ r ih =>
    intro i pis vis hi hlen
    have hin : i < n := by omega
    have hside := IsOutside_side (shape.m_planeEquations.getD i default) cam (hfit i hin)
    have hdot := DotProductFixed_ok _ _ (hfit i hin)
    have hex : ∃ b, (shape.m_planeEquations.getD i default).IsOutside cam = Except.ok b := by
      unfold PlaneEquation.IsOutside
      rw [hdot, ok_bind, pure_eq_ok]
      exact ⟨_, rfl⟩
    obtain ⟨b, hb⟩ := hex
    unfold Shape.BackfaceCull.loop
    rw [hb, ok_bind]
    cases b with
    | false =>
      simp only [Bool.not_false, if_true]
      obtain ⟨pis', vis', hres, hlen', hlow, hhigh⟩ :=
        ih (i + 1) (pis.set i (pis.getD i 0 ||| PolygonInfoVisible)) _ (by omega)
          (by simp [hlen])
      refine ⟨pis', vis', hres, hlen', fun k hk => ?_, fun k hk1 hk2 => ?_⟩
      · rw [hlow k (by omega), getD_set_ne_nat _ _ _ _ _ (by omega)]
      · by_cases hki : k = i
        · subst hki
          rw [hlow k (by omega), getD_set_eq_nat _ _ _ _ (by omega)]
          refine ⟨fun _ => isVisible_or _, fun h3 => ?_⟩
          have := hside.1 h3
          rw [hb] at this
          cases this
        · exact hhigh k (by omega) hk2
    | true =>
      simp only [Bool.not_true, Bool.false_eq_true, if_false]
      obtain ⟨pis', vis', hres, hlen', hlow, hhigh⟩ :=
        ih (i + 1) (pis.set i (pis.getD i 0 &&& 0xFFFFFFDF)) vis (by omega) (by simp [hlen])
      refine ⟨pis', vis', hres, hlen', fun k hk => ?_, fun k hk1 hk2 => ?_⟩
      · rw [hlow k (by omega), getD_set_ne_nat _ _ _ _ _ (by omega)]
      · by_cases hki : k = i
        · subst hki
          rw [hlow k (by omega), getD_set_eq_nat _ _ _ _ (by omega)]
          refine ⟨fun h3 => ?_, fun _ => not_isVisible_and _⟩
          have := hside.2 h3
          rw [hb] at this
          cases this
        · exact hhigh k (by omega) hk2

/-- C7 fails on the shape with the single triangle (0,0,0), (1,0,0),
(0,1,0): its plane from `Calculate` has the normal (0, 0, 65535); with the
camera at (0,0,1), on the positive-normal side, `BackfaceCull` leaves the
polygon not visible, and with the camera at (0,0,-1), on the negative-normal
side, it flags the polygon visible. -/
theorem C7_counterexample :
    exampleTriangleShape.CalculatePlaneEquation 0 =
      Except.ok { exampleTriangleShape with m_planeEquations := [examplePlane] } ∧
    0 < examplePlane.side ⟨0, 0, 65536⟩ ∧
    Shape.BackfaceCull { exampleTriangleShape with m_planeEquations := [examplePlane] }
        ⟨0, 0, 65536⟩ =
      Except.ok { exampleTriangleShape with
        m_planeEquations := [examplePlane], m_polygonInfos := [0], m_vertexInfos := [0, 0, 0] } ∧
    ¬ IsVisible 0 ∧
    examplePlane.side ⟨0, 0, -65536⟩ < 0 ∧
    Shape.BackfaceCull { exampleTriangleShape with m_planeEquations := [examplePlane] }
        ⟨0, 0, -65536⟩ =
      Except.ok { exampleTriangleShape with
        m_planeEquations := [examplePlane], m_polygonInfos := [32],
        m_vertexInfos := [32, 32, 32] } ∧
    IsVisible 32 := by
  decide

/-- C7 (amended): `BackfaceCull` returns (when the products of each plane
normal with the camera position fit) and flags a polygon visible when the
camera position, in object space, lies on the negative-normal side of the
polygon's stored plane or on the plane itself, and not visible when it lies
on the positive-normal side by at least three units of the last place; the
stored plane is the one `CalculatePlaneEquation` builds with
`PlaneEquation::Calculate`. -/
theorem C7_BackfaceCull_negative_side (shape : Shape) (cam : Vector)
    (hfit : ∀ i, i < shape.m_numPolygons →
      ProductsFit (shape.m_planeEquations.getD i default).m_normal cam) :
    ∃ shape', shape.BackfaceCull cam = Except.ok shape' ∧
      shape'.m_polygonInfos.length = shape.m_numPolygons ∧
      ∀ i, i < shape.m_numPolygons →
        ((shape.m_planeEquations.getD i default).side cam ≤ 0 →
          IsVisible (shape'.m_polygonInfos.getD i 0)) ∧
        (3 * 65536 ≤ (shape.m_planeEquations.getD i default).side cam →
          ¬ IsVisible (shape'.m_polygonInfos.getD i 0)) := by
  obtain ⟨pis', vis', hres, hlen, -, hflags⟩ :=
    BackfaceCull_loop_spec shape cam shape.m_numPolygons hfit shape.m_numPolygons 0
      shape.m_polygonInfos (shape.m_vertexInfos.map (fun _ => 0)) (by omega) rfl
  unfold Shape.BackfaceCull
  simp only [hres, ok_bind, pure_eq_ok]
  exact ⟨_, rfl, hlen, fun i hi => hflags i (Nat.zero_le _) hi⟩

/-- Witness for the amended C7: the example triangle with its plane, camera
at (0,0,-1). -/
theorem C7_BackfaceCull_negative_side_witness :
    ∃ shape', Shape.BackfaceCull
        { exampleTriangleShape with m_planeEquations := [examplePlane] } ⟨0, 0, -65536⟩ =
        Except.ok shape' ∧
      shape'.m_polygonInfos.length =
        Shape.m_numPolygons { exampleTriangleShape with m_planeEquations := [examplePlane] } ∧
      ∀ i, i < Shape.m_numPolygons
          { exampleTriangleShape with m_planeEquations := [examplePlane] } →
        ((([examplePlane] : List PlaneEquation).getD i default).side ⟨0, 0, -65536⟩ ≤ 0 →
          IsVisible (shape'.m_polygonInfos.getD i 0)) ∧
        (3 * 65536 ≤ (([examplePlane] : List PlaneEquation).getD i default).side
            ⟨0, 0, -65536⟩ →
          ¬ IsVisible (shape'.m_polygonInfos.getD i 0)) :=
  C7_BackfaceCull_negative_side
    { exampleTriangleShape with m_planeEquations := [examplePlane] } ⟨0, 0, -65536⟩
    (by
      intro i hi
      have : i = 0 := by
        have : i < 1 := hi
        omega
      subst this
      decide)

/-! ## Matrix product: helper lemmas -/

theorem loop4_ok {σ : Type} (body : Fin 4 → σ → Except NovaError σ) (s s0 s1 s2 s3 : σ)
    (h0 : body 0 s = Except.ok s0) (h1 : body 1 s0 = Except.ok s1)
    (h2 : body 2 s1 = Except.ok s2) (h3 : body 3 s2 = Except.ok s3) :
    loop4 body s = Except.ok s3 := by
  unfold loop4
  rw [h0, ok_bind, h1, ok_bind, h2, ok_bind, h3]

/-- When every entry computation returns, the two loops of `MultiplyAndSet`
return the matrix of the entry values. -/
theorem multiplyData_ok (m1 m2 : Matrix) (e : Fin 4 → Fin 4 → Int)
    (h : ∀ j i, multiplyEntry m1 m2 j i = Except.ok (e j i)) :
    multiplyData m1 m2 = Except.ok e := by
  have inner : ∀ (i : Fin 4) (res : Fin 4 → Fin 4 → Int),
      loop4 (fun j res => do
        let value ← multiplyEntry m1 m2 j i
        pure (setEntry res j i value)) res =
      Except.ok (setEntry (setEntry (setEntry (setEntry res 0 i (e 0 i)) 1 i (e 1 i)) 2 i (e 2 i))
        3 i (e 3 i)) := by
    intro i res
    unfold loop4
    simp only [h, ok_bind, pure_eq_ok]
  unfold multiplyData
  rw [loop4_ok _ _ _ _ _ _ (inner 0 _) (inner 1 _) (inner 2 _) (inner 3 _)]
  congr 1
  funext r c
  fin_cases r <;> fin_cases c <;> simp [setEntry]

theorem FixedLargeMul_whole (a x : Int) (h : InInt32 (a * x)) :
    FixedLargeMul (65536 * a) x = Except.ok (a * x) := by
  have e : 65536 * a * x / 65536 = a * x := by
    rw [Int.mul_assoc, Int.mul_ediv_cancel_left _ (by decide)]
  have := FixedLargeMul_ok (a := 65536 * a) (b := x) (by rw [e]; exact h)
  rw [this, e]

theorem FixedLargeMul_whole_right (x a : Int) (h : InInt32 (x * a)) :
    FixedLargeMul x (65536 * a) = Except.ok (x * a) := by
  have e : x * (65536 * a) / 65536 = x * a := by
    rw [show x * (65536 * a) = 65536 * (x * a) by ring, Int.mul_ediv_cancel_left _ (by decide)]
  have := FixedLargeMul_ok (a := x) (b := 65536 * a) (by rw [e]; exact h)
  rw [this, e]

theorem mul_bounds {x y X Y : Int} (hx : -X ≤ x ∧ x ≤ X) (hy : -Y ≤ y ∧ y ≤ Y) :
    -(X * Y) ≤ x * y ∧ x * y ≤ X * Y := by
  have hX : 0 ≤ X := by omega
  have hY : 0 ≤ Y := by omega
  constructor <;> nlinarith [mul_nonneg (sub_nonneg.2 hx.1) (sub_nonneg.2 hy.1),
    mul_nonneg (sub_nonneg.2 hx.2) (sub_nonneg.2 hy.2),
    mul_nonneg (sub_nonneg.2 hx.1) (sub_nonneg.2 hy.2),
    mul_nonneg (sub_nonneg.2 hx.2) (sub_nonneg.2 hy.1)]

/-- An entry of the result from four returned products whose running sum
stays in range. -/
theorem multiplyEntry_of_terms (m1 m2 : Matrix) (j i : Fin 4) (x0 x1 x2 x3 : Int)
    (h0 : FixedLargeMul (m1.m_data 0 i) (m2.m_data j 0) = Except.ok x0)
    (h1 : FixedLargeMul (m1.m_data 1 i) (m2.m_data j 1) = Except.ok x1)
    (h2 : FixedLargeMul (m1.m_data 2 i) (m2.m_data j 2) = Except.ok x2)
    (h3 : FixedLargeMul (m1.m_data 3 i) (m2.m_data j 3) = Except.ok x3)
    (s1 : InInt32 (x0 + x1)) (s2 : InInt32 (x0 + x1 + x2)) (s3 : InInt32 (x0 + x1 + x2 + x3)) :
    multiplyEntry m1 m2 j i = Except.ok (x0 + x1 + x2 + x3) := by
  unfold multiplyEntry
  rw [h0, ok_bind, h1, ok_bind, h2, ok_bind, h3, ok_bind, pure_eq_ok,
    wrap32_of_inInt32 s1, wrap32_of_inInt32 s2, wrap32_of_inInt32 s3]

/-- `TransformAndSet` by a matrix whose first three rows hold whole numbers
`c r k` (entries `65536 * c r k`), when nothing overflows. -/
theorem TransformAndSet_whole (m : Matrix) (c : Fin 4 → Fin 4 → Int) (v : Vector)
    (hm : ∀ r k, m.m_data r k = 65536 * c r k)
    (hp : ∀ r : Fin 4,
      (-268435456 ≤ c r 0 * v.m_x ∧ c r 0 * v.m_x ≤ 268435456) ∧
      (-268435456 ≤ c r 1 * v.m_y ∧ c r 1 * v.m_y ≤ 268435456) ∧
      (-268435456 ≤ c r 2 * v.m_z ∧ c r 2 * v.m_z ≤ 268435456) ∧
      (-4096 ≤ c r 3 ∧ c r 3 ≤ 4096)) :
    Vector.TransformAndSet m v = Except.ok
      { m_x := c 0 0 * v.m_x + c 0 1 * v.m_y + c 0 2 * v.m_z + 65536 * c 0 3,
        m_y := c 1 0 * v.m_x + c 1 1 * v.m_y + c 1 2 * v.m_z + 65536 * c 1 3,
        m_z := c 2 0 * v.m_x + c 2 1 * v.m_y + c 2 2 * v.m_z + 65536 * c 2 3 } := by
  have row : ∀ r : Fin 4,
      FixedTripleMul (m.m_data r 0) v.m_x (m.m_data r 1) v.m_y (m.m_data r 2) v.m_z =
        Except.ok (c r 0 * v.m_x + c r 1 * v.m_y + c r 2 * v.m_z) ∧
      wrap32 (c r 0 * v.m_x + c r 1 * v.m_y + c r 2 * v.m_z + m.m_data r 3) =
        c r 0 * v.m_x + c r 1 * v.m_y + c r 2 * v.m_z + 65536 * c r 3 := by
    intro r
    obtain ⟨h0, h1, h2, h3⟩ := hp r
    unfold FixedTripleMul
    rw [hm r 0, hm r 1, hm r 2, hm r 3,
      FixedLargeMul_whole _ _ ⟨by omega, by omega⟩, FixedLargeMul_whole _ _ ⟨by omega, by omega⟩,
      FixedLargeMul_whole _ _ ⟨by omega, by omega⟩]
    simp only [ok_bind, pure_eq_ok]
    rw [wrap32_of_inInt32 (x := c r 0 * v.m_x + c r 1 * v.m_y) ⟨by omega, by omega⟩,
      wrap32_of_inInt32 (x := c r 0 * v.m_x + c r 1 * v.m_y + c r 2 * v.m_z)
        ⟨by omega, by omega⟩,
      wrap32_of_inInt32 ⟨by omega, by omega⟩]
    exact ⟨rfl, rfl⟩
  unfold Vector.TransformAndSet
  rw [(row 0).1, ok_bind, (row 1).1, ok_bind, (row 2).1, ok_bind, pure_eq_ok,
    (row 0).2, (row 1).2, (row 2).2]

theorem FixedLargeMul_whole_whole (a b : Int) (h : -16384 ≤ a * b ∧ a * b ≤ 16384) :
    FixedLargeMul (65536 * a) (65536 * b) = Except.ok (65536 * (a * b)) := by
  have e : a * (65536 * b) = 65536 * (a * b) := by ring
  rw [FixedLargeMul_whole a (65536 * b) (by rw [e]; exact ⟨by omega, by omega⟩), e]

/-- The product entry for two matrices of whole numbers of size at most 8. -/
theorem multiplyEntry_whole (m1 m2 : Matrix) (a b : Fin 4 → Fin 4 → Int)
    (h1 : ∀ r c, m1.m_data r c = 65536 * a r c) (h2 : ∀ r c, m2.m_data r c = 65536 * b r c)
    (ha : ∀ r c, -8 ≤ a r c ∧ a r c ≤ 8) (hb : ∀ r c, -8 ≤ b r c ∧ b r c ≤ 8) (j i : Fin 4) :
    multiplyEntry m1 m2 j i = Except.ok
      (65536 * (a 0 i * b j 0 + a 1 i * b j 1 + a 2 i * b j 2 + a 3 i * b j 3)) ∧
    (-256 ≤ a 0 i * b j 0 + a 1 i * b j 1 + a 2 i * b j 2 + a 3 i * b j 3 ∧
      a 0 i * b j 0 + a 1 i * b j 1 + a 2 i * b j 2 + a 3 i * b j 3 ≤ 256) := by
  have p0 := mul_bounds (ha 0 i) (hb j 0)
  have p1 := mul_bounds (ha 1 i) (hb j 1)
  have p2 := mul_bounds (ha 2 i) (hb j 2)
  have p3 := mul_bounds (ha 3 i) (hb j 3)
  refine ⟨?_, by omega, by omega⟩
  have := multiplyEntry_of_terms m1 m2 j i _ _ _ _
    (by rw [h1, h2]; exact FixedLargeMul_whole_whole _ _ ⟨by omega, by omega⟩)
    (by rw [h1, h2]; exact FixedLargeMul_whole_whole _ _ ⟨by omega, by omega⟩)
    (by rw [h1, h2]; exact FixedLargeMul_whole_whole _ _ ⟨by omega, by omega⟩)
    (by rw [h1, h2]; exact FixedLargeMul_whole_whole _ _ ⟨by omega, by omega⟩)
    ⟨by omega, by omega⟩ ⟨by omega, by omega⟩ ⟨by omega, by omega⟩
  rw [this]
  congr 1
  ring

/-! ## C10 -/

/-- C10 fails for `m1` the rotation by 90 degrees about z and `m2` the
translation by (1,0,0): `MultiplyAndSet( m1, m2 )` stores 65536 at `[0][3]`
and 0 at `[1][3]`, where the product `m1 * m2` of the claim has 0 and 65536;
the stored matrix maps the origin to (1,0,0), while transforming by `m2` and
then by `m1` gives (0,1,0). -/
theorem C10_counterexample :
    (Matrix.MultiplyAndSet Matrix.SetIdentity exampleRotationZ exampleTranslationX false).map
        (fun res => (res.m_data 0 3, res.m_data 1 3)) = Except.ok (65536, 0) ∧
    claimedProductEntry exampleRotationZ exampleTranslationX 0 3 = Except.ok 0 ∧
    claimedProductEntry exampleRotationZ exampleTranslationX 1 3 = Except.ok 65536 ∧
    (Matrix.MultiplyAndSet Matrix.SetIdentity exampleRotationZ exampleTranslationX false >>=
        fun res => Vector.TransformAndSet res ⟨0, 0, 0⟩) = Except.ok ⟨65536, 0, 0⟩ ∧
    (Vector.TransformAndSet exampleTranslationX ⟨0, 0, 0⟩ >>=
        fun w => Vector.TransformAndSet exampleRotationZ w) = Except.ok ⟨0, 65536, 0⟩ := by
  decide

/-- For matrices of whole numbers of size at most 8, `m1` with the bottom row
(0,0,0,1), and counters below the normalisation threshold, `MultiplyAndSet`
returns the product `m2 * m1` of the row/column layout, and transforming by it
is transforming by `m1` and then by `m2`. -/
theorem MultiplyAndSet_whole_composition (this m1 m2 : Matrix) (aliased : Bool)
    (a b : Fin 4 → Fin 4 → Int) (v : Vector)
    (h1 : ∀ r c, m1.m_data r c = 65536 * a r c) (h2 : ∀ r c, m2.m_data r c = 65536 * b r c)
    (ha : ∀ r c, -8 ≤ a r c ∧ a r c ≤ 8) (hb : ∀ r c, -8 ≤ b r c ∧ b r c ≤ 8)
    (hrow : a 3 0 = 0 ∧ a 3 1 = 0 ∧ a 3 2 = 0 ∧ a 3 3 = 1)
    (hv : (-1048576 ≤ v.m_x ∧ v.m_x ≤ 1048576) ∧ (-1048576 ≤ v.m_y ∧ v.m_y ≤ 1048576) ∧
      (-1048576 ≤ v.m_z ∧ v.m_z ≤ 1048576))
    (hc : (0 ≤ this.m_multiplications ∧ this.m_multiplications ≤ 8) ∧
      (0 ≤ m1.m_multiplications ∧ m1.m_multiplications ≤ 8) ∧
      (0 ≤ m2.m_multiplications ∧ m2.m_multiplications ≤ 8)) :
    ∃ res, this.MultiplyAndSet m1 m2 aliased = Except.ok res ∧
      (∀ r c, multiplyEntry m1 m2 r c = Except.ok (res.m_data r c)) ∧
      (∀ r c, res.m_data r c =
        65536 * (b r 0 * a 0 c + b r 1 * a 1 c + b r 2 * a 2 c + b r 3 * a 3 c)) ∧
      ∃ w1 w, Vector.TransformAndSet m1 v = Except.ok w1 ∧
        Vector.TransformAndSet m2 w1 = Except.ok w ∧
        Vector.TransformAndSet res v = Except.ok w := by
  obtain ⟨hvx, hvy, hvz⟩ := hv
  -- the stored entries
  have hent := multiplyEntry_whole m1 m2 a b h1 h2 ha hb
  have hdata := multiplyData_ok m1 m2 _ (fun j i => (hent j i).1)
  -- the counter stays below the threshold
  have hcount : ∀ x : Int, 0 ≤ x → x ≤ 8 → ¬ (wrap32 (x + 1) ≥ NormalizeFreq) := by
    intro x h0 h8
    rw [wrap32_of_inInt32 ⟨by omega, by omega⟩]
    unfold NormalizeFreq
    omega
  have hres : ∃ cnt, this.MultiplyAndSet m1 m2 aliased = Except.ok
      { m_data := fun j i =>
          65536 * (a 0 i * b j 0 + a 1 i * b j 1 + a 2 i * b j 2 + a 3 i * b j 3),
        m_multiplications := cnt } := by
    unfold Matrix.MultiplyAndSet
    rw [hdata, ok_bind]
    cases aliased with
    | true =>
      simp only [if_true]
      rw [if_neg (hcount _ hc.1.1 hc.1.2)]
      exact ⟨_, rfl⟩
    | false =>
      simp only [Bool.false_eq_true, if_false]
      by_cases hm : m1.m_multiplications > m2.m_multiplications
      · simp only [if_pos hm]
        rw [if_neg (hcount _ hc.2.1.1 hc.2.1.2)]
        exact ⟨_, rfl⟩
      · simp only [if_neg hm]
        rw [if_neg (hcount _ hc.2.2.1 hc.2.2.2)]
        exact ⟨_, rfl⟩
  obtain ⟨cnt, hres⟩ := hres
  refine ⟨_, hres, fun r c => (hent r c).1, fun r c => by simp only; ring, ?_⟩
  -- the three transformations
  have t1 := TransformAndSet_whole m1 a v h1 (fun r =>
    ⟨by have := mul_bounds (ha r 0) hvx; omega, by have := mul_bounds (ha r 1) hvy; omega,
      by have := mul_bounds (ha r 2) hvz; omega, by have := ha r 3; omega⟩)
  have bw : ∀ k : Fin 4, -33554432 ≤ a k 0 * v.m_x + a k 1 * v.m_y + a k 2 * v.m_z +
      65536 * a k 3 ∧ a k 0 * v.m_x + a k 1 * v.m_y + a k 2 * v.m_z + 65536 * a k 3 ≤
      33554432 := by
    intro k
    have q0 := mul_bounds (ha k 0) hvx
    have q1 := mul_bounds (ha k 1) hvy
    have q2 := mul_bounds (ha k 2) hvz
    have q3 := ha k 3
    constructor <;> omega
  obtain ⟨w1, hw1, hx, hy, hz⟩ : ∃ w1, Vector.TransformAndSet m1 v = Except.ok w1 ∧
      w1.m_x = a 0 0 * v.m_x + a 0 1 * v.m_y + a 0 2 * v.m_z + 65536 * a 0 3 ∧
      w1.m_y = a 1 0 * v.m_x + a 1 1 * v.m_y + a 1 2 * v.m_z + 65536 * a 1 3 ∧
      w1.m_z = a 2 0 * v.m_x + a 2 1 * v.m_y + a 2 2 * v.m_z + 65536 * a 2 3 :=
    ⟨_, t1, rfl, rfl, rfl⟩
  have bx := bw 0
  have by' := bw 1
  have bz := bw 2
  rw [← hx] at bx
  rw [← hy] at by'
  rw [← hz] at bz
  have t2 := TransformAndSet_whole m2 b w1 h2 (fun r =>
    ⟨by have := mul_bounds (hb r 0) bx; omega, by have := mul_bounds (hb r 1) by'; omega,
      by have := mul_bounds (hb r 2) bz; omega, by have := hb r 3; omega⟩)
  have t3 := TransformAndSet_whole
    { m_data := fun j i =>
        65536 * (a 0 i * b j 0 + a 1 i * b j 1 + a 2 i * b j 2 + a 3 i * b j 3),
      m_multiplications := cnt }
    (fun j i => a 0 i * b j 0 + a 1 i * b j 1 + a 2 i * b j 2 + a 3 i * b j 3) v
    (fun r k => rfl) (fun r =>
    ⟨by have := mul_bounds (hent r 0).2 hvx; beta_reduce; omega,
      by have := mul_bounds (hent r 1).2 hvy; beta_reduce; omega,
      by have := mul_bounds (hent r 2).2 hvz; beta_reduce; omega,
      by have := (hent r 3).2; beta_reduce; omega⟩)
  refine ⟨w1, _, hw1, t2, ?_⟩
  rw [t3]
  congr 1
  obtain ⟨r0, r1, r2, r3⟩ := hrow
  simp only [Vector.mk.injEq, r0, r1, r2, r3, hx, hy, hz]
  refine ⟨by ring, by ring, by ring⟩

theorem multiplyColumn_of_ok (m1 m2 : Matrix) (i : Fin 4) (res res' : Fin 4 → Fin 4 → Int)
    (h : loop4 (fun j res => do
        let value ← multiplyEntry m1 m2 j i
        pure (setEntry res j i value)) res = Except.ok res') :
    ∃ e0 e1 e2 e3, multiplyEntry m1 m2 0 i = Except.ok e0 ∧
      multiplyEntry m1 m2 1 i = Except.ok e1 ∧ multiplyEntry m1 m2 2 i = Except.ok e2 ∧
      multiplyEntry m1 m2 3 i = Except.ok e3 ∧
      res' = setEntry (setEntry (setEntry (setEntry res 0 i e0) 1 i e1) 2 i e2) 3 i e3 := by
  unfold loop4 at h
  obtain ⟨s0, h0, h⟩ := bind_eq_ok h
  obtain ⟨e0, he0, h0⟩ := bind_eq_ok h0
  cases h0
  obtain ⟨s1, h1, h⟩ := bind_eq_ok h
  obtain ⟨e1, he1, h1⟩ := bind_eq_ok h1
  cases h1
  obtain ⟨s2, h2, h⟩ := bind_eq_ok h
  obtain ⟨e2, he2, h2⟩ := bind_eq_ok h2
  cases h2
  obtain ⟨e3, he3, h3⟩ := bind_eq_ok h
  cases h3
  exact ⟨e0, e1, e2, e3, he0, he1, he2, he3, rfl⟩

/-- Whenever the two loops of `MultiplyAndSet` return, every entry of the
result is the value of its entry computation. -/
theorem multiplyData_entries (m1 m2 : Matrix) (res : Fin 4 → Fin 4 → Int)
    (h : multiplyData m1 m2 = Except.ok res) :
    ∀ j i, multiplyEntry m1 m2 j i = Except.ok (res j i) := by
  unfold multiplyData at h
  unfold loop4 at h
  obtain ⟨s0, h0, h⟩ := bind_eq_ok h
  obtain ⟨s1, h1, h⟩ := bind_eq_ok h
  obtain ⟨s2, h2, h3⟩ := bind_eq_ok h
  obtain ⟨a0, a1, a2, a3, ha0, ha1, ha2, ha3, rfl⟩ := multiplyColumn_of_ok m1 m2 0 _ _ h0
  obtain ⟨b0, b1, b2, b3, hb0, hb1, hb2, hb3, rfl⟩ := multiplyColumn_of_ok m1 m2 1 _ _ h1
  obtain ⟨c0, c1, c2, c3, hc0, hc1, hc2, hc3, rfl⟩ := multiplyColumn_of_ok m1 m2 2 _ _ h2
  obtain ⟨d0, d1, d2, d3, hd0, hd1, hd2, hd3, rfl⟩ := multiplyColumn_of_ok m1 m2 3 _ _ h3
  intro j i
  fin_cases j <;> fin_cases i <;> simp [setEntry] <;> assumption

/-- Whenever `MultiplyAndSet` returns with the counters below the
normalisation threshold, every stored entry is the value of its entry
computation. -/
theorem MultiplyAndSet_entries (this m1 m2 : Matrix) (aliased : Bool) (res : Matrix)
    (hc : (0 ≤ this.m_multiplications ∧ this.m_multiplications ≤ 8) ∧
      (0 ≤ m1.m_multiplications ∧ m1.m_multiplications ≤ 8) ∧
      (0 ≤ m2.m_multiplications ∧ m2.m_multiplications ≤ 8))
    (h : this.MultiplyAndSet m1 m2 aliased = Except.ok res) :
    ∀ r c, multiplyEntry m1 m2 r c = Except.ok (res.m_data r c) := by
  have hcount : ∀ x : Int, 0 ≤ x → x ≤ 8 → ¬ (wrap32 (x + 1) ≥ NormalizeFreq) := by
    intro x h0 h8
    rw [wrap32_of_inInt32 ⟨by omega, by omega⟩]
    unfold NormalizeFreq
    omega
  unfold Matrix.MultiplyAndSet at h
  obtain ⟨d, hd, h⟩ := bind_eq_ok h
  have key : res.m_data = d := by
    cases aliased with
    | true =>
      simp only [if_true] at h
      rw [if_neg (hcount _ hc.1.1 hc.1.2)] at h
      cases h
      rfl
    | false =>
      simp only [Bool.false_eq_true, if_false] at h
      by_cases hm : m1.m_multiplications > m2.m_multiplications
      · simp only [if_pos hm] at h
        rw [if_neg (hcount _ hc.2.1.1 hc.2.1.2)] at h
        cases h
        rfl
      · simp only [if_neg hm] at h
        rw [if_neg (hcount _ hc.2.2.1 hc.2.2.2)] at h
        cases h
        rfl
  rw [key]
  exact multiplyData_entries m1 m2 d hd

/-- C10 (amended): with multiplication counters that stay below
`NormalizeFreq`, whenever `MultiplyAndSet( m1, m2 )` returns, the stored entry
`[r][c]` is the sum over `k` of `FixedLargeMul( m1[k][c], m2[r][k] )`, which
under the layout `m_data[row][column]` is the product `m2 * m1`.  For
matrices of whole numbers of size at most 8 (entries `65536 * a r c` and
`65536 * b r c`), `m1` with the bottom row (0,0,0,1), it returns, the stored
entry is `65536` times the sum over `k` of `b r k * a k c`, and transforming a
vector (of components up to 16.0) by the result equals transforming it by
`m1` and then by `m2`. -/
theorem C10_MultiplyAndSet_composition (this m1 m2 : Matrix) (aliased : Bool)
    (hc : (0 ≤ this.m_multiplications ∧ this.m_multiplications ≤ 8) ∧
      (0 ≤ m1.m_multiplications ∧ m1.m_multiplications ≤ 8) ∧
      (0 ≤ m2.m_multiplications ∧ m2.m_multiplications ≤ 8)) :
    (∀ res, this.MultiplyAndSet m1 m2 aliased = Except.ok res →
      ∀ r c, multiplyEntry m1 m2 r c = Except.ok (res.m_data r c)) ∧
    (∀ (a b : Fin 4 → Fin 4 → Int) (v : Vector),
      (∀ r c, m1.m_data r c = 65536 * a r c) → (∀ r c, m2.m_data r c = 65536 * b r c) →
      (∀ r c, -8 ≤ a r c ∧ a r c ≤ 8) → (∀ r c, -8 ≤ b r c ∧ b r c ≤ 8) →
      (a 3 0 = 0 ∧ a 3 1 = 0 ∧ a 3 2 = 0 ∧ a 3 3 = 1) →
      ((-1048576 ≤ v.m_x ∧ v.m_x ≤ 1048576) ∧ (-1048576 ≤ v.m_y ∧ v.m_y ≤ 1048576) ∧
        (-1048576 ≤ v.m_z ∧ v.m_z ≤ 1048576)) →
      ∃ res, this.MultiplyAndSet m1 m2 aliased = Except.ok res ∧
        (∀ r c, res.m_data r c =
          65536 * (b r 0 * a 0 c + b r 1 * a 1 c + b r 2 * a 2 c + b r 3 * a 3 c)) ∧
        ∃ w1 w, Vector.TransformAndSet m1 v = Except.ok w1 ∧
          Vector.TransformAndSet m2 w1 = Except.ok w ∧
          Vector.TransformAndSet res v = Except.ok w) := by
  refine ⟨fun res h => MultiplyAndSet_entries this m1 m2 aliased res hc h, ?_⟩
  intro a b v h1 h2 ha hb hrow hv
  obtain ⟨res, hres, -, hprod, htr⟩ :=
    MultiplyAndSet_whole_composition this m1 m2 aliased a b v h1 h2 ha hb hrow hv hc
  exact ⟨res, hres, hprod, htr⟩

/-- Witness for the amended C10: the rotation about z as `m1`, the
translation by (1,0,0) as `m2`, and the vector (1,0,0); the result maps it to
(1,1,0), as the rotation followed by the translation does. -/
theorem C10_MultiplyAndSet_composition_witness :
    (∀ res, Matrix.MultiplyAndSet Matrix.SetIdentity exampleRotationZ exampleTranslationX
        false = Except.ok res →
      ∀ r c, multiplyEntry exampleRotationZ exampleTranslationX r c =
        Except.ok (res.m_data r c)) ∧
    ∃ res, Matrix.MultiplyAndSet Matrix.SetIdentity exampleRotationZ exampleTranslationX false =
        Except.ok res ∧
      ∃ w1 w, Vector.TransformAndSet exampleRotationZ ⟨65536, 0, 0⟩ = Except.ok w1 ∧
        Vector.TransformAndSet exampleTranslationX w1 = Except.ok w ∧
        Vector.TransformAndSet res ⟨65536, 0, 0⟩ = Except.ok w := by
  have h := C10_MultiplyAndSet_composition Matrix.SetIdentity exampleRotationZ
    exampleTranslationX false (by decide)
  refine ⟨h.1, ?_⟩
  obtain ⟨res, hres, -, htr⟩ := h.2
    (wholeEntries [[0, -1, 0, 0], [1, 0, 0, 0], [0, 0, 1, 0], [0, 0, 0, 1]])
    (wholeEntries [[1, 0, 0, 1], [0, 1, 0, 0], [0, 0, 1, 0], [0, 0, 0, 1]])
    ⟨65536, 0, 0⟩ (by decide) (by decide) (by decide) (by decide) (by decide) (by decide)
  exact ⟨res, hres, htr⟩

/-! ## C9 -/

theorem FixedLargeMul_zero_left (x : Int) : FixedLargeMul 0 x = Except.ok 0 := by
  have := FixedLargeMul_ok (a := 0) (b := x) (by simp)
  simpa using this

theorem FixedLargeMul_zero_right (x : Int) : FixedLargeMul x 0 = Except.ok 0 := by
  have := FixedLargeMul_ok (a := x) (b := 0) (by simp)
  simpa using this

theorem FixedLargeMul_one_left (x : Int) (h : InInt32 x) :
    FixedLargeMul 65536 x = Except.ok x := by
  have := FixedLargeMul_whole 1 x (by simpa using h)
  simpa using this

/-- C9 fails for the rigid transform with the rotation by 90 degrees about z
and the translation (1,0,0): the product of `M` with its
`InvertTransformation`, in either operand order of `MultiplyAndSet`, has the
entry -65536 (that is -1.0) at `[1][3]` of its translation column instead of 0
(shown with `tmp[3][3]` holding `FixedPointOne`, the most favourable value). -/
theorem C9_counterexample :
    (Matrix.MultiplyAndSet Matrix.SetIdentity exampleRigid
        (exampleRigid.InvertTransformation 65536) false).map
      (fun res => (res.m_data 0 3, res.m_data 1 3, res.m_data 2 3)) =
      Except.ok (-65536, -65536, 0) ∧
    (Matrix.MultiplyAndSet Matrix.SetIdentity (exampleRigid.InvertTransformation 65536)
        exampleRigid false).map
      (fun res => (res.m_data 0 3, res.m_data 1 3, res.m_data 2 3)) =
      Except.ok (65536, -65536, 0) := by
  decide

/-- C9 (amended): let the rotation block of `M` hold only 0 and
plus or minus `FixedPointOne` (entries `65536 * a r c`, columns of `a` orthonormal), its
bottom row be (0,0,0,1), its translation `t` have components of size at most
4096.0, and the counters of `M` and of the result matrix be in `0 .. 8`,
below `NormalizeFreq - 1`.  Then `MultiplyAndSet( M, M' )`, with
`M'` the result of `InvertTransformation` on `M`, returns a matrix whose
rotation block is exactly the identity and whose translation column is
`transpose(R) t - t`, entry `r` being
`a 0 r * t0 + a 1 r * t1 + a 2 r * t2 - t r`; it is zero when `t` is zero. -/
theorem C9_invert_product (this M : Matrix) (aliased : Bool) (junk : Int)
    (a : Fin 4 → Fin 4 → Int)
    (hrot : ∀ r c : Fin 4, r.val < 3 → c.val < 3 →
      M.m_data r c = 65536 * a r c ∧ -1 ≤ a r c ∧ a r c ≤ 1)
    (horth : ∀ i j : Fin 4, i.val < 3 → j.val < 3 →
      a 0 i * a 0 j + a 1 i * a 1 j + a 2 i * a 2 j = if i = j then 1 else 0)
    (hrow : ∀ c : Fin 4, M.m_data 3 c = if c.val < 3 then 0 else 65536)
    (ht : ∀ r : Fin 4, -268435456 ≤ M.m_data r 3 ∧ M.m_data r 3 ≤ 268435456)
    (hjunk : InInt32 junk)
    (hc : (0 ≤ this.m_multiplications ∧ this.m_multiplications ≤ 8) ∧
      (0 ≤ M.m_multiplications ∧ M.m_multiplications ≤ 8)) :
    ∃ res, this.MultiplyAndSet M (M.InvertTransformation junk) aliased = Except.ok res ∧
      (∀ r c : Fin 4, r.val < 3 → c.val < 3 →
        res.m_data r c = if r = c then FixedPointOne else 0) ∧
      (∀ r : Fin 4, r.val < 3 →
        res.m_data r 3 =
          a 0 r * M.m_data 0 3 + a 1 r * M.m_data 1 3 + a 2 r * M.m_data 2 3 - M.m_data r 3) := by
  -- entries of the inverted matrix
  have v3 : ((3 : Fin 4) : Nat) = 3 := rfl
  have inv_rot : ∀ j k : Fin 4, j.val < 3 → k.val < 3 →
      (M.InvertTransformation junk).m_data j k = M.m_data k j := by
    intro j k hj hk
    simp [Matrix.InvertTransformation, hj, hk]
  have inv_t : ∀ j : Fin 4, j.val < 3 →
      (M.InvertTransformation junk).m_data j 3 = -(M.m_data j 3) := by
    intro j hj
    have := ht j
    simp only [Matrix.InvertTransformation, hj, true_and, v3, lt_self_iff_false, if_false,
      if_true]
    rw [wrap32_of_inInt32 ⟨by omega, by omega⟩]
  have inv_row : ∀ k : Fin 4, k.val < 3 → (M.InvertTransformation junk).m_data 3 k = 0 := by
    intro k hk
    simp [Matrix.InvertTransformation, hk, hrow k, v3]
  have inv_junk : (M.InvertTransformation junk).m_data 3 3 = junk := by
    simp [Matrix.InvertTransformation, v3]
  have h3 : ∀ i : Fin 4, ¬ i.val < 3 → i = 3 := by
    intro i hi
    apply Fin.ext
    have := i.isLt
    rw [v3]
    omega
  have hM3 : ∀ i : Fin 4, i.val < 3 → M.m_data 3 i = 0 := by
    intro i hi
    rw [hrow i, if_pos hi]
  have hM33 : M.m_data 3 3 = 65536 := by
    rw [hrow 3]; rfl
  -- products of two rotation entries
  have rr : ∀ k i j : Fin 4, k.val < 3 → i.val < 3 → j.val < 3 →
      FixedLargeMul (M.m_data k i) ((M.InvertTransformation junk).m_data j k) =
        Except.ok (65536 * (a k i * a k j)) ∧ -1 ≤ a k i * a k j ∧ a k i * a k j ≤ 1 := by
    intro k i j hk hi hj
    have b := mul_bounds (hrot k i hk hi).2 (hrot k j hk hj).2
    rw [inv_rot j k hj hk, (hrot k i hk hi).1, (hrot k j hk hj).1]
    exact ⟨FixedLargeMul_whole_whole _ _ ⟨by omega, by omega⟩, by omega, by omega⟩
  -- products of a translation entry with a rotation entry
  have tr : ∀ k j : Fin 4, k.val < 3 → j.val < 3 →
      FixedLargeMul (M.m_data k 3) ((M.InvertTransformation junk).m_data j k) =
        Except.ok (M.m_data k 3 * a k j) ∧
      -268435456 ≤ M.m_data k 3 * a k j ∧ M.m_data k 3 * a k j ≤ 268435456 := by
    intro k j hk hj
    have b := mul_bounds (ht k) (hrot k j hk hj).2
    rw [inv_rot j k hj hk, (hrot k j hk hj).1]
    exact ⟨FixedLargeMul_whole_right _ _ ⟨by omega, by omega⟩, by omega, by omega⟩
  have hent : ∀ j i : Fin 4, multiplyEntry M (M.InvertTransformation junk) j i = Except.ok
      (if j.val < 3 then
        (if i.val < 3 then (if j = i then FixedPointOne else 0)
         else a 0 j * M.m_data 0 3 + a 1 j * M.m_data 1 3 + a 2 j * M.m_data 2 3 - M.m_data j 3)
       else (if i.val < 3 then 0 else junk)) := by
    intro j i
    by_cases hj : j.val < 3 <;> by_cases hi : i.val < 3
    · -- rotation block
      obtain ⟨e0, l0, u0⟩ := rr 0 i j (by decide) hi hj
      obtain ⟨e1, l1, u1⟩ := rr 1 i j (by decide) hi hj
      obtain ⟨e2, l2, u2⟩ := rr 2 i j (by decide) hi hj
      have e3 : FixedLargeMul (M.m_data 3 i) ((M.InvertTransformation junk).m_data j 3) =
          Except.ok 0 := by rw [hM3 i hi]; exact FixedLargeMul_zero_left _
      have ho := horth i j hi hj
      rw [multiplyEntry_of_terms _ _ j i _ _ _ _ e0 e1 e2 e3 ⟨by omega, by omega⟩
        ⟨by omega, by omega⟩ ⟨by omega, by omega⟩, if_pos hj, if_pos hi]
      congr 1
      by_cases hji : j = i
      · rw [if_pos hji]
        rw [if_pos hji.symm] at ho
        unfold FixedPointOne
        omega
      · rw [if_neg hji]
        rw [if_neg (fun h => hji h.symm)] at ho
        omega
    · -- translation column
      have hi3 := h3 i hi
      subst hi3
      obtain ⟨e0, l0, u0⟩ := tr 0 j (by decide) hj
      obtain ⟨e1, l1, u1⟩ := tr 1 j (by decide) hj
      obtain ⟨e2, l2, u2⟩ := tr 2 j (by decide) hj
      have htj := ht j
      have e3 : FixedLargeMul (M.m_data 3 3) ((M.InvertTransformation junk).m_data j 3) =
          Except.ok (-(M.m_data j 3)) := by
        rw [hM33, inv_t j hj]
        exact FixedLargeMul_one_left _ ⟨by omega, by omega⟩
      rw [multiplyEntry_of_terms _ _ j 3 _ _ _ _ e0 e1 e2 e3 ⟨by omega, by omega⟩
        ⟨by omega, by omega⟩ ⟨by omega, by omega⟩, if_pos hj, if_neg hi]
      congr 1
      ring
    · -- bottom row, rotation columns
      have hj3 := h3 j hj
      subst hj3
      have e0 : FixedLargeMul (M.m_data 0 i) ((M.InvertTransformation junk).m_data 3 0) =
          Except.ok 0 := by rw [inv_row 0 (by decide)]; exact FixedLargeMul_zero_right _
      have e1 : FixedLargeMul (M.m_data 1 i) ((M.InvertTransformation junk).m_data 3 1) =
          Except.ok 0 := by rw [inv_row 1 (by decide)]; exact FixedLargeMul_zero_right _
      have e2 : FixedLargeMul (M.m_data 2 i) ((M.InvertTransformation junk).m_data 3 2) =
          Except.ok 0 := by rw [inv_row 2 (by decide)]; exact FixedLargeMul_zero_right _
      have e3 : FixedLargeMul (M.m_data 3 i) ((M.InvertTransformation junk).m_data 3 3) =
          Except.ok 0 := by rw [hM3 i hi]; exact FixedLargeMul_zero_left _
      rw [multiplyEntry_of_terms _ _ 3 i _ _ _ _ e0 e1 e2 e3 (by decide) (by decide) (by decide),
        if_neg hj, if_pos hi]
      rfl
    · -- bottom right corner
      have hj3 := h3 j hj
      have hi3 := h3 i hi
      subst hj3 hi3
      have e0 : FixedLargeMul (M.m_data 0 3) ((M.InvertTransformation junk).m_data 3 0) =
          Except.ok 0 := by rw [inv_row 0 (by decide)]; exact FixedLargeMul_zero_right _
      have e1 : FixedLargeMul (M.m_data 1 3) ((M.InvertTransformation junk).m_data 3 1) =
          Except.ok 0 := by rw [inv_row 1 (by decide)]; exact FixedLargeMul_zero_right _
      have e2 : FixedLargeMul (M.m_data 2 3) ((M.InvertTransformation junk).m_data 3 2) =
          Except.ok 0 := by rw [inv_row 2 (by decide)]; exact FixedLargeMul_zero_right _
      have e3 : FixedLargeMul (M.m_data 3 3) ((M.InvertTransformation junk).m_data 3 3) =
          Except.ok junk := by rw [hM33, inv_junk]; exact FixedLargeMul_one_left _ hjunk
      unfold InInt32 at hjunk
      rw [multiplyEntry_of_terms _ _ 3 3 _ _ _ _ e0 e1 e2 e3 (by decide) (by decide)
        ⟨by omega, by omega⟩, if_neg hj, if_neg hi]
      congr 1
      omega
  have hdata := multiplyData_ok M (M.InvertTransformation junk) _ hent
  have hcount : ∀ x : Int, 0 ≤ x → x ≤ 8 → ¬ (wrap32 (x + 1) ≥ NormalizeFreq) := by
    intro x h0 h8
    rw [wrap32_of_inInt32 ⟨by omega, by omega⟩]
    unfold NormalizeFreq
    omega
  have hres : ∃ res, this.MultiplyAndSet M (M.InvertTransformation junk) aliased =
      Except.ok res ∧ res.m_data = fun j i =>
        (if j.val < 3 then
          (if i.val < 3 then (if j = i then FixedPointOne else 0)
           else a 0 j * M.m_data 0 3 + a 1 j * M.m_data 1 3 + a 2 j * M.m_data 2 3 -
             M.m_data j 3)
         else (if i.val < 3 then 0 else junk)) := by
    unfold Matrix.MultiplyAndSet
    rw [hdata, ok_bind]
    have hinv : (M.InvertTransformation junk).m_multiplications = M.m_multiplications := rfl
    cases aliased with
    | true =>
      simp only [if_true]
      rw [if_neg (hcount _ hc.1.1 hc.1.2)]
      exact ⟨_, rfl, rfl⟩
    | false =>
      simp only [Bool.false_eq_true, if_false, hinv, gt_iff_lt, lt_self_iff_false]
      rw [if_neg (hcount _ hc.2.1 hc.2.2)]
      exact ⟨_, rfl, rfl⟩
  obtain ⟨res, hres, hd⟩ := hres
  refine ⟨res, hres, fun r c hr hcc => ?_, fun r hr => ?_⟩
  · rw [hd]
    simp only [hr, hcc, if_true]
  · rw [hd]
    simp only [hr, if_true]
    rw [if_neg (by decide)]

/-- Witness for the amended C9: the example rigid transform. -/
theorem C9_invert_product_witness :
    ∃ res, Matrix.MultiplyAndSet Matrix.SetIdentity exampleRigid
        (exampleRigid.InvertTransformation 65536) false = Except.ok res ∧
      (∀ r c : Fin 4, r.val < 3 → c.val < 3 →
        res.m_data r c = if r = c then FixedPointOne else 0) ∧
      (∀ r : Fin 4, r.val < 3 →
        res.m_data r 3 =
          wholeEntries [[0, -1, 0, 0], [1, 0, 0, 0], [0, 0, 1, 0], [0, 0, 0, 1]] 0 r *
              exampleRigid.m_data 0 3 +
            wholeEntries [[0, -1, 0, 0], [1, 0, 0, 0], [0, 0, 1, 0], [0, 0, 0, 1]] 1 r *
              exampleRigid.m_data 1 3 +
            wholeEntries [[0, -1, 0, 0], [1, 0, 0, 0], [0, 0, 1, 0], [0, 0, 0, 1]] 2 r *
              exampleRigid.m_data 2 3 -
            exampleRigid.m_data r 3) :=
  C9_invert_product Matrix.SetIdentity exampleRigid false 65536
    (wholeEntries [[0, -1, 0, 0], [1, 0, 0, 0], [0, 0, 1, 0], [0, 0, 0, 1]])
    (by decide) (by decide) (by decide) (by decide) (by decide) (by decide)

/-! ## Rasteriser: spans stay inside the canvas -/

theorem CeilFixed_eq (x : Int) (h : InInt32 x) : CeilFixed x = x / 65536 + 1 := by
  unfold InInt32 at h
  unfold CeilFixed FloorFixed
  rw [shiftRight16]
  unfold wrap32
  omega

theorem CeilFixed_range (x : Int) (h : InInt32 x) :
    -32767 ≤ CeilFixed x ∧ CeilFixed x ≤ 32768 := by
  rw [CeilFixed_eq x h]
  unfold InInt32 at h
  omega

theorem CeilFixed_mono {x y : Int} (hx : InInt32 x) (hy : InInt32 y) (h : x ≤ y) :
    CeilFixed x ≤ CeilFixed y := by
  rw [CeilFixed_eq x hx, CeilFixed_eq y hy]
  omega

theorem mem_gouraudPixels (pixelFormat : NovaPixelFormat) (row rs gs bs : Int) :
    ∀ (len : Nat) (column red green blue : Int) (p : PixelWrite),
      p ∈ gouraudPixels pixelFormat row rs gs bs len column red green blue →
      p.row = row ∧ column ≤ p.column ∧ p.column < column + len
  | 0, _, _, _, _, p, h => by simp [gouraudPixels] at h
  | len + 1, column, red, green, blue, p, h => by
    simp only [gouraudPixels, List.mem_cons] at h
    rcases h with h | h
    · subst h
      exact ⟨rfl, le_refl _, by push_cast; omega⟩
    · have := mem_gouraudPixels pixelFormat row rs gs bs len _ _ _ _ p h
      push_cast
      omega

/-- Every store of `DrawGouraudSpan` is on the given scanline, between the
left and right bounds of the canvas. -/
theorem DrawGouraudSpan_ordered_inside (r : Renderer)
    (x1 x2 red1 green1 blue1 red2 green2 blue2 row : Int) (pixels : List PixelWrite)
    (hc : r.m_canvas.InRange) (h1 : InInt32 x1) (h2 : InInt32 x2)
    (h : Renderer.DrawGouraudSpan.ordered r x1 x2 red1 green1 blue1 red2 green2 blue2 row
      = Except.ok pixels) :
    ∀ p ∈ pixels, p.row = row ∧ r.m_canvas.m_left ≤ p.column ∧ p.column < r.m_canvas.m_right := by
  intro p hp
  have r1 := CeilFixed_range x1 h1
  have r2 := CeilFixed_range x2 h2
  unfold RenderingCanvas.InRange InInt32 at hc
  simp only [Renderer.DrawGouraudSpan.ordered] at h
  split_ifs at h
  all_goals first
    | (cases h; exact absurd hp (List.not_mem_nil _))
    | (obtain ⟨inv_len, _, h⟩ := bind_eq_ok h
       obtain ⟨rs, _, h⟩ := bind_eq_ok h
       obtain ⟨gs, _, h⟩ := bind_eq_ok h
       obtain ⟨bs, _, h⟩ := bind_eq_ok h
       cases h
       have hm := mem_gouraudPixels _ _ _ _ _ _ _ _ _ _ p hp
       simp only [decide_eq_true_eq] at *
       unfold wrap32 at hm
       omega)

theorem DrawGouraudSpan_inside (r : Renderer)
    (x1 x2 red1 green1 blue1 red2 green2 blue2 row : Int) (pixels : List PixelWrite)
    (hc : r.m_canvas.InRange) (h1 : InInt32 x1) (h2 : InInt32 x2)
    (h : r.DrawGouraudSpan x1 x2 red1 green1 blue1 red2 green2 blue2 row = Except.ok pixels) :
    ∀ p ∈ pixels, p.row = row ∧ r.m_canvas.m_left ≤ p.column ∧ p.column < r.m_canvas.m_right := by
  unfold Renderer.DrawGouraudSpan at h
  split_ifs at h
  · exact DrawGouraudSpan_ordered_inside r _ _ _ _ _ _ _ _ _ _ hc h2 h1 h
  · exact DrawGouraudSpan_ordered_inside r _ _ _ _ _ _ _ _ _ _ hc h1 h2 h

theorem mem_texturedPixels (r : Renderer) (texture : Texture) (row dudx dvdx dzdx : Int) :
    ∀ (len : Nat) (column leftU leftV leftZ : Int) (p : PixelWrite),
      p ∈ r.texturedPixels texture row dudx dvdx dzdx len column leftU leftV leftZ →
      p.row = row ∧ column ≤ p.column ∧ p.column < column + len
  | 0, _, _, _, _, p, h => by simp [Renderer.texturedPixels] at h
  | len + 1, column, leftU, leftV, leftZ, p, h => by
    simp only [Renderer.texturedPixels, List.mem_cons] at h
    rcases h with h | h
    · subst h
      exact ⟨rfl, le_refl _, by push_cast; omega⟩
    · have := mem_texturedPixels r texture row dudx dvdx dzdx len _ _ _ _ p h
      push_cast
      omega

theorem mem_lightedPixels (r : Renderer) (texture : Texture) (row dudx dvdx dzdx didx : Int) :
    ∀ (len : Nat) (column leftU leftV leftZ intensityLeft : Int) (p : PixelWrite),
      p ∈ r.lightedPixels texture row dudx dvdx dzdx didx len column leftU leftV leftZ
        intensityLeft →
      p.row = row ∧ column ≤ p.column ∧ p.column < column + len
  | 0, _, _, _, _, _, p, h => by simp [Renderer.lightedPixels] at h
  | len + 1, column, leftU, leftV, leftZ, intensityLeft, p, h => by
    simp only [Renderer.lightedPixels, List.mem_cons] at h
    rcases h with h | h
    · subst h
      exact ⟨rfl, le_refl _, by push_cast; omega⟩
    · have := mem_lightedPixels r texture row dudx dvdx dzdx didx len _ _ _ _ _ p h
      push_cast
      omega

theorem DrawTexturedSpan_draw_inside (r : Renderer) (texture : Texture)
    (row dudx dvdx dzdx right leftU leftV leftZ len left : Int) (p : PixelWrite)
    (hl : r.m_canvas.m_left ≤ left) (hlen : right < r.m_canvas.m_right → left + len ≤ right + 1)
    (hi : right ≥ r.m_canvas.m_right → InInt32 (r.m_canvas.m_right - left))
    (hp : p ∈ Renderer.DrawTexturedSpan.draw r texture row dudx dvdx dzdx right leftU leftV
      leftZ len left) :
    p.row = row ∧ r.m_canvas.m_left ≤ p.column ∧ p.column < r.m_canvas.m_right := by
  unfold Renderer.DrawTexturedSpan.draw at hp
  by_cases hr : right ≥ r.m_canvas.m_right
  · simp only [hr, if_true] at hp
    rw [wrap32_of_inInt32 (hi hr)] at hp
    split_ifs at hp
    · exact absurd hp (List.not_mem_nil _)
    · have hm := mem_texturedPixels _ _ _ _ _ _ _ _ _ _ _ p hp
      omega
  · simp only [hr, if_false] at hp
    split_ifs at hp
    · exact absurd hp (List.not_mem_nil _)
    · have hm := mem_texturedPixels _ _ _ _ _ _ _ _ _ _ _ p hp
      omega

theorem DrawLightedTexturedSpan_draw_inside (r : Renderer) (texture : Texture)
    (row dudx dvdx dzdx didx right leftU leftV leftZ intensityLeft len left : Int)
    (p : PixelWrite)
    (hl : r.m_canvas.m_left ≤ left) (hlen : right < r.m_canvas.m_right → left + len ≤ right + 1)
    (hi : right ≥ r.m_canvas.m_right → InInt32 (r.m_canvas.m_right - left))
    (hp : p ∈ Renderer.DrawLightedTexturedSpan.draw r texture row dudx dvdx dzdx didx right
      leftU leftV leftZ intensityLeft len left) :
    p.row = row ∧ r.m_canvas.m_left ≤ p.column ∧ p.column < r.m_canvas.m_right := by
  unfold Renderer.DrawLightedTexturedSpan.draw at hp
  by_cases hr : right ≥ r.m_canvas.m_right
  · simp only [hr, if_true] at hp
    rw [wrap32_of_inInt32 (hi hr)] at hp
    split_ifs at hp
    · exact absurd hp (List.not_mem_nil _)
    · have hm := mem_lightedPixels _ _ _ _ _ _ _ _ _ _ _ _ _ p hp
      omega
  · simp only [hr, if_false] at hp
    split_ifs at hp
    · exact absurd hp (List.not_mem_nil _)
    · have hm := mem_lightedPixels _ _ _ _ _ _ _ _ _ _ _ _ _ p hp
      omega

/-- Every store of `DrawTexturedSpan` is on the given scanline, between the
left and right bounds of the canvas. -/
theorem DrawTexturedSpan_inside (r : Renderer)
    (leftX rightX leftU leftV leftZ dudx dvdx dzdx row : Int) (texture : Texture)
    (pixels : List PixelWrite)
    (h1 : InInt32 leftX) (h2 : InInt32 rightX)
    (h : r.DrawTexturedSpan leftX rightX leftU leftV leftZ dudx dvdx dzdx row texture
      = Except.ok pixels) :
    ∀ p ∈ pixels, p.row = row ∧ r.m_canvas.m_left ≤ p.column ∧ p.column < r.m_canvas.m_right := by
  intro p hp
  have r1 := CeilFixed_range leftX h1
  have r2 := CeilFixed_range rightX h2
  simp only [Renderer.DrawTexturedSpan] at h
  obtain ⟨pu, _, h⟩ := bind_eq_ok h
  obtain ⟨pv, _, h⟩ := bind_eq_ok h
  obtain ⟨pz, _, h⟩ := bind_eq_ok h
  split_ifs at h
  · cases h; exact absurd hp (List.not_mem_nil _)
  · obtain ⟨qu, _, h⟩ := bind_eq_ok h
    obtain ⟨qv, _, h⟩ := bind_eq_ok h
    obtain ⟨qz, _, h⟩ := bind_eq_ok h
    cases h
    refine DrawTexturedSpan_draw_inside r texture row dudx dvdx dzdx _ _ _ _ _ _ p (le_refl _)
      ?_ ?_ hp
    · unfold wrap32; omega
    · intro hr; unfold InInt32; omega
  · cases h
    refine DrawTexturedSpan_draw_inside r texture row dudx dvdx dzdx _ _ _ _ _ _ p (by omega)
      ?_ ?_ hp
    · unfold wrap32; omega
    · intro hr; unfold InInt32; omega

/-- Every store of `DrawLightedTexturedSpan` is on the given scanline,
between the left and right bounds of the canvas. -/
theorem DrawLightedTexturedSpan_inside (r : Renderer)
    (leftX rightX leftU leftV leftZ intensityLeft dudx dvdx dzdx didx row : Int)
    (texture : Texture) (pixels : List PixelWrite)
    (h1 : InInt32 leftX) (h2 : InInt32 rightX)
    (h : r.DrawLightedTexturedSpan leftX rightX leftU leftV leftZ intensityLeft dudx dvdx dzdx
      didx row texture = Except.ok pixels) :
    ∀ p ∈ pixels, p.row = row ∧ r.m_canvas.m_left ≤ p.column ∧ p.column < r.m_canvas.m_right := by
  intro p hp
  have r1 := CeilFixed_range leftX h1
  have r2 := CeilFixed_range rightX h2
  simp only [Renderer.DrawLightedTexturedSpan] at h
  obtain ⟨pu, _, h⟩ := bind_eq_ok h
  obtain ⟨pv, _, h⟩ := bind_eq_ok h
  obtain ⟨pz, _, h⟩ := bind_eq_ok h
  split_ifs at h
  · cases h; exact absurd hp (List.not_mem_nil _)
  · obtain ⟨qu, _, h⟩ := bind_eq_ok h
    obtain ⟨qv, _, h⟩ := bind_eq_ok h
    obtain ⟨qz, _, h⟩ := bind_eq_ok h
    obtain ⟨qi, _, h⟩ := bind_eq_ok h
    cases h
    refine DrawLightedTexturedSpan_draw_inside r texture row dudx dvdx dzdx didx _ _ _ _ _ _ _ p
      (le_refl _) ?_ ?_ hp
    · unfold wrap32; omega
    · intro hr; unfold InInt32; omega
  · cases h
    refine DrawLightedTexturedSpan_draw_inside r texture row dudx dvdx dzdx didx _ _ _ _ _ _ _ p
      (by omega) ?_ ?_ hp
    · unfold wrap32; omega
    · intro hr; unfold InInt32; omega

/-! ## Rasteriser: the scan loops -/

theorem startEdge_x {s s' : GouraudEdges} {v w : ScreenVertex}
    (h : s.startEdge v w = Except.ok s') : s'.x1 = v.m_x ∧ s'.x2 = s.x2 := by
  simp only [GouraudEdges.startEdge] at h
  obtain ⟨a, _, h⟩ := bind_eq_ok h
  obtain ⟨b, _, h⟩ := bind_eq_ok h
  obtain ⟨c, _, h⟩ := bind_eq_ok h
  obtain ⟨d, _, h⟩ := bind_eq_ok h
  obtain ⟨e, _, h⟩ := bind_eq_ok h
  cases h
  exact ⟨rfl, rfl⟩

/-- The scan loop of `DrawTriangle` ends within its pass budget, and all its
stores are on scanlines between `topmost_y` and `lowest_y`, in columns of the
canvas. -/
theorem DrawTriangle_loop_spec (r : Renderer) (vertex2 vertex3 : ScreenVertex)
    (y2 y3 topmost_y lowest_y : Int) (hc : r.m_canvas.InRange) (hv2 : InInt32 vertex2.m_x)
    (hlow : lowest_y < 2147483647) :
    ∀ (fuel : Nat) (cur_y : Int) (s : GouraudEdges),
      (lowest_y + 1 - cur_y).toNat ≤ fuel → InInt32 cur_y → InInt32 s.x1 → InInt32 s.x2 →
      ∃ res, Renderer.DrawTriangle.loop r vertex2 vertex3 y2 y3 topmost_y lowest_y fuel cur_y s
          = some res ∧
        ∀ p ∈ res.pixels, p.Within r.m_canvas topmost_y lowest_y := by
  intro fuel
  induction fuel with
  | zero =>
    intro cur_y s hfuel _ _ _
    have : ¬ cur_y ≤ lowest_y := by omega
    simp only [Renderer.DrawTriangle.loop, if_neg this]
    exact ⟨_, rfl, fun p hp => absurd hp (List.not_mem_nil _)⟩
  | succ fuel ih =>
    intro cur_y s hfuel hcy h1 h2
    simp only [Renderer.DrawTriangle.loop]
    by_cases hle : cur_y ≤ lowest_y
    · rw [if_pos hle]
      by_cases hflat : cur_y = y2 ∧ y3 = y2
      · rw [if_pos hflat]
        exact ⟨_, rfl, fun p hp => absurd hp (List.not_mem_nil _)⟩
      · rw [if_neg hflat]
        cases hedge : (if cur_y = y2 then s.startEdge vertex2 vertex3 else pure s) with
        | error e => exact ⟨_, rfl, fun p hp => absurd hp (List.not_mem_nil _)⟩
        | ok s' =>
          simp only []
          have ht : InInt32 s'.x1 ∧ InInt32 s'.x2 := by
            split_ifs at hedge
            · obtain ⟨e1, e2⟩ := startEdge_x hedge
              rw [e1, e2]; exact ⟨hv2, h2⟩
            · cases hedge; exact ⟨h1, h2⟩
          cases hspan : (if cur_y ≥ topmost_y then
              r.DrawGouraudSpan s'.x1 s'.x2 s'.red1 s'.green1 s'.blue1 s'.red2 s'.green2 s'.blue2
                cur_y
            else pure []) with
          | error e => exact ⟨_, rfl, fun p hp => absurd hp (List.not_mem_nil _)⟩
          | ok span =>
            have hnext : wrap32 (cur_y + 1) = cur_y + 1 := by
              unfold InInt32 at hcy
              unfold wrap32; omega
            obtain ⟨rest, hrest, hin⟩ := ih (wrap32 (cur_y + 1)) s'.advance
              (by rw [hnext]; omega) (wrap32_inInt32 _) (wrap32_inInt32 _) (wrap32_inInt32 _)
            simp only [hrest]
            refine ⟨_, rfl, ?_⟩
            simp only []
            intro p hp
            rcases List.mem_append.mp hp with hp | hp
            · split_ifs at hspan with htop
              · obtain ⟨e1, e2, e3⟩ := DrawGouraudSpan_inside r _ _ _ _ _ _ _ _ _ _ hc ht.1 ht.2
                  hspan p hp
                exact ⟨by rw [e1]; exact htop, by rw [e1]; exact hle, e2, e3⟩
              · cases hspan; exact absurd hp (List.not_mem_nil _)
            · exact hin p hp
    · rw [if_neg hle]
      exact ⟨_, rfl, fun p hp => absurd hp (List.not_mem_nil _)⟩

/-- `SelectVertexOrder` returns the three vertices of the face in ascending
order of `m_y`. -/
theorem SelectVertexOrder_spec (face : ScreenPolygon) :
    ∃ a b c, SelectVertexOrder face = (a, b, c) ∧ a.m_y ≤ b.m_y ∧ b.m_y ≤ c.m_y ∧
      ∀ P : ScreenVertex → Prop, P face.m_v1 → P face.m_v2 → P face.m_v3 → P a ∧ P b ∧ P c := by
  unfold SelectVertexOrder
  simp only
  split_ifs <;>
    exact ⟨_, _, _, rfl, by omega, by omega, fun P h1 h2 h3 => ⟨by assumption, by assumption,
      by assumption⟩⟩

theorem lowest_y_spec (y : Int) (c : RenderingCanvas) (hc : c.InRange) (hy : InInt32 y) :
    -32767 ≤ CeilFixed y → wrap32 (min (CeilFixed y) c.m_bottom - 1) < 2147483647 ∧
      wrap32 (min (CeilFixed y) c.m_bottom - 1) < c.m_bottom := by
  intro h
  have r := CeilFixed_range y hy
  unfold RenderingCanvas.InRange InInt32 at hc
  have hm : min (CeilFixed y) c.m_bottom ≤ CeilFixed y := min_le_left _ _
  have hb : min (CeilFixed y) c.m_bottom ≤ c.m_bottom := min_le_right _ _
  have hl : -2147483647 ≤ min (CeilFixed y) c.m_bottom := le_min (by omega) (by omega)
  unfold wrap32
  omega

theorem DrawTriangle_setup_x {vertex1 vertex2 vertex3 : ScreenVertex} {y1 y2 : Int}
    {s : GouraudEdges}
    (h : Renderer.DrawTriangle.setup vertex1 vertex2 vertex3 y1 y2 = Except.ok s)
    (hv : InInt32 vertex1.m_x) : InInt32 s.x1 ∧ InInt32 s.x2 := by
  simp only [Renderer.DrawTriangle.setup] at h
  obtain ⟨a, _, h⟩ := bind_eq_ok h
  obtain ⟨b, _, h⟩ := bind_eq_ok h
  obtain ⟨c, _, h⟩ := bind_eq_ok h
  obtain ⟨d, _, h⟩ := bind_eq_ok h
  obtain ⟨e, _, h⟩ := bind_eq_ok h
  split_ifs at h
  · obtain ⟨e1, e2⟩ := startEdge_x h
    rw [e1, e2]
    exact ⟨hv, hv⟩
  · cases h
    exact ⟨(by decide : InInt32 0), hv⟩

/-- `DrawTriangle` ends within the pass budget of the model and all its
stores are inside the canvas. -/
theorem DrawTriangle_inside (r : Renderer) (face : ScreenPolygon)
    (hc : r.m_canvas.InRange) (hf : face.InRange) :
    ∃ res, r.DrawTriangle face = some res ∧ ∀ p ∈ res.pixels, p.Inside r.m_canvas := by
  obtain ⟨a, b, c, hsel, _, _, hP⟩ := SelectVertexOrder_spec face
  obtain ⟨ha, hb, hcv⟩ := hP ScreenVertex.InRange hf.1 hf.2.1 hf.2.2
  simp only [Renderer.DrawTriangle, hsel]
  split_ifs
  · exact ⟨_, rfl, fun p hp => absurd hp (List.not_mem_nil _)⟩
  · cases hset : Renderer.DrawTriangle.setup a b c (CeilFixed a.m_y) (CeilFixed b.m_y) with
    | error e => exact ⟨_, rfl, fun p hp => absurd hp (List.not_mem_nil _)⟩
    | ok s =>
      simp only []
      have hx := DrawTriangle_setup_x hset ha.1
      have hy1 := CeilFixed_range a.m_y ha.2.1
      have hy3 := CeilFixed_range c.m_y hcv.2.1
      have hlow := lowest_y_spec c.m_y r.m_canvas hc hcv.2.1 hy3.1
      obtain ⟨res, hres, hin⟩ := DrawTriangle_loop_spec r b c (CeilFixed b.m_y) (CeilFixed c.m_y)
        r.m_canvas.m_top (wrap32 (min (CeilFixed c.m_y) r.m_canvas.m_bottom - 1)) hc hb.1 hlow.1
        _ (CeilFixed a.m_y) s (le_refl _) (by unfold InInt32; omega) hx.1 hx.2
      refine ⟨res, hres, fun p hp => ?_⟩
      obtain ⟨q1, q2, q3, q4⟩ := hin p hp
      exact ⟨q1, by omega, q3, q4⟩

theorem DrawTexturedTriangle_atMiddle_x {long_on_left : Bool} {vertex2 vertex3 : ScreenVertex}
    {y2 : Int} {s s' : TexturedEdges}
    (h : Renderer.DrawTexturedTriangle.atMiddle long_on_left vertex2 vertex3 y2 s
      = Except.ok (some s'))
    (h1 : InInt32 s.left_x) (h2 : InInt32 s.right_x) :
    InInt32 s'.left_x ∧ InInt32 s'.right_x := by
  simp only [Renderer.DrawTexturedTriangle.atMiddle] at h
  split_ifs at h
  all_goals
    repeat (obtain ⟨_, _, h⟩ := bind_eq_ok h)
    cases h
    all_goals first
      | exact ⟨h1, wrap32_inInt32 _⟩
      | exact ⟨wrap32_inInt32 _, h2⟩

theorem DrawTexturedTriangle_setup_x {vertex1 vertex2 vertex3 : ScreenVertex} {y1 y2 : Int}
    {long_on_left : Bool} {long_inv_len long_x long_dxdy : Int} {s : TexturedEdges}
    (h : Renderer.DrawTexturedTriangle.setup vertex1 vertex2 vertex3 y1 y2 long_on_left
      long_inv_len long_x long_dxdy = Except.ok s) :
    InInt32 s.left_x ∧ InInt32 s.right_x := by
  simp only [Renderer.DrawTexturedTriangle.setup] at h
  split_ifs at h
  all_goals
    repeat (obtain ⟨_, _, h⟩ := bind_eq_ok h)
    cases h
    exact ⟨wrap32_inInt32 _, wrap32_inInt32 _⟩

/-- The scan loop of `DrawTexturedTriangle` ends within its pass budget, and
all its stores are on scanlines between the top of the canvas and
`lowest_y`, in columns of the canvas. -/
theorem DrawTexturedTriangle_loop_spec (r : Renderer) (texture : Texture)
    (gradients : PolygonGradients) (long_on_left : Bool) (vertex2 vertex3 : ScreenVertex)
    (y2 y3 lowest_y : Int) (hlow : lowest_y < 2147483647) :
    ∀ (fuel : Nat) (cur_y : Int) (s : TexturedEdges),
      (lowest_y + 1 - cur_y).toNat ≤ fuel → InInt32 cur_y → InInt32 s.left_x →
      InInt32 s.right_x →
      ∃ res, Renderer.DrawTexturedTriangle.loop r texture gradients long_on_left vertex2 vertex3
          y2 y3 lowest_y fuel cur_y s = some res ∧
        ∀ p ∈ res.pixels, p.Within r.m_canvas r.m_canvas.m_top lowest_y := by
  intro fuel
  induction fuel with
  | zero =>
    intro cur_y s hfuel _ _ _
    have : ¬ cur_y ≤ lowest_y := by omega
    simp only [Renderer.DrawTexturedTriangle.loop, if_neg this]
    exact ⟨_, rfl, fun p hp => absurd hp (List.not_mem_nil _)⟩
  | succ fuel ih =>
    intro cur_y s hfuel hcy h1 h2
    simp only [Renderer.DrawTexturedTriangle.loop]
    by_cases hle : cur_y ≤ lowest_y
    · rw [if_pos hle]
      by_cases hflat : cur_y = y2 ∧ y3 = y2
      · rw [if_pos hflat]
        exact ⟨_, rfl, fun p hp => absurd hp (List.not_mem_nil _)⟩
      · rw [if_neg hflat]
        cases hedge : (if cur_y = y2 then
            Renderer.DrawTexturedTriangle.atMiddle long_on_left vertex2 vertex3 y2 s
          else pure (some s)) with
        | error e => exact ⟨_, rfl, fun p hp => absurd hp (List.not_mem_nil _)⟩
        | ok o =>
          cases o with
          | none => exact ⟨_, rfl, fun p hp => absurd hp (List.not_mem_nil _)⟩
          | some s' =>
            simp only []
            have ht : InInt32 s'.left_x ∧ InInt32 s'.right_x := by
              split_ifs at hedge
              · exact DrawTexturedTriangle_atMiddle_x hedge h1 h2
              · cases hedge; exact ⟨h1, h2⟩
            cases hspan : (if cur_y ≥ r.m_canvas.m_top then
                r.DrawTexturedSpan s'.left_x s'.right_x s'.left_u s'.left_v s'.left_z
                  gradients.dudx gradients.dvdx gradients.dzdx cur_y texture
              else pure []) with
            | error e => exact ⟨_, rfl, fun p hp => absurd hp (List.not_mem_nil _)⟩
            | ok span =>
              have hnext : wrap32 (cur_y + 1) = cur_y + 1 := by
                unfold InInt32 at hcy
                unfold wrap32; omega
              obtain ⟨rest, hrest, hin⟩ := ih (wrap32 (cur_y + 1)) s'.advance
                (by rw [hnext]; omega) (wrap32_inInt32 _) (wrap32_inInt32 _) (wrap32_inInt32 _)
              simp only [hrest]
              refine ⟨_, rfl, ?_⟩
              simp only []
              intro p hp
              rcases List.mem_append.mp hp with hp | hp
              · split_ifs at hspan with htop
                · obtain ⟨e1, e2, e3⟩ := DrawTexturedSpan_inside r _ _ _ _ _ _ _ _ _ _ _ ht.1
                    ht.2 hspan p hp
                  exact ⟨by rw [e1]; exact htop, by rw [e1]; exact hle, e2, e3⟩
                · cases hspan; exact absurd hp (List.not_mem_nil _)
              · exact hin p hp
    · rw [if_neg hle]
      exact ⟨_, rfl, fun p hp => absurd hp (List.not_mem_nil _)⟩

/-- `DrawTexturedTriangle` ends within the pass budget of the model and all
its stores are inside the canvas. -/
theorem DrawTexturedTriangle_inside (r : Renderer) (face : ScreenPolygon) (texture : Texture)
    (gradients : PolygonGradients) (hc : r.m_canvas.InRange) (hf : face.InRange) :
    ∃ res, r.DrawTexturedTriangle face texture gradients = some res ∧
      ∀ p ∈ res.pixels, p.Inside r.m_canvas := by
  obtain ⟨a, b, c, hsel, _, _, hP⟩ := SelectVertexOrder_spec face
  obtain ⟨ha, hb, hcv⟩ := hP ScreenVertex.InRange hf.1 hf.2.1 hf.2.2
  simp only [Renderer.DrawTexturedTriangle, hsel]
  cases hlong : IsLongOnLeft a b c with
  | error e => exact ⟨_, rfl, fun p hp => absurd hp (List.not_mem_nil _)⟩
  | ok l =>
    obtain ⟨long_on_left, long_inv_len, long_x, long_dxdy⟩ := l
    simp only []
    cases hset : Renderer.DrawTexturedTriangle.setup a b c (CeilFixed a.m_y) (CeilFixed b.m_y)
        long_on_left long_inv_len long_x long_dxdy with
    | error e => exact ⟨_, rfl, fun p hp => absurd hp (List.not_mem_nil _)⟩
    | ok s =>
      simp only []
      have hx := DrawTexturedTriangle_setup_x hset
      have hy1 := CeilFixed_range a.m_y ha.2.1
      have hy3 := CeilFixed_range c.m_y hcv.2.1
      have hlow := lowest_y_spec c.m_y r.m_canvas hc hcv.2.1 hy3.1
      obtain ⟨res, hres, hin⟩ := DrawTexturedTriangle_loop_spec r texture gradients long_on_left
        b c (CeilFixed b.m_y) (CeilFixed c.m_y)
        (wrap32 (min (CeilFixed c.m_y) r.m_canvas.m_bottom - 1)) hlow.1
        _ (CeilFixed a.m_y) s (le_refl _) (by unfold InInt32; omega) hx.1 hx.2
      refine ⟨res, hres, fun p hp => ?_⟩
      obtain ⟨q1, q2, q3, q4⟩ := hin p hp
      exact ⟨q1, by omega, q3, q4⟩

theorem DrawLightedTexturedTriangle_atMiddle_x {long_on_left : Bool}
    {vertex2 vertex3 : ScreenVertex} {y2 : Int} {s s' : LightedEdges}
    (h : Renderer.DrawLightedTexturedTriangle.atMiddle long_on_left vertex2 vertex3 y2 s
      = Except.ok (some s'))
    (h1 : InInt32 s.left_x) (h2 : InInt32 s.right_x) :
    InInt32 s'.left_x ∧ InInt32 s'.right_x := by
  simp only [Renderer.DrawLightedTexturedTriangle.atMiddle] at h
  split_ifs at h
  all_goals
    repeat (obtain ⟨_, _, h⟩ := bind_eq_ok h)
    cases h
    all_goals first
      | exact ⟨h1, wrap32_inInt32 _⟩
      | exact ⟨wrap32_inInt32 _, h2⟩

theorem DrawLightedTexturedTriangle_setup_x {vertex1 vertex2 vertex3 : ScreenVertex} {y1 y2 : Int}
    {long_on_left : Bool} {long_inv_len long_x long_dxdy : Int} {uninit s : LightedEdges}
    (h : Renderer.DrawLightedTexturedTriangle.setup vertex1 vertex2 vertex3 y1 y2 long_on_left
      long_inv_len long_x long_dxdy uninit = Except.ok s) :
    InInt32 s.left_x ∧ InInt32 s.right_x := by
  simp only [Renderer.DrawLightedTexturedTriangle.setup] at h
  split_ifs at h
  all_goals
    repeat (obtain ⟨_, _, h⟩ := bind_eq_ok h)
    cases h
    exact ⟨wrap32_inInt32 _, wrap32_inInt32 _⟩

/-- The scan loop of `DrawLightedTexturedTriangle` ends within its pass budget, and
all its stores are on scanlines between the top of the canvas and
`lowest_y`, in columns of the canvas. -/
theorem DrawLightedTexturedTriangle_loop_spec (r : Renderer) (texture : Texture)
    (gradients : PolygonGradients) (long_on_left : Bool) (vertex2 vertex3 : ScreenVertex)
    (y2 y3 lowest_y : Int) (hlow : lowest_y < 2147483647) :
    ∀ (fuel : Nat) (cur_y : Int) (s : LightedEdges),
      (lowest_y + 1 - cur_y).toNat ≤ fuel → InInt32 cur_y → InInt32 s.left_x →
      InInt32 s.right_x →
      ∃ res, Renderer.DrawLightedTexturedTriangle.loop r texture gradients long_on_left
          vertex2 vertex3 y2 y3 lowest_y fuel cur_y s = some res ∧
        ∀ p ∈ res.pixels, p.Within r.m_canvas r.m_canvas.m_top lowest_y := by
  intro fuel
  induction fuel with
  | zero =>
    intro cur_y s hfuel _ _ _
    have : ¬ cur_y ≤ lowest_y := by omega
    simp only [Renderer.DrawLightedTexturedTriangle.loop, if_neg this]
    exact ⟨_, rfl, fun p hp => absurd hp (List.not_mem_nil _)⟩
  | succ fuel ih =>
    intro cur_y s hfuel hcy h1 h2
    simp only [Renderer.DrawLightedTexturedTriangle.loop]
    by_cases hle : cur_y ≤ lowest_y
    · rw [if_pos hle]
      by_cases hflat : cur_y = y2 ∧ y3 = y2
      · rw [if_pos hflat]
        exact ⟨_, rfl, fun p hp => absurd hp (List.not_mem_nil _)⟩
      · rw [if_neg hflat]
        cases hedge : (if cur_y = y2 then
            Renderer.DrawLightedTexturedTriangle.atMiddle long_on_left vertex2 vertex3 y2 s
          else pure (some s)) with
        | error e => exact ⟨_, rfl, fun p hp => absurd hp (List.not_mem_nil _)⟩
        | ok o =>
          cases o with
          | none => exact ⟨_, rfl, fun p hp => absurd hp (List.not_mem_nil _)⟩
          | some s' =>
            simp only []
            have ht : InInt32 s'.left_x ∧ InInt32 s'.right_x := by
              split_ifs at hedge
              · exact DrawLightedTexturedTriangle_atMiddle_x hedge h1 h2
              · cases hedge; exact ⟨h1, h2⟩
            cases hspan : (if cur_y ≥ r.m_canvas.m_top then
                r.DrawLightedTexturedSpan s'.left_x s'.right_x s'.left_u s'.left_v s'.left_z
                  s'.left_intensity gradients.dudx gradients.dvdx gradients.dzdx gradients.didx
                  cur_y texture
              else pure []) with
            | error e => exact ⟨_, rfl, fun p hp => absurd hp (List.not_mem_nil _)⟩
            | ok span =>
              have hnext : wrap32 (cur_y + 1) = cur_y + 1 := by
                unfold InInt32 at hcy
                unfold wrap32; omega
              obtain ⟨rest, hrest, hin⟩ := ih (wrap32 (cur_y + 1)) s'.advance
                (by rw [hnext]; omega) (wrap32_inInt32 _) (wrap32_inInt32 _) (wrap32_inInt32 _)
              simp only [hrest]
              refine ⟨_, rfl, ?_⟩
              simp only []
              intro p hp
              rcases List.mem_append.mp hp with hp | hp
              · split_ifs at hspan with htop
                · obtain ⟨e1, e2, e3⟩ := DrawLightedTexturedSpan_inside r _ _ _ _ _ _ _ _ _ _ _ _ _ ht.1
                    ht.2 hspan p hp
                  exact ⟨by rw [e1]; exact htop, by rw [e1]; exact hle, e2, e3⟩
                · cases hspan; exact absurd hp (List.not_mem_nil _)
              · exact hin p hp
    · rw [if_neg hle]
      exact ⟨_, rfl, fun p hp => absurd hp (List.not_mem_nil _)⟩

/-- `DrawLightedTexturedTriangle` ends within the pass budget of the model and all
its stores are inside the canvas. -/
theorem DrawLightedTexturedTriangle_inside (r : Renderer) (face : ScreenPolygon)
    (texture : Texture) (gradients : PolygonGradients) (uninit : LightedEdges)
    (hc : r.m_canvas.InRange) (hf : face.InRange) :
    ∃ res, r.DrawLightedTexturedTriangle face texture gradients uninit = some res ∧
      ∀ p ∈ res.pixels, p.Inside r.m_canvas := by
  obtain ⟨a, b, c, hsel, _, _, hP⟩ := SelectVertexOrder_spec face
  obtain ⟨ha, hb, hcv⟩ := hP ScreenVertex.InRange hf.1 hf.2.1 hf.2.2
  simp only [Renderer.DrawLightedTexturedTriangle, hsel]
  cases hlong : IsLongOnLeft a b c with
  | error e => exact ⟨_, rfl, fun p hp => absurd hp (List.not_mem_nil _)⟩
  | ok l =>
    obtain ⟨long_on_left, long_inv_len, long_x, long_dxdy⟩ := l
    simp only []
    cases hset : Renderer.DrawLightedTexturedTriangle.setup a b c (CeilFixed a.m_y)
        (CeilFixed b.m_y) long_on_left long_inv_len long_x long_dxdy uninit with
    | error e => exact ⟨_, rfl, fun p hp => absurd hp (List.not_mem_nil _)⟩
    | ok s =>
      simp only []
      have hx := DrawLightedTexturedTriangle_setup_x hset
      have hy1 := CeilFixed_range a.m_y ha.2.1
      have hy3 := CeilFixed_range c.m_y hcv.2.1
      have hlow := lowest_y_spec c.m_y r.m_canvas hc hcv.2.1 hy3.1
      obtain ⟨res, hres, hin⟩ := DrawLightedTexturedTriangle_loop_spec r texture gradients
        long_on_left b c (CeilFixed b.m_y) (CeilFixed c.m_y)
        (wrap32 (min (CeilFixed c.m_y) r.m_canvas.m_bottom - 1)) hlow.1
        _ (CeilFixed a.m_y) s (le_refl _) (by unfold InInt32; omega) hx.1 hx.2
      refine ⟨res, hres, fun p hp => ?_⟩
      obtain ⟨q1, q2, q3, q4⟩ := hin p hp
      exact ⟨q1, by omega, q3, q4⟩

/-! ## Rasteriser: uniform colour -/

theorem gouraudPixels_color (pixelFormat : NovaPixelFormat) (row red green blue : Int)
    (hr : InInt32 red) (hg : InInt32 green) (hb : InInt32 blue) :
    ∀ (len : Nat) (column : Int) (p : PixelWrite),
      p ∈ gouraudPixels pixelFormat row 0 0 0 len column red green blue →
      p.color = CreateColor pixelFormat (red >>> FixedPointPrec) (green >>> FixedPointPrec)
        (blue >>> FixedPointPrec)
  | 0, _, p, h => by simp [gouraudPixels] at h
  | len + 1, column, p, h => by
    simp only [gouraudPixels, List.mem_cons, add_zero, wrap32_of_inInt32 hr,
      wrap32_of_inInt32 hg, wrap32_of_inInt32 hb] at h
    rcases h with h | h
    · subst h; rfl
    · exact gouraudPixels_color pixelFormat row red green blue hr hg hb len _ p h

theorem FixedLargeMul_diff_self {x inv slope : Int}
    (h : FixedLargeMul (wrap32 (x - x)) inv = Except.ok slope) : slope = 0 := by
  rw [sub_self, show wrap32 0 = 0 from rfl, FixedLargeMul_zero_left] at h
  cases h; rfl

theorem wrap32_add_zero_mul {x : Int} (hx : InInt32 x) (steps : Int) :
    wrap32 (x + wrap32 (0 * steps)) = x := by
  rw [zero_mul, show wrap32 0 = 0 from rfl, add_zero, wrap32_of_inInt32 hx]

/-- With the same colour at both ends, every store of `DrawGouraudSpan` has
that colour. -/
theorem DrawGouraudSpan_color (r : Renderer) (x1 x2 red green blue row : Int)
    (pixels : List PixelWrite) (hr : InInt32 red) (hg : InInt32 green) (hb : InInt32 blue)
    (h : r.DrawGouraudSpan x1 x2 red green blue red green blue row = Except.ok pixels) :
    ∀ p ∈ pixels,
      p.color = CreateColor r.m_canvas.m_pixelFormat (red >>> FixedPointPrec)
        (green >>> FixedPointPrec) (blue >>> FixedPointPrec) := by
  intro p hp
  simp only [Renderer.DrawGouraudSpan, Renderer.DrawGouraudSpan.ordered] at h
  split_ifs at h
  all_goals first
    | (cases h; exact absurd hp (List.not_mem_nil _))
    | (obtain ⟨inv_len, _, h⟩ := bind_eq_ok h
       obtain ⟨rs, hrs, h⟩ := bind_eq_ok h
       obtain ⟨gs, hgs, h⟩ := bind_eq_ok h
       obtain ⟨bs, hbs, h⟩ := bind_eq_ok h
       cases FixedLargeMul_diff_self hrs
       cases FixedLargeMul_diff_self hgs
       cases FixedLargeMul_diff_self hbs
       cases h
       try simp only [wrap32_add_zero_mul hr, wrap32_add_zero_mul hg, wrap32_add_zero_mul hb]
         at hp
       exact gouraudPixels_color _ _ _ _ _ hr hg hb _ _ p hp)

theorem startEdge_color {s s' : GouraudEdges} {v w : ScreenVertex} {red green blue : Int}
    (h : s.startEdge v w = Except.ok s') (hv : v.HasColor red green blue)
    (hw : w.HasColor red green blue) (hs : s.LongUniform red green blue) :
    s'.ShortUniform red green blue ∧ s'.LongUniform red green blue := by
  obtain ⟨v1, v2, v3⟩ := hv
  obtain ⟨w1, w2, w3⟩ := hw
  simp only [GouraudEdges.startEdge, v1, v2, v3, w1, w2, w3] at h
  obtain ⟨a, _, h⟩ := bind_eq_ok h
  obtain ⟨b, _, h⟩ := bind_eq_ok h
  obtain ⟨c, hc, h⟩ := bind_eq_ok h
  obtain ⟨d, hd, h⟩ := bind_eq_ok h
  obtain ⟨e, he, h⟩ := bind_eq_ok h
  cases FixedLargeMul_diff_self hc
  cases FixedLargeMul_diff_self hd
  cases FixedLargeMul_diff_self he
  cases h
  exact ⟨⟨⟨rfl, rfl⟩, ⟨rfl, rfl⟩, ⟨rfl, rfl⟩⟩, hs⟩

theorem advance_uniform {s : GouraudEdges} {red green blue : Int}
    (hr : InInt32 red) (hg : InInt32 green) (hb : InInt32 blue)
    (h1 : s.ShortUniform red green blue) (h2 : s.LongUniform red green blue) :
    s.advance.ShortUniform red green blue ∧ s.advance.LongUniform red green blue := by
  obtain ⟨⟨a1, a2⟩, ⟨a3, a4⟩, ⟨a5, a6⟩⟩ := h1
  obtain ⟨⟨b1, b2⟩, ⟨b3, b4⟩, ⟨b5, b6⟩⟩ := h2
  simp only [GouraudEdges.ShortUniform, GouraudEdges.LongUniform, GouraudEdges.advance, a1, a2,
    a3, a4, a5, a6, b1, b2, b3, b4, b5, b6, add_zero, wrap32_of_inInt32 hr, wrap32_of_inInt32 hg,
    wrap32_of_inInt32 hb, and_self]

/-- With the colour `(red, green, blue)` on the long edge, on the two lower
vertices, and on the short edge unless the loop is about to start the edge
`v2 - v3`, every store of the scan loop of `DrawTriangle` has that colour. -/
theorem DrawTriangle_loop_color (r : Renderer) (vertex2 vertex3 : ScreenVertex)
    (y2 y3 topmost_y lowest_y red green blue : Int)
    (hr : InInt32 red) (hg : InInt32 green) (hb : InInt32 blue)
    (hv2 : vertex2.HasColor red green blue) (hv3 : vertex3.HasColor red green blue) :
    ∀ (fuel : Nat) (cur_y : Int) (s : GouraudEdges) (res : DrawResult),
      Renderer.DrawTriangle.loop r vertex2 vertex3 y2 y3 topmost_y lowest_y fuel cur_y s
        = some res →
      s.LongUniform red green blue → (s.ShortUniform red green blue ∨ cur_y = y2) →
      ∀ p ∈ res.pixels,
        p.color = CreateColor r.m_canvas.m_pixelFormat (red >>> FixedPointPrec)
          (green >>> FixedPointPrec) (blue >>> FixedPointPrec) := by
  intro fuel
  induction fuel with
  | zero =>
    intro cur_y s res h _ _ p hp
    simp only [Renderer.DrawTriangle.loop] at h
    split_ifs at h
    cases h
    exact absurd hp (List.not_mem_nil _)
  | succ fuel ih =>
    intro cur_y s res h hlong hshort p hp
    simp only [Renderer.DrawTriangle.loop] at h
    by_cases hle : cur_y ≤ lowest_y
    · rw [if_pos hle] at h
      by_cases hflat : cur_y = y2 ∧ y3 = y2
      · rw [if_pos hflat] at h
        cases h; exact absurd hp (List.not_mem_nil _)
      · rw [if_neg hflat] at h
        cases hedge : (if cur_y = y2 then s.startEdge vertex2 vertex3 else pure s) with
        | error e =>
          rw [hedge] at h
          cases h; exact absurd hp (List.not_mem_nil _)
        | ok s' =>
          rw [hedge] at h
          simp only [] at h
          have hu : s'.ShortUniform red green blue ∧ s'.LongUniform red green blue := by
            split_ifs at hedge with hy
            · exact startEdge_color hedge hv2 hv3 hlong
            · cases hedge
              rcases hshort with hshort | hshort
              · exact ⟨hshort, hlong⟩
              · exact absurd hshort hy
          cases hspan : (if cur_y ≥ topmost_y then
              r.DrawGouraudSpan s'.x1 s'.x2 s'.red1 s'.green1 s'.blue1 s'.red2 s'.green2 s'.blue2
                cur_y
            else pure []) with
          | error e =>
            rw [hspan] at h
            cases h; exact absurd hp (List.not_mem_nil _)
          | ok span =>
            rw [hspan] at h
            simp only [] at h
            cases hrest : Renderer.DrawTriangle.loop r vertex2 vertex3 y2 y3 topmost_y lowest_y
                fuel (wrap32 (cur_y + 1)) s'.advance with
            | none => rw [hrest] at h; cases h
            | some rest =>
              rw [hrest] at h
              cases h
              rcases List.mem_append.mp hp with hp | hp
              · split_ifs at hspan
                · obtain ⟨⟨a1, _⟩, ⟨a3, _⟩, ⟨a5, _⟩⟩ := hu.1
                  obtain ⟨⟨b1, _⟩, ⟨b3, _⟩, ⟨b5, _⟩⟩ := hu.2
                  rw [a1, a3, a5, b1, b3, b5] at hspan
                  exact DrawGouraudSpan_color r _ _ _ _ _ _ _ hr hg hb hspan p hp
                · cases hspan; exact absurd hp (List.not_mem_nil _)
              · have ha := advance_uniform hr hg hb hu.1 hu.2
                exact ih _ _ rest hrest ha.2 (Or.inl ha.1) p hp
    · rw [if_neg hle] at h
      cases h; exact absurd hp (List.not_mem_nil _)

theorem DrawTriangle_setup_color {vertex1 vertex2 vertex3 : ScreenVertex} {y1 y2 : Int}
    {s : GouraudEdges} {red green blue : Int}
    (h : Renderer.DrawTriangle.setup vertex1 vertex2 vertex3 y1 y2 = Except.ok s)
    (h1 : vertex1.HasColor red green blue) (h2 : vertex2.HasColor red green blue)
    (h3 : vertex3.HasColor red green blue) (hy : y1 ≤ y2) :
    s.LongUniform red green blue ∧ (s.ShortUniform red green blue ∨ y1 = y2) := by
  obtain ⟨v1, v2, v3⟩ := h1
  obtain ⟨w1, w2, w3⟩ := h3
  simp only [Renderer.DrawTriangle.setup, v1, v2, v3, w1, w2, w3] at h
  obtain ⟨a, _, h⟩ := bind_eq_ok h
  obtain ⟨b, _, h⟩ := bind_eq_ok h
  obtain ⟨c, hc, h⟩ := bind_eq_ok h
  obtain ⟨d, hd, h⟩ := bind_eq_ok h
  obtain ⟨e, he, h⟩ := bind_eq_ok h
  cases FixedLargeMul_diff_self hc
  cases FixedLargeMul_diff_self hd
  cases FixedLargeMul_diff_self he
  split_ifs at h
  · have := startEdge_color h ⟨v1, v2, v3⟩ h2 ⟨⟨rfl, rfl⟩, ⟨rfl, rfl⟩, ⟨rfl, rfl⟩⟩
    exact ⟨this.2, Or.inl this.1⟩
  · cases h
    exact ⟨⟨⟨rfl, rfl⟩, ⟨rfl, rfl⟩, ⟨rfl, rfl⟩⟩, Or.inr (by omega)⟩

/-- With the same colour on its three vertices, every store of
`DrawTriangle` has that colour. -/
theorem DrawTriangle_color (r : Renderer) (face : ScreenPolygon) (red green blue : Int)
    (res : DrawResult) (hf : face.InRange)
    (h1 : face.m_v1.HasColor red green blue) (h2 : face.m_v2.HasColor red green blue)
    (h3 : face.m_v3.HasColor red green blue) (h : r.DrawTriangle face = some res) :
    ∀ p ∈ res.pixels,
      p.color = CreateColor r.m_canvas.m_pixelFormat (red >>> FixedPointPrec)
        (green >>> FixedPointPrec) (blue >>> FixedPointPrec) := by
  intro p hp
  have hr : InInt32 red := by rw [← h1.1]; exact hf.1.2.2.2.1
  have hg : InInt32 green := by rw [← h1.2.1]; exact hf.1.2.2.2.2.1
  have hb : InInt32 blue := by rw [← h1.2.2]; exact hf.1.2.2.2.2.2
  obtain ⟨a, b, c, hsel, hab, _, hP⟩ := SelectVertexOrder_spec face
  obtain ⟨ha, hb', hcv⟩ := hP ScreenVertex.InRange hf.1 hf.2.1 hf.2.2
  obtain ⟨ca, cb, cc⟩ := hP (fun v => v.HasColor red green blue) h1 h2 h3
  simp only [Renderer.DrawTriangle, hsel] at h
  split_ifs at h
  · cases h; exact absurd hp (List.not_mem_nil _)
  · cases hset : Renderer.DrawTriangle.setup a b c (CeilFixed a.m_y) (CeilFixed b.m_y) with
    | error e =>
      rw [hset] at h
      cases h; exact absurd hp (List.not_mem_nil _)
    | ok s =>
      rw [hset] at h
      simp only [] at h
      have hs := DrawTriangle_setup_color hset ca cb cc (CeilFixed_mono ha.2.1 hb'.2.1 hab)
      exact DrawTriangle_loop_color r b c _ _ _ _ red green blue hr hg hb cb cc _ _ s res h
        hs.1 hs.2 p hp

/-! ## C11 -/

/-- C11: on a canvas and a polygon whose fields are `int_32` values (with
`m_bottom - 1` representable), each of `DrawTriangle`, `DrawTexturedTriangle`
and `DrawLightedTexturedTriangle` ends within the pass budget of the model,
whatever the texture, the gradients and the content of the uninitialised
locals, and every pixel it writes has `top <= row < bottom` and
`left <= column < right`. -/
theorem C11_pixels_inside_canvas (r : Renderer) (face : ScreenPolygon) (texture : Texture)
    (gradients : PolygonGradients) (uninit : LightedEdges)
    (hc : r.m_canvas.InRange) (hf : face.InRange) :
    (∃ res, r.DrawTriangle face = some res ∧ ∀ p ∈ res.pixels, p.Inside r.m_canvas) ∧
    (∃ res, r.DrawTexturedTriangle face texture gradients = some res ∧
      ∀ p ∈ res.pixels, p.Inside r.m_canvas) ∧
    (∃ res, r.DrawLightedTexturedTriangle face texture gradients uninit = some res ∧
      ∀ p ∈ res.pixels, p.Inside r.m_canvas) :=
  ⟨DrawTriangle_inside r face hc hf, DrawTexturedTriangle_inside r face texture gradients hc hf,
    DrawLightedTexturedTriangle_inside r face texture gradients uninit hc hf⟩

theorem C11_pixels_inside_canvas_witness :
    (∃ res, exampleRenderer.DrawTriangle exampleRedFace = some res ∧
      ∀ p ∈ res.pixels, p.Inside exampleRenderer.m_canvas) ∧
    (∃ res, exampleRenderer.DrawTexturedTriangle exampleRedFace exampleTexture ⟨0, 0, 0, 0⟩
        = some res ∧ ∀ p ∈ res.pixels, p.Inside exampleRenderer.m_canvas) ∧
    (∃ res, exampleRenderer.DrawLightedTexturedTriangle exampleRedFace exampleTexture
        ⟨0, 0, 0, 0⟩ exampleUninit = some res ∧
      ∀ p ∈ res.pixels, p.Inside exampleRenderer.m_canvas) :=
  C11_pixels_inside_canvas exampleRenderer exampleRedFace exampleTexture ⟨0, 0, 0, 0⟩
    exampleUninit (by decide) (by decide)

/-- The three rasterisers do write pixels on the example face: 47, 60 and 60
of them. -/
theorem rasterisers_example_counts :
    (exampleRenderer.DrawTriangle exampleRedFace).map (fun res => res.pixels.length) = some 47 ∧
    (exampleRenderer.DrawTexturedTriangle exampleRedFace exampleTexture ⟨0, 0, 0, 0⟩).map
      (fun res => res.pixels.length) = some 60 ∧
    (exampleRenderer.DrawLightedTexturedTriangle exampleRedFace exampleTexture ⟨0, 0, 0, 0⟩
      exampleUninit).map (fun res => res.pixels.length) = some 60 := by
  decide

/-! ## C12 -/

/-- C12: `DrawTriangle` rejects the two example faces of height 0 and 0.65,
but the textured rasterisers have no such check: on the face whose three
vertices share one Y they divide by zero in `IsLongOnLeft`, whatever the
gradients, and on the face of height 0.65 they write two pixels. -/
theorem C12_textured_rasterisers_no_height_check :
    exampleFlatFace.height = 0 ∧ exampleThinFace.height < FixedPointOne ∧
    exampleRenderer.DrawTriangle exampleFlatFace = some ⟨[], none⟩ ∧
    exampleRenderer.DrawTriangle exampleThinFace = some ⟨[], none⟩ ∧
    (∀ gradients, exampleRenderer.DrawTexturedTriangle exampleFlatFace exampleTexture gradients
      = some ⟨[], some NovaError.divideByZero⟩) ∧
    (∀ gradients, exampleRenderer.DrawLightedTexturedTriangle exampleFlatFace exampleTexture
      gradients exampleUninit = some ⟨[], some NovaError.divideByZero⟩) ∧
    exampleRenderer.DrawTexturedTriangle exampleThinFace exampleTexture ⟨0, 0, 0, 0⟩
      = some ⟨[⟨4, 3, 4095⟩, ⟨4, 4, 4095⟩], none⟩ ∧
    exampleRenderer.DrawLightedTexturedTriangle exampleThinFace exampleTexture ⟨0, 0, 0, 0⟩
      exampleUninit = some ⟨[⟨4, 3, 4095⟩, ⟨4, 4, 4095⟩], none⟩ := by
  refine ⟨by decide, by decide, by decide, by decide, fun _ => rfl, fun _ => rfl, by decide,
    by decide⟩

/-! ## C13 -/

/-- C13: when the three vertices of a polygon carry the same colour
`(red, green, blue)`, `DrawTriangle` ends and every pixel it writes equals
`CreateColor( format, red >> 16, green >> 16, blue >> 16 )`; the sign of the
channels plays no part. -/
theorem C13_uniform_colour (r : Renderer) (face : ScreenPolygon) (red green blue : Int)
    (hc : r.m_canvas.InRange) (hf : face.InRange)
    (h1 : face.m_v1.HasColor red green blue) (h2 : face.m_v2.HasColor red green blue)
    (h3 : face.m_v3.HasColor red green blue) :
    ∃ res, r.DrawTriangle face = some res ∧
      ∀ p ∈ res.pixels,
        p.color = CreateColor r.m_canvas.m_pixelFormat (red >>> FixedPointPrec)
          (green >>> FixedPointPrec) (blue >>> FixedPointPrec) := by
  obtain ⟨res, hres, _⟩ := DrawTriangle_inside r face hc hf
  exact ⟨res, hres, DrawTriangle_color r face red green blue res hf h1 h2 h3 hres⟩

theorem C13_uniform_colour_witness :
    ∃ res, exampleRenderer.DrawTriangle exampleRedFace = some res ∧
      ∀ p ∈ res.pixels,
        p.color = CreateColor exampleRenderer.m_canvas.m_pixelFormat
          ((255 * 65536 : Int) >>> FixedPointPrec) ((0 : Int) >>> FixedPointPrec)
          ((0 : Int) >>> FixedPointPrec) :=
  C13_uniform_colour exampleRenderer exampleRedFace (255 * 65536) 0 0 (by decide) (by decide)
    (by decide) (by decide) (by decide)

/-! ## Bit fields as arithmetic -/

theorem lor_eq_add (a b i : Nat) (h : b < 2 ^ i) : (a <<< i) ||| b = a * 2 ^ i + b := by
  rw [Nat.shiftLeft_eq, Nat.mul_comm a, ← Nat.mul_add_lt_is_or h]

theorem lor3_eq_add (r g b i j : Nat) (hj : j ≤ i) (hg : g < 2 ^ (i - j)) (hb : b < 2 ^ j) :
    ((r <<< i) ||| (g <<< j)) ||| b = r * 2 ^ i + g * 2 ^ j + b := by
  have hi : 2 ^ i = 2 ^ (i - j) * 2 ^ j := by
    rw [← Nat.pow_add, Nat.sub_add_cancel hj]
  have h1 : g <<< j < 2 ^ i := by
    rw [Nat.shiftLeft_eq, hi]
    exact Nat.mul_lt_mul_of_pos_right hg (Nat.pow_pos (by decide))
  rw [lor_eq_add r (g <<< j) i h1, Nat.shiftLeft_eq]
  have h2 : r * 2 ^ i + g * 2 ^ j = (r * 2 ^ (i - j) + g) <<< j := by
    rw [Nat.shiftLeft_eq, hi]; ring
  rw [h2, lor_eq_add _ b j hb, Nat.shiftLeft_eq]

theorem land_field (x n k : Nat) : x &&& ((2 ^ k - 1) <<< n) = (x / 2 ^ n % 2 ^ k) * 2 ^ n := by
  apply Nat.eq_of_testBit_eq
  intro i
  rw [Nat.testBit_and, Nat.testBit_shiftLeft, Nat.testBit_two_pow_sub_one, Nat.mul_comm,
    Nat.testBit_mul_pow_two, Nat.testBit_mod_two_pow, ← Nat.shiftRight_eq_div_pow,
    Nat.testBit_shiftRight]
  by_cases h : i ≥ n
  · have e : n + (i - n) = i := by omega
    simp [h, e, Bool.and_comm]
  · simp [h]

theorem land_15 (x : Nat) : x &&& 0x0f = x % 16 := Nat.and_pow_two_sub_one_eq_mod x 4
theorem land_31 (x : Nat) : x &&& 0x1f = x % 32 := Nat.and_pow_two_sub_one_eq_mod x 5
theorem land_63 (x : Nat) : x &&& 0x3f = x % 64 := Nat.and_pow_two_sub_one_eq_mod x 6
theorem land_255 (x : Nat) : x &&& 0xff = x % 256 := Nat.and_pow_two_sub_one_eq_mod x 8

theorem land_f0000 (x : Nat) : x &&& 0xf0000 = x / 65536 % 16 * 65536 := land_field x 16 4
theorem land_1f0000 (x : Nat) : x &&& 0x1f0000 = x / 65536 % 32 * 65536 := land_field x 16 5
theorem land_3f0000 (x : Nat) : x &&& 0x3f0000 = x / 65536 % 64 * 65536 := land_field x 16 6
theorem land_ff0000 (x : Nat) : x &&& 0xff0000 = x / 65536 % 256 * 65536 := land_field x 16 8

theorem toU32_of_nonneg (x : Int) (h0 : 0 ≤ x) (h1 : x < 4294967296) : toU32 x = x.toNat := by
  unfold toU32; rw [Int.emod_eq_of_lt h0 h1]

/-- `PIXEL_444` as arithmetic on the low four bits of each argument. -/
theorem PIXEL_444_eq (r g b : Int) :
    PIXEL_444 r g b = toU32 r % 16 * 256 + toU32 g % 16 * 16 + toU32 b % 16 := by
  unfold PIXEL_444
  rw [land_15, land_15, land_15,
    lor3_eq_add (toU32 r % 16) (toU32 g % 16) (toU32 b % 16) 8 4 (by decide)
      (Nat.mod_lt _ (by decide)) (Nat.mod_lt _ (by decide))]
  omega

theorem PIXEL_555_eq (r g b : Int) :
    PIXEL_555 r g b = toU32 r % 32 * 1024 + toU32 g % 32 * 32 + toU32 b % 32 := by
  unfold PIXEL_555
  rw [land_31, land_31, land_31,
    lor3_eq_add (toU32 r % 32) (toU32 g % 32) (toU32 b % 32) 10 5 (by decide)
      (Nat.mod_lt _ (by decide)) (Nat.mod_lt _ (by decide))]
  omega

theorem PIXEL_565_eq (r g b : Int) :
    PIXEL_565 r g b = toU32 r % 32 * 2048 + toU32 g % 64 * 32 + toU32 b % 32 := by
  unfold PIXEL_565
  rw [land_31, land_63, land_31,
    lor3_eq_add (toU32 r % 32) (toU32 g % 64) (toU32 b % 32) 11 5 (by decide)
      (Nat.mod_lt _ (by decide)) (Nat.mod_lt _ (by decide))]
  omega

theorem PIXEL_666_eq (r g b : Int) :
    PIXEL_666 r g b = toU32 r % 64 * 4096 + toU32 g % 64 * 64 + toU32 b % 64 := by
  unfold PIXEL_666
  rw [land_63, land_63, land_63,
    lor3_eq_add (toU32 r % 64) (toU32 g % 64) (toU32 b % 64) 12 6 (by decide)
      (Nat.mod_lt _ (by decide)) (Nat.mod_lt _ (by decide))]
  omega

theorem PIXEL_888_eq (r g b : Int) :
    PIXEL_888 r g b = toU32 r % 256 * 65536 + toU32 g % 256 * 256 + toU32 b % 256 := by
  unfold PIXEL_888
  rw [land_255, land_255, land_255,
    lor3_eq_add (toU32 r % 256) (toU32 g % 256) (toU32 b % 256) 16 8 (by decide)
      (Nat.mod_lt _ (by decide)) (Nat.mod_lt _ (by decide))]
  omega

/-- The expression `(color << shift) & mask` of `SplitColorIntoFixedPoint`
for a mask of `k` ones at bit 16: bits `16 - shift ..` of the colour. -/
theorem shiftMask_field (color shift k : Nat) :
    shiftMask color shift ((2 ^ k - 1) <<< 16)
      = ((color * 2 ^ shift % 4294967296 / 65536 % 2 ^ k * 65536 : Nat) : Int) := by
  unfold shiftMask
  rw [land_field, Nat.shiftLeft_eq]
  norm_num

theorem shiftMask_f0000 (color shift : Nat) :
    shiftMask color shift 0xf0000
      = ((color * 2 ^ shift % 4294967296 / 65536 % 16 * 65536 : Nat) : Int) :=
  shiftMask_field color shift 4

theorem shiftMask_1f0000 (color shift : Nat) :
    shiftMask color shift 0x1f0000
      = ((color * 2 ^ shift % 4294967296 / 65536 % 32 * 65536 : Nat) : Int) :=
  shiftMask_field color shift 5

theorem shiftMask_3f0000 (color shift : Nat) :
    shiftMask color shift 0x3f0000
      = ((color * 2 ^ shift % 4294967296 / 65536 % 64 * 65536 : Nat) : Int) :=
  shiftMask_field color shift 6

theorem shiftMask_ff0000 (color shift : Nat) :
    shiftMask color shift 0xff0000
      = ((color * 2 ^ shift % 4294967296 / 65536 % 256 * 65536 : Nat) : Int) :=
  shiftMask_field color shift 8

/-- `SplitColor` in arithmetic form, one line per format: each component is
a bit field of the colour. -/
theorem SplitColor_eq (f : NovaPixelFormat) (c : Nat) :
    SplitColor f c =
      match f with
      | PixelFormat888 => ((c / 65536 % 256 : Nat), (c * 256 % 4294967296 / 65536 % 256 : Nat),
          (c * 65536 % 4294967296 / 65536 % 256 : Nat))
      | PixelFormat444 => ((c * 256 % 4294967296 / 65536 % 16 : Nat),
          (c * 4096 % 4294967296 / 65536 % 16 : Nat), (c * 65536 % 4294967296 / 65536 % 16 : Nat))
      | PixelFormat565 => ((c * 32 % 4294967296 / 65536 % 32 : Nat),
          (c * 2048 % 4294967296 / 65536 % 64 : Nat), (c * 65536 % 4294967296 / 65536 % 32 : Nat))
      | PixelFormat555 => ((c * 64 % 4294967296 / 65536 % 32 : Nat),
          (c * 2048 % 4294967296 / 65536 % 32 : Nat), (c * 65536 % 4294967296 / 65536 % 32 : Nat))
      | PixelFormat666 => ((c * 16 % 4294967296 / 65536 % 64 : Nat),
          (c * 1024 % 4294967296 / 65536 % 64 : Nat), (c * 65536 % 4294967296 / 65536 % 64 : Nat))
      | PixelFormatUndefined => (-1, -1, -1) := by
  have e16 : FixedPointPrec = 16 := rfl
  cases f <;>
    simp only [SplitColor, SplitColorIntoFixedPoint, shiftMask_f0000, shiftMask_1f0000,
      shiftMask_3f0000, shiftMask_ff0000, land_ff0000, e16, Int.shiftRight_eq_div_pow] <;>
    norm_num

theorem toU32_natCast (n : Nat) (h : n < 4294967296) : toU32 (n : Int) = n := by
  unfold toU32; omega

/-! ## C14 -/

/-- C14: for each of the five defined pixel formats, `SplitColor` undoes
`CreateColor` on components between 0 and the maximum `GetColorLimits` gives,
and `CreateColor` undoes `SplitColor` on every colour that fits the bit width
of the format. -/
theorem C14_pack_unpack_inverse (f : NovaPixelFormat) (hf : f.Defined) :
    (∀ r g b : Int,
        0 ≤ r → r ≤ (GetColorLimits f 0 0 0).1 →
        0 ≤ g → g ≤ (GetColorLimits f 0 0 0).2.1 →
        0 ≤ b → b ≤ (GetColorLimits f 0 0 0).2.2 →
        SplitColor f (CreateColor f r g b) = (r, g, b)) ∧
    (∀ c : Nat, c < 2 ^ f.bitWidth →
        CreateColor f (SplitColor f c).1 (SplitColor f c).2.1 (SplitColor f c).2.2 = c) := by
  cases f
  case PixelFormatUndefined => exact absurd rfl hf
  all_goals
    refine ⟨fun r g b hr0 hr1 hg0 hg1 hb0 hb1 => ?_, fun c hc => ?_⟩
    · simp only [GetColorLimits] at hr1 hg1 hb1
      rw [SplitColor_eq]
      simp only [CreateColor, PIXEL_444_eq, PIXEL_555_eq, PIXEL_565_eq, PIXEL_666_eq,
        PIXEL_888_eq]
      rw [toU32_of_nonneg r hr0 (by omega), toU32_of_nonneg g hg0 (by omega),
        toU32_of_nonneg b hb0 (by omega)]
      refine Prod.ext ?_ (Prod.ext ?_ ?_) <;> simp only <;> omega
    · simp only [NovaPixelFormat.bitWidth] at hc
      rw [SplitColor_eq]
      simp only [CreateColor, PIXEL_444_eq, PIXEL_555_eq, PIXEL_565_eq, PIXEL_666_eq,
        PIXEL_888_eq]
      rw [toU32_natCast _ (by omega), toU32_natCast _ (by omega), toU32_natCast _ (by omega)]
      omega

theorem C14_pack_unpack_inverse_witness :
    SplitColor PixelFormat565 (CreateColor PixelFormat565 31 63 31) = (31, 63, 31) ∧
    CreateColor PixelFormat565 (SplitColor PixelFormat565 65535).1
      (SplitColor PixelFormat565 65535).2.1 (SplitColor PixelFormat565 65535).2.2 = 65535 :=
  ⟨(C14_pack_unpack_inverse PixelFormat565 (by decide)).1 31 63 31
      (by decide) (by decide) (by decide) (by decide) (by decide) (by decide),
   (C14_pack_unpack_inverse PixelFormat565 (by decide)).2 65535 (by decide)⟩

/-! ## C15 -/

/-- C15: `ScaleColor` compares the fixed-point product with the plain limit
of `GetColorLimits`, not with the limit shifted left by 16: the 888 red
component 128.0 scaled by `FixedPointOne` has the product 128.0, which is
below 255.0, and comes back as 255 (less than 0.004 in fixed point). -/
theorem C15_ScaleColor_plain_limit :
    FixedLargeMul (128 * 65536) FixedPointOne = Except.ok (128 * 65536) ∧
    (128 * 65536 : Int) ≤ 255 * 65536 ∧
    ScaleColor PixelFormat888 (128 * 65536) 0 0 FixedPointOne 0 0 0 = Except.ok (255, 0, 0) := by
  decide

/-! ## C16 -/

/-- C16: `CreateColor` keeps the low bits of a component: in format 444 the
red input 15 packs to the red field 15 and the larger red input 16 packs to
the red field 0; the 8-bit input 255 and the input 15 pack alike. -/
theorem C16_CreateColor_444_low_bits :
    SplitColor PixelFormat444 (CreateColor PixelFormat444 15 0 0) = (15, 0, 0) ∧
    SplitColor PixelFormat444 (CreateColor PixelFormat444 16 0 0) = (0, 0, 0) ∧
    CreateColor PixelFormat444 128 128 128 = CreateColor PixelFormat444 0 0 0 := by
  decide

/-! ## C17 -/

/-- C17: `CalculateAttenuationFactor` returns 0 for every light and every
distance.  With the coefficients `att0 = 1`, `att1 = att2 = 0` the factor
returned at distance 1.0 is 0 and not `FixedPointOne`; a vertex at the origin
with the normal towards the light at distance 1.0 receives 1.0 from the
unattenuated light and 0 from the attenuated one. -/
theorem C17_CalculateAttenuationFactor_zero :
    (∀ (light : PointLight) (distance : Int), light.CalculateAttenuationFactor distance = 0) ∧
    (exampleConstantLight true).CalculateAttenuationFactor FixedPointOne = 0 ∧
    Shape.ApplyLighting.vertex (exampleConstantLight false) ⟨0, 0, FixedPointOne⟩ ⟨0, 0, 0⟩
        ⟨0, 0, FixedPointOne⟩ 0 = Except.ok (FixedPointOne, FixedPointOne) ∧
    Shape.ApplyLighting.vertex (exampleConstantLight true) ⟨0, 0, FixedPointOne⟩ ⟨0, 0, 0⟩
        ⟨0, 0, FixedPointOne⟩ 0 = Except.ok (0, FixedPointOne) :=
  ⟨fun _ _ => rfl, by decide, by decide, by decide⟩

/-! ## Texture: helper lemmas -/

theorem findSidePower_some (side : Int) (i : Nat) (h : findSidePower side = some i) :
    i < 10 ∧ side = 2 ^ i := by
  unfold findSidePower at h
  have h1 := List.find?_some h
  have h2 := List.mem_of_find?_eq_some h
  simp only [MaxTextureSidePower, List.mem_range] at h2
  simp only [one_mul, beq_iff_eq] at h1
  exact ⟨h2, h1.symm⟩

theorem findSidePower_umask (side : Int) (i : Nat) (h : findSidePower side = some i) :
    toU32 (side - 1) ≠ 0xffffffff := by
  obtain ⟨hi, hs⟩ := findSidePower_some side i h
  have h1 : (1 : Int) ≤ 2 ^ i := one_le_pow₀ (by norm_num)
  have h2 : (2 : Int) ^ i ≤ 2 ^ 10 := pow_le_pow_right₀ (by norm_num) (by omega)
  rw [hs]
  unfold toU32
  norm_num at h2
  omega

/-- The state `Texture::Create` leaves behind when it returns one of its two
configuration errors. -/
theorem Create_error_state (tex : Texture) (pixelFormat : NovaPixelFormat) (width height : Int)
    (palette data : List Nat) (paletteAlloc dataAlloc : Bool) :
    ((tex.Create pixelFormat width height palette data paletteAlloc dataAlloc).1
        = NovaErrTextureTooLarge →
      (tex.Create pixelFormat width height palette data paletteAlloc dataAlloc).2 = tex) ∧
    ((tex.Create pixelFormat width height palette data paletteAlloc dataAlloc).1
        = NovaErrTextureDimensionInvalid →
      (tex.Create pixelFormat width height palette data paletteAlloc dataAlloc).2
        = { tex with m_umask := 0xffffffff, m_vmask := 0xffffffff }) := by
  have c1 : NovaErrNoMemory ≠ NovaErrTextureTooLarge := by decide
  have c2 : NovaErrNoMemory ≠ NovaErrTextureDimensionInvalid := by decide
  have c3 : NovaErrNone ≠ NovaErrTextureTooLarge := by decide
  have c4 : NovaErrNone ≠ NovaErrTextureDimensionInvalid := by decide
  have c5 : NovaErrTextureDimensionInvalid ≠ NovaErrTextureTooLarge := by decide
  have c6 : NovaErrTextureTooLarge ≠ NovaErrTextureDimensionInvalid := by decide
  by_cases hbig : width > MaxTextureSide ∨ height > MaxTextureSide
  · simp only [Texture.Create, if_pos hbig]
    exact ⟨fun _ => trivial, fun h => absurd h c6⟩
  · cases hw : findSidePower width with
    | some i =>
      have hu := findSidePower_umask width i hw
      cases hh : findSidePower height <;>
        simp only [Texture.Create, if_neg hbig, hw, hh, if_neg hu] <;>
        cases paletteAlloc <;> cases dataAlloc <;>
        simp [c1, c2, c3, c4]
    | none =>
      cases hh : findSidePower height <;>
        simp [Texture.Create, hbig, hw, hh, c5]

/-! ## C18 -/

/-- C18: with both allocations succeeding, `Texture::Create` returns
`NovaErrTextureDimensionInvalid` for the power-of-two size 1024 by 1024
(its loops stop at `1 << 9`), and returns `NovaErrNone` for the height 3,
which is not a power of two (only `m_umask` is tested). -/
theorem C18_Create_1024_and_height :
    (Texture.new.Create PixelFormat888 1024 1024 (List.replicate 256 0)
        (List.replicate (1024 * 1024) 0) true true).1 = NovaErrTextureDimensionInvalid ∧
    (Texture.new.Create PixelFormat888 16 3 (List.replicate 256 0)
        (List.replicate (16 * 3) 0) true true).1 = NovaErrNone ∧
    (Texture.new.Create PixelFormat888 512 512 (List.replicate 256 0)
        (List.replicate (512 * 512) 0) true true).1 = NovaErrNone := by
  decide

/-! ## C19 -/

/-- C19 as stated fails: a second `Texture::Create` on a 16 by 16 texture,
with the width 3, returns `NovaErrTextureDimensionInvalid` and has replaced
both masks (15 and 15) by `0xffffffff`. -/
theorem C19_counterexample :
    (exampleTexture.Create PixelFormat444 3 16 (List.replicate 256 0) (List.replicate 48 0)
        true true).1 = NovaErrTextureDimensionInvalid ∧
    exampleTexture.GetUMask = 15 ∧ exampleTexture.GetVMask = 15 ∧
    (exampleTexture.Create PixelFormat444 3 16 (List.replicate 256 0) (List.replicate 48 0)
        true true).2.GetUMask = 0xffffffff ∧
    (exampleTexture.Create PixelFormat444 3 16 (List.replicate 256 0) (List.replicate 48 0)
        true true).2.GetVMask = 0xffffffff := by
  decide

/-- C19, amended: when `Texture::Create` returns `NovaErrTextureTooLarge` the
texture is exactly as before the call; when it returns
`NovaErrTextureDimensionInvalid`, width, height, shift, pixel format, number
of palettes, palette and data are as before and both masks are
`0xffffffff`. -/
theorem C19_Create_error_leaves_state (tex : Texture) (pixelFormat : NovaPixelFormat)
    (width height : Int) (palette data : List Nat) (paletteAlloc dataAlloc : Bool) :
    ((tex.Create pixelFormat width height palette data paletteAlloc dataAlloc).1
        = NovaErrTextureTooLarge →
      (tex.Create pixelFormat width height palette data paletteAlloc dataAlloc).2 = tex) ∧
    ((tex.Create pixelFormat width height palette data paletteAlloc dataAlloc).1
        = NovaErrTextureDimensionInvalid →
      (tex.Create pixelFormat width height palette data paletteAlloc dataAlloc).2
        = { tex with m_umask := 0xffffffff, m_vmask := 0xffffffff }) :=
  Create_error_state tex pixelFormat width height palette data paletteAlloc dataAlloc

theorem C19_Create_error_leaves_state_witness :
    (exampleTexture.Create PixelFormat444 2048 16 [] [] true true).2 = exampleTexture ∧
    (exampleTexture.Create PixelFormat444 3 16 [] [] true true).2
      = { exampleTexture with m_umask := 0xffffffff, m_vmask := 0xffffffff } :=
  ⟨(C19_Create_error_leaves_state exampleTexture PixelFormat444 2048 16 [] [] true true).1
      (by decide),
   (C19_Create_error_leaves_state exampleTexture PixelFormat444 3 16 [] [] true true).2
      (by decide)⟩

/-! ## CreateLinearPalettes: helper lemmas -/

theorem mapM_ok {α β : Type} (f : α → Except NovaError β) (g : α → β) :
    ∀ l : List α, (∀ a ∈ l, f a = Except.ok (g a)) → l.mapM f = Except.ok (l.map g)
  | [], _ => rfl
  | a :: l, h => by
    rw [List.mapM_cons, h a (List.mem_cons_self a l),
      mapM_ok f g l (fun b hb => h b (List.mem_cons_of_mem a hb))]
    rfl

theorem ScaleColor_zero (f : NovaPixelFormat) (red green blue : Int) :
    ScaleColor f red green blue 0 0 0 0 = Except.ok (0, 0, 0) := by
  simp only [ScaleColor, FixedLargeMul_zero_right, ok_bind]
  cases f <;> rfl

theorem scalePaletteEntry_zero (f : NovaPixelFormat) (oldColor : Nat) :
    scalePaletteEntry f oldColor 0 = Except.ok 0 := by
  simp only [scalePaletteEntry, ScaleColor_zero, ok_bind]
  cases f <;> rfl

theorem linearPalettesLoop_one (f : NovaPixelFormat) (m_palette : List Nat) (slope : Int) :
    linearPalettesLoop f m_palette slope 1 0
      = Except.ok (List.replicate NumPaletteEntries 0) := by
  have h := mapM_ok (fun j => scalePaletteEntry f (m_palette.getD j 0) 0) (fun _ => 0)
    (List.range NumPaletteEntries) (fun a _ => scalePaletteEntry_zero f _)
  simp only [linearPalettesLoop, h, ok_bind, pure_eq_ok, List.append_nil]
  rw [List.map_const', List.length_range]

/-! ## C20 -/

/-- C20: on a texture with a defined pixel format and the single palette
`Texture::Create` gives it, `Texture::CreateLinearPalettes` succeeds whatever
the gain, `GetNumPalettes()` is still 1 afterwards and so differs from the
number of illumination levels of the format, and the palette array is one
all-zero palette followed by the untouched rest of the new block. -/
theorem C20_CreateLinearPalettes_single_palette (tex : Texture) (gain : ℚ) (block : List Nat)
    (hf : tex.m_pixelFormat.Defined) (hn : tex.GetNumPalettes = 1) :
    ∃ tex', tex.CreateLinearPalettes gain (some block) = Except.ok (NovaErrNone, tex') ∧
      tex'.GetNumPalettes = 1 ∧ tex'.GetNumPalettes ≠ tex.m_pixelFormat.levels ∧
      tex'.GetPalette = some (List.replicate NumPaletteEntries 0 ++
        (block.take (NumPaletteEntries * tex.m_pixelFormat.levels.toNat)).drop
          NumPaletteEntries) := by
  simp only [Texture.GetNumPalettes] at hn
  have h1 : tex.m_numPalettes.toNat = 1 := by rw [hn]; rfl
  cases hfmt : tex.m_pixelFormat
  case PixelFormatUndefined => exact absurd hfmt hf
  all_goals
    simp only [Texture.CreateLinearPalettes, hfmt, h1, linearPalettesLoop_one, ok_bind,
      pure_eq_ok, List.length_replicate, NovaPixelFormat.levels, Texture.GetNumPalettes,
      Texture.GetPalette]
    refine ⟨_, rfl, hn, ?_, rfl⟩
    rw [hn]
    decide

theorem C20_CreateLinearPalettes_single_palette_witness :
    ∃ tex', exampleTexture.CreateLinearPalettes 1 (some (List.replicate 4096 7))
        = Except.ok (NovaErrNone, tex') ∧
      tex'.GetNumPalettes = 1 ∧ tex'.GetNumPalettes ≠ exampleTexture.m_pixelFormat.levels ∧
      tex'.GetPalette = some (List.replicate NumPaletteEntries 0 ++
        ((List.replicate 4096 7).take
          (NumPaletteEntries * exampleTexture.m_pixelFormat.levels.toNat)).drop
          NumPaletteEntries) :=
  C20_CreateLinearPalettes_single_palette exampleTexture 1 (List.replicate 4096 7)
    (by decide) (by decide)

/-! ## C21 -/

theorem SetFov_rejected (cam : Camera) (m_fov fov : Real64) (factor : Int)
    (h : (fov.lt (Real64.finite 1) || (Real64.finite 179).lt fov) = true) :
    cam.SetFov m_fov fov factor = (some NovaErrOutOfBounds, m_fov, cam) := by
  unfold Camera.SetFov
  rw [if_pos h]

theorem SetFov_accepted (cam : Camera) (m_fov fov : Real64) (factor : Int)
    (h : ¬ (fov.lt (Real64.finite 1) || (Real64.finite 179).lt fov) = true) :
    cam.SetFov m_fov fov factor =
      (if factor > 0 then some NovaErrNone else none, fov,
        { cam with m_perspectiveFactor := factor }) := by
  unfold Camera.SetFov Camera.RenderingCanvasUpdated
  rw [if_neg h]
  by_cases hf : factor > 0
  · simp [hf]
  · simp [hf]

/-- C21: `Camera::SetFov( fov )` returns `NovaErrOutOfBounds` exactly when
`fov < 1.0` or `fov > 179.0` holds, and then the stored field of view and the
camera, with its perspective factor, are as before the call; otherwise the
call stores `fov` and returns `NovaErrNone` or throws. -/
theorem C21_SetFov_out_of_bounds (cam : Camera) (m_fov fov : Real64) (factor : Int) :
    ((cam.SetFov m_fov fov factor).1 = some NovaErrOutOfBounds ↔
      (fov.lt (Real64.finite 1) = true ∨ (Real64.finite 179).lt fov = true)) ∧
    ((fov.lt (Real64.finite 1) = true ∨ (Real64.finite 179).lt fov = true) →
      (cam.SetFov m_fov fov factor).2 = (m_fov, cam)) ∧
    (¬ (fov.lt (Real64.finite 1) = true ∨ (Real64.finite 179).lt fov = true) →
      (cam.SetFov m_fov fov factor).2.1 = fov ∧
      ((cam.SetFov m_fov fov factor).1 = some NovaErrNone ∨
        (cam.SetFov m_fov fov factor).1 = none)) := by
  by_cases h : (fov.lt (Real64.finite 1) || (Real64.finite 179).lt fov) = true
  · have h' : fov.lt (Real64.finite 1) = true ∨ (Real64.finite 179).lt fov = true := by
      simpa using h
    rw [SetFov_rejected cam m_fov fov factor h]
    exact ⟨⟨fun _ => h', fun _ => rfl⟩, fun _ => rfl, fun hn => absurd h' hn⟩
  · have h' : ¬ (fov.lt (Real64.finite 1) = true ∨ (Real64.finite 179).lt fov = true) := by
      simpa using h
    rw [SetFov_accepted cam m_fov fov factor h]
    refine ⟨⟨fun hc => ?_, fun hc => absurd hc h'⟩, fun hc => absurd hc h', fun _ => ?_⟩
    · exfalso
      by_cases hf : factor > 0
      · rw [if_pos hf] at hc
        exact absurd (Option.some.inj hc) (by decide)
      · rw [if_neg hf] at hc
        cases hc
    · by_cases hf : factor > 0
      · exact ⟨rfl, Or.inl (by rw [if_pos hf])⟩
      · exact ⟨rfl, Or.inr (by rw [if_neg hf])⟩

/-- Witness for C21: on the example camera with the stored field of view
90.0, `SetFov( 0.5 )` and `SetFov( 180.0 )` return `NovaErrOutOfBounds` and
change nothing, and `SetFov( 60.0 )` does not return that code. -/
theorem C21_SetFov_out_of_bounds_witness :
    (exampleCamera.SetFov (Real64.finite 90) (Real64.finite (1 / 2)) 0).1 =
        some NovaErrOutOfBounds ∧
    (exampleCamera.SetFov (Real64.finite 90) (Real64.finite 180) 0).2 =
        (Real64.finite 90, exampleCamera) ∧
    (exampleCamera.SetFov (Real64.finite 90) (Real64.finite 60) 277).2.1 = Real64.finite 60 :=
  ⟨(C21_SetFov_out_of_bounds exampleCamera (Real64.finite 90) (Real64.finite (1 / 2)) 0).1.2
      (Or.inl (by norm_num [Real64.lt])),
   (C21_SetFov_out_of_bounds exampleCamera (Real64.finite 90) (Real64.finite 180) 0).2.1
      (Or.inr (by norm_num [Real64.lt])),
   ((C21_SetFov_out_of_bounds exampleCamera (Real64.finite 90) (Real64.finite 60) 277).2.2
      (by norm_num [Real64.lt])).1⟩

/-! ## C23 -/

theorem tdiv_remainder_lt (n b : Int) (hb : b ≠ 0) : |n - b * n.tdiv b| < |b| := by
  have key : ∀ n b : Int, 0 ≤ n → 0 < b → |n - b * n.tdiv b| < |b| := by
    intro n b hn hb
    rw [Int.tdiv_eq_ediv hn (le_of_lt hb), abs_of_pos hb]
    have h1 := Int.emod_nonneg n (ne_of_gt hb)
    have h2 := Int.emod_lt_of_pos n hb
    have h3 := Int.emod_add_ediv n b
    rw [abs_lt]
    constructor <;> omega
  rcases lt_or_gt_of_ne hb with hb' | hb'
  · rcases le_or_lt 0 n with hn | hn
    · have h := key n (-b) hn (by omega)
      rw [Int.tdiv_neg, abs_neg] at h
      have e : n - -b * -n.tdiv b = n - b * n.tdiv b := by ring
      rw [e] at h
      exact h
    · have h := key (-n) (-b) (by omega) (by omega)
      rw [Int.neg_tdiv_neg, abs_neg] at h
      have e : -n - -b * n.tdiv b = -(n - b * n.tdiv b) := by ring
      rw [e, abs_neg] at h
      exact h
  · rcases le_or_lt 0 n with hn | hn
    · exact key n b hn hb'
    · have h := key (-n) b (by omega) hb'
      rw [Int.neg_tdiv] at h
      have e : -n - b * -n.tdiv b = -(n - b * n.tdiv b) := by ring
      rw [e, abs_neg] at h
      exact h

/-- C23: for `b` not zero, when `FixedLargeMul( a, b )` returns `m` without
overflow and the quotient of `FixedLargeDiv( m, b )` fits `int_32`, the
result `d` of the division differs from `a` by less than `65536 / |b| + 1`,
and by at most 1 when `|b|` is at least `FixedPointOne`. -/
theorem C23_mul_div_roundtrip (a b m d : Int) (hb0 : b ≠ 0)
    (hm : FixedLargeMul a b = Except.ok m) (hq : InInt32 (Int.tdiv (m * 65536) b))
    (hd : FixedLargeDiv m b = Except.ok d) :
    ((|d - a| : Int) : ℚ) < 65536 / |(b : ℚ)| + 1 ∧ (FixedPointOne ≤ |b| → |d - a| ≤ 1) := by
  have hm' : m = a * b / 65536 := by
    unfold FixedLargeMul at hm
    simp only [shiftRight16] at hm
    split_ifs at hm
    exact (Except.ok.inj hm).symm
  have hd' : d = Int.tdiv (m * 65536) b := by
    unfold FixedLargeDiv at hd
    rw [if_neg hb0, wrap32_of_inInt32 hq] at hd
    exact (Except.ok.inj hd).symm
  have ht := tdiv_remainder_lt (m * 65536) b hb0
  rw [← hd'] at ht
  have hr1 := Int.emod_nonneg (a * b) (show (65536 : Int) ≠ 0 by norm_num)
  have hr2 := Int.emod_lt_of_pos (a * b) (show (0 : Int) < 65536 by norm_num)
  have hr3 := Int.emod_add_ediv (a * b) 65536
  rw [← hm'] at hr3
  have hbpos : 0 < |b| := abs_pos.mpr hb0
  have hkey : |d - a| * |b| < 65536 + |b| := by
    rw [← abs_mul]
    have e : (d - a) * b = -((a * b) % 65536) - (m * 65536 - b * d) := by linarith
    rw [e]
    have ht' := abs_lt.mp ht
    rw [abs_lt]
    constructor <;> omega
  constructor
  · have hbq : (0 : ℚ) < |(b : ℚ)| := abs_pos.mpr (by exact_mod_cast hb0)
    have hc : ((|d - a| : Int) : ℚ) * |(b : ℚ)| < 65536 + |(b : ℚ)| := by
      have := hkey
      rw [← Int.cast_abs (R := ℚ)]
      exact_mod_cast this
    rw [div_add_one (ne_of_gt hbq), lt_div_iff₀ hbq]
    exact hc
  · intro hone
    unfold FixedPointOne at hone
    by_contra hgt
    have h2 : 2 ≤ |d - a| := by omega
    have : 2 * |b| ≤ |d - a| * |b| := Int.mul_le_mul_of_nonneg_right h2 (le_of_lt hbpos)
    omega

/-- Witness for C23: `a = 1.5` and `b = 3` raw units (below `FixedPointOne`),
and `a = 1.5`, `b = -2.25`. -/
theorem C23_mul_div_roundtrip_witness :
    (((|87381 - 98304| : Int) : ℚ) < 65536 / |((3 : Int) : ℚ)| + 1 ∧
      (FixedPointOne ≤ |(3 : Int)| → |(87381 : Int) - 98304| ≤ 1)) ∧
    (((|98304 - 98304| : Int) : ℚ) < 65536 / |((-147456 : Int) : ℚ)| + 1 ∧
      (FixedPointOne ≤ |(-147456 : Int)| → |(98304 : Int) - 98304| ≤ 1)) :=
  ⟨C23_mul_div_roundtrip 98304 3 4 87381 (by decide) (by decide) (by decide) (by decide),
   C23_mul_div_roundtrip 98304 (-147456) (-221184) 98304 (by decide) (by decide) (by decide)
     (by decide)⟩

/-! ## C22 -/

theorem emitFace_appends {cam cam' : Camera} {polyFlags : Nat} {texture : Option Nat}
    {p1 p2 p3 : ClipVertex} (h : emitFace cam polyFlags texture p1 p2 p3 = Except.ok cam') :
    ∃ face, cam'.m_visibleFaceBuffer = cam.m_visibleFaceBuffer ++ [face] := by
  unfold emitFace at h
  obtain ⟨face, _, h⟩ := bind_eq_ok h
  rw [pure_eq_ok] at h
  cases h
  exact ⟨face, rfl⟩

theorem processVisiblePolygon_appends {cam cam' : Camera} {p : PolygonInput}
    (h : processVisiblePolygon cam p = Except.ok cam') :
    ∃ new, cam'.m_visibleFaceBuffer = cam.m_visibleFaceBuffer ++ new ∧ new.length ≤ 2 := by
  unfold processVisiblePolygon at h
  split_ifs at h with hclip
  · obtain ⟨buf, _, h⟩ := bind_eq_ok h
    split_ifs at h with h3 h4
    · obtain ⟨cam1, h1, h⟩ := bind_eq_ok h
      obtain ⟨f1, e1⟩ := emitFace_appends h1
      obtain ⟨f2, e2⟩ := emitFace_appends h
      exact ⟨[f1, f2], by rw [e2, e1]; simp, by simp⟩
    · obtain ⟨cam1, h1, h⟩ := bind_eq_ok h
      obtain ⟨f1, e1⟩ := emitFace_appends h1
      rw [pure_eq_ok] at h
      cases h
      exact ⟨[f1], e1, by simp⟩
    · rw [pure_eq_ok] at h
      cases h
      exact ⟨[], by simp, by simp⟩
  · obtain ⟨f1, e1⟩ := emitFace_appends h
    exact ⟨[f1], e1, by simp⟩

theorem ProcessPolygonList_appends (polys : List PolygonInput) :
    ∀ {cam cam' : Camera}, ProcessPolygonList cam polys = Except.ok cam' →
      ∃ new, cam'.m_visibleFaceBuffer = cam.m_visibleFaceBuffer ++ new ∧
        new.length ≤ 2 * polys.length := by
  induction polys with
  | nil =>
    intro cam cam' h
    rw [ProcessPolygonList, pure_eq_ok] at h
    cases h
    exact ⟨[], by simp, by simp⟩
  | cons p rest ih =>
    intro cam cam' h
    rw [ProcessPolygonList] at h
    split_ifs at h
    · obtain ⟨new, e, hl⟩ := ih h
      exact ⟨new, e, by simp only [List.length_cons]; omega⟩
    · obtain ⟨cam1, h1, h⟩ := bind_eq_ok h
      obtain ⟨n1, e1, hl1⟩ := processVisiblePolygon_appends h1
      obtain ⟨n2, e2, hl2⟩ := ih h
      refine ⟨n1 ++ n2, by rw [e2, e1, List.append_assoc], ?_⟩
      simp only [List.length_append, List.length_cons]
      omega

theorem ProcessPolygonList_append (pre post : List PolygonInput) :
    ∀ cam : Camera, ProcessPolygonList cam (pre ++ post) =
      (ProcessPolygonList cam pre).bind (fun c => ProcessPolygonList c post) := by
  induction pre with
  | nil =>
    intro cam
    rw [List.nil_append, ProcessPolygonList, pure_eq_ok]
    rfl
  | cons p rest ih =>
    intro cam
    rw [List.cons_append, ProcessPolygonList, ProcessPolygonList]
    split_ifs
    · exact ih cam
    · cases h : processVisiblePolygon cam p with
      | error e => rfl
      | ok cam1 =>
        simp only [ok_bind]
        exact ih cam1

theorem Render_shapes_flatten (shapes : List (List PolygonInput)) :
    ∀ cam : Camera, Camera.Render.shapes cam shapes = ProcessPolygonList cam shapes.flatten := by
  induction shapes with
  | nil =>
    intro cam
    rw [Camera.Render.shapes, List.flatten_nil, ProcessPolygonList]
  | cons shape rest ih =>
    intro cam
    rw [Camera.Render.shapes, List.flatten_cons, ProcessPolygonList_append]
    cases h : ProcessPolygonList cam shape with
    | error e => rfl
    | ok cam1 =>
      simp only [ok_bind]
      rw [ih cam1]
      rfl

theorem SetShapeNodeList_total (shapes : List (List PolygonInput)) :
    ∀ t : Int, 0 ≤ t → t + (shapes.flatten.length : Int) ≤ 2147483647 →
      Camera.SetShapeNodeList.total shapes t = t + (shapes.flatten.length : Int) := by
  induction shapes with
  | nil =>
    intro t _ _
    simp [Camera.SetShapeNodeList.total]
  | cons shape rest ih =>
    intro t ht hfit
    simp only [List.flatten_cons, List.length_append, Nat.cast_add] at hfit ⊢
    rw [Camera.SetShapeNodeList.total,
      wrap32_of_inInt32 (by unfold InInt32; omega), ih _ (by omega) (by omega)]
    omega

theorem CheckVisibleFaceBuffer_entries (s : FaceBuffers) (numPolygons : Int)
    (bufferAlloc listAlloc : Bool) (entries : Int) (hs : s.Consistent)
    (h : (Camera.CheckVisibleFaceBuffer s numPolygons bufferAlloc listAlloc).2.m_visibleFaceBuffer =
      some entries) :
    entries = wrap32 (numPolygons * 2) := by
  unfold Camera.CheckVisibleFaceBuffer at h
  by_cases h1 : s.m_maxVisibleFaces = wrap32 (numPolygons * 2)
  · simp only [ne_eq, h1, not_true_eq_false, if_false] at h
    rw [← h1]
    exact hs entries h
  · simp only [ne_eq, h1, not_false_eq_true, if_true] at h
    cases bufferAlloc <;> cases listAlloc <;> simp at h
    exact h.symm

/-- C22: when the visible face buffer exists after `SetShapeNodeList` bound
a shape list whose doubled polygon total fits `int`, it has twice that total
as its number of entries.  In a frame over the same list, before each polygon
is processed the count `m_numVisibleFaces` leaves room for two more entries,
one polygon appends at most two faces, and at the end of the shape loop the
count is at most the number of entries. -/
theorem C22_visible_faces_within_buffer (cam : Camera) (s : FaceBuffers)
    (shapeNodeList : List (List PolygonInput)) (bufferAlloc listAlloc : Bool) (entries : Int)
    (hs : s.Consistent)
    (hfit : 2 * (shapeNodeList.flatten.length : Int) ≤ 2147483647)
    (hbuf : (Camera.SetShapeNodeList s shapeNodeList bufferAlloc listAlloc).m_visibleFaceBuffer =
      some entries) :
    entries = 2 * (shapeNodeList.flatten.length : Int) ∧
    (∀ (pre : List PolygonInput) (p : PolygonInput) (post : List PolygonInput),
      shapeNodeList.flatten = pre ++ p :: post →
      Camera.Render.faces cam shapeNodeList =
        (ProcessPolygonList { cam with m_visibleFaceBuffer := [] } pre).bind
          (fun c => ProcessPolygonList c (p :: post)) ∧
      ∀ cam1, ProcessPolygonList { cam with m_visibleFaceBuffer := [] } pre = Except.ok cam1 →
        (cam1.m_numVisibleFaces : Int) + 2 ≤ entries ∧
        ∀ cam2, processVisiblePolygon cam1 p = Except.ok cam2 →
          cam2.m_numVisibleFaces ≤ cam1.m_numVisibleFaces + 2 ∧
          (cam2.m_numVisibleFaces : Int) ≤ entries) ∧
    (∀ cam', Camera.Render.faces cam shapeNodeList = Except.ok cam' →
      (cam'.m_numVisibleFaces : Int) ≤ entries) := by
  have htotal := SetShapeNodeList_total shapeNodeList 0 (le_refl 0) (by omega)
  have hentries : entries = 2 * (shapeNodeList.flatten.length : Int) := by
    unfold Camera.SetShapeNodeList at hbuf
    have := CheckVisibleFaceBuffer_entries s _ bufferAlloc listAlloc entries hs hbuf
    rw [htotal, zero_add, wrap32_of_inInt32 (by unfold InInt32; omega)] at this
    omega
  refine ⟨hentries, ?_, ?_⟩
  · intro pre p post hsplit
    refine ⟨?_, ?_⟩
    · unfold Camera.Render.faces
      rw [Render_shapes_flatten, hsplit, ProcessPolygonList_append]
    · intro cam1 h1
      obtain ⟨new, e, hl⟩ := ProcessPolygonList_appends pre h1
      have hlen : shapeNodeList.flatten.length = pre.length + (post.length + 1) := by
        rw [hsplit, List.length_append, List.length_cons]
      have hc1 : cam1.m_numVisibleFaces ≤ 2 * pre.length := by
        unfold Camera.m_numVisibleFaces
        rw [e]
        simpa using hl
      refine ⟨by omega, ?_⟩
      intro cam2 h2
      obtain ⟨new2, e2, hl2⟩ := processVisiblePolygon_appends h2
      have hc2 : cam2.m_numVisibleFaces = cam1.m_numVisibleFaces + new2.length := by
        unfold Camera.m_numVisibleFaces
        rw [e2, List.length_append]
      omega
  · intro cam' h
    unfold Camera.Render.faces at h
    rw [Render_shapes_flatten] at h
    obtain ⟨new, e, hl⟩ := ProcessPolygonList_appends _ h
    have hc : cam'.m_numVisibleFaces ≤ 2 * shapeNodeList.flatten.length := by
      unfold Camera.m_numVisibleFaces
      rw [e]
      simpa using hl
    omega

/-- Witness for C22: a frame over one shape of three polygons (one in front
of the near plane, one clipped into two faces, one not visible) after
`SetShapeNodeList` on a freshly constructed camera. -/
theorem C22_visible_faces_within_buffer_witness :
    (6 : Int) = 2 * ([exampleFrameShape].flatten.length : Int) ∧
    (∀ (pre : List PolygonInput) (p : PolygonInput) (post : List PolygonInput),
      [exampleFrameShape].flatten = pre ++ p :: post →
      Camera.Render.faces exampleCamera [exampleFrameShape] =
        (ProcessPolygonList { exampleCamera with m_visibleFaceBuffer := [] } pre).bind
          (fun c => ProcessPolygonList c (p :: post)) ∧
      ∀ cam1,
        ProcessPolygonList { exampleCamera with m_visibleFaceBuffer := [] } pre =
          Except.ok cam1 →
        (cam1.m_numVisibleFaces : Int) + 2 ≤ 6 ∧
        ∀ cam2, processVisiblePolygon cam1 p = Except.ok cam2 →
          cam2.m_numVisibleFaces ≤ cam1.m_numVisibleFaces + 2 ∧
          (cam2.m_numVisibleFaces : Int) ≤ 6) ∧
    (∀ cam', Camera.Render.faces exampleCamera [exampleFrameShape] = Except.ok cam' →
      (cam'.m_numVisibleFaces : Int) ≤ 6) :=
  C22_visible_faces_within_buffer exampleCamera FaceBuffers.new [exampleFrameShape] true true 6
    (by intro entries h; cases h) (by decide) (by decide)

/-- The example frame: the three polygons give three faces. -/
theorem frame_example_count :
    (Camera.Render.faces exampleCamera [exampleFrameShape]).toOption.map
      Camera.m_numVisibleFaces = some 3 := by
  decide

/-! ## C24 -/

/-- C24: for every perspective factor, a vertex with `x = 0` and `y = 0` at
an `int_32` depth `z` at or beyond a positive near-clip depth is projected
by `PerspectiveProject` to exactly `(centerX * 2^16, centerY * 2^16)`, the
canvas centre in fixed point (representable as `int_32`), and its `z` is
stored unchanged. -/
theorem C24_project_axis_to_centre (cam : Camera) (p : ClipVertex)
    (hx : p.x = 0) (hy : p.y = 0) (hnear : 0 < cam.m_nearClippingDepth)
    (hz : cam.m_nearClippingDepth ≤ p.z) (hz32 : InInt32 p.z)
    (hcx : InInt32 (cam.m_centerX * 2 ^ 16)) (hcy : InInt32 (cam.m_centerY * 2 ^ 16)) :
    projectVertex cam p.x p.y p.z =
      Except.ok (cam.m_centerX * 2 ^ 16, cam.m_centerY * 2 ^ 16) ∧
    screenVertex cam p =
      Except.ok { m_x := cam.m_centerX * 2 ^ 16, m_y := cam.m_centerY * 2 ^ 16, m_z := p.z,
                  m_redU := p.valueA, m_greenV := p.valueB, m_blueIntensity := p.valueC } := by
  have hzu : wrapU32 p.z ≠ 0 := by
    unfold wrapU32
    unfold InInt32 at hz32
    omega
  have hproj : projectVertex cam p.x p.y p.z =
      Except.ok (cam.m_centerX * 2 ^ 16, cam.m_centerY * 2 ^ 16) := by
    unfold projectVertex
    rw [if_neg hzu, hx, hy]
    have h0 : wrap32 (0 * cam.m_perspectiveFactor) = 0 := by
      rw [zero_mul]
      exact wrap32_of_inInt32 (by decide)
    have hcx' : wrap32 (cam.m_centerX * 65536) = cam.m_centerX * 2 ^ 16 := by
      rw [show cam.m_centerX * 65536 = cam.m_centerX * 2 ^ 16 by norm_num]
      exact wrap32_of_inInt32 hcx
    have hcy' : wrap32 (cam.m_centerY * 65536) = cam.m_centerY * 2 ^ 16 := by
      rw [show cam.m_centerY * 65536 = cam.m_centerY * 2 ^ 16 by norm_num]
      exact wrap32_of_inInt32 hcy
    have hneg : wrap32 (-0) = 0 := by decide
    simp only [h0, FixedLargeMul_zero_left, ok_bind, pure_eq_ok, hcx', hcy', hneg, zero_add,
      wrap32_of_inInt32 hcx, wrap32_of_inInt32 hcy]
  refine ⟨hproj, ?_⟩
  unfold screenVertex
  rw [hproj, ok_bind, pure_eq_ok]

/-- Witness for C24: the example camera (centre (160, 100), near-clip depth
1.0) and the vertex (0, 0, 2.0). -/
theorem C24_project_axis_to_centre_witness :
    projectVertex exampleCamera 0 0 131072 = Except.ok (160 * 2 ^ 16, 100 * 2 ^ 16) ∧
    screenVertex exampleCamera
        { x := 0, y := 0, z := 131072, valueA := 1, valueB := 2, valueC := 3 } =
      Except.ok { m_x := 160 * 2 ^ 16, m_y := 100 * 2 ^ 16, m_z := 131072,
                  m_redU := 1, m_greenV := 2, m_blueIntensity := 3 } :=
  C24_project_axis_to_centre exampleCamera
    { x := 0, y := 0, z := 131072, valueA := 1, valueB := 2, valueC := 3 }
    rfl rfl (by decide) (by decide) (by decide) (by decide) (by decide)

/-! ## C25 -/

/-- C25 as stated fails: `CeilFixed( 1.0 )` is 2 and `CeilFixed( 0 )` is 1,
while the smallest integers `n` with `n * 65536 >= x` are 1 and 0; the value
1.0 with its zero fractional part does not map to its integer part 1. -/
theorem C25_counterexample :
    CeilFixed 65536 = 2 ∧ (1 : Int) * 65536 ≥ 65536 ∧ FloorFixed 65536 = 1 ∧
    CeilFixed 0 = 1 ∧ (0 : Int) * 65536 ≥ 0 := by
  decide

/-- C25 (amended): for every non-negative `int_32` fixed-point `x`,
`CeilFixed( x )` is `FloorFixed( x ) + 1`, the smallest integer `n` with
`n * 65536 > x`; it is the ceiling of `x / 65536` when the fractional part of
`x` is not zero, and a value with a zero fractional part maps to its integer
part plus one. -/
theorem C25_CeilFixed_floor_plus_one (x : Int) (h0 : 0 ≤ x) (h1 : x ≤ 2147483647) :
    CeilFixed x = FloorFixed x + 1 ∧
    x < CeilFixed x * 65536 ∧ (∀ n : Int, x < n * 65536 → CeilFixed x ≤ n) ∧
    (x % 65536 ≠ 0 → CeilFixed x = ⌈(x : ℚ) / 65536⌉) ∧
    (x % 65536 = 0 → CeilFixed x = x / 65536 + 1) := by
  have hc : CeilFixed x = x / 65536 + 1 := CeilFixed_eq x ⟨by omega, h1⟩
  have hf : FloorFixed x = x / 65536 := by
    unfold FloorFixed
    exact shiftRight16 x
  refine ⟨by rw [hc, hf], by rw [hc]; omega, fun n hn => by rw [hc]; omega, fun hr => ?_,
    fun _ => hc⟩
  rw [hc]
  symm
  rw [Int.ceil_eq_iff]
  have hq : (x : ℚ) = 65536 * ((x / 65536 : Int) : ℚ) + ((x % 65536 : Int) : ℚ) := by
    have := Int.emod_add_ediv x 65536
    have h2 : ((x % 65536 + 65536 * (x / 65536) : Int) : ℚ) = (x : ℚ) := by rw [this]
    push_cast at h2
    linarith
  have hr0 : (0 : ℚ) < ((x % 65536 : Int) : ℚ) := by
    have := Int.emod_nonneg x (show (65536 : Int) ≠ 0 by norm_num)
    have : 0 < x % 65536 := by omega
    exact_mod_cast this
  have hr1 : ((x % 65536 : Int) : ℚ) ≤ 65536 := by
    have := Int.emod_lt_of_pos x (show (0 : Int) < 65536 by norm_num)
    have : x % 65536 ≤ 65536 := by omega
    exact_mod_cast this
  constructor
  · rw [lt_div_iff₀ (by norm_num)]
    push_cast
    linarith
  · rw [div_le_iff₀ (by norm_num)]
    push_cast
    linarith

/-- Witness for C25 at 1.5 and at 1.0. -/
theorem C25_CeilFixed_floor_plus_one_witness :
    (CeilFixed 98304 = FloorFixed 98304 + 1 ∧
      (98304 : Int) < CeilFixed 98304 * 65536 ∧
      (∀ n : Int, 98304 < n * 65536 → CeilFixed 98304 ≤ n) ∧
      ((98304 : Int) % 65536 ≠ 0 → CeilFixed 98304 = ⌈((98304 : Int) : ℚ) / 65536⌉) ∧
      ((98304 : Int) % 65536 = 0 → CeilFixed 98304 = 98304 / 65536 + 1)) ∧
    (65536 : Int) % 65536 = 0 ∧ CeilFixed 65536 = 65536 / 65536 + 1 :=
  ⟨C25_CeilFixed_floor_plus_one 98304 (by decide) (by decide), by decide,
    (C25_CeilFixed_floor_plus_one 65536 (by decide) (by decide)).2.2.2.2 (by decide)⟩

/-! ## C26 -/

theorem CalculateBoundingSphereRadius_loop (v : Vector) (len : Int)
    (hlen : v.LengthFixed = Except.ok len) (n : Nat) (maxlen : Int) :
    Shape.CalculateBoundingSphereRadius.loop v (n + 1) maxlen =
      Except.ok (if maxlen > len then maxlen else len) := by
  induction n generalizing maxlen with
  | zero =>
    simp only [Shape.CalculateBoundingSphereRadius.loop, hlen, ok_bind, pure_eq_ok]
  | succ k ih =>
    rw [Shape.CalculateBoundingSphereRadius.loop, hlen, ok_bind, ih]
    congr 1
    split_ifs <;> omega

/-- C26: `CalculateBoundingSphereRadius` reads the first coordinate in every
pass of its loop.  For the coordinates (0,0,0), (1,0,0), (0,1,0) it stores
the radius 0, while the second and the third coordinate have the length
1.0. -/
theorem C26_radius_from_first_coordinate :
    exampleTriangleShape.CalculateBoundingSphereRadius = Except.ok 0 ∧
    (exampleTriangleShape.m_coordinates.getD 1 default).LengthFixed = Except.ok 65536 ∧
    (exampleTriangleShape.m_coordinates.getD 2 default).LengthFixed = Except.ok 65536 :=
  ⟨CalculateBoundingSphereRadius_loop ⟨0, 0, 0⟩ 0 (by decide) 2 0, by decide, by decide⟩

/-! ## C27 -/

/-- C27: `NovaErrTextureDimensionInvalid` and `NovaErrInvalidPixelFormat`
are both -13, so the sixteen codes of `NovaErrors.h` are not pairwise
distinct, while the fifteen before the last one are: `Texture::Create` with
the width 3 and `Shape::SetTexture` with a texture of another pixel format
return the same code. -/
theorem C27_error_codes_collide :
    NovaErrTextureDimensionInvalid = NovaErrInvalidPixelFormat ∧
    ¬ novaErrorCodes.Nodup ∧ novaErrorCodes.dropLast.Nodup ∧
    (Texture.new.Create PixelFormat888 3 16 (List.replicate 256 0)
        (List.replicate (3 * 16) 0) true true).1 =
      Shape.SetTexture 1 PixelFormat565 none 0 exampleTexture := by
  decide

/-! ## C28 -/

theorem isVertexVisible_or (x : Nat) : IsVertexVisible (x ||| VertexInfoVisible) :=
  isVisible_or x

theorem markVertexVisible_length (vis : List Nat) (idx : Nat) :
    (markVertexVisible vis idx).length = vis.length := by
  unfold markVertexVisible
  simp

theorem markVertexVisible_getD (vis : List Nat) (idx c : Nat) (h : idx < vis.length) :
    IsVertexVisible ((markVertexVisible vis idx).getD c 0) ↔
      IsVertexVisible (vis.getD c 0) ∨ idx = c := by
  unfold markVertexVisible
  by_cases hc : c = idx
  · subst hc
    rw [getD_set_eq_nat _ _ _ _ h]
    exact ⟨fun _ => Or.inr rfl, fun _ => isVertexVisible_or _⟩
  · rw [getD_set_ne_nat _ _ _ _ _ hc]
    exact ⟨fun hv => Or.inl hv, fun hv => hv.elim id (fun e => absurd e.symm hc)⟩

/-- The culling loop from polygon `i` on, when it returns: a later polygon
is flagged visible exactly when `IsOutside` returned false for it, and a
vertex flag is set exactly when it was set before or the coordinate is a
vertex of such a polygon. -/
theorem BackfaceCull_loop_vertices (shape : Shape) (cam : Vector) :
    ∀ (remaining i : Nat) (pis vis pis' vis' : List Nat), i + remaining = pis.length →
      (∀ k, k < 3 * (i + remaining) → shape.m_vertices.getD k 0 < vis.length) →
      Shape.BackfaceCull.loop shape cam remaining i pis vis = Except.ok (pis', vis') →
      pis'.length = pis.length ∧
      (∀ k, k < i → pis'.getD k 0 = pis.getD k 0) ∧
      (∀ k, i ≤ k → k < i + remaining →
        (IsVisible (pis'.getD k 0) ↔
          (shape.m_planeEquations.getD k default).IsOutside cam = Except.ok false)) ∧
      (∀ c, IsVertexVisible (vis'.getD c 0) ↔
        IsVertexVisible (vis.getD c 0) ∨
          ∃ k, i ≤ k ∧ k < i + remaining ∧
            (shape.m_planeEquations.getD k default).IsOutside cam = Except.ok false ∧
            shape.IsVertexOf c k) := by
  intro remaining
  induction remaining with
  | zero =>
    intro i pis vis pis' vis' _ _ h
    rw [Shape.BackfaceCull.loop, pure_eq_ok] at h
    cases h
    refine ⟨rfl, fun _ _ => rfl, fun k h1 h2 => by omega, fun c => ?_⟩
    exact ⟨fun hv => Or.inl hv, fun hv => hv.elim id (fun ⟨k, h1, h2, _⟩ => by omega)⟩
  | succ r ih =>
    intro i pis vis pis' vis' hi hidx h
    rw [Shape.BackfaceCull.loop] at h
    obtain ⟨outside, hout, h⟩ := bind_eq_ok h
    have hv0 := hidx (3 * i) (by omega)
    have hv1 := hidx (3 * i + 1) (by omega)
    have hv2 := hidx (3 * i + 2) (by omega)
    cases outside with
    | false =>
      simp only [Bool.not_false, if_true] at h
      obtain ⟨hlen, hlow, hhigh, hvert⟩ :=
        ih (i + 1) _ _ pis' vis' (by simp only [List.length_set]; omega)
          (by
            intro k hk
            simp only [markVertexVisible_length]
            exact hidx k (by omega)) h
      simp only [List.length_set] at hlen
      refine ⟨hlen, fun k hk => ?_, fun k hk1 hk2 => ?_, fun c => ?_⟩
      · rw [hlow k (by omega), getD_set_ne_nat _ _ _ _ _ (by omega)]
      · by_cases hki : k = i
        · subst hki
          rw [hlow k (by omega), getD_set_eq_nat _ _ _ _ (by omega)]
          exact ⟨fun _ => hout, fun _ => isVisible_or _⟩
        · exact hhigh k (by omega) (by omega)
      · rw [hvert c,
          markVertexVisible_getD _ _ _ (by simp only [markVertexVisible_length]; exact hv2),
          markVertexVisible_getD _ _ _ (by simp only [markVertexVisible_length]; exact hv1),
          markVertexVisible_getD _ _ _ hv0]
        constructor
        · rintro ((((hv | e) | e) | e) | ⟨k, hk1, hk2, hk3, hk4⟩)
          · exact Or.inl hv
          · exact Or.inr ⟨i, le_refl i, by omega, hout, Or.inl e⟩
          · exact Or.inr ⟨i, le_refl i, by omega, hout, Or.inr (Or.inl e)⟩
          · exact Or.inr ⟨i, le_refl i, by omega, hout, Or.inr (Or.inr e)⟩
          · exact Or.inr ⟨k, by omega, by omega, hk3, hk4⟩
        · rintro (hv | ⟨k, hk1, hk2, hk3, hk4⟩)
          · exact Or.inl (Or.inl (Or.inl (Or.inl hv)))
          · by_cases hki : k = i
            · subst hki
              rcases hk4 with e | e | e
              · exact Or.inl (Or.inl (Or.inl (Or.inr e)))
              · exact Or.inl (Or.inl (Or.inr e))
              · exact Or.inl (Or.inr e)
            · exact Or.inr ⟨k, by omega, by omega, hk3, hk4⟩
    | true =>
      simp only [Bool.not_true, Bool.false_eq_true, if_false] at h
      obtain ⟨hlen, hlow, hhigh, hvert⟩ :=
        ih (i + 1) _ _ pis' vis' (by simp only [List.length_set]; omega)
          (fun k hk => hidx k (by omega)) h
      simp only [List.length_set] at hlen
      refine ⟨hlen, fun k hk => ?_, fun k hk1 hk2 => ?_, fun c => ?_⟩
      · rw [hlow k (by omega), getD_set_ne_nat _ _ _ _ _ (by omega)]
      · by_cases hki : k = i
        · subst hki
          rw [hlow k (by omega), getD_set_eq_nat _ _ _ _ (by omega)]
          refine ⟨fun hv => absurd hv (not_isVisible_and _), fun hf => ?_⟩
          rw [hout] at hf
          cases hf
        · exact hhigh k (by omega) (by omega)
      · rw [hvert c]
        constructor
        · rintro (hv | ⟨k, hk1, hk2, hk3, hk4⟩)
          · exact Or.inl hv
          · exact Or.inr ⟨k, by omega, by omega, hk3, hk4⟩
        · rintro (hv | ⟨k, hk1, hk2, hk3, hk4⟩)
          · exact Or.inl hv
          · by_cases hki : k = i
            · subst hki
              rw [hout] at hk3
              cases hk3
            · exact Or.inr ⟨k, by omega, by omega, hk3, hk4⟩

/-- C28: when `BackfaceCull` returns on a shape whose polygon vertex indices
are all below the coordinate count, every polygon is flagged visible exactly
when `IsOutside` returned false for it in this call, and the visible flag of
a coordinate is set if and only if the coordinate is one of the three
vertices of a polygon flagged visible; the flags the vertices had before the
call play no part. -/
theorem C28_vertex_flags_from_visible_polygons (shape shape' : Shape) (cam : Vector)
    (hidx : ∀ k, k < 3 * shape.m_numPolygons →
      shape.m_vertices.getD k 0 < shape.m_numCoordinates)
    (h : shape.BackfaceCull cam = Except.ok shape') :
    (∀ k, k < shape.m_numPolygons →
      (IsVisible (shape'.m_polygonInfos.getD k 0) ↔
        (shape.m_planeEquations.getD k default).IsOutside cam = Except.ok false)) ∧
    (∀ c, IsVertexVisible (shape'.m_vertexInfos.getD c 0) ↔
      ∃ k, k < shape.m_numPolygons ∧ IsVisible (shape'.m_polygonInfos.getD k 0) ∧
        shape.IsVertexOf c k) := by
  unfold Shape.BackfaceCull at h
  obtain ⟨r, hr, h⟩ := bind_eq_ok h
  rw [pure_eq_ok] at h
  cases h
  obtain ⟨pis', vis'⟩ := r
  obtain ⟨_, _, hhigh, hvert⟩ :=
    BackfaceCull_loop_vertices shape cam shape.m_numPolygons 0 _ _ pis' vis'
      (by unfold Shape.m_numPolygons; omega)
      (by
        intro k hk
        simp only [List.length_map]
        exact hidx k (by omega)) hr
  simp only [zero_add] at hhigh hvert
  refine ⟨fun k hk => hhigh k (Nat.zero_le k) hk, fun c => ?_⟩
  rw [hvert c]
  have hclear : ¬ IsVertexVisible ((shape.m_vertexInfos.map (fun _ => 0)).getD c 0) := by
    have e : (shape.m_vertexInfos.map (fun _ => 0)).getD c 0 = 0 := by
      rw [List.getD_eq_getElem?_getD, List.getElem?_map]
      cases shape.m_vertexInfos[c]? <;> rfl
    rw [e]
    decide
  constructor
  · rintro (hv | ⟨k, _, hk2, hk3, hk4⟩)
    · exact absurd hv hclear
    · exact ⟨k, hk2, (hhigh k (Nat.zero_le k) hk2).mpr hk3, hk4⟩
  · rintro ⟨k, hk2, hk3, hk4⟩
    exact Or.inr ⟨k, Nat.zero_le k, hk2, (hhigh k (Nat.zero_le k) hk2).mp hk3, hk4⟩

/-- Witness for C28: two triangles sharing an edge, all four vertex flags
set by an earlier call; with the camera at (0,0,-1) only the first polygon is
flagged visible, and the flag of the fourth coordinate is cleared. -/
theorem C28_vertex_flags_from_visible_polygons_witness :
    (∀ k, k < exampleTwoTriangles.m_numPolygons →
      (IsVisible (([32, 0] : List Nat).getD k 0) ↔
        (exampleTwoTriangles.m_planeEquations.getD k default).IsOutside ⟨0, 0, -65536⟩ =
          Except.ok false)) ∧
    (∀ c, IsVertexVisible (([32, 32, 32, 0] : List Nat).getD c 0) ↔
      ∃ k, k < exampleTwoTriangles.m_numPolygons ∧
        IsVisible (([32, 0] : List Nat).getD k 0) ∧ exampleTwoTriangles.IsVertexOf c k) :=
  C28_vertex_flags_from_visible_polygons exampleTwoTriangles
    { exampleTwoTriangles with m_polygonInfos := [32, 0], m_vertexInfos := [32, 32, 32, 0] }
    ⟨0, 0, -65536⟩ (by decide) (by decide)

/-! ## Lighting: helper lemmas -/

theorem getD_set_eq_of_lt {α : Type} (l : List α) (i : Nat) (a d : α) (h : i < l.length) :
    (l.set i a).getD i d = a := by
  simp [List.getD_eq_getElem?_getD, List.getElem?_set, h]

theorem getD_set_of_ne {α : Type} (l : List α) (i k : Nat) (a d : α) (h : k ≠ i) :
    (l.set i a).getD k d = l.getD k d := by
  simp [List.getD_eq_getElem?_getD, List.getElem?_set, Ne.symm h]

theorem getD_set_of_le {α : Type} (l : List α) (i k : Nat) (a d : α) (h : l.length ≤ i) :
    (l.set i a).getD k d = l.getD k d := by
  rw [List.set_eq_of_length_le h]

theorem wrap32_add_wrap32 (x y : Int) : wrap32 (wrap32 x + y) = wrap32 (x + y) := by
  unfold wrap32
  omega

theorem vertex_cached (pointLight : PointLight) (pos vertex normal : Vector) (cached : Int)
    (h : cached = 0 ∨ (Vector.SubstractAndSet pos vertex).LengthFixed = Except.ok cached) :
    Shape.ApplyLighting.vertex pointLight pos vertex normal cached =
      Shape.ApplyLighting.vertex pointLight pos vertex normal 0 := by
  by_cases hc : cached = 0
  · rw [hc]
  · rcases h with h | h
    · exact absurd h hc
    · unfold Shape.ApplyLighting.vertex
      simp only [if_neg hc, if_true, h, pure_eq_ok]

theorem vertex_result {pointLight : PointLight} {pos vertex normal : Vector} {r : Int × Int}
    (h : Shape.ApplyLighting.vertex pointLight pos vertex normal 0 = Except.ok r) :
    0 ≤ r.1 ∧ (Vector.SubstractAndSet pos vertex).LengthFixed = Except.ok r.2 := by
  unfold Shape.ApplyLighting.vertex at h
  simp only [if_true] at h
  obtain ⟨distance, hdist, h⟩ := bind_eq_ok h
  obtain ⟨dotProd, _, h⟩ := bind_eq_ok h
  by_cases h1 : distance >>> (FixedPointPrec / 2) = 0
  · rw [if_pos h1] at h
    cases h
  · rw [if_neg h1] at h
    cases hatt : pointLight.IsAttenuated with
    | true =>
      rw [hatt] at h
      simp only [eq_self, if_true] at h
      obtain ⟨t, ht, h⟩ := bind_eq_ok h
      rw [pure_eq_ok] at h
      cases h
      unfold PointLight.CalculateAttenuationFactor at ht
      rw [FixedLargeMul_zero_right] at ht
      cases ht
      exact ⟨le_refl 0, hdist⟩
    | false =>
      rw [hatt] at h
      simp only [Bool.false_eq_true, if_false, pure_eq_ok] at h
      cases h
      refine ⟨?_, hdist⟩
      simp only
      split_ifs <;> omega

theorem cacheValid_replicate (pos : Vector) (coords : List Vector) (n : Nat) :
    CacheValid pos coords (List.replicate n 0) := by
  intro idx
  left
  rw [List.getD_eq_getElem?_getD, List.getElem?_replicate]
  split_ifs <;> rfl

theorem cacheValid_set {pos : Vector} {coords : List Vector} {cache : List Int}
    (hc : CacheValid pos coords cache) (idx : Nat) (d : Int)
    (hd : (Vector.SubstractAndSet pos (coords.getD idx default)).LengthFixed = Except.ok d) :
    CacheValid pos coords (cache.set idx d) := by
  intro k
  by_cases hk : k = idx
  · subst hk
    by_cases hlen : k < cache.length
    · rw [getD_set_eq_of_lt _ _ _ _ hlen]
      exact Or.inr hd
    · rw [getD_set_of_le _ _ _ _ _ (by omega)]
      exact hc k
  · rw [getD_set_of_ne _ _ _ _ _ hk]
    exact hc k

/-- The vertex loop of `ApplyLighting` when it returns: the cache stays
valid, the slots outside the range of the loop are unchanged, and each slot
in the range has gained the intensity of a cache miss. -/
theorem ApplyLighting_vertices_spec (shape : Shape) (normals : List Vector)
    (indices : List Nat) (pointLight : PointLight) (j : Nat) :
    ∀ (remaining k : Nat) (cache is cache' is' : List Int),
      CacheValid pointLight.m_position shape.m_coordinates cache →
      3 * j + k + remaining ≤ is.length →
      Shape.ApplyLighting.vertices shape normals indices pointLight j remaining k cache is =
        Except.ok (cache', is') →
      CacheValid pointLight.m_position shape.m_coordinates cache' ∧ is'.length = is.length ∧
      ∀ i, ((i < 3 * j + k ∨ 3 * j + k + remaining ≤ i) → is'.getD i 0 = is.getD i 0) ∧
        (3 * j + k ≤ i → i < 3 * j + k + remaining →
          ∃ r, Shape.ApplyLighting.vertex pointLight pointLight.m_position
              (shape.m_coordinates.getD (shape.m_vertices.getD i 0) default)
              (normals.getD (indices.getD i 0) default) 0 = Except.ok r ∧
            is'.getD i 0 = wrap32 (is.getD i 0 + r.1)) := by
  intro remaining
  induction remaining with
  | zero =>
    intro k cache is cache' is' hc _ h
    rw [Shape.ApplyLighting.vertices, pure_eq_ok] at h
    cases h
    exact ⟨hc, rfl, fun i => ⟨fun _ => rfl, fun h1 h2 => by omega⟩⟩
  | succ n ih =>
    intro k cache is cache' is' hc hlen h
    rw [Shape.ApplyLighting.vertices] at h
    obtain ⟨r, hr, h⟩ := bind_eq_ok h
    rw [vertex_cached _ _ _ _ _ (hc _)] at hr
    obtain ⟨hpos, hdist⟩ := vertex_result hr
    obtain ⟨hc', hlen', hslots⟩ :=
      ih (k + 1) _ _ cache' is' (cacheValid_set hc _ _ hdist)
        (by simp only [List.length_set]; omega) h
    simp only [List.length_set] at hlen'
    refine ⟨hc', hlen', fun i => ⟨fun hi => ?_, fun h1 h2 => ?_⟩⟩
    · rw [(hslots i).1 (by omega), getD_set_of_ne _ _ _ _ _ (by omega)]
    · by_cases hik : i = 3 * j + k
      · subst hik
        rw [(hslots _).1 (by omega), getD_set_eq_of_lt _ _ _ _ (by omega)]
        exact ⟨r, hr, rfl⟩
      · obtain ⟨r', hr', hval⟩ := (hslots i).2 (by omega) (by omega)
        rw [getD_set_of_ne _ _ _ _ _ hik] at hval
        exact ⟨r', hr', hval⟩

theorem lightContribution_of_skip (shape : Shape) (normals : List Vector) (indices : List Nat)
    (pointLight : PointLight) (i j : Nat) (hij : i / 3 = j)
    (hskip : Shape.ApplyLighting.skip shape pointLight.m_position j = Except.ok true) :
    shape.lightContribution normals indices pointLight i = Except.ok 0 := by
  unfold Shape.lightContribution
  rw [hij, hskip, ok_bind]
  simp only [if_true, pure_eq_ok]

theorem lightContribution_of_lit (shape : Shape) (normals : List Vector) (indices : List Nat)
    (pointLight : PointLight) (i j : Nat) (hij : i / 3 = j) (r : Int × Int)
    (hskip : Shape.ApplyLighting.skip shape pointLight.m_position j = Except.ok false)
    (hr : Shape.ApplyLighting.vertex pointLight pointLight.m_position
        (shape.m_coordinates.getD (shape.m_vertices.getD i 0) default)
        (normals.getD (indices.getD i 0) default) 0 = Except.ok r) :
    shape.lightContribution normals indices pointLight i = Except.ok r.1 := by
  unfold Shape.lightContribution
  rw [hij, hskip, ok_bind]
  simp only [Bool.false_eq_true, if_false, hr, ok_bind, pure_eq_ok]

/-- The polygon loop of `ApplyLighting` for one light, when it returns:
every slot in the range of the loop has gained the contribution of the light
to that slot, a non-negative value, in `int_32` arithmetic. -/
theorem ApplyLighting_polygons_spec (shape : Shape) (normals : List Vector)
    (indices : List Nat) (pointLight : PointLight) :
    ∀ (remaining j : Nat) (cache is cache' is' : List Int),
      CacheValid pointLight.m_position shape.m_coordinates cache →
      (∀ i, InInt32 (is.getD i 0)) →
      3 * (j + remaining) ≤ is.length →
      Shape.ApplyLighting.polygons shape normals indices pointLight remaining j cache is =
        Except.ok (cache', is') →
      CacheValid pointLight.m_position shape.m_coordinates cache' ∧ is'.length = is.length ∧
      (∀ i, InInt32 (is'.getD i 0)) ∧
      ∀ i, ((i < 3 * j ∨ 3 * (j + remaining) ≤ i) → is'.getD i 0 = is.getD i 0) ∧
        (3 * j ≤ i → i < 3 * (j + remaining) →
          ∃ t, shape.lightContribution normals indices pointLight i = Except.ok t ∧ 0 ≤ t ∧
            is'.getD i 0 = wrap32 (is.getD i 0 + t)) := by
  intro remaining
  induction remaining with
  | zero =>
    intro j cache is cache' is' hc hin _ h
    rw [Shape.ApplyLighting.polygons, pure_eq_ok] at h
    cases h
    exact ⟨hc, rfl, hin, fun i => ⟨fun _ => rfl, fun h1 h2 => by omega⟩⟩
  | succ n ih =>
    intro j cache is cache' is' hc hin hlen h
    rw [Shape.ApplyLighting.polygons] at h
    obtain ⟨skip, hskip, h⟩ := bind_eq_ok h
    cases skip with
    | true =>
      simp only [if_true] at h
      obtain ⟨hc', hlen', hin', hslots⟩ := ih (j + 1) cache is cache' is' hc hin (by omega) h
      refine ⟨hc', hlen', hin', fun i => ⟨fun hi => (hslots i).1 (by omega), fun h1 h2 => ?_⟩⟩
      by_cases hij : i < 3 * (j + 1)
      · refine ⟨0, lightContribution_of_skip shape normals indices pointLight i j (by omega)
          hskip, le_refl 0, ?_⟩
        rw [(hslots i).1 (by omega), add_zero, wrap32_of_inInt32 (hin i)]
      · exact (hslots i).2 (by omega) (by omega)
    | false =>
      simp only [Bool.false_eq_true, if_false] at h
      obtain ⟨r, hr, h⟩ := bind_eq_ok h
      obtain ⟨c1, is1⟩ := r
      obtain ⟨hc1, hlen1, hslots1⟩ :=
        ApplyLighting_vertices_spec shape normals indices pointLight j 3 0 cache is c1 is1 hc
          (by omega) hr
      have hin1 : ∀ i, InInt32 (is1.getD i 0) := by
        intro i
        by_cases hi : 3 * j + 0 ≤ i ∧ i < 3 * j + 0 + 3
        · obtain ⟨r', _, hval⟩ := (hslots1 i).2 hi.1 hi.2
          rw [hval]
          exact wrap32_inInt32 _
        · rw [(hslots1 i).1 (by omega)]
          exact hin i
      obtain ⟨hc', hlen', hin', hslots⟩ :=
        ih (j + 1) c1 is1 cache' is' hc1 hin1 (by omega) h
      refine ⟨hc', by omega, hin', fun i => ⟨fun hi => ?_, fun h1 h2 => ?_⟩⟩
      · rw [(hslots i).1 (by omega), (hslots1 i).1 (by omega)]
      · by_cases hij : i < 3 * (j + 1)
        · obtain ⟨r', hr', hval⟩ := (hslots1 i).2 (by omega) (by omega)
          refine ⟨r'.1, lightContribution_of_lit shape normals indices pointLight i j (by omega)
            r' hskip hr', (vertex_result hr').1, ?_⟩
          rw [(hslots i).1 (by omega), hval]
        · obtain ⟨t, ht, hpos, hval⟩ := (hslots i).2 (by omega) (by omega)
          refine ⟨t, ht, hpos, ?_⟩
          rw [hval, (hslots1 i).1 (by omega)]

/-- The light loop of `ApplyLighting`, when it returns: every slot is the
slot before the loop plus the contributions of the point lights of the list,
each of them non-negative, added in `int_32` arithmetic. -/
theorem ApplyLighting_lights_spec (shape : Shape) (normals : List Vector)
    (indices : List Nat) :
    ∀ (lights : List (Option Light)) (is out : List Int),
      (∀ i, InInt32 (is.getD i 0)) → 3 * shape.m_numPolygons ≤ is.length →
      Shape.ApplyLighting.lights shape normals indices lights is = Except.ok out →
      out.length = is.length ∧
      ∀ i, i < 3 * shape.m_numPolygons →
        ∃ ts, List.Forall₂
            (fun pointLight t =>
              shape.lightContribution normals indices pointLight i = Except.ok t)
            (pointLights lights) ts ∧
          (∀ t ∈ ts, 0 ≤ t) ∧ out.getD i 0 = wrap32 (is.getD i 0 + ts.sum) := by
  intro lights
  induction lights with
  | nil =>
    intro is out hin _ h
    rw [Shape.ApplyLighting.lights, pure_eq_ok] at h
    cases h
    refine ⟨rfl, fun i _ => ⟨[], List.Forall₂.nil, ⟨fun t ht => absurd ht (List.not_mem_nil t), ?_⟩⟩⟩
    rw [List.sum_nil, add_zero, wrap32_of_inInt32 (hin i)]
  | cons l rest ih =>
    intro is out hin hlen h
    cases l with
    | none =>
      rw [Shape.ApplyLighting.lights] at h
      exact ih is out hin hlen h
    | some light =>
      cases light with
      | TypeAmbient a =>
        rw [Shape.ApplyLighting.lights] at h
        exact ih is out hin hlen h
      | TypePoint pointLight =>
        rw [Shape.ApplyLighting.lights] at h
        obtain ⟨r, hr, h⟩ := bind_eq_ok h
        obtain ⟨c1, is1⟩ := r
        obtain ⟨_, hlen1, hin1, hslots1⟩ :=
          ApplyLighting_polygons_spec shape normals indices pointLight shape.m_numPolygons 0
            _ is c1 is1 (cacheValid_replicate _ _ _) hin (by omega) hr
        obtain ⟨hlen', hslots⟩ := ih is1 out hin1 (by omega) h
        refine ⟨by omega, fun i hi => ?_⟩
        obtain ⟨ts, hts, hpos, hval⟩ := hslots i hi
        obtain ⟨t, ht, htpos, hval1⟩ := (hslots1 i).2 (by omega) (by omega)
        refine ⟨t :: ts, List.Forall₂.cons ht hts, ?_, ?_⟩
        · intro x hx
          rcases List.mem_cons.mp hx with e | e
          · rw [e]
            exact htpos
          · exact hpos x e
        · rw [hval, hval1, wrap32_add_wrap32, List.sum_cons, add_assoc]

theorem getD_replicate_int (n i : Nat) (a : Int) (h : i < n) :
    (List.replicate n a).getD i 0 = a := by
  rw [List.getD_eq_getElem?_getD, List.getElem?_replicate, if_pos h]
  rfl

theorem contributions_of_skipped (shape : Shape) (normals : List Vector) (indices : List Nat)
    (i : Nat) (hv : ¬ IsVisible (shape.m_polygonInfos.getD (i / 3) 0)) :
    ∀ (pls : List PointLight) (ts : List Int),
      List.Forall₂
        (fun pointLight t => shape.lightContribution normals indices pointLight i = Except.ok t)
        pls ts → ts.sum = 0 := by
  intro pls ts h
  induction h with
  | nil => rfl
  | cons hab _ ih =>
    unfold Shape.lightContribution Shape.ApplyLighting.skip at hab
    unfold IsVisible at hv
    simp only [if_pos (not_not.mp hv), pure_eq_ok, ok_bind, if_true] at hab
    cases hab
    rw [List.sum_cons, ih, add_zero]

/-! ## C29 -/

set_option maxRecDepth 8192 in
/-- C29 as stated fails: with the ambient intensity 32767.5 and one point
light without attenuation at distance 1.0 in front of a visible triangle
whose normals point to it, the first slot ends at -2147450880, below the
ambient intensity 2147450880. -/
theorem C29_counterexample :
    Shape.ApplyLighting exampleLitShape [⟨0, 0, 65536⟩] [0, 0, 0] ⟨2147450880⟩
        [some (Light.TypePoint (exampleConstantLight false))] =
      Except.ok [-2147450880, -2147470080, -2147470080] ∧
    ¬ (2147450880 : Int) ≤ -2147450880 := by
  decide

/-- C29 (amended): when `ApplyLighting` returns for an `int_32` ambient
intensity, every slot is the ambient intensity plus the contributions of the
point lights of the list to that slot, each of them non-negative, added in
wrapping `int_32` arithmetic; so a slot is at least the ambient intensity
whenever that sum does not exceed 2147483647, and all three slots of every
polygon that is not flagged visible equal the ambient intensity exactly. -/
theorem C29_intensity_ambient_plus_contributions (shape : Shape) (normals : List Vector)
    (indices : List Nat) (ambientLight : AmbientLight) (lightNodeList : List (Option Light))
    (out : List Int) (hamb : InInt32 ambientLight.IntensityFixed)
    (h : shape.ApplyLighting normals indices ambientLight lightNodeList = Except.ok out) :
    out.length = 3 * shape.m_numPolygons ∧
    ∀ i, i < 3 * shape.m_numPolygons →
      (¬ IsVisible (shape.m_polygonInfos.getD (i / 3) 0) →
        out.getD i 0 = ambientLight.IntensityFixed) ∧
      ∃ ts, List.Forall₂
          (fun pointLight t =>
            shape.lightContribution normals indices pointLight i = Except.ok t)
          (pointLights lightNodeList) ts ∧
        (∀ t ∈ ts, 0 ≤ t) ∧
        out.getD i 0 = wrap32 (ambientLight.IntensityFixed + ts.sum) ∧
        (ambientLight.IntensityFixed + ts.sum ≤ 2147483647 →
          ambientLight.IntensityFixed ≤ out.getD i 0) := by
  unfold Shape.ApplyLighting at h
  have hin : ∀ i, InInt32
      ((List.replicate (3 * shape.m_numPolygons) ambientLight.IntensityFixed).getD i 0) := by
    intro i
    by_cases hi : i < 3 * shape.m_numPolygons
    · rw [getD_replicate_int _ _ _ hi]
      exact hamb
    · rw [List.getD_eq_default _ _ (by simp only [List.length_replicate]; omega)]
      decide
  obtain ⟨hlen, hslots⟩ :=
    ApplyLighting_lights_spec shape normals indices lightNodeList _ out hin
      (by simp only [List.length_replicate]; omega) h
  simp only [List.length_replicate] at hlen
  refine ⟨hlen, fun i hi => ?_⟩
  obtain ⟨ts, hts, hpos, hval⟩ := hslots i hi
  rw [getD_replicate_int _ _ _ hi] at hval
  have hsum : 0 ≤ ts.sum := List.sum_nonneg hpos
  refine ⟨fun hv => ?_, ts, hts, hpos, hval, fun hfit => ?_⟩
  · rw [hval, contributions_of_skipped shape normals indices i hv _ ts hts, add_zero,
      wrap32_of_inInt32 hamb]
  · rw [hval, wrap32_of_inInt32 ⟨by unfold InInt32 at hamb; omega, hfit⟩]
    omega

set_option maxRecDepth 8192 in
/-- Witness for C29: the lit example triangle with the ambient intensity 0.5
and a light list holding the unattenuated point light, an entry that cannot
be fetched and an ambient light. -/
theorem C29_intensity_ambient_plus_contributions_witness :
    ([98304, 79104, 79104] : List Int).length = 3 * exampleLitShape.m_numPolygons ∧
    ∀ i, i < 3 * exampleLitShape.m_numPolygons →
      (¬ IsVisible (exampleLitShape.m_polygonInfos.getD (i / 3) 0) →
        ([98304, 79104, 79104] : List Int).getD i 0 = (AmbientLight.mk 32768).IntensityFixed) ∧
      ∃ ts, List.Forall₂
          (fun pointLight t =>
            exampleLitShape.lightContribution [⟨0, 0, 65536⟩] [0, 0, 0] pointLight i =
              Except.ok t)
          (pointLights [some (Light.TypePoint (exampleConstantLight false)), none,
            some (Light.TypeAmbient ⟨32768⟩)]) ts ∧
        (∀ t ∈ ts, 0 ≤ t) ∧
        ([98304, 79104, 79104] : List Int).getD i 0 =
          wrap32 ((AmbientLight.mk 32768).IntensityFixed + ts.sum) ∧
        ((AmbientLight.mk 32768).IntensityFixed + ts.sum ≤ 2147483647 →
          (AmbientLight.mk 32768).IntensityFixed ≤ ([98304, 79104, 79104] : List Int).getD i 0) :=
  C29_intensity_ambient_plus_contributions exampleLitShape [⟨0, 0, 65536⟩] [0, 0, 0] ⟨32768⟩
    [some (Light.TypePoint (exampleConstantLight false)), none, some (Light.TypeAmbient ⟨32768⟩)]
    [98304, 79104, 79104] (by decide) (by decide)

/-! ## C30 -/

theorem vertex_without_cache (pointLight : PointLight) (pos vertex normal : Vector) :
    (Shape.ApplyLighting.vertex pointLight pos vertex normal 0).map Prod.fst =
      Shape.ApplyLightingWithoutCache.vertex pointLight pos vertex normal := by
  unfold Shape.ApplyLighting.vertex Shape.ApplyLightingWithoutCache.vertex
  simp only [if_true]
  cases (Vector.SubstractAndSet pos vertex).LengthFixed with
  | error e => rfl
  | ok distance =>
    simp only [ok_bind]
    cases (Vector.SubstractAndSet pos vertex).DotProductFixed normal with
    | error e => rfl
    | ok dotProd =>
      simp only [ok_bind]
      by_cases h1 : distance >>> (FixedPointPrec / 2) = 0
      · rw [if_pos h1, if_pos h1]
        rfl
      · rw [if_neg h1, if_neg h1]
        cases pointLight.IsAttenuated with
        | true =>
          simp only [eq_self, if_true]
          cases FixedLargeMul
            (if wrap32 (wrap32 (dotProd.tdiv (distance >>> (FixedPointPrec / 2))) *
                2 ^ (FixedPointPrec / 2)) > 0 then
              wrap32 (wrap32 (dotProd.tdiv (distance >>> (FixedPointPrec / 2))) *
                2 ^ (FixedPointPrec / 2))
            else 0) (pointLight.CalculateAttenuationFactor distance) with
          | error e => rfl
          | ok t => rfl
        | false =>
          simp only [Bool.false_eq_true, if_false]
          rfl

theorem vertices_cacheValid (shape : Shape) (normals : List Vector) (indices : List Nat)
    (pointLight : PointLight) (j : Nat) :
    ∀ (remaining k : Nat) (cache is : List Int) (r : List Int × List Int),
      CacheValid pointLight.m_position shape.m_coordinates cache →
      Shape.ApplyLighting.vertices shape normals indices pointLight j remaining k cache is =
        Except.ok r →
      CacheValid pointLight.m_position shape.m_coordinates r.1 := by
  intro remaining
  induction remaining with
  | zero =>
    intro k cache is r hc h
    rw [Shape.ApplyLighting.vertices, pure_eq_ok] at h
    cases h
    exact hc
  | succ n ih =>
    intro k cache is r hc h
    rw [Shape.ApplyLighting.vertices] at h
    obtain ⟨v, hv, h⟩ := bind_eq_ok h
    rw [vertex_cached _ _ _ _ _ (hc _)] at hv
    exact ih (k + 1) _ _ r (cacheValid_set hc _ _ (vertex_result hv).2) h

theorem vertices_without_cache (shape : Shape) (normals : List Vector) (indices : List Nat)
    (pointLight : PointLight) (j : Nat) :
    ∀ (remaining k : Nat) (cache is : List Int),
      CacheValid pointLight.m_position shape.m_coordinates cache →
      (Shape.ApplyLighting.vertices shape normals indices pointLight j remaining k cache
        is).map Prod.snd =
      Shape.ApplyLightingWithoutCache.vertices shape normals indices pointLight j remaining k
        is := by
  intro remaining
  induction remaining with
  | zero =>
    intro k cache is _
    rfl
  | succ n ih =>
    intro k cache is hc
    rw [Shape.ApplyLighting.vertices, Shape.ApplyLightingWithoutCache.vertices,
      vertex_cached _ _ _ _ _ (hc _), ← vertex_without_cache]
    cases hv : Shape.ApplyLighting.vertex pointLight pointLight.m_position
        (shape.m_coordinates.getD (shape.m_vertices.getD (3 * j + k) 0) default)
        (normals.getD (indices.getD (3 * j + k) 0) default) 0 with
    | error e => rfl
    | ok v =>
      simp only [ok_bind, Except.map]
      exact ih (k + 1) _ _ (cacheValid_set hc _ _ (vertex_result hv).2)

theorem polygons_without_cache (shape : Shape) (normals : List Vector) (indices : List Nat)
    (pointLight : PointLight) :
    ∀ (remaining j : Nat) (cache is : List Int),
      CacheValid pointLight.m_position shape.m_coordinates cache →
      (Shape.ApplyLighting.polygons shape normals indices pointLight remaining j cache
        is).map Prod.snd =
      Shape.ApplyLightingWithoutCache.polygons shape normals indices pointLight remaining j
        is := by
  intro remaining
  induction remaining with
  | zero =>
    intro j cache is _
    rfl
  | succ n ih =>
    intro j cache is hc
    rw [Shape.ApplyLighting.polygons, Shape.ApplyLightingWithoutCache.polygons]
    cases Shape.ApplyLighting.skip shape pointLight.m_position j with
    | error e => rfl
    | ok skip =>
      simp only [ok_bind]
      cases skip with
      | true =>
        simp only [if_true]
        exact ih (j + 1) cache is hc
      | false =>
        simp only [Bool.false_eq_true, if_false]
        rw [← vertices_without_cache shape normals indices pointLight j 3 0 cache is hc]
        cases hr : Shape.ApplyLighting.vertices shape normals indices pointLight j 3 0 cache
            is with
        | error e => rfl
        | ok r =>
          simp only [ok_bind, Except.map]
          exact ih (j + 1) r.1 r.2
            (vertices_cacheValid shape normals indices pointLight j 3 0 cache is r hc hr)

theorem lights_without_cache (shape : Shape) (normals : List Vector) (indices : List Nat) :
    ∀ (lights : List (Option Light)) (is : List Int),
      Shape.ApplyLighting.lights shape normals indices lights is =
        Shape.ApplyLightingWithoutCache.lights shape normals indices lights is := by
  intro lights
  induction lights with
  | nil =>
    intro is
    rfl
  | cons l rest ih =>
    intro is
    cases l with
    | none =>
      rw [Shape.ApplyLighting.lights, Shape.ApplyLightingWithoutCache.lights]
      exact ih is
    | some light =>
      cases light with
      | TypeAmbient a =>
        rw [Shape.ApplyLighting.lights, Shape.ApplyLightingWithoutCache.lights]
        exact ih is
      | TypePoint pointLight =>
        rw [Shape.ApplyLighting.lights, Shape.ApplyLightingWithoutCache.lights,
          ← polygons_without_cache shape normals indices pointLight shape.m_numPolygons 0
            (List.replicate shape.m_numCoordinates 0) is (cacheValid_replicate _ _ _)]
        cases Shape.ApplyLighting.polygons shape normals indices pointLight
            shape.m_numPolygons 0 (List.replicate shape.m_numCoordinates 0) is with
        | error e => rfl
        | ok r =>
          simp only [ok_bind, Except.map]
          exact ih r.2

/-- C30: the distance cache of `ApplyLighting` is transparent.  For every
shape, ambient light and light list the call gives the same result, the same
intensities or the same failure, as the version without the cache that calls
`LengthFixed` on (light position - vertex) for every vertex of every lit
polygon. -/
theorem C30_distance_cache_transparent (shape : Shape) (normals : List Vector)
    (indices : List Nat) (ambientLight : AmbientLight) (lightNodeList : List (Option Light)) :
    shape.ApplyLighting normals indices ambientLight lightNodeList =
      shape.ApplyLightingWithoutCache normals indices ambientLight lightNodeList := by
  unfold Shape.ApplyLighting Shape.ApplyLightingWithoutCache
  exact lights_without_cache shape normals indices lightNodeList _

set_option maxRecDepth 8192 in
/-- Both versions on two triangles that share their three coordinates, so
that the second polygon takes every distance from the cache: the
intensities are the same, and they are not the ambient ones. -/
theorem cache_example_intensities :
    Shape.ApplyLighting exampleSharedShape [⟨0, 0, 65536⟩] [0, 0, 0, 0, 0, 0] ⟨32768⟩
        [some (Light.TypePoint (exampleConstantLight false))] =
      Except.ok [98304, 79104, 79104, 79104, 79104, 98304] ∧
    Shape.ApplyLightingWithoutCache exampleSharedShape [⟨0, 0, 65536⟩] [0, 0, 0, 0, 0, 0]
        ⟨32768⟩ [some (Light.TypePoint (exampleConstantLight false))] =
      Except.ok [98304, 79104, 79104, 79104, 79104, 98304] := by
  decide

/-! ## C38 -/

theorem interpolate_between {v1 v2 f : Int} (h0 : 0 ≤ f) (h1 : f ≤ 65536)
    (hv1 : InInt32 v1) (hv2 : InInt32 v2) (hd : InInt32 (v2 - v1)) :
    Between v1 v2 (wrap32 (wrap32 (v2 - v1) * f / 65536 + v1)) := by
  rw [wrap32_of_inInt32 hd]
  unfold InInt32 at hv1 hv2 hd
  rcases le_or_lt 0 (v2 - v1) with hw | hw
  · have hlo : 0 ≤ (v2 - v1) * f := mul_nonneg hw h0
    have hhi : (v2 - v1) * f ≤ (v2 - v1) * 65536 := mul_le_mul_of_nonneg_left h1 hw
    have hb : 0 ≤ (v2 - v1) * f / 65536 ∧ (v2 - v1) * f / 65536 ≤ v2 - v1 := by
      generalize (v2 - v1) * f = t at hlo hhi
      omega
    rw [wrap32_of_inInt32 ⟨by omega, by omega⟩]
    left
    omega
  · have hhi : (v2 - v1) * f ≤ 0 := mul_nonpos_of_nonpos_of_nonneg (le_of_lt hw) h0
    have hlo : (v2 - v1) * 65536 ≤ (v2 - v1) * f :=
      mul_le_mul_of_nonpos_left h1 (le_of_lt hw)
    have hb : v2 - v1 ≤ (v2 - v1) * f / 65536 ∧ (v2 - v1) * f / 65536 ≤ 0 := by
      generalize (v2 - v1) * f = t at hlo hhi
      omega
    rw [wrap32_of_inInt32 ⟨by omega, by omega⟩]
    right
    omega

theorem clippedVertex_between (near : Int) (p1 p2 : ClipVertex) {f : Int}
    (h0 : 0 ≤ f) (h1 : f ≤ 65536) (hv : ValuesRepresentable p1 p2) :
    ∃ c, clippedVertex near p1 p2 f = Except.ok c ∧ c.z = near ∧
      Between p1.x p2.x c.x ∧ Between p1.y p2.y c.y ∧
      Between p1.valueA p2.valueA c.valueA ∧ Between p1.valueB p2.valueB c.valueB ∧
      Between p1.valueC p2.valueC c.valueC := by
  obtain ⟨hx, hy, ha, hb, hc⟩ := hv
  unfold clippedVertex
  simp only [clipInterpolate_ok _ _ h0 h1, ok_bind, pure_eq_ok]
  exact ⟨_, rfl, rfl, interpolate_between h0 h1 hx.1 hx.2.1 hx.2.2,
    interpolate_between h0 h1 hy.1 hy.2.1 hy.2.2, interpolate_between h0 h1 ha.1 ha.2.1 ha.2.2,
    interpolate_between h0 h1 hb.1 hb.2.1 hb.2.2, interpolate_between h0 h1 hc.1 hc.2.1 hc.2.2⟩

/-- C38: for an edge that crosses the near plane, with representable depth
differences and representable values and value differences, the clip
parameter `f` that `NearClipEdge` computes with `FixedLargeDiv` lies in
`[0, FixedPointOne]`, the generated vertex has `z = near`, and each of its
`x`, `y` and three carried values lies between the two endpoint values,
inclusive.  The first part is the edge entering the visible side, the second
the edge leaving it. -/
theorem C38_clip_parameter_and_values_in_range (near : Int) (buf : List ClipVertex)
    (p1 p2 : ClipVertex) (hz : DepthsRepresentable p1 p2) (hv : ValuesRepresentable p1 p2) :
    (p1.z < near → near ≤ p2.z →
      ∃ f c, FixedLargeDiv (wrap32 (near - p1.z)) (wrap32 (p2.z - p1.z)) = Except.ok f ∧
        0 ≤ f ∧ f ≤ FixedPointOne ∧ clippedVertex near p1 p2 f = Except.ok c ∧
        NearClipEdge near buf p1 p2 = Except.ok (buf ++ [c, p2]) ∧ c.z = near ∧
        Between p1.x p2.x c.x ∧ Between p1.y p2.y c.y ∧
        Between p1.valueA p2.valueA c.valueA ∧ Between p1.valueB p2.valueB c.valueB ∧
        Between p1.valueC p2.valueC c.valueC) ∧
    (near ≤ p1.z → p2.z < near →
      ∃ f c, FixedLargeDiv (wrap32 (p1.z - near)) (wrap32 (p1.z - p2.z)) = Except.ok f ∧
        0 ≤ f ∧ f ≤ FixedPointOne ∧ clippedVertex near p1 p2 f = Except.ok c ∧
        NearClipEdge near buf p1 p2 = Except.ok (buf ++ [c]) ∧ c.z = near ∧
        Between p1.x p2.x c.x ∧ Between p1.y p2.y c.y ∧
        Between p1.valueA p2.valueA c.valueA ∧ Between p1.valueB p2.valueB c.valueB ∧
        Between p1.valueC p2.valueC c.valueC) := by
  obtain ⟨hz1, hz2, hz21, hz12⟩ := hz
  unfold InInt32 at hz1 hz2 hz21 hz12
  constructor
  · intro h1 h2
    obtain ⟨f, hf, hf0, hf1⟩ :=
      clipParameter_ok (a := near - p1.z) (d := p2.z - p1.z) (by omega) (by omega) (by omega)
        (by omega)
    obtain ⟨c, hc, hcz, hb⟩ := clippedVertex_between near p1 p2 hf0 hf1 hv
    refine ⟨f, c, hf, hf0, hf1, hc, ?_, hcz, hb⟩
    unfold NearClipEdge
    rw [if_pos h1, if_neg (by omega), hf, ok_bind, hc, ok_bind]
    rfl
  · intro h1 h2
    obtain ⟨f, hf, hf0, hf1⟩ :=
      clipParameter_ok (a := p1.z - near) (d := p1.z - p2.z) (by omega) (by omega) (by omega)
        (by omega)
    obtain ⟨c, hc, hcz, hb⟩ := clippedVertex_between near p1 p2 hf0 hf1 hv
    refine ⟨f, c, hf, hf0, hf1, hc, ?_, hcz, hb⟩
    unfold NearClipEdge
    rw [if_neg (by omega), if_pos h2, hf, ok_bind, hc, ok_bind]
    rfl

/-- Witness for C38: the first edge of the example triangle, from a vertex at
z = 0 to one at z = 2.0, with the near plane at 1.0. -/
theorem C38_clip_parameter_and_values_in_range_witness :
    ∃ f c, FixedLargeDiv (wrap32 (65536 - exampleOneBehind.v1.z))
        (wrap32 (exampleOneBehind.v2.z - exampleOneBehind.v1.z)) = Except.ok f ∧
      0 ≤ f ∧ f ≤ FixedPointOne ∧
      clippedVertex 65536 exampleOneBehind.v1 exampleOneBehind.v2 f = Except.ok c ∧
      NearClipEdge 65536 [] exampleOneBehind.v1 exampleOneBehind.v2 =
        Except.ok ([] ++ [c, exampleOneBehind.v2]) ∧ c.z = 65536 ∧
      Between exampleOneBehind.v1.x exampleOneBehind.v2.x c.x ∧
      Between exampleOneBehind.v1.y exampleOneBehind.v2.y c.y ∧
      Between exampleOneBehind.v1.valueA exampleOneBehind.v2.valueA c.valueA ∧
      Between exampleOneBehind.v1.valueB exampleOneBehind.v2.valueB c.valueB ∧
      Between exampleOneBehind.v1.valueC exampleOneBehind.v2.valueC c.valueC :=
  (C38_clip_parameter_and_values_in_range 65536 [] exampleOneBehind.v1 exampleOneBehind.v2
    (by decide) (by decide)).1 (by decide) (by decide)

/-! ## C32 -/

/-- C32: for operands with counters in `0 .. 9` (and the result matrix too
when it is one of them), whenever `MultiplyAndSet( m1, m2 )` returns: with
`count` the own counter plus 1 when the result matrix is an operand and the
larger operand counter plus 1 otherwise, a `count` below 10 is stored with
the product as computed, and at `count = 10` the result is `Normalize()` of
the product, which normalises the three rows of the rotation block and
stores the counter 0; either way the stored counter is in `0 .. 9`. -/
theorem C32_multiplication_counter (this m1 m2 : Matrix) (aliased : Bool)
    (h1 : m1.CounterInRange) (h2 : m2.CounterInRange)
    (ha : aliased = true → this.CounterInRange) :
    ∀ result, this.MultiplyAndSet m1 m2 aliased = Except.ok result →
      ∃ res count, multiplyData m1 m2 = Except.ok res ∧
        count = (if aliased then this.m_multiplications + 1
          else max m1.m_multiplications m2.m_multiplications + 1) ∧
        (count < 10 → result = { m_data := res, m_multiplications := count }) ∧
        (¬ count < 10 → count = 10 ∧ result.m_multiplications = 0 ∧
          ∃ v1 v2 v3,
            Vector.Normalize ⟨res 0 0, res 0 1, res 0 2⟩ = Except.ok v1 ∧
            Vector.Normalize ⟨res 1 0, res 1 1, res 1 2⟩ = Except.ok v2 ∧
            Vector.Normalize ⟨res 2 0, res 2 1, res 2 2⟩ = Except.ok v3 ∧
            result.m_data =
              (Matrix.FromVectors { m_data := res, m_multiplications := count } v1 v2
                v3).m_data) ∧
        result.CounterInRange := by
  intro result h
  unfold Matrix.CounterInRange at h1 h2 ha ⊢
  unfold Matrix.MultiplyAndSet at h
  obtain ⟨res, hres, h⟩ := bind_eq_ok h
  have hcount : (if aliased = true then wrap32 (this.m_multiplications + 1)
      else wrap32 ((if m1.m_multiplications > m2.m_multiplications then m1.m_multiplications
        else m2.m_multiplications) + 1)) =
      (if aliased = true then this.m_multiplications + 1
        else max m1.m_multiplications m2.m_multiplications + 1) := by
    cases aliased with
    | true =>
      have := ha rfl
      simp only [if_true]
      exact wrap32_of_inInt32 ⟨by omega, by omega⟩
    | false =>
      simp only [Bool.false_eq_true, if_false]
      have hmax : (if m1.m_multiplications > m2.m_multiplications then m1.m_multiplications
          else m2.m_multiplications) = max m1.m_multiplications m2.m_multiplications := by
        split_ifs with hgt
        · exact (max_eq_left (le_of_lt hgt)).symm
        · exact (max_eq_right (not_lt.mp hgt)).symm
      rw [hmax]
      have hm := max_le h1.2 h2.2
      have hm0 := le_trans h1.1 (le_max_left m1.m_multiplications m2.m_multiplications)
      exact wrap32_of_inInt32 ⟨by omega, by omega⟩
  simp only [hcount] at h
  have hrange : 1 ≤ (if aliased = true then this.m_multiplications + 1
      else max m1.m_multiplications m2.m_multiplications + 1) ∧
      (if aliased = true then this.m_multiplications + 1
        else max m1.m_multiplications m2.m_multiplications + 1) ≤ 10 := by
    cases aliased with
    | true =>
      have := ha rfl
      simp only [if_true]
      omega
    | false =>
      simp only [Bool.false_eq_true, if_false]
      have hm := max_le h1.2 h2.2
      have hm0 := le_trans h1.1 (le_max_left m1.m_multiplications m2.m_multiplications)
      omega
  generalize (if aliased = true then this.m_multiplications + 1
      else max m1.m_multiplications m2.m_multiplications + 1) = count at h hrange
  refine ⟨res, count, hres, rfl, ?_⟩
  by_cases hlt : count < 10
  · rw [if_neg (by unfold NormalizeFreq; omega), pure_eq_ok] at h
    cases h
    exact ⟨fun _ => rfl, fun hn => absurd hlt hn, by simp only; omega, by simp only; omega⟩
  · rw [if_pos (by unfold NormalizeFreq; omega)] at h
    unfold Matrix.Normalize Matrix.AsVectors at h
    obtain ⟨v1, hv1, h⟩ := bind_eq_ok h
    obtain ⟨v2, hv2, h⟩ := bind_eq_ok h
    obtain ⟨v3, hv3, h⟩ := bind_eq_ok h
    rw [pure_eq_ok] at h
    cases h
    exact ⟨fun hc => absurd hc hlt,
      fun _ => ⟨by omega, rfl, v1, v2, v3, hv1, hv2, hv3, rfl⟩, le_refl 0, by norm_num⟩

set_option maxRecDepth 8192 in
/-- Witness for C32: the identity with the counter 9 multiplied into itself
by the identity, which brings the count to 10: the call returns, the rows are
normalised and the counter is 0. -/
theorem C32_multiplication_counter_witness :
    ∃ result, Matrix.MultiplyAndSet exampleNineTimes exampleNineTimes Matrix.SetIdentity true =
        Except.ok result ∧
      ∃ res count, multiplyData exampleNineTimes Matrix.SetIdentity = Except.ok res ∧
        count = (if true then exampleNineTimes.m_multiplications + 1
          else max exampleNineTimes.m_multiplications Matrix.SetIdentity.m_multiplications + 1) ∧
        (count < 10 → result = { m_data := res, m_multiplications := count }) ∧
        (¬ count < 10 → count = 10 ∧ result.m_multiplications = 0 ∧
          ∃ v1 v2 v3,
            Vector.Normalize ⟨res 0 0, res 0 1, res 0 2⟩ = Except.ok v1 ∧
            Vector.Normalize ⟨res 1 0, res 1 1, res 1 2⟩ = Except.ok v2 ∧
            Vector.Normalize ⟨res 2 0, res 2 1, res 2 2⟩ = Except.ok v3 ∧
            result.m_data =
              (Matrix.FromVectors { m_data := res, m_multiplications := count } v1 v2
                v3).m_data) ∧
        result.CounterInRange := by
  have hsome : (Matrix.MultiplyAndSet exampleNineTimes exampleNineTimes Matrix.SetIdentity
      true).toOption.isSome = true := by decide
  cases h : Matrix.MultiplyAndSet exampleNineTimes exampleNineTimes Matrix.SetIdentity true with
  | error e =>
    rw [h] at hsome
    cases hsome
  | ok result =>
    exact ⟨result, rfl,
      C32_multiplication_counter exampleNineTimes exampleNineTimes Matrix.SetIdentity true
        (by decide) (by decide) (fun _ => by decide) result h⟩

set_option maxRecDepth 8192 in
/-- The example of the witness returns: the counter is 0 and the diagonal of
the rotation block holds the normalised length 65535; with the counter 3 the
same product is stored with the counter 4. -/
theorem MultiplyAndSet_example_counters :
    (Matrix.MultiplyAndSet exampleNineTimes exampleNineTimes Matrix.SetIdentity true).toOption.map
        (fun r => (r.m_multiplications, r.m_data 0 0, r.m_data 1 1, r.m_data 2 2, r.m_data 3 3)) =
      some (0, 65535, 65535, 65535, 65536) ∧
    (Matrix.MultiplyAndSet Matrix.SetIdentity { Matrix.SetIdentity with m_multiplications := 3 }
        Matrix.SetIdentity false).toOption.map
        (fun r => (r.m_multiplications, r.m_data 0 0)) = some (4, 65536) := by
  decide

/-! ## C33 -/

/-- C33: `CheckPrecision` halves a vector only while a component is at least
`250 << 16`, so it leaves (-300.0, 0, 0) and (200.0, 0, 0) as they are, and
`DotProductFixed` of each with itself makes `FixedLargeMul` throw (the squares
90000.0 and 40000.0 exceed the `int_32` range); `Normalize` of (-300.0, 0, 0)
throws as well.  For (105.0, 105.0, 105.0) no product throws, but the 32-bit
sum of the three squares wraps to a negative value. -/
theorem C33_CheckPrecision_leaves_overflow :
    Vector.CheckPrecision ⟨-19660800, 0, 0⟩ = Except.ok ⟨-19660800, 0, 0⟩ ∧
    Vector.DotProductFixed ⟨-19660800, 0, 0⟩ ⟨-19660800, 0, 0⟩ =
      Except.error (NovaError.overflow 5898240000) ∧
    Vector.Normalize ⟨-19660800, 0, 0⟩ = Except.error (NovaError.overflow 5898240000) ∧
    Vector.CheckPrecision ⟨13107200, 0, 0⟩ = Except.ok ⟨13107200, 0, 0⟩ ∧
    Vector.DotProductFixed ⟨13107200, 0, 0⟩ ⟨13107200, 0, 0⟩ =
      Except.error (NovaError.overflow 2621440000) ∧
    Vector.CheckPrecision ⟨6881280, 6881280, 6881280⟩ =
      Except.ok ⟨6881280, 6881280, 6881280⟩ ∧
    Vector.DotProductFixed ⟨6881280, 6881280, 6881280⟩ ⟨6881280, 6881280, 6881280⟩ =
      Except.ok (-2127364096) := by
  decide

/-! ## C34 -/

/-- C34: for the non-zero vectors (1, 0, 0) and (7, 7, 7) in raw units,
`CheckPrecision` scales by 32, the squared length `DotProductFixed` of the
result with itself is 0, `FastSqrt` returns the length 0 and `Normalize`
divides by zero. -/
theorem C34_Normalize_small_vector_divides_by_zero :
    Vector.CheckPrecision ⟨1, 0, 0⟩ = Except.ok ⟨32, 0, 0⟩ ∧
    Vector.DotProductFixed ⟨32, 0, 0⟩ ⟨32, 0, 0⟩ = Except.ok 0 ∧
    FastSqrt 0 = 0 ∧
    Vector.Normalize ⟨1, 0, 0⟩ = Except.error NovaError.divideByZero ∧
    Vector.CheckPrecision ⟨7, 7, 7⟩ = Except.ok ⟨224, 224, 224⟩ ∧
    Vector.DotProductFixed ⟨224, 224, 224⟩ ⟨224, 224, 224⟩ = Except.ok 0 ∧
    Vector.Normalize ⟨7, 7, 7⟩ = Except.error NovaError.divideByZero := by
  decide

/-! ## C40 -/

set_option maxRecDepth 8192 in
/-- C40: on the lit example triangle, whose plane is z = 0, a point light at
the first vertex (0, 0, 0) or 100 raw units next to it lies on the plane, the
polygon passes both visibility tests, the distance of the first vertex is 0,
and `ApplyLighting` divides by `distance >> 8 = 0`. -/
theorem C40_ApplyLighting_divides_by_zero :
    Shape.ApplyLighting.skip exampleLitShape ⟨0, 0, 0⟩ 0 = Except.ok false ∧
    (Vector.SubstractAndSet ⟨0, 0, 0⟩ (exampleLitShape.m_coordinates.getD 0 default)).LengthFixed =
      Except.ok 0 ∧
    Shape.ApplyLighting exampleLitShape [⟨0, 0, 65536⟩] [0, 0, 0] ⟨32768⟩
        [some (Light.TypePoint { exampleConstantLight false with m_position := ⟨0, 0, 0⟩ })] =
      Except.error NovaError.divideByZero ∧
    Shape.ApplyLighting.skip exampleLitShape ⟨100, 0, 0⟩ 0 = Except.ok false ∧
    Shape.ApplyLighting exampleLitShape [⟨0, 0, 65536⟩] [0, 0, 0] ⟨32768⟩
        [some (Light.TypePoint { exampleConstantLight false with m_position := ⟨100, 0, 0⟩ })] =
      Except.error NovaError.divideByZero := by
  decide

/-! ## C36 -/

theorem texturedPixels_first (r : Renderer) (texture : Texture) (row dudx dvdx dzdx : Int)
    (len : Nat) (column leftU leftV leftZ : Int) :
    r.texturedPixels texture row dudx dvdx dzdx (len + 1) column leftU leftV leftZ =
      { row := row, column := column,
        color := (texture.GetPalette.getD []).getD
          (texture.texel (r.realCoordinate leftU leftZ) (r.realCoordinate leftV leftZ)) 0 } ::
        r.texturedPixels texture row dudx dvdx dzdx len (column + 1)
          (wrap32 (leftU + dudx)) (wrap32 (leftV + dvdx)) (wrap32 (leftZ + dzdx)) := rfl

theorem inverse_depth_range {z : Int} (h0 : 65536 ≤ z) (h1 : z ≤ 2147483647) :
    2 ≤ MaxUint32 / z ∧ MaxUint32 / z ≤ 65535 := by
  unfold MaxUint32
  constructor
  · exact (Int.le_ediv_iff_mul_le (by omega)).mpr (by omega)
  · have : (4294967295 : Int) / z < 65536 := (Int.ediv_lt_iff_lt_mul (by omega)).mpr (by omega)
    omega

theorem DivLookup_of_range (r : Renderer) {q : Int} (h0 : 1 ≤ q) (h1 : q ≤ 65535) :
    r.DivLookup q = wrap32 (MaxUint32 / q) := by
  unfold Renderer.DivLookup
  have hq : toU32 q &&& 0xffff = q.toNat := by
    rw [toU32_of_nonneg q (by omega) (by omega)]
    have := Nat.and_pow_two_sub_one_eq_mod q.toNat 16
    norm_num at this
    rw [this]
    apply Nat.mod_eq_of_lt
    omega
  simp only [hq]
  rw [if_neg (by omega)]
  congr 2
  omega

theorem FixedLargeMul_texel {U q : Int} (hU : 0 ≤ U ∧ U < 1024) (hq : 0 ≤ q ∧ q ≤ 65535) :
    FixedLargeMul (U * 65536) q = Except.ok (U * q) := by
  have hb : 0 ≤ U * q ∧ U * q ≤ 1023 * 65535 :=
    ⟨mul_nonneg hU.1 hq.1, mul_le_mul (by omega) hq.2 hq.1 (by norm_num)⟩
  have e : U * 65536 * q / 65536 = U * q := by
    rw [show U * 65536 * q = U * q * 65536 by ring]
    exact Int.mul_ediv_cancel _ (by norm_num)
  have := FixedLargeMul_ok (a := U * 65536) (b := q) (by rw [e]; omega)
  rw [e] at this
  exact this

theorem recovered_texel (r : Renderer) {U q : Int} (hU : 0 ≤ U ∧ U < 1024)
    (hq : 2 ≤ q ∧ q ≤ 65535) :
    r.realCoordinate (U * q) q = if U = 0 then 0 else U - 1 := by
  unfold Renderer.realCoordinate
  rw [DivLookup_of_range r (by omega) hq.2, Int.shiftRight_eq_div_pow]
  have hR : 0 ≤ MaxUint32 / q ∧ MaxUint32 / q ≤ 2147483647 := by
    unfold MaxUint32
    constructor
    · exact Int.ediv_nonneg (by norm_num) (by omega)
    · have : (4294967295 : Int) / q < 2147483648 :=
        (Int.ediv_lt_iff_lt_mul (by omega)).mpr (by omega)
      omega
  rw [wrap32_of_inInt32 ⟨by omega, hR.2⟩]
  have hrem0 := Int.emod_nonneg MaxUint32 (show q ≠ 0 by omega)
  have hrem1 := Int.emod_lt_of_pos MaxUint32 (show 0 < q by omega)
  have hdiv := Int.emod_add_ediv MaxUint32 q
  unfold MaxUint32 at hrem0 hrem1 hdiv hR ⊢
  have hP : 4294967296 - q ≤ q * (4294967295 / q) ∧ q * (4294967295 / q) ≤ 4294967295 := by
    constructor <;> omega
  have hUq : 0 ≤ U * q ∧ U * q ≤ 1023 * 65535 :=
    ⟨mul_nonneg hU.1 (by omega), mul_le_mul (by omega) hq.2 (by omega) (by norm_num)⟩
  have hX1 : U * (q * (4294967295 / q)) ≤ U * 4294967295 :=
    mul_le_mul_of_nonneg_left hP.2 hU.1
  have hX0 : U * (4294967296 - q) ≤ U * (q * (4294967295 / q)) :=
    mul_le_mul_of_nonneg_left hP.1 hU.1
  have e : U * q * (4294967295 / q) = U * (q * (4294967295 / q)) := by ring
  have e2 : U * (4294967296 - q) = U * 4294967296 - U * q := by ring
  rw [e]
  rw [e2] at hX0
  norm_num
  by_cases h0 : U = 0
  · rw [if_pos h0, h0, zero_mul]
    decide
  · rw [if_neg h0]
    generalize U * (q * (4294967295 / q)) = X at hX0 hX1
    generalize U * q = Y at hUq hX0
    have hd : X / 4294967296 = U - 1 := by omega
    rw [hd]
    exact wrap32_of_inInt32 ⟨by omega, by omega⟩

/-- C36 as stated fails: for the texel coordinate `U = 1` at the depth 1.0,
`CalculateInverses` stores `1/z = 65535` and `u/z = 65535`, `DivLookup`
returns 65537, and the recovered value `(65535 * 65537) >> 32` is 0, not 1. -/
theorem C36_counterexample :
    CalculateInverses (texelVertex 1 1 65536) =
      Except.ok { texelVertex 1 1 65536 with m_z := 65535, m_redU := 65535, m_greenV := 65535 } ∧
    exampleRenderer.DivLookup 65535 = 65537 ∧
    exampleRenderer.realCoordinate 65535 65535 = 0 := by
  decide

/-- C36 (amended): for every integer texel coordinate `U` with
`0 <= U < 1024` (`u = U * 2^16`, and likewise `V`) and every depth `z` from
`FixedPointOne` up, `CalculateInverses` returns, and recovering as the span
routines do, `((u/z) * DivLookup( 1/z )) >> 32`, yields `U - 1` when `U` is
at least 1 and 0 when `U` is 0: one texel below the vertex's. -/
theorem C36_recovered_texel_one_below (r : Renderer) (U V z : Int)
    (hU : 0 ≤ U ∧ U < 1024) (hV : 0 ≤ V ∧ V < 1024) (hz : FixedPointOne ≤ z ∧ z ≤ 2147483647) :
    ∃ w, CalculateInverses (texelVertex U V z) = Except.ok w ∧
      w.m_z = MaxUint32 / z ∧ w.m_redU = U * w.m_z ∧ w.m_greenV = V * w.m_z ∧
      r.realCoordinate w.m_redU w.m_z = (if U = 0 then 0 else U - 1) ∧
      r.realCoordinate w.m_greenV w.m_z = (if V = 0 then 0 else V - 1) := by
  unfold FixedPointOne at hz
  obtain ⟨hq0, hq1⟩ := inverse_depth_range hz.1 hz.2
  have hzu : wrapU32 z = z := by
    unfold wrapU32
    omega
  have hw : wrap32 (MaxUint32 / z) = MaxUint32 / z := wrap32_of_inInt32 ⟨by omega, by omega⟩
  unfold CalculateInverses texelVertex
  simp only [hzu, hw]
  rw [if_neg (by omega), FixedLargeMul_texel hU ⟨by omega, hq1⟩,
    FixedLargeMul_texel hV ⟨by omega, hq1⟩]
  simp only [ok_bind, pure_eq_ok]
  exact ⟨_, rfl, rfl, rfl, rfl, recovered_texel r hU ⟨hq0, hq1⟩, recovered_texel r hV ⟨hq0, hq1⟩⟩

/-- Witness for C36 at `U = 5`, `V = 0` and the depth 3.0. -/
theorem C36_recovered_texel_one_below_witness :
    ∃ w, CalculateInverses (texelVertex 5 0 196608) = Except.ok w ∧
      w.m_z = MaxUint32 / 196608 ∧ w.m_redU = 5 * w.m_z ∧ w.m_greenV = 0 * w.m_z ∧
      exampleRenderer.realCoordinate w.m_redU w.m_z = (if (5 : Int) = 0 then 0 else 5 - 1) ∧
      exampleRenderer.realCoordinate w.m_greenV w.m_z = (if (0 : Int) = 0 then 0 else 0 - 1) :=
  C36_recovered_texel_one_below exampleRenderer 5 0 196608 (by decide) (by decide) (by decide)

/-! ## C37 -/

theorem spanStart_textured (r : Renderer) (texture : Texture)
    (row dudx dvdx dzdx right leftU leftV leftZ intensityLeft len left : Int) :
    Renderer.DrawTexturedSpan.draw r texture row dudx dvdx dzdx right leftU leftV leftZ len left =
      r.texturedPixelsFrom texture row dudx dvdx dzdx
        (r.spanStart right leftU leftV leftZ intensityLeft len left) := by
  unfold Renderer.DrawTexturedSpan.draw Renderer.spanStart Renderer.texturedPixelsFrom
  simp only
  split_ifs <;> rfl

theorem spanStart_lighted (r : Renderer) (texture : Texture)
    (row dudx dvdx dzdx didx right leftU leftV leftZ intensityLeft len left : Int) :
    Renderer.DrawLightedTexturedSpan.draw r texture row dudx dvdx dzdx didx right leftU leftV
        leftZ intensityLeft len left =
      r.lightedPixelsFrom texture row dudx dvdx dzdx didx
        (r.spanStart right leftU leftV leftZ intensityLeft len left) := by
  unfold Renderer.DrawLightedTexturedSpan.draw Renderer.spanStart Renderer.lightedPixelsFrom
  simp only
  split_ifs <;> rfl

/-- `DrawTexturedSpan` draws the pixel loop from the values of
`DrawTexturedSpan.start`. -/
theorem DrawTexturedSpan_from_start (r : Renderer)
    (leftX rightX leftU leftV leftZ dudx dvdx dzdx row : Int) (texture : Texture) :
    r.DrawTexturedSpan leftX rightX leftU leftV leftZ dudx dvdx dzdx row texture =
      (Renderer.DrawTexturedSpan.start r leftX rightX leftU leftV leftZ dudx dvdx dzdx).map
        (r.texturedPixelsFrom texture row dudx dvdx dzdx) := by
  simp only [Renderer.DrawTexturedSpan, Renderer.DrawTexturedSpan.start]
  cases FixedLargeMul (wrap32 (wrap32 (CeilFixed leftX * 65536) - leftX)) dudx with
  | error e => rfl
  | ok a =>
    cases FixedLargeMul (wrap32 (wrap32 (CeilFixed leftX * 65536) - leftX)) dvdx with
    | error e => rfl
    | ok b =>
      cases FixedLargeMul (wrap32 (wrap32 (CeilFixed leftX * 65536) - leftX)) dzdx with
      | error e => rfl
      | ok c =>
        simp only [ok_bind]
        split_ifs
        · rfl
        · cases FixedLargeMul (wrap32 (wrap32 (r.m_canvas.m_left * 65536) - leftX)) dudx with
          | error e => rfl
          | ok a' =>
            cases FixedLargeMul (wrap32 (wrap32 (r.m_canvas.m_left * 65536) - leftX)) dvdx with
            | error e => rfl
            | ok b' =>
              cases FixedLargeMul (wrap32 (wrap32 (r.m_canvas.m_left * 65536) - leftX))
                  dzdx with
              | error e => rfl
              | ok c' =>
                simp only [ok_bind, pure_eq_ok, Except.map]
                rw [spanStart_textured r texture row dudx dvdx dzdx _ _ _ _ 0]
        · simp only [pure_eq_ok, Except.map]
          rw [spanStart_textured r texture row dudx dvdx dzdx _ _ _ _ 0]

/-- `DrawLightedTexturedSpan` draws the pixel loop from the values of
`DrawLightedTexturedSpan.start`. -/
theorem DrawLightedTexturedSpan_from_start (r : Renderer)
    (leftX rightX leftU leftV leftZ intensityLeft dudx dvdx dzdx didx row : Int)
    (texture : Texture) :
    r.DrawLightedTexturedSpan leftX rightX leftU leftV leftZ intensityLeft dudx dvdx dzdx didx
        row texture =
      (Renderer.DrawLightedTexturedSpan.start r leftX rightX leftU leftV leftZ intensityLeft
        dudx dvdx dzdx didx).map (r.lightedPixelsFrom texture row dudx dvdx dzdx didx) := by
  simp only [Renderer.DrawLightedTexturedSpan, Renderer.DrawLightedTexturedSpan.start]
  cases FixedLargeMul (wrap32 (wrap32 (CeilFixed leftX * 65536) - leftX)) dudx with
  | error e => rfl
  | ok a =>
    cases FixedLargeMul (wrap32 (wrap32 (CeilFixed leftX * 65536) - leftX)) dvdx with
    | error e => rfl
    | ok b =>
      cases FixedLargeMul (wrap32 (wrap32 (CeilFixed leftX * 65536) - leftX)) dzdx with
      | error e => rfl
      | ok c =>
        simp only [ok_bind]
        split_ifs
        · rfl
        · cases FixedLargeMul (wrap32 (wrap32 (r.m_canvas.m_left * 65536) - leftX)) dudx with
          | error e => rfl
          | ok a' =>
            cases FixedLargeMul (wrap32 (wrap32 (r.m_canvas.m_left * 65536) - leftX)) dvdx with
            | error e => rfl
            | ok b' =>
              cases FixedLargeMul (wrap32 (wrap32 (r.m_canvas.m_left * 65536) - leftX))
                  dzdx with
              | error e => rfl
              | ok c' =>
                cases FixedLargeMul (wrap32 (wrap32 (r.m_canvas.m_left * 65536) - leftX))
                    didx with
                | error e => rfl
                | ok d' =>
                  simp only [ok_bind, pure_eq_ok, Except.map]
                  rw [spanStart_lighted]
        · simp only [pure_eq_ok, Except.map]
          rw [spanStart_lighted]

/-- C37: a span from `leftX = -2.5` to `rightX = 5.0` on the canvas with
`m_left = 0`, with `leftU = leftV = 0`, `leftZ = 1000` and the gradients
1.0, 2.0 and 4 per pixel, is clipped at the left edge and starts at column
0.  Both span functions use `U = 3.0`, `V = 6.0` and `1/Z = 1012` for that
pixel: the prestep of 0.5 and the clip distance of 2.5 are both added.  The
left-edge values advanced by the distance `0 * 2^16 - leftX = 2.5` are 2.5,
5.0 and 1010.  For the span from `leftX = 1.5`, which is not clipped, the
first pixel is at column 2 with the values advanced by 0.5. -/
theorem C37_clipped_span_adds_prestep_twice :
    Renderer.DrawTexturedSpan.start exampleRenderer (-163840) 327680 0 0 1000 65536 131072 4 =
      Except.ok (some { left := 0, len := 7, leftU := 196608, leftV := 393216, leftZ := 1012,
                        intensityLeft := 0 }) ∧
    Renderer.DrawLightedTexturedSpan.start exampleRenderer (-163840) 327680 0 0 1000 0
        65536 131072 4 0 =
      Except.ok (some { left := 0, len := 7, leftU := 196608, leftV := 393216, leftZ := 1012,
                        intensityLeft := 0 }) ∧
    FixedLargeMul (0 * 65536 - (-163840)) 65536 = Except.ok 163840 ∧
    FixedLargeMul (0 * 65536 - (-163840)) 131072 = Except.ok 327680 ∧
    FixedLargeMul (0 * 65536 - (-163840)) 4 = Except.ok 10 ∧
    Renderer.DrawTexturedSpan.start exampleRenderer 98304 327680 0 0 1000 65536 131072 4 =
      Except.ok (some { left := 2, len := 5, leftU := 32768, leftV := 65536, leftZ := 1002,
                        intensityLeft := 0 }) ∧
    FixedLargeMul (2 * 65536 - 98304) 65536 = Except.ok 32768 := by
  decide

/-! ## C39 -/

theorem scanLeft_within (lo hi : Int) (list : List ScreenPolygon) (p right : Int)
    (hr : right ≤ hi) :
    ∀ (fuel : Nat) (q ql : Int), lo ≤ q → q ≤ right →
      scanLeft list p right fuel q = some ql →
      scanLeftWithin lo hi list p right fuel q = some ql ∧ q ≤ ql ∧ ql ≤ right := by
  intro fuel
  induction fuel with
  | zero =>
    intro q ql _ _ h
    rw [scanLeft] at h
    cases h
  | succ f ih =>
    intro q ql hlo hq h
    rw [scanLeft] at h
    rw [scanLeftWithin]
    unfold zSortAtWithin
    rw [if_pos ⟨hlo, by omega⟩]
    cases hz : zSortAt list q with
    | none =>
      rw [hz] at h
      cases h
    | some z =>
      rw [hz] at h
      simp only at h ⊢
      by_cases hc : z > p ∧ q < right
      · rw [if_pos hc] at h
        rw [if_pos hc]
        obtain ⟨h1, h2, h3⟩ := ih (q + 1) ql (by omega) (by omega) h
        exact ⟨h1, by omega, h3⟩
      · rw [if_neg hc] at h
        rw [if_neg hc]
        cases h
        exact ⟨rfl, le_refl _, hq⟩

theorem scanRight_within (lo hi : Int) (list : List ScreenPolygon) (p left : Int)
    (hl : lo ≤ left) :
    ∀ (fuel : Nat) (q qr : Int), left ≤ q → q ≤ hi →
      scanRight list p left fuel q = some qr →
      scanRightWithin lo hi list p left fuel q = some qr ∧ left ≤ qr ∧ qr ≤ q := by
  intro fuel
  induction fuel with
  | zero =>
    intro q qr _ _ h
    rw [scanRight] at h
    cases h
  | succ f ih =>
    intro q qr hq hhi h
    rw [scanRight] at h
    rw [scanRightWithin]
    unfold zSortAtWithin
    rw [if_pos ⟨by omega, hhi⟩]
    cases hz : zSortAt list q with
    | none =>
      rw [hz] at h
      cases h
    | some z =>
      rw [hz] at h
      simp only at h ⊢
      by_cases hc : p > z ∧ q > left
      · rw [if_pos hc] at h
        rw [if_pos hc]
        obtain ⟨h1, h2, h3⟩ := ih (q - 1) qr (by omega) (by omega) h
        exact ⟨h1, h2, by omega⟩
      · rw [if_neg hc] at h
        rw [if_neg hc]
        cases h
        exact ⟨rfl, hq, le_refl _⟩

theorem partitionLoop_within (lo hi p left right : Int) (sf : Nat) (hl : lo ≤ left)
    (hr : right ≤ hi) :
    ∀ (fuel : Nat) (l : List ScreenPolygon) (i j : Int) (res : List ScreenPolygon × Int × Int),
      left ≤ i → i ≤ j → j ≤ right →
      partitionLoop p left right sf fuel l i j = some res →
      partitionLoopWithin lo hi p left right sf fuel l i j = some res ∧
        left ≤ res.2.1 ∧ res.2.2 ≤ right := by
  intro fuel
  induction fuel with
  | zero =>
    intro l i j res _ _ _ h
    rw [partitionLoop] at h
    cases h
  | succ f ih =>
    intro l i j res hli hij hjr h
    rw [partitionLoop] at h
    rw [partitionLoopWithin]
    cases hsl : scanLeft l p right sf i with
    | none =>
      rw [hsl] at h
      cases h
    | some ql =>
      rw [hsl] at h
      obtain ⟨hslw, hq1, hq2⟩ := scanLeft_within lo hi l p right hr sf i ql (by omega)
        (by omega) hsl
      rw [hslw]
      cases hsr : scanRight l p left sf j with
      | none =>
        rw [hsr] at h
        cases h
      | some qr =>
        rw [hsr] at h
        obtain ⟨hsrw, hr1, hr2⟩ := scanRight_within lo hi l p left hl sf j qr (by omega)
          (by omega) hsr
        rw [hsrw]
        simp only at h ⊢
        by_cases hc : ql ≤ qr
        · rw [if_pos hc] at h
          rw [if_pos hc]
          unfold swapFacesWithin
          rw [if_pos ⟨by omega, by omega, by omega, by omega⟩]
          cases hsw : swapFaces l ql qr with
          | none =>
            rw [hsw] at h
            cases h
          | some l' =>
            rw [hsw] at h
            simp only at h ⊢
            by_cases hc2 : ql + 1 ≤ qr - 1
            · rw [if_pos hc2] at h
              rw [if_pos hc2]
              exact ih l' (ql + 1) (qr - 1) res (by omega) hc2 (by omega) h
            · rw [if_neg hc2] at h
              rw [if_neg hc2]
              cases h
              exact ⟨rfl, by simp only; omega, by simp only; omega⟩
        · rw [if_neg hc] at h
          rw [if_neg hc]
          cases h
          exact ⟨rfl, by simp only; omega, by simp only; omega⟩

/-- A run of `DepthSort` that returns makes every read and swap inside the
range it was called on, or any wider one. -/
theorem DepthSort_within (lo hi : Int) :
    ∀ (fuel : Nat) (l r : List ScreenPolygon) (left right : Int), lo ≤ left → left ≤ right →
      right ≤ hi → DepthSort fuel l left right = some r →
      DepthSortWithin lo hi fuel l left right = some r := by
  intro fuel
  induction fuel with
  | zero =>
    intro l r left right _ _ _ h
    rw [DepthSort] at h
    cases h
  | succ f ih =>
    intro l r left right hlo hlr hhi h
    rw [DepthSort] at h
    rw [DepthSortWithin]
    have hmid : (left + right) >>> (1 : Nat) = (left + right) / 2 := shiftRight_one _
    unfold zSortAtWithin
    rw [if_pos ⟨by rw [hmid]; omega, by rw [hmid]; omega⟩]
    cases hz : zSortAt l ((left + right) >>> (1 : Nat)) with
    | none =>
      rw [hz] at h
      cases h
    | some p =>
      rw [hz] at h
      simp only at h ⊢
      cases hp : partitionLoop p left right f f l left right with
      | none =>
        rw [hp] at h
        cases h
      | some res =>
        obtain ⟨l1, qleft, qright⟩ := res
        rw [hp] at h
        obtain ⟨hpw, hq1, hq2⟩ :=
          partitionLoop_within lo hi p left right f hlo hhi f l left right _ (le_refl _) hlr
            (le_refl _) hp
        rw [hpw]
        simp only at h hq1 hq2 ⊢
        by_cases hc1 : left < qright
        · rw [if_pos hc1] at h
          rw [if_pos hc1]
          cases hd1 : DepthSort f l1 left qright with
          | none =>
            rw [hd1] at h
            cases h
          | some l2 =>
            rw [hd1] at h
            rw [ih l1 l2 left qright hlo (by omega) (by omega) hd1]
            simp only at h ⊢
            by_cases hc2 : qleft < right
            · rw [if_pos hc2] at h
              rw [if_pos hc2]
              exact ih l2 r qleft right (by omega) (by omega) hhi h
            · rw [if_neg hc2] at h
              rw [if_neg hc2]
              exact h
        · rw [if_neg hc1] at h
          rw [if_neg hc1]
          simp only at h ⊢
          by_cases hc2 : qleft < right
          · rw [if_pos hc2] at h
            rw [if_pos hc2]
            exact ih l1 r qleft right (by omega) (by omega) hhi h
          · rw [if_neg hc2] at h
            rw [if_neg hc2]
            exact h

/-- C39: for every pointer list and all `0 <= left <= right < n`,
`DepthSort( left, right )` terminates (a loop budget of `right - left + 2` is
enough for every loop and for the recursion), and the same run with every
read and swap of a list entry checked against `left .. right` returns the
same list: no index outside `[left, right]` is read or swapped. -/
theorem C39_DepthSort_terminates_within_range (list : List ScreenPolygon) (left right : Int)
    (fuel : Nat) (h0 : 0 ≤ left) (hlr : left ≤ right) (hrn : right < list.length)
    (hfuel : (fuel : Int) ≥ right - left + 2) :
    ∃ list', DepthSort fuel list left right = some list' ∧
      DepthSortWithin left right fuel list left right = some list' := by
  obtain ⟨l', hres, _, _⟩ := DepthSort_spec fuel list left right h0 hlr hrn hfuel
  exact ⟨l', hres, DepthSort_within left right fuel list l' left right (le_refl _) hlr
    (le_refl _) hres⟩

/-- Witness for C39: the range `2 .. 5` of eight polygons with keys 3, 1, 4,
1, 5, 9, 2, 6. -/
theorem C39_DepthSort_terminates_within_range_witness :
    ∃ list', DepthSort 5 ([3, 1, 4, 1, 5, 9, 2, 6].map faceWithZ) 2 5 = some list' ∧
      DepthSortWithin 2 5 5 ([3, 1, 4, 1, 5, 9, 2, 6].map faceWithZ) 2 5 = some list' :=
  C39_DepthSort_terminates_within_range ([3, 1, 4, 1, 5, 9, 2, 6].map faceWithZ) 2 5 5
    (by decide) (by decide) (by decide) (by decide)

/-- The checked run on the example: the range `2 .. 5` is sorted, the rest
is untouched; with the range `3 .. 5` as the check the same call is stopped. -/
theorem DepthSortWithin_example :
    (DepthSortWithin 2 5 5 ([3, 1, 4, 1, 5, 9, 2, 6].map faceWithZ) 2 5).map
        (fun l => l.map (fun f => f.m_zSortValue)) = some [3, 1, 9, 5, 4, 1, 2, 6] ∧
    DepthSortWithin 3 5 5 ([3, 1, 4, 1, 5, 9, 2, 6].map faceWithZ) 2 5 = none := by
  decide

/-! ## Normalisation: numerical lemmas -/

/-- `FastSqrt` is the integer square root on `uint_32`. -/
theorem FastSqrt_bounds (n : Nat) (hn : n < 4294967296) :
    FastSqrt n * FastSqrt n ≤ n ∧ n < (FastSqrt n + 1) * (FastSqrt n + 1) := by
  have h16 : SqrtInv 16 n (n % 4294967296, 0) := by
    refine ⟨0, rfl, by simp, ?_, ?_, by norm_num⟩
    · simp [Nat.mod_eq_of_lt hn]
    · norm_num; omega
  have h0 := SqrtInv_step 0 n _ (SqrtInv_step 1 n _ (SqrtInv_step 2 n _ (SqrtInv_step 3 n _
    (SqrtInv_step 4 n _ (SqrtInv_step 5 n _ (SqrtInv_step 6 n _ (SqrtInv_step 7 n _
    (SqrtInv_step 8 n _ (SqrtInv_step 9 n _ (SqrtInv_step 10 n _ (SqrtInv_step 11 n _
    (SqrtInv_step 12 n _ (SqrtInv_step 13 n _ (SqrtInv_step 14 n _
    (SqrtInv_step 15 n _ h16)))))))))))))))
  obtain ⟨r, hroot, -, hrem, hub, -⟩ := h0
  have hres : FastSqrt n = r := by
    unfold FastSqrt
    simp only
    rw [hroot, Nat.shiftRight_eq_div_pow]
    omega
  rw [hres]
  constructor
  · omega
  · simpa using hub

theorem FixedLargeMul_value {a b m : Int} (h : FixedLargeMul a b = Except.ok m) :
    m = a * b / 65536 ∧ InInt32 m := by
  unfold FixedLargeMul at h
  simp only [shiftRight16] at h
  split_ifs at h with hc
  have := Except.ok.inj h
  rw [← this]
  exact ⟨rfl, by unfold InInt32; omega⟩

/-- One component through `FixedLargeMul( x, N )`: with `u = x * N` and the
result `x' = floor( u / 65536 )`, the square of `65536 * x'` is within a
factor `1 plus or minus 1/32768` of `u * u`, up to `32768 * 65536^2`. -/
theorem scaled_square_bounds (u : Int) :
    32767 * (u * u) - 32768 * 32767 * (65536 * 65536) ≤
        32768 * (65536 * 65536) * (u / 65536 * (u / 65536)) ∧
      32768 * (65536 * 65536) * (u / 65536 * (u / 65536)) ≤
        32769 * (u * u) + 32768 * 32769 * (65536 * 65536) := by
  have he0 := Int.emod_nonneg u (show (65536 : Int) ≠ 0 by norm_num)
  have he1 := Int.emod_lt_of_pos u (show (0 : Int) < 65536 by norm_num)
  have hd := Int.emod_add_ediv u 65536
  generalize u % 65536 = e at he0 he1 hd
  generalize u / 65536 = q at hd
  have hu : u = e + 65536 * q := hd.symm
  subst hu
  have hee : e * e ≤ 65536 * 65536 := by nlinarith
  constructor
  · nlinarith [sq_nonneg (e + 65536 * q - 32768 * e)]
  · nlinarith [sq_nonneg (e + 65536 * q + 32768 * e)]

theorem floor_square_sum (x y z : Int) :
    65536 * (x * x / 65536 + y * y / 65536 + z * z / 65536) ≤ x * x + y * y + z * z ∧
      x * x + y * y + z * z <
        65536 * (x * x / 65536 + y * y / 65536 + z * z / 65536) + 3 * 65536 := by
  constructor <;> omega

/-- The numerical core of `Normalize`: for a vector whose fixed squared
length `D` is between 1.0 and the largest `int_32`, with `len` the integer
square root of `D` and `N = floor( 16776960 / len )`, the components
`floor( x * N / 65536 )` have a sum of squares between `65028 * 65536` and
`66564 * 65536`. -/
theorem normalized_square_sum (x y z len : Int)
    (hD0 : 65536 ≤ x * x / 65536 + y * y / 65536 + z * z / 65536)
    (hD1 : x * x / 65536 + y * y / 65536 + z * z / 65536 ≤ 2147483647)
    (hl0 : len * len ≤ x * x / 65536 + y * y / 65536 + z * z / 65536)
    (hl1 : x * x / 65536 + y * y / 65536 + z * z / 65536 < (len + 1) * (len + 1))
    (hlen : 0 ≤ len) :
    65028 * 65536 ≤
        x * (16776960 / len) / 65536 * (x * (16776960 / len) / 65536) +
        y * (16776960 / len) / 65536 * (y * (16776960 / len) / 65536) +
        z * (16776960 / len) / 65536 * (z * (16776960 / len) / 65536) ∧
      x * (16776960 / len) / 65536 * (x * (16776960 / len) / 65536) +
        y * (16776960 / len) / 65536 * (y * (16776960 / len) / 65536) +
        z * (16776960 / len) / 65536 * (z * (16776960 / len) / 65536) < 66564 * 65536 := by
  obtain ⟨hS0, hS1⟩ := floor_square_sum x y z
  generalize x * x / 65536 + y * y / 65536 + z * z / 65536 = D at hD0 hD1 hl0 hl1 hS0 hS1
  -- the range of `len`
  have hlen0 : 256 ≤ len := by
    by_contra hc
    have h1 : (len + 1) * (len + 1) ≤ 256 * 256 :=
      mul_self_le_mul_self (by omega) (by omega)
    omega
  have hlen1 : len ≤ 46340 := by
    by_contra hc
    have h1 : (46341 : Int) * 46341 ≤ len * len :=
      mul_self_le_mul_self (by norm_num) (by omega)
    omega
  -- the reciprocal
  have hN0 := Int.emod_nonneg 16776960 (show len ≠ 0 by omega)
  have hN1 := Int.emod_lt_of_pos 16776960 (show 0 < len by omega)
  have hNd := Int.emod_add_ediv 16776960 len
  have hNlo : 362 ≤ 16776960 / len :=
    (Int.le_ediv_iff_mul_le (by omega)).mpr (by omega)
  have hNhi : 16776960 / len ≤ 65535 := by
    have : (16776960 : Int) / len < 65536 := (Int.ediv_lt_iff_lt_mul (by omega)).mpr (by omega)
    omega
  generalize (16776960 : Int) / len = N at hNd hNlo hNhi ⊢
  generalize (16776960 : Int) % len = rem at hN0 hN1 hNd
  rw [mul_comm len N] at hNd
  have hP0 : 16730621 ≤ N * len := by omega
  have hP1 : N * len ≤ 16776960 := by omega
  -- the sum of squares of the products `x * N`
  have hS : x * N * (x * N) + y * N * (y * N) + z * N * (z * N) =
      N * N * (x * x + y * y + z * z) := by ring
  have hNN : 0 ≤ N * N := mul_self_nonneg N
  have hU0 : 65536 * (16730621 * 16730621) ≤
      x * N * (x * N) + y * N * (y * N) + z * N * (z * N) := by
    rw [hS]
    have h1 : (16730621 : Int) * 16730621 ≤ N * len * (N * len) :=
      mul_self_le_mul_self (by norm_num) hP0
    have h2 : N * N * (65536 * (len * len)) ≤ N * N * (x * x + y * y + z * z) :=
      mul_le_mul_of_nonneg_left (by omega) hNN
    have h3 : N * N * (65536 * (len * len)) = 65536 * (N * len * (N * len)) := by ring
    rw [h3] at h2
    generalize N * len * (N * len) = a at h1 h2
    generalize N * N * (x * x + y * y + z * z) = b at h2 ⊢
    omega
  have hU1 : x * N * (x * N) + y * N * (y * N) + z * N * (z * N) ≤
      65536 * (16842495 * 16842495 + 2 * (65535 * 65535)) := by
    rw [hS]
    have h0 : (len + 1) * (len + 1) = len * len + 2 * len + 1 := by ring
    have h1 : x * x + y * y + z * z ≤ 65536 * (len * len + 2 * len + 3) := by omega
    have h2 : N * N * (x * x + y * y + z * z) ≤ N * N * (65536 * (len * len + 2 * len + 3)) :=
      mul_le_mul_of_nonneg_left h1 hNN
    have h3 : 0 ≤ N * len + N := by omega
    have h4 : (N * len + N) * (N * len + N) ≤ 16842495 * 16842495 :=
      mul_self_le_mul_self h3 (by omega)
    have h5 : N * N ≤ 65535 * 65535 := mul_self_le_mul_self (by omega) hNhi
    have h6 : N * N * (65536 * (len * len + 2 * len + 3)) =
        65536 * ((N * len + N) * (N * len + N) + 2 * (N * N)) := by ring
    rw [h6] at h2
    generalize (N * len + N) * (N * len + N) = a at h2 h4
    generalize N * N * (x * x + y * y + z * z) = b at h2 ⊢
    generalize N * N = c at h2 h5
    omega
  obtain ⟨hx0, hx1⟩ := scaled_square_bounds (x * N)
  obtain ⟨hy0, hy1⟩ := scaled_square_bounds (y * N)
  obtain ⟨hz0, hz1⟩ := scaled_square_bounds (z * N)
  generalize x * N * (x * N) = ux at hU0 hU1 hx0 hx1
  generalize y * N * (y * N) = uy at hU0 hU1 hy0 hy1
  generalize z * N * (z * N) = uz at hU0 hU1 hz0 hz1
  generalize x * N / 65536 * (x * N / 65536) = sx at hx0 hx1 ⊢
  generalize y * N / 65536 * (y * N / 65536) = sy at hy0 hy1 ⊢
  generalize z * N / 65536 * (z * N / 65536) = sz at hz0 hz1 ⊢
  clear hS hNN hP0 hP1 hNd hN0 hN1 hNlo hNhi hlen0 hlen1 hS0 hS1 hl0 hl1 hD0 hD1 hlen
  constructor <;> omega

theorem DotProductFixed_self_value (v : Vector) (h : v.squaredLength ≤ 2147483647) :
    v.DotProductFixed v = Except.ok v.squaredLength := by
  unfold Vector.squaredLength at h
  have hx : 0 ≤ v.m_x * v.m_x / 65536 := Int.ediv_nonneg (mul_self_nonneg _) (by norm_num)
  have hy : 0 ≤ v.m_y * v.m_y / 65536 := Int.ediv_nonneg (mul_self_nonneg _) (by norm_num)
  have hz : 0 ≤ v.m_z * v.m_z / 65536 := Int.ediv_nonneg (mul_self_nonneg _) (by norm_num)
  unfold Vector.DotProductFixed FixedTripleMul Vector.squaredLength
  rw [FixedLargeMul_ok (by omega), FixedLargeMul_ok (by omega), FixedLargeMul_ok (by omega)]
  simp only [ok_bind, pure_eq_ok]
  rw [wrap32_of_inInt32 (x := v.m_x * v.m_x / 65536 + v.m_y * v.m_y / 65536)
    (by unfold InInt32; omega), wrap32_of_inInt32 (by unfold InInt32; omega)]

theorem FastSqrt_int_bounds (D : Int) (h0 : 0 ≤ D) (h1 : D < 4294967296) :
    ((FastSqrt (wrapU32 D).toNat : Nat) : Int) * (FastSqrt (wrapU32 D).toNat : Nat) ≤ D ∧
      D < ((FastSqrt (wrapU32 D).toNat : Nat) + 1 : Int) * ((FastSqrt (wrapU32 D).toNat : Nat) + 1) := by
  have hw : wrapU32 D = D := by unfold wrapU32; omega
  rw [hw]
  obtain ⟨a, b⟩ := FastSqrt_bounds D.toNat (by omega)
  have hD : ((D.toNat : Nat) : Int) = D := Int.toNat_of_nonneg h0
  constructor
  · have := (Int.ofNat_le.mpr a)
    push_cast at this
    rw [hD] at this
    exact this
  · have := (Int.ofNat_lt.mpr b)
    push_cast at this
    rw [hD] at this
    exact this

/-- The length of what `Normalize` returns, for a vector whose squared length
after `CheckPrecision` is at least 1.0 and fits `int_32`. -/
theorem Normalize_length (c w n : Vector) (hw : c.CheckPrecision = Except.ok w)
    (h0 : 65536 ≤ w.squaredLength) (h1 : w.squaredLength ≤ 2147483647)
    (hn : c.Normalize = Except.ok n) :
    ∃ L, n.LengthFixed = Except.ok L ∧ |L - FixedPointOne| ≤ 256 := by
  unfold Vector.Normalize at hn
  rw [hw] at hn
  simp only [ok_bind] at hn
  rw [DotProductFixed_self_value w h1] at hn
  rw [ok_bind] at hn
  obtain ⟨hl0, hl1⟩ := FastSqrt_int_bounds w.squaredLength (by omega) (by omega)
  have hlen : (0 : Int) ≤ (FastSqrt (wrapU32 w.squaredLength).toNat : Nat) := Int.ofNat_nonneg _
  generalize ((FastSqrt (wrapU32 w.squaredLength).toNat : Nat) : Int) = len at hn hl0 hl1 hlen
  have hS := normalized_square_sum w.m_x w.m_y w.m_z len h0 h1 hl0 hl1 hlen
  have hlen0 : 256 ≤ len := by
    by_contra hc
    have h2 : (len + 1) * (len + 1) ≤ 256 * 256 :=
      mul_self_le_mul_self (by omega) (by omega)
    omega
  rw [if_neg (by omega)] at hn
  have hNlo : 0 ≤ 16776960 / len := Int.ediv_nonneg (by norm_num) (by omega)
  have hNhi : 16776960 / len < 65536 := (Int.ediv_lt_iff_lt_mul (by omega)).mpr (by omega)
  have hinv : wrap32 ((FixedPointOne - 1) * 256 / len) = 16776960 / len := by
    have : (FixedPointOne - 1) * 256 = 16776960 := by decide
    rw [this]
    exact wrap32_of_inInt32 (by unfold InInt32; omega)
  simp only [hinv] at hn
  cases hx : FixedLargeMul w.m_x (16776960 / len) with
  | error e => rw [hx] at hn; cases hn
  | ok x =>
  cases hy : FixedLargeMul w.m_y (16776960 / len) with
  | error e => rw [hx, hy] at hn; cases hn
  | ok y =>
  cases hz : FixedLargeMul w.m_z (16776960 / len) with
  | error e => rw [hx, hy, hz] at hn; cases hn
  | ok z =>
  rw [hx, hy, hz] at hn
  simp only [ok_bind, pure_eq_ok] at hn
  have hx := (FixedLargeMul_value hx).1
  have hy := (FixedLargeMul_value hy).1
  have hz := (FixedLargeMul_value hz).1
  have hn := Except.ok.inj hn
  subst hn
  rw [← hx, ← hy, ← hz] at hS
  obtain ⟨hF0, hF1⟩ := floor_square_sum x y z
  have hD : Vector.squaredLength { m_x := x, m_y := y, m_z := z } =
      x * x / 65536 + y * y / 65536 + z * z / 65536 := rfl
  clear hl0 hl1 h0 h1 hlen hlen0 hNlo hNhi hinv hw hx hy hz
  obtain ⟨hS0, hS1⟩ := hS
  obtain ⟨D, hDD⟩ : ∃ D, Vector.squaredLength { m_x := x, m_y := y, m_z := z } = D := ⟨_, rfl⟩
  rw [hDD] at hD
  rw [← hD] at hF0 hF1
  generalize x * x + y * y + z * z = S at hF0 hF1 hS0 hS1
  have hD0 : 65025 ≤ D := by omega
  have hD1 : D < 66564 := by omega
  clear hF0 hF1 hS0 hS1 hD
  unfold Vector.LengthFixed
  rw [DotProductFixed_self_value _ (by omega), hDD, ok_bind, pure_eq_ok]
  obtain ⟨hr0, hr1⟩ := FastSqrt_int_bounds D (by omega) (by omega)
  generalize FastSqrt (wrapU32 D).toNat = r at hr0 hr1 ⊢
  have hr255 : 255 ≤ r := by
    by_contra hc
    have h2 : ((r : Int) + 1) * (r + 1) ≤ 255 * 255 :=
      mul_self_le_mul_self (by omega) (by omega)
    omega
  have hr257 : r ≤ 257 := by
    by_contra hc
    have h2 : (258 : Int) * 258 ≤ (r : Int) * r :=
      mul_self_le_mul_self (by norm_num) (by omega)
    omega
  refine ⟨_, rfl, ?_⟩
  interval_cases r <;> decide

/-! ## C35 -/

set_option maxRecDepth 8192 in
/-- C35, counterexample: the triangle (0,0,0), (4096,0,0), (0,4800,0) (raw
fixed-point values, the points are not collinear: the cross product of the
edges is (0,0,300)) makes `PlaneEquation::Calculate` complete with the normal
(0,0,76798), whose `LengthFixed` is 76544: 11008 raw units above
`FixedPointOne`. -/
theorem C35_counterexample :
    PlaneEquation.Calculate.cross ⟨0, 0, 0⟩ ⟨4096, 0, 0⟩ ⟨0, 4800, 0⟩ =
        Except.ok ⟨0, 0, 300⟩ ∧
      PlaneEquation.Calculate ⟨0, 0, 0⟩ ⟨4096, 0, 0⟩ ⟨0, 4800, 0⟩ =
        Except.ok { m_normal := ⟨0, 0, 76798⟩, m_fixedD := 0 } ∧
      Vector.LengthFixed ⟨0, 0, 76798⟩ = Except.ok 76544 ∧
      ¬ (|(76544 : Int) - FixedPointOne| ≤ 256) := by
  decide

/-- C35, amended: when `PlaneEquation::Calculate` completes and the cross
product of the two edges, after `CheckPrecision`, has a fixed squared length
of at least 1.0 that fits `int_32`, `LengthFixed` of the normal exists and
differs from `FixedPointOne` by at most 256 raw units. -/
theorem C35_normal_length_near_one (v1 v2 v3 c w : Vector) (plane : PlaneEquation)
    (hcalc : PlaneEquation.Calculate v1 v2 v3 = Except.ok plane)
    (hc : PlaneEquation.Calculate.cross v1 v2 v3 = Except.ok c)
    (hw : c.CheckPrecision = Except.ok w)
    (h0 : FixedPointOne ≤ w.squaredLength) (h1 : w.squaredLength ≤ 2147483647) :
    ∃ L, plane.m_normal.LengthFixed = Except.ok L ∧ |L - FixedPointOne| ≤ 256 := by
  unfold PlaneEquation.Calculate at hcalc
  unfold PlaneEquation.Calculate.cross at hc
  cases hu : (Vector.SubstractAndSet v3 v1).CheckPrecision with
  | error e => rw [hu] at hc; cases hc
  | ok u =>
  cases hv : (Vector.SubstractAndSet v2 v1).CheckPrecision with
  | error e => rw [hu, hv] at hc; cases hc
  | ok v =>
  rw [hu, hv] at hc hcalc
  simp only [ok_bind] at hc hcalc
  rw [hc] at hcalc
  simp only [ok_bind] at hcalc
  cases hn : c.Normalize with
  | error e => rw [hn] at hcalc; cases hcalc
  | ok n =>
  rw [hn] at hcalc
  simp only [ok_bind] at hcalc
  cases hd : n.DotProductFixed v1 with
  | error e => rw [hd] at hcalc; cases hcalc
  | ok d =>
  rw [hd] at hcalc
  simp only [ok_bind, pure_eq_ok] at hcalc
  have hp := Except.ok.inj hcalc
  subst hp
  exact Normalize_length c w n hw h0 h1 hn

set_option maxRecDepth 8192 in
/-- C35, witness: the triangle (0,0,0), (4.0,0,0), (0,4.0,0): the cross product
is (0,0,16.0), the normal (0,0,65520), its length 65280. -/
theorem C35_normal_length_near_one_witness :
    PlaneEquation.Calculate ⟨0, 0, 0⟩ ⟨262144, 0, 0⟩ ⟨0, 262144, 0⟩ =
        Except.ok { m_normal := ⟨0, 0, 65520⟩, m_fixedD := 0 } ∧
      ∃ L, Vector.LengthFixed ⟨0, 0, 65520⟩ = Except.ok L ∧ |L - FixedPointOne| ≤ 256 :=
  ⟨by decide,
    C35_normal_length_near_one ⟨0, 0, 0⟩ ⟨262144, 0, 0⟩ ⟨0, 262144, 0⟩ ⟨0, 0, 1048576⟩
      ⟨0, 0, 1048576⟩ { m_normal := ⟨0, 0, 65520⟩, m_fixedD := 0 }
      (by decide) (by decide) (by decide) (by decide) (by decide)⟩

/-! ## C31 -/

/-- C31: a shape of two textured polygons, polygon 0 with texture 10 and
polygon 1 with texture 11, of which polygon 0 is not visible:
`ProcessPolygonList` skips polygon 0 without advancing `tex`, so polygon 1 is
drawn with `textures[0]` (texture 10), not `textures[1]`; its vertex indices,
lighting intensities and texture coordinates are read at the offsets 3, 3 and
6 of polygon 1.  With both polygons visible, polygon 1 is drawn with
`textures[1]`. -/
theorem C31_texture_pointer_skips_only_visible :
    Camera.ProcessPolygonList.fetches
        { m_polygonInfos := [0, PolygonInfoVisible],
          m_textures := some [some 10, some 11],
          m_textureCoordinates := some [0, 0, 1, 0, 0, 1, 0, 0, 1, 0, 0, 1] } =
      [(1, { polyFlags := PolygonInfoVisible, tex := some 0, texture := some 10, v := 3,
             lightIntensity := 3, texCoord := some 6, color := none })] ∧
    Camera.ProcessPolygonList.fetches
        { m_polygonInfos := [PolygonInfoVisible, PolygonInfoVisible],
          m_textures := some [some 10, some 11],
          m_textureCoordinates := some [0, 0, 1, 0, 0, 1, 0, 0, 1, 0, 0, 1] } =
      [(0, { polyFlags := PolygonInfoVisible, tex := some 0, texture := some 10, v := 0,
             lightIntensity := 0, texCoord := some 0, color := none }),
       (1, { polyFlags := PolygonInfoVisible, tex := some 1, texture := some 11, v := 3,
             lightIntensity := 3, texCoord := some 6, color := none })] := by
  decide

/-- The other two pointers that `ProcessPolygonList` advances on some paths
only: with a `NULL` entry in the texture list, `texCoord` is not advanced for
the untextured polygon 0 (polygon 1 reads the texture coordinates at offset 0)
and `color` is not advanced for the textured polygon 0 (polygon 1 reads the
colours at offset 0). -/
theorem ProcessPolygonList_fetch_mixed :
    Camera.ProcessPolygonList.fetches
        { m_polygonInfos := [PolygonInfoVisible, PolygonInfoVisible],
          m_textures := some [none, some 11],
          m_textureCoordinates := some [0, 0, 1, 0, 0, 1, 0, 0, 1, 0, 0, 1] } =
      [(0, { polyFlags := PolygonInfoVisible, tex := some 0, texture := none, v := 0,
             lightIntensity := 0, texCoord := none, color := some 0 }),
       (1, { polyFlags := PolygonInfoVisible, tex := some 1, texture := some 11, v := 3,
             lightIntensity := 3, texCoord := some 0, color := none })] ∧
    Camera.ProcessPolygonList.fetches
        { m_polygonInfos := [PolygonInfoVisible, PolygonInfoVisible],
          m_textures := some [some 10, none],
          m_textureCoordinates := some [0, 0, 1, 0, 0, 1, 0, 0, 1, 0, 0, 1] } =
      [(0, { polyFlags := PolygonInfoVisible, tex := some 0, texture := some 10, v := 0,
             lightIntensity := 0, texCoord := some 0, color := none }),
       (1, { polyFlags := PolygonInfoVisible, tex := some 1, texture := none, v := 3,
             lightIntensity := 3, texCoord := none, color := some 0 })] := by
  decide

end Nova
